import Mathlib

/-!
Recording-entry engine of the DVR (`src/dvr/dvr_db.c`)

A shallow embedding of the entry store, the derived-time accessors, the timer
reconciler and the timer callbacks, the deduper, the property setters, the
creation of an entry from a property map and the EPG binder, followed by
theorems about them.

Conventions of the embedding

* Pointers are identifiers (`Nat`) into the tables of `dvr_db_t`; a null
  pointer is `none`.  Reading through a null (or dangling) pointer is a crash,
  and a function that crashes returns `none`.
* `time_t` is a 64 bit integer and `int` a 32 bit integer (LP64).  Sums and
  products are taken exactly: a signed overflow is undefined in C and has no
  value to model.  The conversion of a `time_t` value to `int`, which happens
  where a function declared `int` returns one, is defined (it keeps the low
  32 bits) and is modelled by `to_int`.
* The wall clock (`time(&now)`) is an argument `now`.
* Calls into collaborators (recorder, htsp, idnode notifications, file system)
  are appended to `dvr_db_t.trace` in call order.
-/

namespace DvrDb

/-! ## Machine integers -/

/-- Conversion of an integer to the C type `int` (32 bits, two's complement). -/
def to_int (x : Int) : Int := Int.bmod x 4294967296

/-! ## Data model -/

/-- Scheduling state of an entry (`de_sched_state`). -/
inductive dvr_entry_sched_state_t where
  | DVR_SCHEDULED
  | DVR_RECORDING
  | DVR_COMPLETED
  | DVR_NOSTATE
  | DVR_MISSED_TIME
  deriving DecidableEq, Repr

/-- Recorder state of an entry (`de_rec_state`), see `dvr_entry_status`. -/
inductive dvr_rs_state_t where
  | DVR_RS_PENDING
  | DVR_RS_WAIT_PROGRAM_START
  | DVR_RS_RUNNING
  | DVR_RS_COMMERCIAL
  | DVR_RS_ERROR
  deriving DecidableEq, Repr

/-- The three callbacks an entry timer can be armed with: the addresses of
`dvr_timer_expire`, `dvr_timer_start_recording` and `dvr_timer_stop_recording`. -/
inductive dvr_timer_cb where
  | expire
  | start_recording
  | stop_recording
  deriving DecidableEq, Repr

/-- An armed timer: the callback and its absolute expiry time. -/
structure gtimer_t where
  gti_callback : dvr_timer_cb
  gti_expire : Int
  deriving DecidableEq, Repr

/-- Deduplication mode of an autorec rule (`dae_record`). -/
inductive dvr_autorec_dedup_t where
  | DVR_AUTOREC_RECORD_ALL
  | DVR_AUTOREC_RECORD_DIFFERENT_EPISODE_NUMBER
  | DVR_AUTOREC_RECORD_DIFFERENT_SUBTITLE
  | DVR_AUTOREC_RECORD_DIFFERENT_DESCRIPTION
  | DVR_AUTOREC_RECORD_ONCE_PER_WEEK
  | DVR_AUTOREC_RECORD_ONCE_PER_DAY
  deriving DecidableEq, Repr

/-- Modelled from the spec: a localized string is a map language → text
(`lang_str.c` is not part of the source at hand); the pairs are kept in the
order in which the default-language lookup prefers them. -/
abbrev lang_str_t := List (String × String)

/-- A DVR entry (`dvr_entry_t`).  `de_timer = none` is a disarmed timer. -/
structure dvr_entry_t where
  de_id : Nat
  de_sched_state : dvr_entry_sched_state_t
  de_rec_state : dvr_rs_state_t := dvr_rs_state_t.DVR_RS_PENDING
  de_refcnt : Int := 1
  de_start : Int := 0
  de_stop : Int := 0
  de_start_extra : Int := 0
  de_stop_extra : Int := 0
  de_channel : Option Nat := none
  de_channel_name : Option String := none
  de_config : Option Nat := none
  de_autorec : Option Nat := none
  de_timerec : Option Nat := none
  de_bcast : Option Nat := none
  de_title : Option lang_str_t := none
  de_subtitle : Option lang_str_t := none
  de_desc : Option lang_str_t := none
  de_episode : Option String := none
  de_filename : Option String := none
  de_directory : Option String := none
  de_owner : Option String := none
  de_creator : Option String := none
  de_comment : Option String := none
  de_pri : Int := 0
  de_retention : Int := 0
  de_mc : Int := -1
  de_dvb_eid : Nat := 0
  de_content_type : Nat := 0
  de_last_error : Nat := 0
  de_errors : Nat := 0
  de_data_errors : Nat := 0
  de_dont_reschedule : Bool := false
  de_timer : Option gtimer_t := none
  deriving DecidableEq, Repr

/-- A channel (`channel_t`): the fields the engine reads, the list of
entries linked through `de_channel_link` (head first) and the broadcasts of
its EPG schedule in schedule order (`ch_epg_schedule`). -/
structure channel_t where
  ch_id : Nat
  ch_enabled : Bool := true
  ch_name : String := ""
  ch_dvr_extra_time_pre : Int := 0
  ch_dvr_extra_time_post : Int := 0
  ch_dvrs : List Nat := []
  ch_epg_schedule : List Nat := []
  deriving DecidableEq, Repr

/-- A DVR configuration (`dvr_config_t`): the fields the engine reads, and the
list of entries linked through `de_config_link` (head first).  The structure
is declared outside the source at hand; `dvr_retention_days` is taken at the
type `int` at which `dvr_entry_get_retention` returns it; the seven flags
that `dvr_make_title` tests are true when not 0. -/
structure dvr_config_t where
  dvr_id : Nat
  dvr_config_name : String := ""
  dvr_retention_days : Int := 31
  dvr_extra_time_pre : Int := 0
  dvr_extra_time_post : Int := 0
  dvr_update_window : Int := 0
  dvr_storage : String := ""
  dvr_title_dir : Bool := false
  dvr_channel_dir : Bool := false
  dvr_dir_per_day : Bool := false
  dvr_entries : List Nat := []
  dvr_channel_in_title : Bool := false
  dvr_omit_title : Bool := false
  dvr_episode_before_date : Bool := false
  dvr_episode_in_title : Bool := false
  dvr_subtitle_in_title : Bool := false
  dvr_date_in_title : Bool := false
  dvr_time_in_title : Bool := false
  deriving DecidableEq, Repr

/-- An autorec rule: its mode and the entries it spawned (`de_autorec_link`). -/
structure dvr_autorec_entry_t where
  dae_id : Nat
  dae_record : dvr_autorec_dedup_t := dvr_autorec_dedup_t.DVR_AUTOREC_RECORD_ALL
  dae_spawns : List Nat := []
  deriving DecidableEq, Repr

/-- A timerec rule: the back-pointer to the single entry it spawned. -/
structure dvr_timerec_entry_t where
  dte_id : Nat
  dte_spawn : Option Nat := none
  deriving DecidableEq, Repr

/-- Modelled from the spec: an EPG episode as far as the engine reads it (the
EPG is not part of the source at hand): its localized title and subtitle, the
codes of its genres (first one first) and the text that
`epg_episode_number_format` writes for it with the formats of
`dvr_entry_get_episode`, empty when the episode carries no number; in
`epnum_short` the number in the formats of `dvr_make_title` ("S%02d",
"E%02d"), empty when the episode carries no number. -/
structure epg_episode_t where
  ep_id : Nat := 0
  title : Option lang_str_t := none
  subtitle : Option lang_str_t := none
  genre : List Nat := []
  epnum : String := ""
  epnum_short : String := ""
  deriving DecidableEq, Repr

/-- An EPG broadcast as far as the engine reads it: its identity, the number of
references taken on it (`getref` / `putref`), its channel, its window, its DVB
event id and its episode. -/
structure epg_broadcast_t where
  id : Nat
  refcount : Int := 0
  channel : Option Nat := none
  start : Int := 0
  stop : Int := 0
  dvb_eid : Nat := 0
  episode : Option epg_episode_t := none
  deriving DecidableEq, Repr

/-- Stop codes handed to the recorder (`SM_CODE_*`, declared outside the source
at hand); `SM_CODE_OK` is the value 0 stored in `de_last_error`. -/
inductive sm_code where
  | SM_CODE_OK
  | SM_CODE_SOURCE_DELETED
  | SM_CODE_ABORTED
  deriving DecidableEq, Repr

/-- Calls into the collaborators of the engine, recorded in call order. -/
inductive dvr_effect where
  | htsp_dvr_entry_add (de : Nat)
  | htsp_dvr_entry_update (de : Nat)
  | htsp_dvr_entry_delete (de : Nat)
  | idnode_changed (de : Nat)
  | idnode_notify_simple (de : Nat)
  | idnode_unlink (de : Nat)
  | dvr_inotify_add (de : Nat)
  | dvr_inotify_del (de : Nat)
  | dvr_dbus_timer_arm (delta : Int)
  | dvr_rec_subscribe (de : Nat)
  | dvr_rec_unsubscribe (de : Nat) (stopcode : sm_code)
  | fs_unlink (filename : String)
  | fs_rmdir_parents (filename : String)
  | dbus_emit_signal_s64 (path : String) (name : String) (value : Int)
  deriving DecidableEq, Repr

/-- The whole state of the engine: the global list `dvrentries` (head first),
the allocated entries, the tables of the collaborating objects, the settings
store (one record per key `dvr/log/<uuid>`, the uuid being the key here), the
offset of local time, the clock of the dispatcher (`dispatch_clock`), the
preferred language code and the trace of collaborator calls. -/
structure dvr_db_t where
  dvrentries : List Nat := []
  entries : List dvr_entry_t := []
  channels : List channel_t := []
  configs : List dvr_config_t := []
  autorecs : List dvr_autorec_entry_t := []
  timerecs : List dvr_timerec_entry_t := []
  broadcasts : List epg_broadcast_t := []
  settings : List (Nat × dvr_entry_t) := []
  tz_offset : Int := 0
  dispatch_clock : Int := 0
  lang_default : String := "eng"
  trace : List dvr_effect := []
  deriving DecidableEq, Repr

open dvr_entry_sched_state_t dvr_rs_state_t dvr_autorec_dedup_t

/-! ## Tables and trace -/

/-- Dereference an entry pointer. -/
def de_get (s : dvr_db_t) (id : Nat) : Option dvr_entry_t :=
  s.entries.find? (fun e => e.de_id == id)

/-- Store the fields of an entry back into its allocation. -/
def de_put (s : dvr_db_t) (de : dvr_entry_t) : dvr_db_t :=
  { s with entries := s.entries.map (fun e => if e.de_id = de.de_id then de else e) }

/-- Release the allocation of an entry (`free(de)`). -/
def de_free (s : dvr_db_t) (id : Nat) : dvr_db_t :=
  { s with entries := s.entries.filter (fun e => e.de_id != id) }

/-- Dereference a channel pointer. -/
def ch_get (s : dvr_db_t) (id : Nat) : Option channel_t :=
  s.channels.find? (fun c => c.ch_id == id)

/-- Dereference a configuration pointer. -/
def cfg_get (s : dvr_db_t) (id : Nat) : Option dvr_config_t :=
  s.configs.find? (fun c => c.dvr_id == id)

/-- Dereference an autorec rule pointer. -/
def dae_get (s : dvr_db_t) (id : Nat) : Option dvr_autorec_entry_t :=
  s.autorecs.find? (fun a => a.dae_id == id)

/-- Append collaborator calls to the trace. -/
def emit (s : dvr_db_t) (fx : List dvr_effect) : dvr_db_t :=
  { s with trace := s.trace ++ fx }

/-! ## Timer slot

Modelled from the spec: `gtimer_arm_abs` and `gtimer_disarm` live in the
dispatcher, which is not part of the source at hand.  The slot of an entry
holds either no timer or one armed absolute-time callback; arming replaces any
prior arming, disarming is idempotent. -/

/-- Modelled from the spec: arm the slot of the entry, replacing what was armed. -/
def gtimer_arm_abs (de : dvr_entry_t) (cb : dvr_timer_cb) (when : Int) : dvr_entry_t :=
  { de with de_timer := some { gti_callback := cb, gti_expire := when } }

/-- Modelled from the spec: disarm the slot of the entry. -/
def gtimer_disarm (de : dvr_entry_t) : dvr_entry_t :=
  { de with de_timer := none }

/-! ## Start / stop time calculators -/

/-- Source `extra_valid`: the padding is set (neither 0 nor -1). -/
def extra_valid (extra : Int) : Bool := extra != 0 && extra != -1

/-- Source `dvr_entry_get_extra_time_pre`; the result passes through the return type `int`. -/
def dvr_entry_get_extra_time_pre (s : dvr_db_t) (de : dvr_entry_t) : Option Int :=
  if de.de_timerec.isSome then some 0
  else if extra_valid de.de_start_extra then some (to_int de.de_start_extra)
  else
    match (match de.de_channel with
           | some c => (ch_get s c).map (fun (ch : channel_t) => ch.ch_dvr_extra_time_pre)
           | none => some de.de_start_extra) with
    | none => none
    | some extra =>
      if extra_valid extra then some (to_int extra)
      else
        match de.de_config with
        | none => none
        | some k => (cfg_get s k).map (fun (cfg : dvr_config_t) => to_int cfg.dvr_extra_time_pre)

/-- Source `dvr_entry_get_extra_time_post`; the result passes through the return type `int`. -/
def dvr_entry_get_extra_time_post (s : dvr_db_t) (de : dvr_entry_t) : Option Int :=
  if de.de_timerec.isSome then some 0
  else if extra_valid de.de_stop_extra then some (to_int de.de_stop_extra)
  else
    match (match de.de_channel with
           | some c => (ch_get s c).map (fun (ch : channel_t) => ch.ch_dvr_extra_time_post)
           | none => some de.de_stop_extra) with
    | none => none
    | some extra =>
      if extra_valid extra then some (to_int extra)
      else
        match de.de_config with
        | none => none
        | some k => (cfg_get s k).map (fun (cfg : dvr_config_t) => to_int cfg.dvr_extra_time_post)

/-- Source `dvr_entry_get_start_time`: `de_start - (60 * pre) - 30`, returned as `int`. -/
def dvr_entry_get_start_time (s : dvr_db_t) (de : dvr_entry_t) : Option Int :=
  (dvr_entry_get_extra_time_pre s de).map
    (fun pre => to_int (de.de_start - 60 * pre - 30))

/-- Source `dvr_entry_get_stop_time`: `de_stop + (60 * post)`, returned as `int`. -/
def dvr_entry_get_stop_time (s : dvr_db_t) (de : dvr_entry_t) : Option Int :=
  (dvr_entry_get_extra_time_post s de).map
    (fun post => to_int (de.de_stop + 60 * post))

/-- Source `dvr_entry_get_retention`: the entry's own value if positive, else
the configuration's. -/
def dvr_entry_get_retention (s : dvr_db_t) (de : dvr_entry_t) : Option Int :=
  if de.de_retention > 0 then some de.de_retention
  else
    match de.de_config with
    | none => none
    | some k => (cfg_get s k).map (fun (cfg : dvr_config_t) => cfg.dvr_retention_days)

/-! ## Reconciler -/

/-- Source `_dvr_entry_completed`: the state becomes COMPLETED (the file watcher is
told by the caller through the trace). -/
def _dvr_entry_completed (de : dvr_entry_t) : dvr_entry_t :=
  { de with de_sched_state := DVR_COMPLETED }

/-- The test `de->de_channel && de->de_channel->ch_enabled`. -/
def dvr_entry_channel_enabled (s : dvr_db_t) (de : dvr_entry_t) : Option Bool :=
  match de.de_channel with
  | none => some false
  | some c => (ch_get s c).map (fun (ch : channel_t) => ch.ch_enabled)

/-- Source `dvr_entry_set_timer`, run on the entry `id` at wall-clock time `now`. -/
def dvr_entry_set_timer (now : Int) (s : dvr_db_t) (id : Nat) : Option dvr_db_t :=
  match de_get s id with
  | none => none
  | some de =>
    match dvr_entry_get_start_time s de, dvr_entry_get_stop_time s de with
    | some start, some stop =>
      if now ≥ stop ∨ de.de_dont_reschedule = true then
        let de1 := if de.de_filename = none
                   then { de with de_sched_state := DVR_MISSED_TIME }
                   else _dvr_entry_completed de
        let fx := if de.de_filename = none then [] else [dvr_effect.dvr_inotify_add id]
        match dvr_entry_get_retention s de1 with
        | none => none
        | some r =>
          some (emit (de_put s (gtimer_arm_abs de1 dvr_timer_cb.expire
                                  (de1.de_stop + r * 86400))) fx)
      else if de.de_sched_state = DVR_RECORDING then
        some (de_put s (gtimer_arm_abs de dvr_timer_cb.stop_recording stop))
      else
        match dvr_entry_channel_enabled s de with
        | none => none
        | some true =>
          some (emit (de_put s (gtimer_arm_abs { de with de_sched_state := DVR_SCHEDULED }
                                  dvr_timer_cb.start_recording start))
                     [dvr_effect.dvr_dbus_timer_arm 5])
        | some false => some (de_put s { de with de_sched_state := DVR_NOSTATE })
    | _, _ => none

/-! ## Persistence -/

/-- Write the record of an entry under its key `dvr/log/<uuid>`.  The record
is the entry as it is when saved; loading takes the schema fields from it. -/
def hts_settings_save (s : dvr_db_t) (uuid : Nat) (m : dvr_entry_t) : dvr_db_t :=
  { s with settings := (uuid, m) :: s.settings.filter (fun kv => kv.1 != uuid) }

/-- Remove the key `dvr/log/<uuid>` from the settings store. -/
def hts_settings_remove (s : dvr_db_t) (uuid : Nat) : dvr_db_t :=
  { s with settings := s.settings.filter (fun kv => kv.1 != uuid) }

/-- Source `dvr_entry_save`: the entry is written under its key. -/
def dvr_entry_save (s : dvr_db_t) (id : Nat) : Option dvr_db_t :=
  match de_get s id with
  | none => none
  | some de => some (hts_settings_save s de.de_id de)

/-! ## Intrusive lists

`LIST_REMOVE(de, link)` takes the entry out of the list it is linked into,
which is the list of the object its pointer names. -/

/-- The step `LIST_REMOVE(de, de_channel_link)` for an entry bound to channel `c`. -/
def channel_link_remove (s : dvr_db_t) (c : Nat) (id : Nat) : dvr_db_t :=
  { s with channels := s.channels.map (fun ch =>
      if ch.ch_id = c then { ch with ch_dvrs := ch.ch_dvrs.filter (fun i => i != id) } else ch) }

/-- The step `LIST_REMOVE(de, de_config_link)` for an entry bound to configuration `k`. -/
def config_link_remove (s : dvr_db_t) (k : Nat) (id : Nat) : dvr_db_t :=
  { s with configs := s.configs.map (fun cfg =>
      if cfg.dvr_id = k then { cfg with dvr_entries := cfg.dvr_entries.filter (fun i => i != id) }
      else cfg) }

/-- The step `LIST_REMOVE(de, de_autorec_link)` for an entry spawned by rule `a`. -/
def autorec_link_remove (s : dvr_db_t) (a : Nat) (id : Nat) : dvr_db_t :=
  { s with autorecs := s.autorecs.map (fun dae =>
      if dae.dae_id = a then { dae with dae_spawns := dae.dae_spawns.filter (fun i => i != id) }
      else dae) }

/-- The step `LIST_REMOVE(de, de_global_link)`. -/
def global_link_remove (s : dvr_db_t) (id : Nat) : dvr_db_t :=
  { s with dvrentries := s.dvrentries.filter (fun i => i != id) }

/-- The assignment `de->de_timerec->dte_spawn = NULL` for an entry of rule `t`. -/
def timerec_spawn_clear (s : dvr_db_t) (t : Nat) : dvr_db_t :=
  { s with timerecs := s.timerecs.map (fun dte =>
      if dte.dte_id = t then { dte with dte_spawn := none } else dte) }

/-- The call `bcast->putref(bcast)`: one reference less on broadcast `b`. -/
def epg_putref (s : dvr_db_t) (b : Nat) : dvr_db_t :=
  { s with broadcasts := s.broadcasts.map (fun e =>
      if e.id = b then { e with refcount := e.refcount - 1 } else e) }

/-! ## Destruction -/

/-- Source `dvr_entry_dec_ref`: with more than one reference only the count drops;
the last reference unlinks the entry from its rules and its configuration,
releases the broadcast and frees the entry. -/
def dvr_entry_dec_ref (s : dvr_db_t) (id : Nat) : Option dvr_db_t :=
  match de_get s id with
  | none => none
  | some de =>
    if de.de_refcnt > 1 then
      some (de_put s { de with de_refcnt := de.de_refcnt - 1 })
    else
      let s1 := emit s [dvr_effect.idnode_unlink id]
      let s2 := match de.de_autorec with
                | some a => autorec_link_remove s1 a id
                | none => s1
      let s3 := match de.de_timerec with
                | some t => timerec_spawn_clear s2 t
                | none => s2
      let s4 := match de.de_config with
                | some k => config_link_remove s3 k id
                | none => s3
      let s5 := match de.de_bcast with
                | some b => epg_putref s4 b
                | none => s4
      some (de_free s5 id)

/-- Source `dvr_entry_destroy`: remove the settings when asked to, notify,
disarm the timer, unlink from the channel and the global list, drop a
reference. -/
def dvr_entry_destroy (s : dvr_db_t) (id : Nat) (delconf : Bool) : Option dvr_db_t :=
  match de_get s id with
  | none => none
  | some de =>
    let s1 := if delconf then hts_settings_remove s de.de_id else s
    let s2 := emit s1 [dvr_effect.htsp_dvr_entry_delete id, dvr_effect.dvr_inotify_del id,
                       dvr_effect.dvr_dbus_timer_arm 2]
    let s3 := match de.de_channel with
              | some c => channel_link_remove s2 c id
              | none => s2
    let s4 := global_link_remove s3 id
    dvr_entry_dec_ref (de_put s4 { gtimer_disarm de with de_channel := none }) id

/-- Source `dvr_timer_expire`: destroy with persist-delete. -/
def dvr_timer_expire (s : dvr_db_t) (id : Nat) : Option dvr_db_t :=
  dvr_entry_destroy s id true

/-! ## Stopping a recording -/

/-- Source `dvr_stop_recording`: classify the recording, unsubscribe the
recorder, persist when asked to, notify, arm the expire callback.  The
recorder is a collaborator: its call is traced, what it writes to the entry on
its own is not part of this function. -/
def dvr_stop_recording (s : dvr_db_t) (id : Nat) (stopcode : sm_code) (saveconf : Bool) :
    Option dvr_db_t :=
  match de_get s id with
  | none => none
  | some de =>
    let de1 := if de.de_rec_state = DVR_RS_PENDING ∨
                  de.de_rec_state = DVR_RS_WAIT_PROGRAM_START ∨ de.de_filename = none
               then { de with de_sched_state := DVR_MISSED_TIME }
               else _dvr_entry_completed de
    let fx := if de.de_rec_state = DVR_RS_PENDING ∨
                 de.de_rec_state = DVR_RS_WAIT_PROGRAM_START ∨ de.de_filename = none
              then [] else [dvr_effect.dvr_inotify_add id]
    let s1 := emit (de_put s de1) (fx ++ [dvr_effect.dvr_rec_unsubscribe id stopcode])
    let s2 := if saveconf then hts_settings_save s1 de1.de_id de1 else s1
    let s3 := emit s2 [dvr_effect.idnode_notify_simple id, dvr_effect.htsp_dvr_entry_update id]
    match dvr_entry_get_retention s3 de1 with
    | none => none
    | some r =>
      some (de_put s3 (gtimer_arm_abs de1 dvr_timer_cb.expire (de1.de_stop + r * 86400)))

/-- Source `dvr_timer_stop_recording`: stop with code 0 and persist. -/
def dvr_timer_stop_recording (s : dvr_db_t) (id : Nat) : Option dvr_db_t :=
  dvr_stop_recording s id sm_code.SM_CODE_OK true

/-! ## Removal on request -/

/-- Source `dvr_entry_delete`: remove the recorded file and the directories made for
it (calls into the file system), then destroy the entry with its settings. -/
def dvr_entry_delete (s : dvr_db_t) (id : Nat) : Option dvr_db_t :=
  match de_get s id with
  | none => none
  | some de =>
    match dvr_entry_get_start_time s de, dvr_entry_get_retention s de with
    | some _, some _ =>
      match de.de_filename with
      | none => dvr_entry_destroy s id true
      | some f =>
        match de.de_config.bind (cfg_get s) with
        | none => none
        | some cfg =>
          let dirs := cfg.dvr_title_dir || cfg.dvr_channel_dir || cfg.dvr_dir_per_day ||
                      de.de_directory.isSome
          let fx := [dvr_effect.dvr_inotify_del id, dvr_effect.fs_unlink f] ++
                    (if dirs then [dvr_effect.fs_rmdir_parents f] else [])
          dvr_entry_destroy (emit s fx) id true
    | _, _ => none

/-- Source `dvr_entry_cancel`: the new state and the returned entry pointer. -/
def dvr_entry_cancel (s : dvr_db_t) (id : Nat) : Option (dvr_db_t × Option Nat) :=
  match de_get s id with
  | none => none
  | some de =>
    match de.de_sched_state with
    | DVR_SCHEDULED => (dvr_entry_destroy s id true).map (fun s' => (s', none))
    | DVR_RECORDING =>
      (dvr_stop_recording (de_put s { de with de_dont_reschedule := true }) id
          sm_code.SM_CODE_ABORTED true).map (fun s' => (s', some id))
    | DVR_COMPLETED => (dvr_entry_destroy s id true).map (fun s' => (s', none))
    | DVR_MISSED_TIME => (dvr_entry_destroy s id true).map (fun s' => (s', none))
    | DVR_NOSTATE => (dvr_entry_destroy s id true).map (fun s' => (s', none))

/-- Source `dvr_entry_cancel_delete`; the RECORDING case falls through into the
COMPLETED case. -/
def dvr_entry_cancel_delete (s : dvr_db_t) (id : Nat) : Option dvr_db_t :=
  match de_get s id with
  | none => none
  | some de =>
    match de.de_sched_state with
    | DVR_SCHEDULED => dvr_entry_destroy s id true
    | DVR_RECORDING =>
      match dvr_stop_recording (de_put s { de with de_dont_reschedule := true }) id
              sm_code.SM_CODE_ABORTED true with
      | none => none
      | some s1 => dvr_entry_delete s1 id
    | DVR_COMPLETED => dvr_entry_delete s id
    | DVR_MISSED_TIME => dvr_entry_destroy s id true
    | DVR_NOSTATE => dvr_entry_destroy s id true

/-! ## Strings

Modelled from the spec: `strempty`, `lang_str_get`, `lang_str_empty` and
`lang_str_compare` are not part of the source at hand.  A text is empty when it
is missing or has no characters; the default-language text of a localized
string is its preferred pair; two localized strings compare equal (result 0)
when both default-language texts exist and are the same. -/

/-- Modelled from the spec: the text is missing or has no characters. -/
def strempty (t : Option String) : Bool :=
  match t with
  | none => true
  | some x => x == ""

/-- Modelled from the spec: `lang_str_get(ls, NULL)`, the default-language text. -/
def lang_str_get (ls : Option lang_str_t) : Option String :=
  match ls with
  | some (p :: _) => some p.2
  | _ => none

/-- Modelled from the spec: the default-language text is empty. -/
def lang_str_empty (ls : Option lang_str_t) : Bool := strempty (lang_str_get ls)

/-- Modelled from the spec: 0 when the default-language texts exist and are
equal, non-zero when they are not defined or do not match. -/
def lang_str_compare (a b : Option lang_str_t) : Int :=
  match lang_str_get a, lang_str_get b with
  | some x, some y => if x = y then 0 else 1
  | _, _ => 1

/-- The libc `strcmp` as far as the code uses it (zero or not); a null
argument is a crash. -/
def strcmp (a b : Option String) : Option Int :=
  match a, b with
  | some x, some y => some (if x = y then 0 else 1)
  | _, _ => none

/-! ## Calendar (libc `localtime_r` and `mktime`, at a fixed UTC offset) -/

/-- The libc `struct tm`. -/
structure tm where
  tm_sec : Int
  tm_min : Int
  tm_hour : Int
  tm_mday : Int
  tm_mon : Int
  tm_year : Int
  tm_wday : Int
  tm_yday : Int
  deriving DecidableEq, Repr

/-- Day number (0 = 1970-01-01) of a proleptic Gregorian date, month 1..12. -/
def days_from_civil (y m d : Int) : Int :=
  let y1 := if m ≤ 2 then y - 1 else y
  let era := y1 / 400
  let yoe := y1 - era * 400
  let mp := if m > 2 then m - 3 else m + 9
  let doy := (153 * mp + 2) / 5 + d - 1
  let doe := yoe * 365 + yoe / 4 - yoe / 100 + doy
  era * 146097 + doe - 719468

/-- Proleptic Gregorian date (year, month 1..12, day) of a day number. -/
def civil_from_days (z0 : Int) : Int × Int × Int :=
  let z := z0 + 719468
  let era := z / 146097
  let doe := z - era * 146097
  let yoe := (doe - doe / 1460 + doe / 36524 - doe / 146096) / 365
  let doy := doe - (365 * yoe + yoe / 4 - yoe / 100)
  let mp := (5 * doy + 2) / 153
  let d := doy - (153 * mp + 2) / 5 + 1
  let m := if mp < 10 then mp + 3 else mp - 9
  (yoe + era * 400 + (if m ≤ 2 then 1 else 0), m, d)

/-- Broken-down time of a count of seconds since 1970-01-01 00:00 local time. -/
def tm_of_local_seconds (lt : Int) : tm :=
  let days := lt / 86400
  let rem := lt % 86400
  let ymd := civil_from_days days
  { tm_sec := rem % 60, tm_min := (rem / 60) % 60, tm_hour := rem / 3600,
    tm_mday := ymd.2.2, tm_mon := ymd.2.1 - 1, tm_year := ymd.1 - 1900,
    tm_wday := (days + 4) % 7, tm_yday := days - days_from_civil ymd.1 1 1 }

/-- The libc `localtime_r` in the time zone of the process. -/
def localtime_r (s : dvr_db_t) (t : Int) : tm := tm_of_local_seconds (t + s.tz_offset)

/-- The normalisation that the libc `mktime` performs on its argument. -/
def mktime (x : tm) : tm :=
  tm_of_local_seconds
    ((days_from_civil (x.tm_year + 1900 + x.tm_mon / 12) (x.tm_mon % 12 + 1) 1 + (x.tm_mday - 1))
        * 86400 + x.tm_hour * 3600 + x.tm_min * 60 + x.tm_sec)

/-! ## Deduper -/

/-- The loop of `_dvr_duplicate_event` over the global list: the first earlier,
successful entry with the same title that meets the condition of the mode. -/
def dvr_duplicate_scan (s : dvr_db_t) (de : dvr_entry_t) (record : dvr_autorec_dedup_t)
    (de_start : tm) : List Nat → Option (Option Nat)
  | [] => some none
  | i :: rest =>
    if i = de.de_id then dvr_duplicate_scan s de record de_start rest
    else
      match de_get s i with
      | none => none
      | some de2 =>
        if de2.de_start > de.de_start then dvr_duplicate_scan s de record de_start rest
        else if de2.de_sched_state = DVR_MISSED_TIME ∨
                (de2.de_sched_state = DVR_COMPLETED ∧ de2.de_last_error ≠ 0) then
          dvr_duplicate_scan s de record de_start rest
        else if lang_str_compare de.de_title de2.de_title ≠ 0 then
          dvr_duplicate_scan s de record de_start rest
        else
          match record with
          | DVR_AUTOREC_RECORD_ALL => dvr_duplicate_scan s de record de_start rest
          | DVR_AUTOREC_RECORD_DIFFERENT_EPISODE_NUMBER =>
            match strcmp de.de_episode de2.de_episode with
            | none => none
            | some r =>
              if r = 0 then some (some i) else dvr_duplicate_scan s de record de_start rest
          | DVR_AUTOREC_RECORD_DIFFERENT_SUBTITLE =>
            if lang_str_compare de.de_subtitle de2.de_subtitle = 0 then some (some i)
            else dvr_duplicate_scan s de record de_start rest
          | DVR_AUTOREC_RECORD_DIFFERENT_DESCRIPTION =>
            if lang_str_compare de.de_desc de2.de_desc = 0 then some (some i)
            else dvr_duplicate_scan s de record de_start rest
          | DVR_AUTOREC_RECORD_ONCE_PER_WEEK =>
            let t2 := localtime_r s de2.de_start
            let de2_start := mktime { t2 with tm_mday := t2.tm_mday - (t2.tm_wday + 6) % 7 }
            if de_start.tm_year = de2_start.tm_year ∧ de_start.tm_yday = de2_start.tm_yday then
              some (some i)
            else dvr_duplicate_scan s de record de_start rest
          | DVR_AUTOREC_RECORD_ONCE_PER_DAY =>
            let de2_start := localtime_r s de2.de_start
            if de_start.tm_year = de2_start.tm_year ∧ de_start.tm_yday = de2_start.tm_yday then
              some (some i)
            else dvr_duplicate_scan s de record de_start rest

/-- Source `_dvr_duplicate_event`: the earlier entry that makes `de` a duplicate, if
any (`some none` is the result NULL). -/
def _dvr_duplicate_event (s : dvr_db_t) (de : dvr_entry_t) : Option (Option Nat) :=
  match de.de_autorec with
  | none => some none
  | some a =>
    match dae_get s a with
    | none => none
    | some dae =>
      let record := dae.dae_record
      let t := localtime_r s de.de_start
      match (match record with
             | DVR_AUTOREC_RECORD_ALL => none
             | DVR_AUTOREC_RECORD_DIFFERENT_EPISODE_NUMBER =>
               if strempty de.de_episode then none else some t
             | DVR_AUTOREC_RECORD_DIFFERENT_SUBTITLE =>
               if lang_str_empty de.de_subtitle then none else some t
             | DVR_AUTOREC_RECORD_DIFFERENT_DESCRIPTION =>
               if lang_str_empty de.de_desc then none else some t
             | DVR_AUTOREC_RECORD_ONCE_PER_WEEK =>
               some (mktime { t with tm_mday := t.tm_mday - (t.tm_wday + 6) % 7 })
             | DVR_AUTOREC_RECORD_ONCE_PER_DAY => some t) with
      | none => some none
      | some de_start =>
        if lang_str_empty de.de_title then some none
        else dvr_duplicate_scan s de record de_start s.dvrentries

/-! ## Start of a recording -/

/-- Source `dvr_timer_start_recording`: leave the entry unscheduled when its
channel is gone or disabled, cancel-delete a duplicate, else start the
recorder and arm the stop-recording callback. -/
def dvr_timer_start_recording (s : dvr_db_t) (id : Nat) : Option dvr_db_t :=
  match de_get s id with
  | none => none
  | some de =>
    match dvr_entry_channel_enabled s de with
    | none => none
    | some false => some (de_put s { de with de_sched_state := DVR_NOSTATE })
    | some true =>
      match _dvr_duplicate_event s de with
      | none => none
      | some (some _) => dvr_entry_cancel_delete s id
      | some none =>
        let de1 := { de with de_sched_state := DVR_RECORDING, de_rec_state := DVR_RS_PENDING }
        let s1 := emit (de_put s de1)
                    [dvr_effect.idnode_changed id, dvr_effect.htsp_dvr_entry_update id,
                     dvr_effect.dvr_rec_subscribe id]
        match dvr_entry_get_stop_time s1 de1 with
        | none => none
        | some stop => some (de_put s1 (gtimer_arm_abs de1 dvr_timer_cb.stop_recording stop))

/-! ## Dispatcher -/

/-- Modelled from the spec: the dispatcher (not part of the source at hand)
runs the callback armed in the slot of an entry once its time has come,
`when ≤ now`; the slot is empty when the callback runs, a timer fires once.
Nothing happens while the slot is empty or the time has not come. -/
def gtimer_fire (now : Int) (s : dvr_db_t) (id : Nat) : Option dvr_db_t :=
  match de_get s id with
  | none => some s
  | some de =>
    match de.de_timer with
    | none => some s
    | some gti =>
      if gti.gti_expire ≤ now then
        let s1 := de_put s (gtimer_disarm de)
        match gti.gti_callback with
        | dvr_timer_cb.expire => dvr_timer_expire s1 id
        | dvr_timer_cb.start_recording => dvr_timer_start_recording s1 id
        | dvr_timer_cb.stop_recording => dvr_timer_stop_recording s1 id
      else some s

/-! ## Sample states used to evaluate the code -/

/-- A store with one scheduled entry (start 1000, stop 2000) on an enabled
channel, bound to a configuration with 31 days of retention. -/
def db_sched : dvr_db_t :=
  { dvrentries := [1],
    entries := [{ de_id := 1, de_sched_state := DVR_SCHEDULED, de_start := 1000,
                  de_stop := 2000, de_channel := some 7, de_config := some 3 }],
    channels := [{ ch_id := 7, ch_dvrs := [1] }],
    configs := [{ dvr_id := 3, dvr_entries := [1] }] }

/-- The entry of `db_sched`. -/
def de_sched : dvr_entry_t :=
  { de_id := 1, de_sched_state := DVR_SCHEDULED, de_start := 1000,
    de_stop := 2000, de_channel := some 7, de_config := some 3 }

/-- The store `db_sched` with the channel of the entry disabled and the
start-recording callback still armed from an earlier reconciliation. -/
def db_disabled : dvr_db_t :=
  { dvrentries := [1],
    entries := [{ de_sched with
                  de_timer := some { gti_callback := dvr_timer_cb.start_recording,
                                     gti_expire := 970 } }],
    channels := [{ ch_id := 7, ch_enabled := false, ch_dvrs := [1] }],
    configs := [{ dvr_id := 3, dvr_entries := [1] }] }

/-- An entry starting on 19 January 2038, 03:14:38 UTC. -/
def de_2038 : dvr_entry_t :=
  { de_id := 1, de_sched_state := DVR_SCHEDULED, de_start := 2147483678,
    de_stop := 2147487278, de_channel := some 7, de_config := some 3 }

/-- The store `db_sched` with the entry `de_2038` in place of its entry. -/
def db_2038 : dvr_db_t := { db_sched with entries := [de_2038] }

/-- A store with one entry that is being recorded (recorder running, a file
has been produced), its stop-recording callback armed at 2000. -/
def db_rec : dvr_db_t :=
  { dvrentries := [1],
    entries := [{ de_sched with
                  de_sched_state := DVR_RECORDING,
                  de_rec_state := DVR_RS_RUNNING, de_filename := some "a.mkv",
                  de_timer := some { gti_callback := dvr_timer_cb.stop_recording,
                                     gti_expire := 2000 } }],
    channels := [{ ch_id := 7, ch_dvrs := [1] }],
    configs := [{ dvr_id := 3, dvr_entries := [1] }] }

/-- The entry of `db_rec`. -/
def de_rec : dvr_entry_t :=
  { de_sched with
    de_sched_state := DVR_RECORDING,
    de_rec_state := DVR_RS_RUNNING, de_filename := some "a.mkv",
    de_timer := some { gti_callback := dvr_timer_cb.stop_recording, gti_expire := 2000 } }

/-- The entry of `db_disabled`. -/
def de_disabled : dvr_entry_t :=
  { de_sched with
    de_timer := some { gti_callback := dvr_timer_cb.start_recording, gti_expire := 970 } }

/-- Index consistency as seen from one entry: a channel, configuration or
autorec list that holds the entry, and a timerec rule whose back-pointer is
the entry, belong to the object the entry points to. -/
def dvr_entry_linked (s : dvr_db_t) (id : Nat) (de : dvr_entry_t) : Prop :=
  (∀ ch ∈ s.channels, id ∈ ch.ch_dvrs → de.de_channel = some ch.ch_id) ∧
  (∀ cfg ∈ s.configs, id ∈ cfg.dvr_entries → de.de_config = some cfg.dvr_id) ∧
  (∀ dae ∈ s.autorecs, id ∈ dae.dae_spawns → de.de_autorec = some dae.dae_id) ∧
  (∀ dte ∈ s.timerecs, dte.dte_spawn = some id → de.de_timerec = some dte.dte_id)

/-- The store `db_sched` with a second reference held on its entry. -/
def db_shared : dvr_db_t :=
  { db_sched with entries := [{ de_sched with de_refcnt := 2 }] }

/-- An entry bound to a channel, a configuration, an autorec rule and a
timerec rule. -/
def de_rules : dvr_entry_t :=
  { de_sched with de_autorec := some 4, de_timerec := some 5 }

/-- A store whose only entry is `de_rules`, listed by every object it points
to and saved under its key. -/
def db_rules : dvr_db_t :=
  { dvrentries := [1],
    entries := [de_rules],
    channels := [{ ch_id := 7, ch_dvrs := [1] }, { ch_id := 8 }],
    configs := [{ dvr_id := 3, dvr_entries := [1] }],
    autorecs := [{ dae_id := 4, dae_spawns := [1] }],
    timerecs := [{ dte_id := 5, dte_spawn := some 1 }],
    settings := [(1, de_rules)] }

/-- The entry of `db_pending`. -/
def de_pending : dvr_entry_t :=
  { de_sched with
    de_sched_state := DVR_RECORDING,
    de_timer := some { gti_callback := dvr_timer_cb.stop_recording, gti_expire := 2000 } }

/-- The store `db_sched` after the reconciler armed the start-recording
callback of its entry at the effective start 970. -/
def db_armed : dvr_db_t := { db_sched with entries := [de_disabled] }

/-- A store with a completed recording of title X, episode S01E01 (entry 2)
and a scheduled entry of autorec rule 4 with the same title and episode
(entry 1), whose start-recording callback is armed at 99970; the rule records
different episode numbers only. -/
def db_dup : dvr_db_t :=
  { dvrentries := [1, 2],
    entries := [{ de_id := 1, de_sched_state := DVR_SCHEDULED, de_start := 100000,
                  de_stop := 103600, de_channel := some 7, de_config := some 3,
                  de_autorec := some 4, de_title := some [("eng", "X")],
                  de_episode := some "S01E01",
                  de_timer := some { gti_callback := dvr_timer_cb.start_recording,
                                     gti_expire := 99970 } },
                { de_id := 2, de_sched_state := DVR_COMPLETED, de_start := 13600,
                  de_stop := 17200, de_channel := some 7, de_config := some 3,
                  de_title := some [("eng", "X")], de_episode := some "S01E01",
                  de_filename := some "x.mkv" }],
    channels := [{ ch_id := 7, ch_dvrs := [1, 2] }],
    configs := [{ dvr_id := 3, dvr_entries := [1, 2] }],
    autorecs := [{ dae_id := 4,
                   dae_record := DVR_AUTOREC_RECORD_DIFFERENT_EPISODE_NUMBER,
                   dae_spawns := [1] }] }

/-- The scheduled entry of `db_dup`. -/
def de_dup : dvr_entry_t :=
  { de_id := 1, de_sched_state := DVR_SCHEDULED, de_start := 100000,
    de_stop := 103600, de_channel := some 7, de_config := some 3,
    de_autorec := some 4, de_title := some [("eng", "X")],
    de_episode := some "S01E01",
    de_timer := some { gti_callback := dvr_timer_cb.start_recording, gti_expire := 99970 } }

/-! ## The padding rule and the dedup hit in the words of the specification -/

/-- The padding rule as the specification words it: 0 for an entry of a
timerec rule; else the entry's own value if it is set (neither 0 nor -1); else
the channel's value if the entry has a channel and that value is set; else the
configuration's value. -/
def extra_time_spec (timerec : Bool) (own : Int) (chan : Option Int) (conf : Int) : Int :=
  if timerec then 0
  else if own ≠ 0 ∧ own ≠ -1 then own
  else
    match chan with
    | some v => if v ≠ 0 ∧ v ≠ -1 then v else conf
    | none => conf

/-- The entry of `db_sched` with an own pre-padding of 4294967296 minutes. -/
def de_wide : dvr_entry_t := { de_sched with de_start_extra := 4294967296 }

/-- The store `db_sched` with the entry `de_wide` in place of its entry. -/
def db_wide : dvr_db_t := { db_sched with entries := [de_wide] }

/-- Local day number of a time: days since 1970-01-01 in the time zone of the
process. -/
def local_day (s : dvr_db_t) (t : Int) : Int := (t + s.tz_offset) / 86400

/-- Two localized strings are equal as the specification words it: their
default-language texts exist and are the same. -/
def lang_str_same (a b : Option lang_str_t) : Bool :=
  match lang_str_get a, lang_str_get b with
  | some x, some y => x == y
  | _, _ => false

/-- The mode condition of a dedup hit as the specification words it: equal
episode strings, equal subtitles, equal descriptions, same Monday-to-Sunday
week (day 0 is a Thursday, so day -3 is a Monday), same local calendar date. -/
def dup_mode_spec (s : dvr_db_t) (de d : dvr_entry_t) : dvr_autorec_dedup_t → Bool
  | DVR_AUTOREC_RECORD_ALL => false
  | DVR_AUTOREC_RECORD_DIFFERENT_EPISODE_NUMBER => decide (d.de_episode = de.de_episode)
  | DVR_AUTOREC_RECORD_DIFFERENT_SUBTITLE => lang_str_same d.de_subtitle de.de_subtitle
  | DVR_AUTOREC_RECORD_DIFFERENT_DESCRIPTION => lang_str_same d.de_desc de.de_desc
  | DVR_AUTOREC_RECORD_ONCE_PER_WEEK =>
    decide ((local_day s d.de_start + 3) / 7 = (local_day s de.de_start + 3) / 7)
  | DVR_AUTOREC_RECORD_ONCE_PER_DAY =>
    decide (local_day s d.de_start = local_day s de.de_start)

/-- The common filters of a dedup hit as the specification words them: another
entry, not starting later, not MISSED_TIME, not COMPLETED with an error, with
an equal title. -/
def dup_filter_spec (de d : dvr_entry_t) : Bool :=
  decide (d.de_id ≠ de.de_id) && decide (d.de_start ≤ de.de_start) &&
  decide (d.de_sched_state ≠ DVR_MISSED_TIME) &&
  !(decide (d.de_sched_state = DVR_COMPLETED) && decide (d.de_last_error ≠ 0)) &&
  lang_str_same d.de_title de.de_title

/-- The entry behind `i` is a dedup hit for `de` under the mode `record`. -/
def dup_hit_spec (s : dvr_db_t) (de : dvr_entry_t) (record : dvr_autorec_dedup_t)
    (i : Nat) : Bool :=
  match de_get s i with
  | some d => dup_filter_spec de d && dup_mode_spec s de d record
  | none => false

/-- The store `db_dup` with a third entry ahead of the completed recording in
the global list: a completed recording of the same title that has no episode
string. -/
def db_null_episode : dvr_db_t :=
  { db_dup with
    dvrentries := [1, 3, 2],
    entries := db_dup.entries ++
      [{ de_id := 3, de_sched_state := DVR_COMPLETED, de_start := 20000, de_stop := 23600,
         de_channel := some 7, de_config := some 3, de_title := some [("eng", "X")],
         de_filename := some "y.mkv" }],
    channels := [{ ch_id := 7, ch_dvrs := [1, 3, 2] }],
    configs := [{ dvr_id := 3, dvr_entries := [1, 3, 2] }] }

/-- Dereference a broadcast pointer. -/
def bcast_get (s : dvr_db_t) (id : Nat) : Option epg_broadcast_t :=
  s.broadcasts.find? (fun e => e.id == id)

/-- The call `bcast->getref(bcast)`: one reference more on broadcast `b`. -/
def epg_getref (s : dvr_db_t) (b : Nat) : dvr_db_t :=
  { s with broadcasts := s.broadcasts.map (fun e =>
      if e.id = b then { e with refcount := e.refcount + 1 } else e) }

/-- Modelled from the spec: `epg_broadcast_get_title(e, NULL)`, the
default-language title of the episode of the broadcast, null without one. -/
def epg_broadcast_get_title (e : epg_broadcast_t) : Option String :=
  match e.episode with
  | none => none
  | some ep => lang_str_get ep.title

/-- Modelled from the spec: the text `epg_episode_number_format` writes with
the formats "Season %d", ".", "Episode %d", "/%d"; it returns the number of
characters written, and the text fits the buffers handed in. -/
def epg_episode_number_format (ep : epg_episode_t) : String := ep.epnum

/-- Source `dvr_entry_get_episode`: the formatted episode of a broadcast, null
without a broadcast, without an episode, or when nothing is written. -/
def dvr_entry_get_episode (bcast : Option epg_broadcast_t) : Option String :=
  match bcast with
  | none => none
  | some b =>
    match b.episode with
    | none => none
    | some ep =>
      if (epg_episode_number_format ep).length ≠ 0 then some (epg_episode_number_format ep)
      else none

/-- The libc `abs`: its argument is converted to `int`. -/
def abs_int (x : Int) : Int := |to_int x|

/-- Source `dvr_entry_fuzzy_match`; `t1 / 5` is the C division, which truncates. -/
def dvr_entry_fuzzy_match (s : dvr_db_t) (de : dvr_entry_t) (e : epg_broadcast_t) :
    Option Bool :=
  if de.de_dvb_eid ≠ 0 ∧ de.de_dvb_eid = e.dvb_eid then some true
  else
    match epg_broadcast_get_title e with
    | none => some false
    | some title1 =>
      match lang_str_get de.de_title with
      | none => some false
      | some title2 =>
        if abs_int ((e.stop - e.start) - (de.de_stop - de.de_start)) >
            Int.tdiv (de.de_stop - de.de_start) 5 then some false
        else
          match de.de_config.bind (cfg_get s) with
          | none => none
          | some cfg =>
            if abs_int (e.start - de.de_start) > cfg.dvr_update_window then some false
            else if title1 ≠ title2 then some false
            else
              match dvr_entry_get_episode (some e), de.de_episode with
              | some buf, some ep => if buf ≠ ep then some false else some true
              | _, _ => some true

/-- The fuzzy match as the specification words it: the DVB event id of the
entry is set and equals that of the broadcast, or the default-language titles
exist and are equal, the durations differ by at most a fifth of the entry's,
the starts differ by at most the update window of the configuration, and an
entry with an episode string has the formatted episode of the broadcast. -/
def fuzzy_match_spec (de : dvr_entry_t) (e : epg_broadcast_t) (update_window : Int) : Prop :=
  (de.de_dvb_eid ≠ 0 ∧ de.de_dvb_eid = e.dvb_eid) ∨
  ((∃ t, epg_broadcast_get_title e = some t ∧ lang_str_get de.de_title = some t) ∧
   5 * |(e.stop - e.start) - (de.de_stop - de.de_start)| ≤ de.de_stop - de.de_start ∧
   |e.start - de.de_start| ≤ update_window ∧
   (∀ ep, de.de_episode = some ep → dvr_entry_get_episode (some e) = some ep))

/-- The entry of `db_sched` with title X and the episode string of season 1,
episode 2. -/
def de_episode : dvr_entry_t :=
  { de_sched with de_title := some [("eng", "X")],
                  de_episode := some "Season 1.Episode 2" }

/-- A broadcast of title X in the window of `de_episode`, whose episode
carries no number. -/
def bcast_plain : epg_broadcast_t :=
  { id := 9, channel := some 7, start := 1000, stop := 2000,
    episode := some { title := some [("eng", "X")] } }

/-! ## Property maps and lookups

Modelled from the spec: the message type `htsmsg_t`, the idnode registry and
the lookups of channels, configurations, rules and broadcasts are not part of
the source at hand.  A property map is a list of named fields; an object is
looked up by the text of its identifier (`idnode_uuid_as_str`) or by its name. -/

/-- Modelled from the spec: the value of a field of a property map. -/
inductive htsmsg_field where
  | s64 (v : Int)
  | str (v : String)
  | map (v : lang_str_t)
  deriving DecidableEq, Repr

/-- Modelled from the spec: a property map. -/
abbrev htsmsg_t := List (String × htsmsg_field)

/-- Modelled from the spec: the first field of that name; a null map has none. -/
def htsmsg_field_find (m : Option htsmsg_t) (name : String) : Option htsmsg_field :=
  match m with
  | none => none
  | some l => (l.find? (fun kv => kv.1 == name)).map (fun kv => kv.2)

/-- Modelled from the spec: `htsmsg_get_s64`; `none` is its error return. -/
def htsmsg_get_s64 (m : Option htsmsg_t) (name : String) : Option Int :=
  match htsmsg_field_find m name with
  | some (htsmsg_field.s64 v) => some v
  | _ => none

/-- Modelled from the spec: `htsmsg_get_str`; `none` is the result NULL. -/
def htsmsg_get_str (m : Option htsmsg_t) (name : String) : Option String :=
  match htsmsg_field_find m name with
  | some (htsmsg_field.str v) => some v
  | _ => none

/-- Modelled from the spec: the text of an identifier. -/
def idnode_uuid_as_str (n : Nat) : String := toString n

/-- Modelled from the spec: the channel with that identifier. -/
def channel_find_by_uuid (s : dvr_db_t) (uuid : String) : Option Nat :=
  (s.channels.find? (fun ch => idnode_uuid_as_str ch.ch_id == uuid)).map
    (fun (ch : channel_t) => ch.ch_id)

/-- Modelled from the spec: the first channel with that name. -/
def channel_find_by_name (s : dvr_db_t) (name : String) : Option Nat :=
  (s.channels.find? (fun ch => ch.ch_name == name)).map (fun (ch : channel_t) => ch.ch_id)

/-- Modelled from the spec: the configuration with that identifier. -/
def dvr_config_find_by_uuid (s : dvr_db_t) (uuid : String) : Option Nat :=
  (s.configs.find? (fun cfg => idnode_uuid_as_str cfg.dvr_id == uuid)).map
    (fun (cfg : dvr_config_t) => cfg.dvr_id)

/-- Modelled from the spec: the configuration with that name; a null name is
the empty name, which is the name of the default configuration. -/
def dvr_config_find_by_name (s : dvr_db_t) (name : Option String) : Option Nat :=
  (s.configs.find? (fun cfg => cfg.dvr_config_name == name.getD "")).map
    (fun (cfg : dvr_config_t) => cfg.dvr_id)

/-- Modelled from the spec: the configuration with that name, else the default
configuration. -/
def dvr_config_find_by_name_default (s : dvr_db_t) (name : Option String) : Option Nat :=
  match dvr_config_find_by_name s name with
  | some k => some k
  | none => dvr_config_find_by_name s none

/-- Modelled from the spec: the autorec rule with that identifier. -/
def dvr_autorec_find_by_uuid (s : dvr_db_t) (uuid : String) : Option Nat :=
  (s.autorecs.find? (fun dae => idnode_uuid_as_str dae.dae_id == uuid)).map
    (fun (dae : dvr_autorec_entry_t) => dae.dae_id)

/-- Modelled from the spec: the timerec rule with that identifier. -/
def dvr_timerec_find_by_uuid (s : dvr_db_t) (uuid : String) : Option Nat :=
  (s.timerecs.find? (fun dte => idnode_uuid_as_str dte.dte_id == uuid)).map
    (fun (dte : dvr_timerec_entry_t) => dte.dte_id)

/-- Modelled from the spec: the broadcast with that identifier. -/
def epg_broadcast_find_by_id (s : dvr_db_t) (id : Nat) : Option Nat :=
  (bcast_get s id).map (fun (e : epg_broadcast_t) => e.id)

/-- Modelled from the spec: `dvr_entry_is_editable`, the state is SCHEDULED
(the state of a zeroed allocation as well). -/
def dvr_entry_is_editable (de : dvr_entry_t) : Bool := de.de_sched_state = DVR_SCHEDULED

/-- Modelled from the spec: `dvr_entry_is_valid`, the entry holds a reference. -/
def dvr_entry_is_valid (de : dvr_entry_t) : Bool := de.de_refcnt > 0

/-- The step `LIST_INSERT_HEAD(&ch->ch_dvrs, de, de_channel_link)`. -/
def channel_link_insert (s : dvr_db_t) (c : Nat) (id : Nat) : dvr_db_t :=
  { s with channels := s.channels.map (fun ch =>
      if ch.ch_id = c then { ch with ch_dvrs := id :: ch.ch_dvrs } else ch) }

/-- The step `LIST_INSERT_HEAD(&cfg->dvr_entries, de, de_config_link)`. -/
def config_link_insert (s : dvr_db_t) (k : Nat) (id : Nat) : dvr_db_t :=
  { s with configs := s.configs.map (fun cfg =>
      if cfg.dvr_id = k then { cfg with dvr_entries := id :: cfg.dvr_entries } else cfg) }

/-- The step `LIST_INSERT_HEAD(&dae->dae_spawns, de, de_autorec_link)`. -/
def autorec_link_insert (s : dvr_db_t) (a : Nat) (id : Nat) : dvr_db_t :=
  { s with autorecs := s.autorecs.map (fun dae =>
      if dae.dae_id = a then { dae with dae_spawns := id :: dae.dae_spawns } else dae) }

/-- The assignment `dte->dte_spawn = de`. -/
def timerec_spawn_set (s : dvr_db_t) (t : Nat) (id : Nat) : dvr_db_t :=
  { s with timerecs := s.timerecs.map (fun dte =>
      if dte.dte_id = t then { dte with dte_spawn := some id } else dte) }

/-! ## Property setters of the entry class

Each setter returns the new state and its result (1 = changed). -/

/-- Source `dvr_entry_class_time_set` on the field holding `v`: the new content of
the field and the result. -/
def dvr_entry_class_time_set (de : dvr_entry_t) (v nv : Int) : Int × Bool :=
  if ¬ dvr_entry_is_editable de then (v, false)
  else if nv ≠ v then (nv, true)
  else (v, false)

/-- Source `dvr_entry_class_int_set` on the field holding `v`. -/
def dvr_entry_class_int_set (de : dvr_entry_t) (v nv : Int) : Int × Bool :=
  if ¬ dvr_entry_is_editable de then (v, false)
  else if nv ≠ v then (nv, true)
  else (v, false)

/-- Source `dvr_entry_class_start_set`. -/
def dvr_entry_class_start_set (s : dvr_db_t) (id : Nat) (v : Int) : Option (dvr_db_t × Bool) :=
  match de_get s id with
  | none => none
  | some de =>
    let r := dvr_entry_class_time_set de de.de_start v
    some (de_put s { de with de_start := r.1 }, r.2)

/-- Source `dvr_entry_class_start_extra_set`. -/
def dvr_entry_class_start_extra_set (s : dvr_db_t) (id : Nat) (v : Int) :
    Option (dvr_db_t × Bool) :=
  match de_get s id with
  | none => none
  | some de =>
    let r := dvr_entry_class_time_set de de.de_start_extra v
    some (de_put s { de with de_start_extra := r.1 }, r.2)

/-- Source `dvr_entry_class_stop_set`: the requested value is raised to the clock of
the dispatcher when the entry is not editable, then to the start. -/
def dvr_entry_class_stop_set (s : dvr_db_t) (id : Nat) (_v : Int) : Option (dvr_db_t × Bool) :=
  match de_get s id with
  | none => none
  | some de =>
    let v1 := if ¬ dvr_entry_is_editable de then
                (if _v < s.dispatch_clock then s.dispatch_clock else _v)
              else _v
    let v2 := if v1 < de.de_start then de.de_start else v1
    let r := dvr_entry_class_time_set de de.de_stop v2
    some (de_put s { de with de_stop := r.1 }, r.2)

/-- Source `dvr_entry_class_config_name_set`. -/
def dvr_entry_class_config_name_set (s : dvr_db_t) (id : Nat) (v : Option String) :
    Option (dvr_db_t × Bool) :=
  match de_get s id with
  | none => none
  | some de =>
    if ¬ dvr_entry_is_editable de then some (s, false)
    else
      match (match v.bind (dvr_config_find_by_uuid s) with
             | some k => some k
             | none => dvr_config_find_by_name_default s v) with
      | none =>
        match de.de_config with
        | some k0 => some (de_put (config_link_remove s k0 id) { de with de_config := none }, true)
        | none => some (s, false)
      | some cfg =>
        if de.de_config ≠ some cfg then
          let s1 := match de.de_config with
                    | some k0 => config_link_remove s k0 id
                    | none => s
          some (config_link_insert (de_put s1 { de with de_config := some cfg }) cfg id, true)
        else some (s, false)

/-- Source `dvr_entry_class_channel_set`. -/
def dvr_entry_class_channel_set (s : dvr_db_t) (id : Nat) (v : Option String) :
    Option (dvr_db_t × Bool) :=
  match de_get s id with
  | none => none
  | some de =>
    if ¬ dvr_entry_is_editable de then some (s, false)
    else
      match v.bind (channel_find_by_uuid s) with
      | none =>
        match de.de_channel with
        | some c0 =>
          some (de_put (channel_link_remove s c0 id)
                  { de with de_channel_name := none, de_channel := none }, true)
        | none => some (s, false)
      | some ch =>
        if de.de_channel ≠ some ch then
          let s1 := match de.de_channel with
                    | some c0 => channel_link_remove s c0 id
                    | none => s
          match ch_get s1 ch with
          | none => none
          | some chn =>
            some (channel_link_insert
                    (de_put s1 { de with de_channel_name := some chn.ch_name,
                                         de_channel := some ch }) ch id, true)
        else some (s, false)

/-- Source `dvr_entry_class_channel_name_set`. -/
def dvr_entry_class_channel_name_set (s : dvr_db_t) (id : Nat) (v : Option String) :
    Option (dvr_db_t × Bool) :=
  match de_get s id with
  | none => none
  | some de =>
    if ¬ dvr_entry_is_editable de then some (s, false)
    else if de.de_channel_name.getD "" = v.getD "" then some (s, false)
    else
      match v.bind (channel_find_by_name s) with
      | some ch => dvr_entry_class_channel_set s id (some (idnode_uuid_as_str ch))
      | none => some (de_put s { de with de_channel_name := v }, true)

/-- Source `dvr_entry_class_pri_set`. -/
def dvr_entry_class_pri_set (s : dvr_db_t) (id : Nat) (v : Int) : Option (dvr_db_t × Bool) :=
  match de_get s id with
  | none => none
  | some de =>
    let r := dvr_entry_class_int_set de de.de_pri v
    some (de_put s { de with de_pri := r.1 }, r.2)

/-- Source `dvr_entry_class_retention_set`. -/
def dvr_entry_class_retention_set (s : dvr_db_t) (id : Nat) (v : Int) :
    Option (dvr_db_t × Bool) :=
  match de_get s id with
  | none => none
  | some de =>
    let r := dvr_entry_class_int_set de de.de_retention v
    some (de_put s { de with de_retention := r.1 }, r.2)

/-- Source `dvr_entry_class_mc_set`. -/
def dvr_entry_class_mc_set (s : dvr_db_t) (id : Nat) (v : Int) : Option (dvr_db_t × Bool) :=
  match de_get s id with
  | none => none
  | some de =>
    let r := dvr_entry_class_int_set de de.de_mc v
    some (de_put s { de with de_mc := r.1 }, r.2)

/-- Source `dvr_entry_class_autorec_set`; the link into the spawn list of the new
rule is made without unlinking from the old one. -/
def dvr_entry_class_autorec_set (s : dvr_db_t) (id : Nat) (v : Option String) :
    Option (dvr_db_t × Bool) :=
  match de_get s id with
  | none => none
  | some de =>
    if ¬ dvr_entry_is_editable de then some (s, false)
    else
      match v.bind (dvr_autorec_find_by_uuid s) with
      | none =>
        match de.de_autorec with
        | some a0 =>
          some (de_put (autorec_link_remove s a0 id) { de with de_autorec := none }, true)
        | none => some (s, false)
      | some dae =>
        if de.de_autorec ≠ some dae then
          some (autorec_link_insert (de_put s { de with de_autorec := some dae }) dae id, true)
        else some (s, false)

/-- Source `dvr_entry_class_timerec_set`. -/
def dvr_entry_class_timerec_set (s : dvr_db_t) (id : Nat) (v : Option String) :
    Option (dvr_db_t × Bool) :=
  match de_get s id with
  | none => none
  | some de =>
    if ¬ dvr_entry_is_editable de then some (s, false)
    else
      match v.bind (dvr_timerec_find_by_uuid s) with
      | none =>
        match de.de_timerec with
        | some t0 =>
          some (de_put (timerec_spawn_clear s t0) { de with de_timerec := none }, true)
        | none => some (s, false)
      | some dte =>
        if de.de_timerec ≠ some dte then
          some (timerec_spawn_set (de_put s { de with de_timerec := some dte }) dte id, true)
        else some (s, false)

/-- Source `dvr_entry_class_broadcast_set`. -/
def dvr_entry_class_broadcast_set (s : dvr_db_t) (id : Nat) (v : Nat) :
    Option (dvr_db_t × Bool) :=
  match de_get s id with
  | none => none
  | some de =>
    if ¬ dvr_entry_is_editable de then some (s, false)
    else
      match epg_broadcast_find_by_id s v with
      | none =>
        match de.de_bcast with
        | some b0 => some (de_put (epg_putref s b0) { de with de_bcast := none }, true)
        | none => some (s, false)
      | some bcast =>
        if de.de_bcast ≠ some bcast then
          let s1 := match de.de_bcast with
                    | some b0 => epg_putref s b0
                    | none => s
          some (epg_getref (de_put s1 { de with de_bcast := some bcast }) bcast, true)
        else some (s, false)

/-- Modelled from the spec: `lang_str_add(ls, str, lang, update)` and its result:
the text is stored under the language (the preferred one for a null language);
a text already stored under that language is replaced only on `update`, and
only when it differs; the result is 1 when the map changed. -/
def lang_str_add (dflt : String) (ls : lang_str_t) (str : String) (lang : Option String)
    (update : Bool) : lang_str_t × Bool :=
  match ls.find? (fun p => p.1 == lang.getD dflt) with
  | none => (ls ++ [(lang.getD dflt, str)], true)
  | some p =>
    if update && p.2 != str then
      (ls.map (fun q => if q.1 == lang.getD dflt then (q.1, str) else q), true)
    else (ls, false)

/-- Source `dvr_entry_class_disp_title_set`; `lang_str_get` of a title without any
text is null, which `strcmp` reads through. -/
def dvr_entry_class_disp_title_set (s : dvr_db_t) (id : Nat) (v : Option String) :
    Option (dvr_db_t × Bool) :=
  match de_get s id with
  | none => none
  | some de =>
    let v1 := if v = none ∨ v = some "" then "UnknownTitle" else v.getD ""
    match (match de.de_title with
           | some _ => lang_str_get de.de_title
           | none => some "") with
    | none => none
    | some t =>
      if t ≠ v1 then
        some (de_put s { de with
                de_title := some (lang_str_add s.lang_default [] v1 none false).1 }, true)
      else some (s, false)

/-- Source `dvr_entry_class_disp_subtitle_set`. -/
def dvr_entry_class_disp_subtitle_set (s : dvr_db_t) (id : Nat) (v : Option String) :
    Option (dvr_db_t × Bool) :=
  match de_get s id with
  | none => none
  | some de =>
    let v1 := if v = none ∨ v = some "" then "UnknownSubtitle" else v.getD ""
    match (match de.de_subtitle with
           | some _ => lang_str_get de.de_subtitle
           | none => some "") with
    | none => none
    | some t =>
      if t ≠ v1 then
        some (de_put s { de with
                de_subtitle := some (lang_str_add s.lang_default [] v1 none false).1 }, true)
      else some (s, false)

/-! ## Loading an entry from a property map

Modelled from the spec: `idnode_insert` and `idnode_load` are not part of the
source at hand.  Loading walks the property table of `dvr_entry_class` (which
is) in its order; a property is written when the map has a field of its name
and of its type and the property is not marked `PO_NOSAVE`; it is written
through its setter when it has one and at its offset otherwise. -/

/-- Modelled from the spec: the value for a `PT_INT` property. -/
def prop_int (c : Option htsmsg_t) (name : String) : Option Int :=
  (htsmsg_get_s64 c name).map to_int

/-- Modelled from the spec: the value for a `PT_U32` property. -/
def prop_u32 (c : Option htsmsg_t) (name : String) : Option Nat :=
  match htsmsg_get_s64 c name with
  | some v => if 0 ≤ v ∧ v ≤ 4294967295 then some v.toNat else none
  | none => none

/-- Modelled from the spec: the value for a `PT_U16` property. -/
def prop_u16 (c : Option htsmsg_t) (name : String) : Option Nat :=
  (prop_u32 c name).map (fun v => v % 65536)

/-- Modelled from the spec: the value for a `PT_BOOL` property. -/
def prop_bool (c : Option htsmsg_t) (name : String) : Option Bool :=
  (htsmsg_get_s64 c name).map (fun v => v != 0)

/-- Modelled from the spec: the value for a `PT_LANGSTR` property. -/
def prop_langstr (c : Option htsmsg_t) (name : String) : Option lang_str_t :=
  match htsmsg_field_find c name with
  | some (htsmsg_field.map m) => some m
  | _ => none

/-- Modelled from the spec: write a property through its setter. -/
def prop_set {α : Type} (nv : Option α) (set : dvr_db_t → α → Option (dvr_db_t × Bool))
    (s : dvr_db_t) : Option dvr_db_t :=
  match nv with
  | none => some s
  | some v => (set s v).map (fun r => r.1)

/-- Modelled from the spec: write a property at its offset. -/
def prop_off {α : Type} (nv : Option α) (id : Nat) (wr : dvr_entry_t → α → dvr_entry_t)
    (s : dvr_db_t) : Option dvr_db_t :=
  match nv with
  | none => some s
  | some v =>
    match de_get s id with
    | none => none
    | some de => some (de_put s (wr de v))

/-- Modelled from the spec: a `PT_STR` field stored at an offset is replaced
when the text differs from the stored one (null counting as empty). -/
def prop_str_wr (cur : Option String) (nv : String) : Option String :=
  if cur.getD "" ≠ nv then some nv else cur

/-- Modelled from the spec: `idnode_load` on an entry, over the property table of
`dvr_entry_class` in its order (the `PO_NOSAVE` properties are left out). -/
def idnode_load (s : dvr_db_t) (id : Nat) (c : Option htsmsg_t) : Option dvr_db_t :=
  (some s)
  |>.bind (prop_set (htsmsg_get_s64 c "start") (fun s v => dvr_entry_class_start_set s id v))
  |>.bind (prop_set (htsmsg_get_s64 c "start_extra")
            (fun s v => dvr_entry_class_start_extra_set s id v))
  |>.bind (prop_set (htsmsg_get_s64 c "stop") (fun s v => dvr_entry_class_stop_set s id v))
  |>.bind (prop_off (htsmsg_get_s64 c "stop_extra") id
            (fun de v => { de with de_stop_extra := v }))
  |>.bind (prop_set (htsmsg_get_str c "channel")
            (fun s v => dvr_entry_class_channel_set s id (some v)))
  |>.bind (prop_set (htsmsg_get_str c "channelname")
            (fun s v => dvr_entry_class_channel_name_set s id (some v)))
  |>.bind (prop_off (prop_langstr c "title") id (fun de v => { de with de_title := some v }))
  |>.bind (prop_off (prop_langstr c "subtitle") id
            (fun de v => { de with de_subtitle := some v }))
  |>.bind (prop_off (prop_langstr c "description") id
            (fun de v => { de with de_desc := some v }))
  |>.bind (prop_set (prop_int c "pri") (fun s v => dvr_entry_class_pri_set s id v))
  |>.bind (prop_set (prop_int c "retention") (fun s v => dvr_entry_class_retention_set s id v))
  |>.bind (prop_set (prop_int c "container") (fun s v => dvr_entry_class_mc_set s id v))
  |>.bind (prop_set (htsmsg_get_str c "config_name")
            (fun s v => dvr_entry_class_config_name_set s id (some v)))
  |>.bind (prop_off (htsmsg_get_str c "owner") id
            (fun de v => { de with de_owner := prop_str_wr de.de_owner v }))
  |>.bind (prop_off (htsmsg_get_str c "creator") id
            (fun de v => { de with de_creator := prop_str_wr de.de_creator v }))
  |>.bind (prop_off (htsmsg_get_str c "filename") id
            (fun de v => { de with de_filename := prop_str_wr de.de_filename v }))
  |>.bind (prop_off (htsmsg_get_str c "directory") id
            (fun de v => { de with de_directory := prop_str_wr de.de_directory v }))
  |>.bind (prop_off (prop_u32 c "errorcode") id (fun de v => { de with de_last_error := v }))
  |>.bind (prop_off (prop_u32 c "errors") id (fun de v => { de with de_errors := v }))
  |>.bind (prop_off (prop_u32 c "data_errors") id
            (fun de v => { de with de_data_errors := v }))
  |>.bind (prop_off (prop_u16 c "dvb_eid") id (fun de v => { de with de_dvb_eid := v }))
  |>.bind (prop_off (prop_bool c "noresched") id
            (fun de v => { de with de_dont_reschedule := v }))
  |>.bind (prop_set (htsmsg_get_str c "autorec")
            (fun s v => dvr_entry_class_autorec_set s id (some v)))
  |>.bind (prop_set (htsmsg_get_str c "timerec")
            (fun s v => dvr_entry_class_timerec_set s id (some v)))
  |>.bind (prop_off (prop_u32 c "content_type") id
            (fun de v => { de with de_content_type := v }))
  |>.bind (prop_set (prop_u32 c "broadcast")
            (fun s v => dvr_entry_class_broadcast_set s id v))
  |>.bind (prop_off (htsmsg_get_str c "episode") id
            (fun de v => { de with de_episode := prop_str_wr de.de_episode v }))
  |>.bind (prop_off (htsmsg_get_str c "comment") id
            (fun de v => { de with de_comment := prop_str_wr de.de_comment v }))

/-- Modelled from the spec: `idnode_insert` gives the entry the identifier asked
for, or a fresh one when none is asked for; it fails when the identifier is in
use. -/
def idnode_insert (s : dvr_db_t) (uuid : Option Nat) : Option Nat :=
  match uuid with
  | some u => if (de_get s u).isSome then none else some u
  | none => some ((s.entries.map (fun e => e.de_id)).foldl max 0 + 1)

/-! ## Creation -/

/-- The uniqueness check of `dvr_entry_create` over the list of the channel: some
other entry has the same start and is not COMPLETED. -/
def dvr_entry_create_clash (s : dvr_db_t) (de : dvr_entry_t) : List Nat → Option Bool
  | [] => some false
  | i :: rest =>
    match de_get s i with
    | none => none
    | some de2 =>
      if i ≠ de.de_id ∧ de2.de_start = de.de_start ∧ de2.de_sched_state ≠ DVR_COMPLETED then
        some true
      else dvr_entry_create_clash s de rest

/-- Lines 427-435 of `dvr_entry_create`: a `disp_title` (`disp_subtitle`) of the
map is taken when loading left the title (subtitle) null. -/
def dvr_entry_create_titles (s3 : dvr_db_t) (id : Nat) (conf : Option htsmsg_t) :
    Option dvr_db_t :=
  match (match de_get s3 id, htsmsg_get_str conf "disp_title" with
         | some de, some t =>
           if de.de_title = none then
             (dvr_entry_class_disp_title_set s3 id (some t)).map Prod.fst
           else some s3
         | some _, none => some s3
         | none, _ => none) with
  | none => none
  | some s4 =>
    match de_get s4 id, htsmsg_get_str conf "disp_subtitle" with
    | some de, some t =>
      if de.de_subtitle = none then
        (dvr_entry_class_disp_subtitle_set s4 id (some t)).map Prod.fst
      else some s4
    | some _, none => some s4
    | none, _ => none

/-- Lines 437-454 of `dvr_entry_create`: take the reference, link into the global
list, check uniqueness on the channel (destroying the new entry on a clash),
else arm the timer and announce the entry. -/
def dvr_entry_create_finish (now : Int) (s5 : dvr_db_t) (id : Nat) :
    Option (dvr_db_t × Option Nat) :=
  match de_get s5 id with
  | none => none
  | some de =>
    match (match de.de_channel with
           | none => some false
           | some c =>
             match ch_get s5 c with
             | none => none
             | some ch =>
               dvr_entry_create_clash
                 { de_put s5 { de with de_refcnt := 1 } with dvrentries := id :: s5.dvrentries }
                 de ch.ch_dvrs) with
    | none => none
    | some true =>
      (dvr_entry_destroy
        { de_put s5 { de with de_refcnt := 1 } with dvrentries := id :: s5.dvrentries }
        id false).map (fun s7 => (s7, none))
    | some false =>
      (dvr_entry_set_timer now
        { de_put s5 { de with de_refcnt := 1 } with dvrentries := id :: s5.dvrentries }
        id).map (fun s7 => (emit s7 [dvr_effect.htsp_dvr_entry_add id], some id))

/-- Source `dvr_entry_create`, run at wall-clock time `now`: the new state and the
returned entry pointer (`some (s, none)` is the result NULL). -/
def dvr_entry_create (now : Int) (s : dvr_db_t) (uuid : Option Nat) (conf : Option htsmsg_t) :
    Option (dvr_db_t × Option Nat) :=
  if conf.isSome ∧
     (htsmsg_get_s64 conf "start" = none ∨ htsmsg_get_s64 conf "stop" = none ∨
      (htsmsg_get_str conf "channel" = none ∧ htsmsg_get_str conf "channelname" = none)) then
    some (s, none)
  else
    match idnode_insert s uuid with
    | none => some (s, none)
    | some id =>
      match idnode_load
          (match dvr_config_find_by_name_default s none with
           | some k =>
             config_link_insert
               { s with entries :=
                   { de_id := id, de_sched_state := DVR_SCHEDULED, de_refcnt := 0, de_mc := -1,
                     de_config := some k } :: s.entries } k id
           | none =>
             { s with entries :=
                 { de_id := id, de_sched_state := DVR_SCHEDULED, de_refcnt := 0, de_mc := -1,
                   de_config := none } :: s.entries })
          id conf with
      | none => none
      | some s3 =>
        match dvr_entry_create_titles s3 id conf with
        | none => none
        | some s5 => dvr_entry_create_finish now s5 id

/-- A store with one channel and the default configuration, before any entry
is created. -/
def db_empty : dvr_db_t :=
  { channels := [{ ch_id := 7, ch_name := "one" }],
    configs := [{ dvr_id := 3 }],
    timerecs := [{ dte_id := 5 }] }

/-- A property map asking for a recording from 1000 to 1000 on channel 7. -/
def conf_instant : htsmsg_t :=
  [("start", htsmsg_field.s64 1000), ("stop", htsmsg_field.s64 1000),
   ("channel", htsmsg_field.str "7")]

/-- A property map asking for a recording from 1000 to 2000 on channel 7 with
an own pre-padding of -5 minutes. -/
def conf_negative_padding : htsmsg_t :=
  [("start", htsmsg_field.s64 1000), ("stop", htsmsg_field.s64 2000),
   ("start_extra", htsmsg_field.s64 (-5)), ("channel", htsmsg_field.str "7")]

/-- A property map with a stop and a channel, and no start. -/
def conf_no_start : htsmsg_t :=
  [("stop", htsmsg_field.s64 2000), ("channel", htsmsg_field.str "7")]

/-- The entry of `db_timerec`: scheduled from 1000 to 2000 on channel 7,
spawned by timerec rule 5. -/
def de_timerec : dvr_entry_t :=
  { de_id := 1, de_sched_state := DVR_SCHEDULED, de_start := 1000, de_stop := 2000,
    de_channel := some 7, de_channel_name := some "one", de_config := some 3,
    de_timerec := some 5,
    de_timer := some { gti_callback := dvr_timer_cb.start_recording, gti_expire := 970 } }

/-- A store whose only entry is `de_timerec`; the timerec rule 5 points back
to it. -/
def db_timerec : dvr_db_t :=
  { dvrentries := [1],
    entries := [de_timerec],
    channels := [{ ch_id := 7, ch_name := "one", ch_dvrs := [1] }],
    configs := [{ dvr_id := 3, dvr_entries := [1] }],
    timerecs := [{ dte_id := 5, dte_spawn := some 1 }],
    settings := [(1, de_timerec)] }

/-- A property map asking for a recording from 1000 to 2000 on channel 7 for
the timerec rule 5. -/
def conf_timerec : htsmsg_t :=
  [("start", htsmsg_field.s64 1000), ("stop", htsmsg_field.s64 2000),
   ("channel", htsmsg_field.str "7"), ("timerec", htsmsg_field.str "5")]

/-- A property map asking for a recording from 2000 to 3000 on channel 7. -/
def conf_later : htsmsg_t :=
  [("start", htsmsg_field.s64 2000), ("stop", htsmsg_field.s64 3000),
   ("channel", htsmsg_field.str "7")]

/-- A property map asking for a recording from 1000 to 2000 on channel 7. -/
def conf_first : htsmsg_t :=
  [("start", htsmsg_field.s64 1000), ("stop", htsmsg_field.s64 2000),
   ("channel", htsmsg_field.str "7")]

/-- The store reached from `db_empty` by creating entry 1 from `conf_first`,
creating entry 2 from `conf_later`, and setting the start of entry 2 to 1000
through the setter of the property `start`. -/
def db_two_equal_starts : Option dvr_db_t :=
  ((dvr_entry_create 0 db_empty (some 1) (some conf_first)).bind
    (fun r1 => dvr_entry_create 0 r1.1 (some 2) (some conf_later))).bind
    (fun r2 => (dvr_entry_class_start_set r2.1 2 1000).map Prod.fst)

/-- The store reached from `db_empty` by creating entry 1 from `conf_first` at
time 0: the entry is scheduled and its start-recording callback is armed at
970. -/
def db_first : dvr_db_t :=
  { db_empty with
    dvrentries := [1],
    entries := [{ de_id := 1, de_sched_state := DVR_SCHEDULED, de_start := 1000,
                  de_stop := 2000, de_channel := some 7, de_channel_name := some "one",
                  de_config := some 3,
                  de_timer := some { gti_callback := dvr_timer_cb.start_recording,
                                     gti_expire := 970 } }],
    channels := [{ ch_id := 7, ch_name := "one", ch_dvrs := [1] }],
    configs := [{ dvr_id := 3, dvr_entries := [1] }],
    trace := [dvr_effect.dvr_dbus_timer_arm 5, dvr_effect.htsp_dvr_entry_add 1] }

/-! ## Updates from the EPG -/

/-- Modelled from the spec: the priority `DVR_PRIO_NOTSET` ("Not set" in
`dvr_entry_class_pri_list`) is declared outside the source at hand; it is
taken as the value after the five priorities 0 to 4. -/
def DVR_PRIO_NOTSET : Int := 5

/-- Lines 854-882 of `_dvr_entry_update`: the window comes from the broadcast when
there is one; each of start, stop, paddings, priority and retention is stored
when it is given (not 0, not NOTSET) and differs; the entry and the flag
`save`. -/
def dvr_entry_update_window (de : dvr_entry_t) (eb : Option epg_broadcast_t)
    (start stop start_extra stop_extra pri retention : Int) : dvr_entry_t × Bool :=
  let start1 := match eb with
                | some b => b.start
                | none => start
  let stop1 := match eb with
               | some b => b.stop
               | none => stop
  ({ de with
     de_start := if start1 ≠ 0 ∧ start1 ≠ de.de_start then start1 else de.de_start,
     de_stop := if stop1 ≠ 0 ∧ stop1 ≠ de.de_stop then stop1 else de.de_stop,
     de_start_extra := if start_extra ≠ 0 ∧ start_extra ≠ de.de_start_extra then start_extra
                       else de.de_start_extra,
     de_stop_extra := if stop_extra ≠ 0 ∧ stop_extra ≠ de.de_stop_extra then stop_extra
                      else de.de_stop_extra,
     de_pri := if pri ≠ DVR_PRIO_NOTSET ∧ pri ≠ de.de_pri then pri else de.de_pri,
     de_retention := if retention ≠ 0 ∧ retention ≠ de.de_retention then retention
                     else de.de_retention },
   decide (start1 ≠ 0 ∧ start1 ≠ de.de_start) || decide (stop1 ≠ 0 ∧ stop1 ≠ de.de_stop) ||
   decide (start_extra ≠ 0 ∧ start_extra ≠ de.de_start_extra) ||
   decide (stop_extra ≠ 0 ∧ stop_extra ≠ de.de_stop_extra) ||
   decide (pri ≠ DVR_PRIO_NOTSET ∧ pri ≠ de.de_pri) ||
   decide (retention ≠ 0 ∧ retention ≠ de.de_retention))

/-- Lines 886-899 of `_dvr_entry_update`: title and subtitle; the result of
`lang_str_add` is assigned to `save`. -/
def dvr_entry_update_titles (dflt : String) (de : dvr_entry_t) (eb : Option epg_broadcast_t)
    (title subtitle lang : Option String) (save : Bool) : dvr_entry_t × Bool :=
  let r7 : dvr_entry_t × Bool :=
    match (eb.bind (fun (b : epg_broadcast_t) => b.episode)).bind
            (fun (ep : epg_episode_t) => ep.title) with
    | some t => ({ de with de_title := some t }, save)
    | none =>
      match title with
      | some t =>
        ({ de with de_title := some (lang_str_add dflt (de.de_title.getD []) t lang true).1 },
         (lang_str_add dflt (de.de_title.getD []) t lang true).2)
      | none => (de, save)
  match subtitle with
  | some t =>
    ({ r7.1 with
       de_subtitle := some (lang_str_add dflt (r7.1.de_subtitle.getD []) t lang true).1 },
     (lang_str_add dflt (r7.1.de_subtitle.getD []) t lang true).2)
  | none => r7

/-- Lines 901-916 of `_dvr_entry_update`: DVB event id and genre. -/
def dvr_entry_update_eid_genre (de : dvr_entry_t) (eb : Option epg_broadcast_t) (save : Bool) :
    dvr_entry_t × Bool :=
  let r9 : dvr_entry_t × Bool :=
    match eb with
    | some b =>
      if b.dvb_eid ≠ de.de_dvb_eid then ({ de with de_dvb_eid := b.dvb_eid }, true)
      else (de, save)
    | none => (de, save)
  match (eb.bind (fun (b : epg_broadcast_t) => b.episode)).bind
          (fun (ep : epg_episode_t) => ep.genre.head?) with
  | some g =>
    if g / 16 ≠ r9.1.de_content_type then ({ r9.1 with de_content_type := g / 16 }, true)
    else r9
  | none => r9

/-- Lines 918-935 of `_dvr_entry_update`: bind the broadcast (dropping the
reference on the old one, taking one on the new one) and refresh the episode
string from the bound broadcast. -/
def dvr_entry_update_bcast (s : dvr_db_t) (de : dvr_entry_t) (e : Option Nat) (save : Bool) :
    Option (dvr_db_t × dvr_entry_t × Bool) :=
  let r11 : dvr_db_t × dvr_entry_t × Bool :=
    match e with
    | some b =>
      if de.de_bcast ≠ some b then
        (epg_getref (match de.de_bcast with
                     | some b0 => epg_putref s b0
                     | none => s) b,
         { de with de_bcast := some b }, true)
      else (s, de, save)
    | none => (s, de, save)
  match r11.2.1.de_bcast with
  | none => some r11
  | some b =>
    match bcast_get r11.1 b with
    | none => none
    | some bc =>
      match dvr_entry_get_episode (some bc) with
      | some buf =>
        if r11.2.1.de_episode.getD "" ≠ buf then
          some (r11.1, { r11.2.1 with de_episode := some buf }, true)
        else some r11
      | none => some r11

/-- Source `_dvr_entry_update`, run at wall-clock time `now` (the entry pointer it
returns is its argument). -/
def _dvr_entry_update (now : Int) (s : dvr_db_t) (id : Nat) (e : Option Nat)
    (title subtitle _desc lang : Option String) (start stop start_extra stop_extra : Int)
    (pri retention : Int) : Option dvr_db_t :=
  match de_get s id with
  | none => none
  | some de =>
    if ¬ dvr_entry_is_editable de then some s
    else
      match (match e with
             | none => some none
             | some b => (bcast_get s b).map some) with
      | none => none
      | some eb =>
        match (if (dvr_entry_update_window de eb start stop start_extra stop_extra pri
                    retention).2
               then dvr_entry_set_timer now
                      (de_put s (dvr_entry_update_window de eb start stop start_extra
                                   stop_extra pri retention).1) id
               else some (de_put s (dvr_entry_update_window de eb start stop start_extra
                                      stop_extra pri retention).1)) with
        | none => none
        | some s1 =>
          match de_get s1 id with
          | none => none
          | some de1 =>
            match dvr_entry_update_bcast s1
                (dvr_entry_update_eid_genre
                  (dvr_entry_update_titles s1.lang_default de1 eb title subtitle lang
                    (dvr_entry_update_window de eb start stop start_extra stop_extra pri
                      retention).2).1 eb
                  (dvr_entry_update_titles s1.lang_default de1 eb title subtitle lang
                    (dvr_entry_update_window de eb start stop start_extra stop_extra pri
                      retention).2).2).1
                e
                (dvr_entry_update_eid_genre
                  (dvr_entry_update_titles s1.lang_default de1 eb title subtitle lang
                    (dvr_entry_update_window de eb start stop start_extra stop_extra pri
                      retention).2).1 eb
                  (dvr_entry_update_titles s1.lang_default de1 eb title subtitle lang
                    (dvr_entry_update_window de eb start stop start_extra stop_extra pri
                      retention).2).2).2 with
            | none => none
            | some r =>
              some (if r.2.2 then
                      emit (de_put r.1 r.2.1)
                        [dvr_effect.idnode_changed id, dvr_effect.htsp_dvr_entry_update id]
                    else de_put r.1 r.2.1)

/-- The loop of `dvr_entry_find_by_event` over the list of the channel. -/
def dvr_entry_find_by_event_scan (s : dvr_db_t) (e : Nat) : List Nat → Option (Option Nat)
  | [] => some none
  | i :: rest =>
    match de_get s i with
    | none => none
    | some de => if de.de_bcast = some e then some (some i)
                 else dvr_entry_find_by_event_scan s e rest

/-- Source `dvr_entry_find_by_event`: the first entry in the list of the channel
of the broadcast that is bound to the broadcast (`some none` is NULL). -/
def dvr_entry_find_by_event (s : dvr_db_t) (e : Nat) : Option (Option Nat) :=
  match bcast_get s e with
  | none => none
  | some b =>
    match b.channel with
    | none => some none
    | some c =>
      match ch_get s c with
      | none => none
      | some ch => dvr_entry_find_by_event_scan s e ch.ch_dvrs

/-- The loop of `dvr_event_replaced` over the schedule of the channel: the first
broadcast that fuzzy-matches is bound, a reference taken on it, and the entry
updated from it. -/
def dvr_event_replaced_scan (now : Int) (s : dvr_db_t) (id : Nat) (de : dvr_entry_t) :
    List Nat → Option dvr_db_t
  | [] => some s
  | b :: rest =>
    match bcast_get s b with
    | none => none
    | some bc =>
      match dvr_entry_fuzzy_match s de bc with
      | none => none
      | some true =>
        _dvr_entry_update now (de_put (epg_getref s b) { de with de_bcast := some b }) id
          (some b) none none none none 0 0 0 0 DVR_PRIO_NOTSET 0
      | some false => dvr_event_replaced_scan now s id de rest

/-- Source `dvr_event_replaced`, run at wall-clock time `now`. -/
def dvr_event_replaced (now : Int) (s : dvr_db_t) (e new_e : Nat) : Option dvr_db_t :=
  if e = new_e then some s
  else
    match dvr_entry_find_by_event s e with
    | none => none
    | some none => some s
    | some (some id) =>
      match de_get s id with
      | none => none
      | some de =>
        if de.de_sched_state ≠ DVR_SCHEDULED then some s
        else
          match de.de_autorec with
          | some _ =>
            dvr_entry_destroy (de_put (epg_putref s e) { de with de_bcast := none }) id true
          | none =>
            match ((bcast_get s e).bind (fun (b : epg_broadcast_t) => b.channel)).bind
                    (ch_get s) with
            | none => none
            | some ch =>
              dvr_event_replaced_scan now
                (de_put (epg_putref s e) { de with de_bcast := none }) id
                { de with de_bcast := none } ch.ch_epg_schedule

/-- The broadcast behind `b` fuzzy-matches the entry. -/
def fuzzy_match_at (s : dvr_db_t) (de : dvr_entry_t) (b : Nat) : Bool :=
  match bcast_get s b with
  | some bc => dvr_entry_fuzzy_match s de bc == some true
  | none => false

/-- The pointers of an entry that the reconciler and the fuzzy match read
resolve: its configuration, and its channel if it has one. -/
def dvr_entry_resolves (s : dvr_db_t) (de : dvr_entry_t) : Prop :=
  (∃ cfg, de.de_config.bind (cfg_get s) = some cfg) ∧
  (∀ c, de.de_channel = some c → ∃ ch, ch_get s c = some ch)


/-- An entry scheduled from 60 to 3600 on channel 7 with title X, bound to
broadcast 9 and not spawned by a rule. -/
def de_replace : dvr_entry_t :=
  { de_id := 1, de_sched_state := DVR_SCHEDULED, de_start := 60, de_stop := 3600,
    de_channel := some 7, de_channel_name := some "one", de_config := some 3,
    de_bcast := some 9, de_title := some [("eng", "X")] }

/-- The channel of `db_replace`: its schedule holds broadcast 10. -/
def ch_replace : channel_t :=
  { ch_id := 7, ch_name := "one", ch_dvrs := [1], ch_epg_schedule := [10] }

/-- The replacement broadcast of `db_replace`: title X, from 0 to 3600. -/
def bcast_epoch : epg_broadcast_t :=
  { id := 10, channel := some 7, start := 0, stop := 3600,
    episode := some { title := some [("eng", "X")] } }

/-- A store whose entry `de_replace` is bound to broadcast 9; the schedule of
its channel holds broadcast 10, which starts at time 0; the update window of
the configuration is 300 seconds. -/
def db_replace : dvr_db_t :=
  { dvrentries := [1],
    entries := [de_replace],
    channels := [ch_replace],
    configs := [{ dvr_id := 3, dvr_update_window := 300, dvr_entries := [1] }],
    broadcasts := [{ id := 9, refcount := 1, channel := some 7, start := 60, stop := 3600,
                     episode := some { title := some [("eng", "X")] } },
                   bcast_epoch] }

/-! ## Updates on request and from the EPG, second part -/

/-- Source `dvr_entry_update`: `_dvr_entry_update` without a broadcast. -/
def dvr_entry_update (now : Int) (s : dvr_db_t) (id : Nat)
    (de_title de_subtitle de_desc lang : Option String)
    (de_start de_stop de_start_extra de_stop_extra : Int) (pri retention : Int) :
    Option dvr_db_t :=
  _dvr_entry_update now s id none de_title de_subtitle de_desc lang de_start de_stop
    de_start_extra de_stop_extra pri retention

/-- The loop of `dvr_event_updated` over the global list: the first entry that is
SCHEDULED, has no broadcast, is on the channel of the broadcast and
fuzzy-matches it takes a reference on the broadcast, is bound to it and is
updated from it; the loop ends there. -/
def dvr_event_updated_scan (now : Int) (s : dvr_db_t) (e : Nat) (bc : epg_broadcast_t) :
    List Nat → Option dvr_db_t
  | [] => some s
  | i :: rest =>
    match de_get s i with
    | none => none
    | some de =>
      if de.de_sched_state ≠ DVR_SCHEDULED then dvr_event_updated_scan now s e bc rest
      else if de.de_bcast ≠ none then dvr_event_updated_scan now s e bc rest
      else if de.de_channel ≠ bc.channel then dvr_event_updated_scan now s e bc rest
      else
        match dvr_entry_fuzzy_match s de bc with
        | none => none
        | some true =>
          _dvr_entry_update now (de_put (epg_getref s e) { de with de_bcast := some e }) i
            (some e) none none none none 0 0 0 0 DVR_PRIO_NOTSET 0
        | some false => dvr_event_updated_scan now s e bc rest

/-- Source `dvr_event_updated`, run at wall-clock time `now`. -/
def dvr_event_updated (now : Int) (s : dvr_db_t) (e : Nat) : Option dvr_db_t :=
  match dvr_entry_find_by_event s e with
  | none => none
  | some (some id) =>
    _dvr_entry_update now s id (some e) none none none none 0 0 0 0 DVR_PRIO_NOTSET 0
  | some none =>
    match bcast_get s e with
    | none => none
    | some bc => dvr_event_updated_scan now s e bc s.dvrentries

/-! ## Writing properties of an existing entry

Modelled from the spec: `idnode_update` is not part of the source at hand.  It
walks the property table of `dvr_entry_class` (which is) in its order; a
property is written when the map has a field of its name and of its type and
the property is not read-only, its options being those of `get_opts` when the
property has that callback; it is written through its setter when it has one
and at its offset otherwise.  When a write reported a change the class is
saved (`ic_save`, which is `dvr_entry_class_save`) and a notification is
sent. -/

/-- Source `dvr_entry_class_start_opts`: whether the options hold `PO_RDONLY`. -/
def dvr_entry_class_start_opts (de : dvr_entry_t) : Bool := !dvr_entry_is_editable de

/-- Source `dvr_entry_class_start_extra_opts`: whether the options hold
`PO_RDONLY`. -/
def dvr_entry_class_start_extra_opts (de : dvr_entry_t) : Bool := !dvr_entry_is_editable de

/-- Source `dvr_entry_class_save`, run at wall-clock time `now`. -/
def dvr_entry_class_save (now : Int) (s : dvr_db_t) (id : Nat) : Option dvr_db_t :=
  match dvr_entry_save s id with
  | none => none
  | some s1 =>
    match de_get s1 id with
    | none => none
    | some de => if dvr_entry_is_valid de then dvr_entry_set_timer now s1 id else some s1

/-- Modelled from the spec: write a property that is not read-only through its
setter; the flag of the walk is raised by the result of the setter. -/
def prop_set_upd {α : Type} (rdonly : dvr_entry_t → Bool) (nv : Option α)
    (set : dvr_db_t → α → Option (dvr_db_t × Bool)) (id : Nat) (r : dvr_db_t × Bool) :
    Option (dvr_db_t × Bool) :=
  match nv with
  | none => some r
  | some v =>
    match de_get r.1 id with
    | none => none
    | some de =>
      if rdonly de then some r
      else (set r.1 v).map (fun q => (q.1, r.2 || q.2))

/-- Modelled from the spec: write a property that is not read-only at its
offset; the flag of the walk is raised when the stored value differs. -/
def prop_off_upd {α : Type} (nv : Option α) (id : Nat) (wr : dvr_entry_t → α → dvr_entry_t)
    (r : dvr_db_t × Bool) : Option (dvr_db_t × Bool) :=
  match nv with
  | none => some r
  | some v =>
    match de_get r.1 id with
    | none => none
    | some de => some (de_put r.1 (wr de v), r.2 || decide (wr de v ≠ de))

/-- Modelled from the spec: `idnode_update` on an entry, over the properties of
`dvr_entry_class` that are not `PO_RDONLY`, in the order of the table; the new
state and whether something was saved. -/
def idnode_update (now : Int) (s : dvr_db_t) (id : Nat) (c : Option htsmsg_t) :
    Option (dvr_db_t × Bool) :=
  match
    (some (s, false))
    |>.bind (prop_set_upd dvr_entry_class_start_opts (htsmsg_get_s64 c "start")
              (fun s v => dvr_entry_class_start_set s id v) id)
    |>.bind (prop_set_upd dvr_entry_class_start_extra_opts (htsmsg_get_s64 c "start_extra")
              (fun s v => dvr_entry_class_start_extra_set s id v) id)
    |>.bind (prop_set_upd (fun _ => false) (htsmsg_get_s64 c "stop")
              (fun s v => dvr_entry_class_stop_set s id v) id)
    |>.bind (prop_off_upd (htsmsg_get_s64 c "stop_extra") id
              (fun de v => { de with de_stop_extra := v }))
    |>.bind (prop_set_upd dvr_entry_class_start_opts (htsmsg_get_str c "channel")
              (fun s v => dvr_entry_class_channel_set s id (some v)) id)
    |>.bind (prop_set_upd (fun _ => false) (htsmsg_get_str c "disp_title")
              (fun s v => dvr_entry_class_disp_title_set s id (some v)) id)
    |>.bind (prop_set_upd (fun _ => false) (htsmsg_get_str c "disp_subtitle")
              (fun s v => dvr_entry_class_disp_subtitle_set s id (some v)) id)
    |>.bind (prop_set_upd (fun _ => false) (prop_int c "pri")
              (fun s v => dvr_entry_class_pri_set s id v) id)
    |>.bind (prop_set_upd (fun _ => false) (prop_int c "retention")
              (fun s v => dvr_entry_class_retention_set s id v) id)
    |>.bind (prop_set_upd dvr_entry_class_start_opts (htsmsg_get_str c "config_name")
              (fun s v => dvr_entry_class_config_name_set s id (some v)) id)
    |>.bind (prop_off_upd (htsmsg_get_str c "comment") id
              (fun de v => { de with de_comment := prop_str_wr de.de_comment v }))
  with
  | none => none
  | some r =>
    if r.2 then
      (dvr_entry_class_save now r.1 id).map
        (fun s1 => (emit s1 [dvr_effect.idnode_notify_simple id], true))
    else some (r.1, false)

/-- A recording that is over: COMPLETED, from 1000 to 2000 on channel 7, with a
file, no retention of its own and no comment. -/
def de_done : dvr_entry_t :=
  { de_id := 1, de_sched_state := DVR_COMPLETED, de_start := 1000, de_stop := 2000,
    de_channel := some 7, de_config := some 3, de_filename := some "/rec/x.mkv" }

/-- A store whose only entry is `de_done`; the dispatcher clock is at 5000. -/
def db_done : dvr_db_t :=
  { dvrentries := [1],
    entries := [de_done],
    channels := [{ ch_id := 7, ch_dvrs := [1] }, { ch_id := 8 }],
    configs := [{ dvr_id := 3, dvr_entries := [1] }, { dvr_id := 6, dvr_config_name := "alt" }],
    autorecs := [{ dae_id := 4 }],
    timerecs := [{ dte_id := 5 }],
    dispatch_clock := 5000 }

/-- The store `db_sched` with the dispatcher clock at 5000. -/
def db_sched_late : dvr_db_t := { db_sched with dispatch_clock := 5000 }

/-- The store `db_rules` with a second autorec rule 6 and a second timerec rule
8, both without entries. -/
def db_two_rules : dvr_db_t :=
  { db_rules with
    autorecs := [{ dae_id := 4, dae_spawns := [1] }, { dae_id := 6 }],
    timerecs := [{ dte_id := 5, dte_spawn := some 1 }, { dte_id := 8 }] }

/-- The broadcast that `_dvr_entry_update` reads its window and titles from:
none when no broadcast is handed in (`some none`); a pointer that does not
resolve is a crash. -/
def dvr_entry_update_eb (s : dvr_db_t) (e : Option Nat) : Option (Option epg_broadcast_t) :=
  match e with
  | none => some none
  | some b => (bcast_get s b).map some

/-- The references that the binding step of `_dvr_entry_update` moves (lines
918-926): when a broadcast is handed in and the entry is bound to another one
or to none, the old broadcast loses a reference and the new one gains one. -/
def dvr_entry_update_refs (s : dvr_db_t) (old e : Option Nat) : dvr_db_t :=
  match e with
  | some b =>
    if old ≠ some b then
      epg_getref (match old with
                  | some b0 => epg_putref s b0
                  | none => s) b
    else s
  | none => s

/-- Nothing that the engine stores differs between the two states: every
entry pointer reads the same record, and the global list, the channels, the
configurations, the rules, the broadcasts, the settings and the trace are the
same. -/
def dvr_db_same (s s' : dvr_db_t) : Prop :=
  (∀ j, de_get s' j = de_get s j) ∧ s'.dvrentries = s.dvrentries ∧
  s'.channels = s.channels ∧ s'.configs = s.configs ∧ s'.autorecs = s.autorecs ∧
  s'.timerecs = s.timerecs ∧ s'.broadcasts = s.broadcasts ∧ s'.settings = s.settings ∧
  s'.trace = s.trace

/-- The entries that `dvr_event_updated` may bind to a broadcast, as the
specification words it: SCHEDULED, not bound, on the channel of the broadcast
and fuzzy-matching it. -/
def event_updated_candidate (s : dvr_db_t) (bc : epg_broadcast_t) (i : Nat) : Bool :=
  match de_get s i with
  | some de =>
    de.de_sched_state == DVR_SCHEDULED && de.de_bcast == none &&
      de.de_channel == bc.channel && dvr_entry_fuzzy_match s de bc == some true
  | none => false

/-- An entry scheduled from 60 to 3600 on channel 7, bound to broadcast 9, with
title X and subtitle "old". -/
def de_updated : dvr_entry_t :=
  { de_id := 1, de_sched_state := DVR_SCHEDULED, de_start := 60, de_stop := 3600,
    de_channel := some 7, de_channel_name := some "one", de_config := some 3,
    de_bcast := some 9, de_title := some [("eng", "X")],
    de_subtitle := some [("eng", "old")] }

/-- A broadcast from 60 to 3600 on channel 7 with event id 77, whose episode has
title Y, subtitle "new", genre code 35 and number "Season 1.Episode 2". -/
def bcast_full : epg_broadcast_t :=
  { id := 9, refcount := 1, channel := some 7, start := 60, stop := 3600, dvb_eid := 77,
    episode := some { title := some [("eng", "Y")], subtitle := some [("eng", "new")],
                      genre := [35], epnum := "Season 1.Episode 2" } }

/-- A broadcast on channel 7 that starts at time 0 and stops at 4000, whose
episode has neither title nor genre nor number. -/
def bcast_sparse : epg_broadcast_t :=
  { id := 9, refcount := 1, channel := some 7, start := 0, stop := 4000, dvb_eid := 77,
    episode := some { title := none, subtitle := some [("eng", "new")] } }

/-- A store whose entry `de_updated` is bound to the broadcast `bcast_full`. -/
def db_updated : dvr_db_t :=
  { dvrentries := [1],
    entries := [de_updated],
    channels := [{ ch_id := 7, ch_name := "one", ch_dvrs := [1], ch_epg_schedule := [9] }],
    configs := [{ dvr_id := 3, dvr_update_window := 300, dvr_entries := [1] }],
    broadcasts := [bcast_full] }

/-- The store `db_updated` with the broadcast `bcast_sparse` in the place of
`bcast_full`. -/
def db_updated_sparse : dvr_db_t := { db_updated with broadcasts := [bcast_sparse] }

/-- The store `db_updated` with its entry not bound: the broadcast `bcast_full`
holds no reference, the entry has title Y, and a second entry 2 on the same
channel, from 5000 to 6000, has title Z. -/
def db_unbound : dvr_db_t :=
  { dvrentries := [2, 1],
    entries := [{ de_updated with de_bcast := none, de_title := some [("eng", "Y")] },
                { de_updated with de_id := 2, de_bcast := none, de_start := 5000,
                                  de_stop := 6000, de_title := some [("eng", "Z")] }],
    channels := [{ ch_id := 7, ch_name := "one", ch_dvrs := [2, 1], ch_epg_schedule := [9] }],
    configs := [{ dvr_id := 3, dvr_update_window := 300, dvr_entries := [2, 1] }],
    broadcasts := [{ bcast_full with refcount := 0 }] }

/-! ## Reference parity on broadcasts -/

/-- The number of entries whose broadcast pointer is `b`. -/
def dvr_bcast_users (s : dvr_db_t) (b : Nat) : Nat :=
  s.entries.countP (fun de => de.de_bcast == some b)

/-- The reference count of broadcast `b` (0 when there is no such broadcast):
each `getref` adds 1 to it and each `putref` takes 1 from it. -/
def epg_refcount (s : dvr_db_t) (b : Nat) : Int :=
  match bcast_get s b with
  | some bc => bc.refcount
  | none => 0

/-- The allocations of the entries are distinct and the broadcast pointer of
every entry resolves. -/
def dvr_bcast_wf (s : dvr_db_t) : Prop :=
  (s.entries.map (fun de => de.de_id)).Nodup ∧
  ∀ de ∈ s.entries, ∀ b, de.de_bcast = some b → ∃ bc, bcast_get s b = some bc

/-- Reference parity between two states: on every broadcast, the references
taken minus the references dropped equal the entries bound since minus the
entries unbound since. -/
def dvr_bcast_parity (s s' : dvr_db_t) : Prop :=
  ∀ b, epg_refcount s' b - epg_refcount s b =
    (dvr_bcast_users s' b : Int) - (dvr_bcast_users s b : Int)

/-! ## Bulk removal -/

/-- The result of running a loop for at most a given number of iterations: the
state it returned with, a crash (a pointer that does not resolve), or the
iterations used up with the loop still running. -/
inductive dvr_run where
  | returned (s : dvr_db_t)
  | crashed
  | out_of_fuel
  deriving DecidableEq, Repr

/-- The state a run returned with, if it returned. -/
def dvr_run_state (r : dvr_run) : Option dvr_db_t :=
  match r with
  | dvr_run.returned s => some s
  | _ => none

/-- Source `dvr_entry_purge`: a recording in progress is stopped with the code
`SM_CODE_SOURCE_DELETED`; any other entry is left as it is. -/
def dvr_entry_purge (s : dvr_db_t) (id : Nat) (delconf : Bool) : Option dvr_db_t :=
  match de_get s id with
  | none => none
  | some de =>
    if de.de_sched_state = DVR_RECORDING then
      dvr_stop_recording s id sm_code.SM_CODE_SOURCE_DELETED delconf
    else some s

/-- Source `dvr_destroy_by_channel`, for at most `fuel` iterations of its loop:
the head of the list of the channel is taken out of that list, loses its
channel pointer, keeps the name of the channel and is purged. -/
def dvr_destroy_by_channel (fuel : Nat) (s : dvr_db_t) (ch : Nat) (delconf : Bool) : dvr_run :=
  match ch_get s ch with
  | none => dvr_run.crashed
  | some c =>
    match c.ch_dvrs with
    | [] => dvr_run.returned s
    | id :: _ =>
      match fuel with
      | 0 => dvr_run.out_of_fuel
      | n + 1 =>
        match de_get s id with
        | none => dvr_run.crashed
        | some de =>
          match dvr_entry_purge
              (de_put (channel_link_remove s ch id)
                { de with de_channel := none, de_channel_name := some c.ch_name })
              id delconf with
          | none => dvr_run.crashed
          | some s1 => dvr_destroy_by_channel n s1 ch delconf

/-- The loop of `dvr_entry_destroy_by_config`, for at most `fuel` iterations,
with the local `def` of the source in `dflt`: the head of the list of the
configuration is taken out of that list and handed to the default
configuration (looked up once, when `delconf` is set) or to none, and saved
when `delconf` is set. -/
def dvr_entry_destroy_by_config_loop (fuel : Nat) (s : dvr_db_t) (cfg : Nat) (delconf : Bool)
    (dflt : Option Nat) : dvr_run :=
  match cfg_get s cfg with
  | none => dvr_run.crashed
  | some k =>
    match k.dvr_entries with
    | [] => dvr_run.returned s
    | id :: _ =>
      match fuel with
      | 0 => dvr_run.out_of_fuel
      | n + 1 =>
        match de_get s id with
        | none => dvr_run.crashed
        | some de =>
          match (if delconf then
                   dvr_entry_save
                     (match (if dflt = none ∧ delconf = true then
                               dvr_config_find_by_name_default s none
                             else dflt) with
                      | some d =>
                        config_link_insert
                          (de_put (config_link_remove s cfg id)
                            { de with
                              de_config := (if dflt = none ∧ delconf = true then
                                              dvr_config_find_by_name_default s none
                                            else dflt) }) d id
                      | none =>
                        de_put (config_link_remove s cfg id)
                          { de with
                            de_config := (if dflt = none ∧ delconf = true then
                                            dvr_config_find_by_name_default s none
                                          else dflt) }) id
                 else
                   some (match (if dflt = none ∧ delconf = true then
                                  dvr_config_find_by_name_default s none
                                else dflt) with
                         | some d =>
                           config_link_insert
                             (de_put (config_link_remove s cfg id)
                               { de with
                                 de_config := (if dflt = none ∧ delconf = true then
                                                 dvr_config_find_by_name_default s none
                                               else dflt) }) d id
                         | none =>
                           de_put (config_link_remove s cfg id)
                             { de with
                               de_config := (if dflt = none ∧ delconf = true then
                                               dvr_config_find_by_name_default s none
                                             else dflt) })) with
          | none => dvr_run.crashed
          | some s4 =>
            dvr_entry_destroy_by_config_loop n s4 cfg delconf
              (if dflt = none ∧ delconf = true then dvr_config_find_by_name_default s none
               else dflt)

/-- Source `dvr_entry_destroy_by_config`, for at most `fuel` iterations of its
loop. -/
def dvr_entry_destroy_by_config (fuel : Nat) (s : dvr_db_t) (cfg : Nat) (delconf : Bool) :
    dvr_run :=
  dvr_entry_destroy_by_config_loop fuel s cfg delconf none

/-! ## Index consistency -/

/-- The list `l` holds no entry twice and holds exactly the allocated entries
that satisfy `p`. -/
def dvr_list_ok (s : dvr_db_t) (l : List Nat) (p : dvr_entry_t → Prop) : Prop :=
  l.Nodup ∧ ∀ id, id ∈ l ↔ ∃ de, de_get s id = some de ∧ p de

/-- The lists of the channels and of the configurations agree with the
pointers of the entries: an entry is in the list of channel C (configuration
K), once, exactly when its channel (configuration) pointer is C (K). -/
def dvr_links_ok (s : dvr_db_t) : Prop :=
  (∀ ch ∈ s.channels, dvr_list_ok s ch.ch_dvrs (fun de => de.de_channel = some ch.ch_id)) ∧
  (∀ cfg ∈ s.configs,
    dvr_list_ok s cfg.dvr_entries (fun de => de.de_config = some cfg.dvr_id))

/-- Index consistency for the global list, the channels and the
configurations: every allocated entry is in the global list exactly once (and
nothing else is), and the lists of the channels and the configurations agree
with the pointers of the entries. -/
def dvr_index_ok (s : dvr_db_t) : Prop :=
  dvr_list_ok s s.dvrentries (fun _ => True) ∧ dvr_links_ok s

/-- The store `db_done` with its entry being recorded. -/
def db_recording : dvr_db_t :=
  { db_done with
    entries := [{ de_done with de_sched_state := DVR_RECORDING,
                               de_rec_state := DVR_RS_RUNNING }] }

/-- Between the two states the three indices are the same lists and every
entry pointer keeps its allocation and its channel and configuration
pointers. -/
def dvr_ptr_frame (s t : dvr_db_t) : Prop :=
  t.dvrentries = s.dvrentries ∧ t.channels = s.channels ∧ t.configs = s.configs ∧
  ∀ j, (de_get t j).map (fun de => (de.de_channel, de.de_config)) =
    (de_get s j).map (fun de => (de.de_channel, de.de_config))

/-- Between the two states the consistency of the channel and configuration
lists is kept, the global list is the same and the same entries are
allocated. -/
def dvr_step_ok (s t : dvr_db_t) : Prop :=
  (dvr_links_ok s → dvr_links_ok t) ∧ t.dvrentries = s.dvrentries ∧
  ∀ j, (de_get t j).isSome = (de_get s j).isSome

/-- The store `db_sched` with a second channel 8, named "two", and a second
configuration 6, named "alt", both without entries. -/
def db_index : dvr_db_t :=
  { db_sched with
    channels := [{ ch_id := 7, ch_dvrs := [1] }, { ch_id := 8, ch_name := "two" }],
    configs := [{ dvr_id := 3, dvr_entries := [1] },
                { dvr_id := 6, dvr_config_name := "alt" }] }

/-- The store `db_pending` after the recorder opened a file while it still
waits for the programme to start. -/
def db_waiting : dvr_db_t :=
  { db_sched with
    entries := [{ de_pending with de_rec_state := DVR_RS_WAIT_PROGRAM_START,
                                  de_filename := some "a.mkv" }] }

/-- The store `db_sched` with the title X, in the default language, on its
entry. -/
def db_titled : dvr_db_t :=
  { db_sched with entries := [{ de_sched with de_title := some [("eng", "X")] }] }

/-- The store `db_dup` with the episode string of its completed recording
missing (`de_episode` is NULL). -/
def db_dup_null : dvr_db_t :=
  { db_dup with
    entries := [de_dup,
                { de_id := 2, de_sched_state := DVR_COMPLETED, de_start := 13600,
                  de_stop := 17200, de_channel := some 7, de_config := some 3,
                  de_title := some [("eng", "X")], de_episode := none,
                  de_filename := some "x.mkv" }] }

/-! ## Property schema of the entry class -/

/-- Types of a property (`PT_*`). -/
inductive prop_type where
  | PT_TIME
  | PT_STR
  | PT_LANGSTR
  | PT_INT
  | PT_U32
  | PT_U16
  | PT_BOOL
  | PT_S64
  deriving DecidableEq, Repr

/-- Option flags of a property (`PO_*`); `.opts` of the source is the set of
the flags joined by `|`. -/
inductive prop_opt where
  | PO_RDONLY
  | PO_NOSAVE
  | PO_HIDDEN
  | PO_DURATION
  | PO_SORTKEY
  deriving DecidableEq, Repr

/-- One row of a property table: the fields `.type`, `.id` and `.opts`. -/
structure property_t where
  type : prop_type
  id : String
  opts : List prop_opt := []
  deriving DecidableEq, Repr

/-- Source `dvr_entry_class.ic_properties` (lines 1835-2140), row by row in the
order of the table. -/
def dvr_entry_class_properties : List property_t :=
  [ { type := prop_type.PT_TIME, id := "start", opts := [] },
    { type := prop_type.PT_TIME, id := "start_extra", opts := [prop_opt.PO_DURATION, prop_opt.PO_SORTKEY] },
    { type := prop_type.PT_TIME, id := "start_real", opts := [prop_opt.PO_RDONLY, prop_opt.PO_NOSAVE] },
    { type := prop_type.PT_TIME, id := "stop", opts := [] },
    { type := prop_type.PT_TIME, id := "stop_extra", opts := [prop_opt.PO_DURATION, prop_opt.PO_SORTKEY] },
    { type := prop_type.PT_TIME, id := "stop_real", opts := [prop_opt.PO_RDONLY, prop_opt.PO_NOSAVE] },
    { type := prop_type.PT_TIME, id := "duration", opts := [prop_opt.PO_RDONLY, prop_opt.PO_NOSAVE, prop_opt.PO_DURATION] },
    { type := prop_type.PT_STR, id := "channel", opts := [] },
    { type := prop_type.PT_STR, id := "channel_icon", opts := [prop_opt.PO_HIDDEN, prop_opt.PO_RDONLY, prop_opt.PO_NOSAVE] },
    { type := prop_type.PT_STR, id := "channelname", opts := [prop_opt.PO_RDONLY] },
    { type := prop_type.PT_LANGSTR, id := "title", opts := [prop_opt.PO_RDONLY] },
    { type := prop_type.PT_STR, id := "disp_title", opts := [prop_opt.PO_NOSAVE] },
    { type := prop_type.PT_LANGSTR, id := "subtitle", opts := [prop_opt.PO_RDONLY] },
    { type := prop_type.PT_STR, id := "disp_subtitle", opts := [prop_opt.PO_NOSAVE] },
    { type := prop_type.PT_LANGSTR, id := "description", opts := [prop_opt.PO_RDONLY] },
    { type := prop_type.PT_STR, id := "disp_description", opts := [prop_opt.PO_RDONLY, prop_opt.PO_NOSAVE, prop_opt.PO_HIDDEN] },
    { type := prop_type.PT_INT, id := "pri", opts := [prop_opt.PO_SORTKEY] },
    { type := prop_type.PT_INT, id := "retention", opts := [] },
    { type := prop_type.PT_INT, id := "container", opts := [prop_opt.PO_RDONLY] },
    { type := prop_type.PT_STR, id := "config_name", opts := [] },
    { type := prop_type.PT_STR, id := "owner", opts := [prop_opt.PO_RDONLY] },
    { type := prop_type.PT_STR, id := "creator", opts := [prop_opt.PO_RDONLY] },
    { type := prop_type.PT_STR, id := "filename", opts := [prop_opt.PO_RDONLY] },
    { type := prop_type.PT_STR, id := "directory", opts := [prop_opt.PO_RDONLY] },
    { type := prop_type.PT_U32, id := "errorcode", opts := [prop_opt.PO_RDONLY] },
    { type := prop_type.PT_U32, id := "errors", opts := [prop_opt.PO_RDONLY] },
    { type := prop_type.PT_U32, id := "data_errors", opts := [prop_opt.PO_RDONLY] },
    { type := prop_type.PT_U16, id := "dvb_eid", opts := [prop_opt.PO_RDONLY] },
    { type := prop_type.PT_BOOL, id := "noresched", opts := [prop_opt.PO_RDONLY] },
    { type := prop_type.PT_STR, id := "autorec", opts := [prop_opt.PO_RDONLY] },
    { type := prop_type.PT_STR, id := "timerec", opts := [prop_opt.PO_RDONLY] },
    { type := prop_type.PT_U32, id := "content_type", opts := [prop_opt.PO_RDONLY, prop_opt.PO_SORTKEY] },
    { type := prop_type.PT_U32, id := "broadcast", opts := [prop_opt.PO_RDONLY] },
    { type := prop_type.PT_STR, id := "episode", opts := [prop_opt.PO_RDONLY, prop_opt.PO_HIDDEN] },
    { type := prop_type.PT_STR, id := "url", opts := [prop_opt.PO_RDONLY, prop_opt.PO_NOSAVE, prop_opt.PO_HIDDEN] },
    { type := prop_type.PT_S64, id := "filesize", opts := [prop_opt.PO_RDONLY, prop_opt.PO_NOSAVE] },
    { type := prop_type.PT_STR, id := "status", opts := [prop_opt.PO_RDONLY, prop_opt.PO_NOSAVE] },
    { type := prop_type.PT_STR, id := "sched_status", opts := [prop_opt.PO_RDONLY, prop_opt.PO_NOSAVE, prop_opt.PO_HIDDEN] },
    { type := prop_type.PT_TIME, id := "duplicate", opts := [prop_opt.PO_RDONLY, prop_opt.PO_NOSAVE] },
    { type := prop_type.PT_STR, id := "comment", opts := [] } ]

/-- The ids of the rows of the schema that are not marked `PO_NOSAVE`, in the
order of the table. -/
def dvr_entry_class_saved_ids : List String :=
  (dvr_entry_class_properties.filter (fun p => !p.opts.contains prop_opt.PO_NOSAVE)).map
    (fun p => p.id)

/-- The persisted field names as the specification lists them. -/
def spec_field_names : List String :=
  ["start", "stop", "start_extra", "stop_extra", "channel", "channelname", "title",
   "subtitle", "description", "pri", "retention", "container", "config_name", "owner",
   "creator", "comment", "filename", "directory", "errorcode", "errors", "data_errors",
   "dvb_eid", "noresched", "autorec", "timerec", "content_type", "broadcast", "episode"]

/-! ## Next-start notification -/

/-- The first loop of `dvr_dbus_timer_cb` ("find the maximum value") over the
global list, `max` being the value so far. -/
def dvr_dbus_scan_max (s : dvr_db_t) : List Nat → Int → Option Int
  | [], max => some max
  | i :: rest, max =>
    match de_get s i with
    | none => none
    | some de =>
      if de.de_sched_state ≠ DVR_SCHEDULED then dvr_dbus_scan_max s rest max
      else
        match dvr_entry_get_start_time s de with
        | none => none
        | some start =>
          dvr_dbus_scan_max s rest
            (if s.dispatch_clock < start ∧ start > max then start else max)

/-- The second loop of `dvr_dbus_timer_cb` ("lower the maximum value") over the
global list, `result` being the value so far. -/
def dvr_dbus_scan_min (s : dvr_db_t) : List Nat → Int → Option Int
  | [], result => some result
  | i :: rest, result =>
    match de_get s i with
    | none => none
    | some de =>
      if de.de_sched_state ≠ DVR_SCHEDULED then dvr_dbus_scan_min s rest result
      else
        match dvr_entry_get_start_time s de with
        | none => none
        | some start =>
          dvr_dbus_scan_min s rest
            (if s.dispatch_clock < start ∧ start < result then start else result)

/-- Source `dvr_dbus_timer_cb` (compiled with `ENABLE_DBUS_1`), with its static
variable `last_result` passed in and handed back: the new state and the new
value of `last_result`. -/
def dvr_dbus_timer_cb (s : dvr_db_t) (last_result : Int) : Option (dvr_db_t × Int) :=
  match dvr_dbus_scan_max s s.dvrentries 0 with
  | none => none
  | some max =>
    match dvr_dbus_scan_min s s.dvrentries max with
    | none => none
    | some result =>
      if result ≠ 0 ∧ result ≠ last_result then
        some (emit s [dvr_effect.dbus_emit_signal_s64 "/dvr" "next" result], result)
      else some (s, last_result)

/-- The effective starts of the SCHEDULED entries of the list `l`, in the order
of the list. -/
def dvr_scheduled_starts (s : dvr_db_t) (l : List Nat) : List Int :=
  l.filterMap (fun i => (de_get s i).bind (fun de =>
    if de.de_sched_state = DVR_SCHEDULED then dvr_entry_get_start_time s de else none))

/-- The values that the next-start signal chooses from, in the words of the
specification: the effective starts, later than the clock of the dispatcher, of
the SCHEDULED entries of the global list. -/
def dvr_next_start_candidates (s : dvr_db_t) : List Int :=
  (dvr_scheduled_starts s s.dvrentries).filter (fun st => decide (s.dispatch_clock < st))

/-- The store `db_index` with a second scheduled entry, from 500 to 900 on
channel 8, and the dispatcher clock at 100. -/
def db_next : dvr_db_t :=
  { db_index with
    dvrentries := [2, 1],
    entries := [de_sched,
                { de_id := 2, de_sched_state := DVR_SCHEDULED, de_start := 500, de_stop := 900,
                  de_channel := some 8, de_config := some 3 }],
    channels := [{ ch_id := 7, ch_dvrs := [1] }, { ch_id := 8, ch_name := "two", ch_dvrs := [2] }],
    configs := [{ dvr_id := 3, dvr_entries := [2, 1] },
                { dvr_id := 6, dvr_config_name := "alt" }],
    dispatch_clock := 100 }

/-! ## A recording has a channel -/

/-- Every allocated entry whose state is RECORDING has a channel. -/
def dvr_recording_ok (s : dvr_db_t) : Prop :=
  ∀ de ∈ s.entries, de.de_sched_state = DVR_RECORDING → de.de_channel ≠ none

/-! ## File name stem

Modelled from the spec: `snprintf`, `strftime`, the macro `DVR_CH_NAME` and
`epg_episode_number_format` are not part of the source at hand.  `snprintf`
with the format "%s" writes its text cut to the size of the buffer less one
(the terminator); handed a null pointer it does not return.  `strftime` writes
the date as YYYY-MM-DD for "%F" and the time as HH-MM for "%H-%M".
`DVR_CH_NAME` is the name of the channel of the entry, or the stored channel
name of an entry without channel.  `epg_episode_number_format` writes its
prefix and the number of the episode, and nothing for an episode without
number. -/

/-- Modelled from the spec: the call
`snprintf(output + strlen(output), outlen - strlen(output), "%s", str)`, which
appends to the text in `output` what fits into the buffer of size `outlen`. -/
def snprintf_cat (output : String) (outlen : Nat) (str : String) : String :=
  String.mk (output.data ++ str.data.take (outlen - output.length - 1))

/-- A number in decimal, padded with zeros to `w` digits (`%0wd`). -/
def zero_pad (w : Nat) (n : Nat) : String :=
  String.mk (List.replicate (w - (toString n).length) '0') ++ toString n

/-- Modelled from the spec: the libc `strftime` with the format "%F". -/
def strftime_F (t : tm) : String :=
  zero_pad 4 (t.tm_year + 1900).toNat ++ "-" ++ zero_pad 2 (t.tm_mon + 1).toNat ++ "-" ++
    zero_pad 2 t.tm_mday.toNat

/-- Modelled from the spec: the libc `strftime` with the format "%H-%M". -/
def strftime_HM (t : tm) : String :=
  zero_pad 2 t.tm_hour.toNat ++ "-" ++ zero_pad 2 t.tm_min.toNat

/-- Modelled from the spec: the macro `DVR_CH_NAME`. -/
def DVR_CH_NAME (s : dvr_db_t) (de : dvr_entry_t) : Option String :=
  match de.de_channel with
  | some c => (ch_get s c).map (fun (ch : channel_t) => ch.ch_name)
  | none => de.de_channel_name

/-- Modelled from the spec: the text that `epg_episode_number_format` writes
with the prefix ".", the formats "S%02d" and "E%02d" and no separator. -/
def epg_episode_number_format_short (ep : epg_episode_t) : String :=
  if ep.epnum_short = "" then "" else "." ++ ep.epnum_short

/-- The two places of `dvr_make_title` that append the episode of the bound
broadcast: `if (de->de_bcast && de->de_bcast->episode)
epg_episode_number_format(...)`. -/
def dvr_make_title_episode (s : dvr_db_t) (outlen : Nat) (de : dvr_entry_t)
    (output : String) : Option String :=
  match de.de_bcast with
  | none => some output
  | some b =>
    match bcast_get s b with
    | none => none
    | some bc =>
      match bc.episode with
      | none => some output
      | some ep => some (snprintf_cat output outlen (epg_episode_number_format_short ep))

/-- Source `dvr_make_title`: the text left in the buffer `output` of size
`outlen`.  A buffer of size 0 is written or read out of bounds (`output[0] = 0`,
`strlen(output)`), and `cfg = de->de_config` is read through: neither case
returns a result. -/
def dvr_make_title (s : dvr_db_t) (outlen : Nat) (de : dvr_entry_t) : Option String :=
  if outlen = 0 then none
  else
    match de.de_config.bind (cfg_get s) with
    | none => none
    | some cfg =>
      (if cfg.dvr_channel_in_title then
         (DVR_CH_NAME s de).map (fun n => snprintf_cat "" outlen (n ++ "-"))
       else some "").bind (fun o1 =>
      (if cfg.dvr_omit_title = false then
         (lang_str_get de.de_title).map (fun t => snprintf_cat o1 outlen t)
       else some o1).bind (fun o2 =>
      (if cfg.dvr_episode_before_date ∧ cfg.dvr_episode_in_title then
         dvr_make_title_episode s outlen de o2
       else some o2).bind (fun o3 =>
      (if cfg.dvr_subtitle_in_title ∧ de.de_subtitle ≠ none then
         (lang_str_get de.de_subtitle).map (fun t => snprintf_cat o3 outlen ("." ++ t))
       else some o3).bind (fun o4 =>
      let o5 := if cfg.dvr_date_in_title then
                  snprintf_cat o4 outlen ("." ++ strftime_F (localtime_r s de.de_start))
                else o4
      let o6 := if cfg.dvr_time_in_title then
                  snprintf_cat o5 outlen ("." ++ strftime_HM (localtime_r s de.de_start))
                else o5
      if cfg.dvr_episode_before_date = false ∧ cfg.dvr_episode_in_title then
        dvr_make_title_episode s outlen de o6
      else some o6))))

/-- The episode text of the bound broadcast, empty without a broadcast, without
an episode or without a number. -/
def make_title_episode_text (s : dvr_db_t) (de : dvr_entry_t) : String :=
  match (de.de_bcast.bind (bcast_get s)).bind (fun (bc : epg_broadcast_t) => bc.episode) with
  | some ep => epg_episode_number_format_short ep
  | none => ""

/-- The parts of the file name stem in the words of the specification, in
their fixed order: channel name and "-", title, episode (before the date),
"." and subtitle, "." and date, "." and time, episode (after the date); a part
whose flag is not set is empty. -/
def make_title_parts (s : dvr_db_t) (cfg : dvr_config_t) (de : dvr_entry_t) : List String :=
  [if cfg.dvr_channel_in_title then (DVR_CH_NAME s de).getD "" ++ "-" else "",
   if cfg.dvr_omit_title = false then (lang_str_get de.de_title).getD "" else "",
   if cfg.dvr_episode_in_title ∧ cfg.dvr_episode_before_date then make_title_episode_text s de
   else "",
   if cfg.dvr_subtitle_in_title ∧ de.de_subtitle ≠ none then
     "." ++ (lang_str_get de.de_subtitle).getD "" else "",
   if cfg.dvr_date_in_title then "." ++ strftime_F (localtime_r s de.de_start) else "",
   if cfg.dvr_time_in_title then "." ++ strftime_HM (localtime_r s de.de_start) else "",
   if cfg.dvr_episode_in_title ∧ cfg.dvr_episode_before_date = false then
     make_title_episode_text s de
   else ""]

/-- The file name stem in the words of the specification: the parts, joined and
cut to the size of the buffer less one. -/
def make_title_spec (s : dvr_db_t) (cfg : dvr_config_t) (outlen : Nat) (de : dvr_entry_t) :
    String :=
  String.mk ((String.join (make_title_parts s cfg de)).data.take (outlen - 1))

/-- A configuration with every part of the file name stem switched on, the
episode before the date. -/
def cfg_all_parts : dvr_config_t :=
  { dvr_id := 3, dvr_entries := [1], dvr_channel_in_title := true,
    dvr_episode_before_date := true, dvr_episode_in_title := true,
    dvr_subtitle_in_title := true, dvr_date_in_title := true, dvr_time_in_title := true }

/-- The store `db_updated` (entry 1 from 60 to 3600 on channel "one", title X,
subtitle "old", bound to broadcast 9) with the configuration `cfg_all_parts`
and the episode number S01E02 on the episode of the broadcast. -/
def db_title : dvr_db_t :=
  { db_updated with
    configs := [cfg_all_parts],
    broadcasts := [{ bcast_full with
                     episode := some { title := some [("eng", "Y")], epnum_short := "S01E02" } }] }

/-! ## Scenario S1: scheduled, recorded, retained, expired -/

/-- Modelled from the spec: the recorder (not part of the source at hand)
writes the file name of the entry, under the lock. -/
def recorder_set_filename (s : dvr_db_t) (id : Nat) (filename : String) : Option dvr_db_t :=
  (de_get s id).map (fun de => de_put s { de with de_filename := some filename })

/-- Modelled from the spec: the recorder (not part of the source at hand)
writes the recorder state of the entry, under the lock. -/
def recorder_set_state (s : dvr_db_t) (id : Nat) (rs : dvr_rs_state_t) : Option dvr_db_t :=
  (de_get s id).map (fun de => de_put s { de with de_rec_state := rs })

/-- The property map of scenario S1 at the time `now`: start in 60 seconds, stop
in 120 seconds, one day of retention, on channel 7. -/
def s1_conf (now : Int) : htsmsg_t :=
  [("start", htsmsg_field.s64 (now + 60)), ("stop", htsmsg_field.s64 (now + 120)),
   ("retention", htsmsg_field.s64 1), ("channel", htsmsg_field.str "7")]

/-- Scenario S1, first step: the entry is created at the time `now` in the
store `db_empty`, whose channel 7 is enabled. -/
def s1_created (now : Int) : Option dvr_db_t :=
  (dvr_entry_create now db_empty (some 1) (some (s1_conf now))).map (fun r => r.1)

/-- Scenario S1, second step: the clock of the dispatcher reaches `now + 60`. -/
def s1_started (now : Int) : Option dvr_db_t :=
  (s1_created now).bind (fun s => gtimer_fire (now + 60) s 1)

/-- Scenario S1, fourth step: after the writes `recorder` of the recorder, the
clock of the dispatcher reaches `now + 120`. -/
def s1_stopped (now : Int) (recorder : dvr_db_t → Option dvr_db_t) : Option dvr_db_t :=
  ((s1_started now).bind recorder).bind (fun s => gtimer_fire (now + 120) s 1)

/-- Scenario S1, last step: the clock of the dispatcher reaches
`now + 120 + 86400`. -/
def s1_expired (now : Int) (recorder : dvr_db_t → Option dvr_db_t) : Option dvr_db_t :=
  (s1_stopped now recorder).bind (fun s => gtimer_fire (now + 120 + 86400) s 1)

/-- Modelled from the spec: the recorder reaches the state RUNNING and then
writes the file name. -/
def recorder_runs (filename : String) (s : dvr_db_t) : Option dvr_db_t :=
  (recorder_set_state s 1 DVR_RS_RUNNING).bind (fun t => recorder_set_filename t 1 filename)

/-- The entry of scenario S1 as `dvr_entry_create` leaves it. -/
def s1_entry (now : Int) : dvr_entry_t :=
  { de_id := 1, de_sched_state := DVR_SCHEDULED, de_refcnt := 1, de_start := now + 60,
    de_stop := now + 120, de_channel := some 7, de_channel_name := some "one",
    de_config := some 3, de_retention := 1, de_mc := -1,
    de_timer := some { gti_callback := dvr_timer_cb.start_recording, gti_expire := now + 30 } }

/-- The store of scenario S1 while its entry exists: `db_empty` with the entry
`de` linked into the global list, channel 7 and configuration 3. -/
def s1_db (de : dvr_entry_t) (settings : List (Nat × dvr_entry_t)) (trace : List dvr_effect) :
    dvr_db_t :=
  { db_empty with
    dvrentries := [1],
    entries := [de],
    channels := [{ ch_id := 7, ch_name := "one", ch_dvrs := [1] }],
    configs := [{ dvr_id := 3, dvr_entries := [1] }],
    settings := settings,
    trace := trace }

/-- The store reached from `db_first` by creating entry 2 from `conf_later` at
time 0: both entries are scheduled and are in the list of channel 7, the new
entry in front. -/
def db_second : dvr_db_t :=
  { db_first with
    dvrentries := [2, 1],
    entries := [{ de_id := 2, de_sched_state := DVR_SCHEDULED, de_start := 2000,
                  de_stop := 3000, de_channel := some 7, de_channel_name := some "one",
                  de_config := some 3,
                  de_timer := some { gti_callback := dvr_timer_cb.start_recording,
                                     gti_expire := 1970 } },
                { de_id := 1, de_sched_state := DVR_SCHEDULED, de_start := 1000,
                  de_stop := 2000, de_channel := some 7, de_channel_name := some "one",
                  de_config := some 3,
                  de_timer := some { gti_callback := dvr_timer_cb.start_recording,
                                     gti_expire := 970 } }],
    channels := [{ ch_id := 7, ch_name := "one", ch_dvrs := [2, 1] }],
    configs := [{ dvr_id := 3, dvr_entries := [2, 1] }],
    trace := [dvr_effect.dvr_dbus_timer_arm 5, dvr_effect.htsp_dvr_entry_add 1,
              dvr_effect.dvr_dbus_timer_arm 5, dvr_effect.htsp_dvr_entry_add 2] }

/-- The broadcast `bcast_full` stopping at 4000 instead of 3600 and referenced
twice. -/
def bcast_late : epg_broadcast_t := { bcast_full with stop := 4000, refcount := 2 }

/-- The store `db_updated` with a second entry 2, also SCHEDULED on channel 7 and
bound to broadcast 9, behind entry 1 in the list of the channel, and with the
broadcast `bcast_late`. -/
def db_updated_pair : dvr_db_t :=
  { db_updated with
    dvrentries := [1, 2],
    entries := [de_updated, { de_updated with de_id := 2 }],
    channels := [{ ch_id := 7, ch_name := "one", ch_dvrs := [1, 2], ch_epg_schedule := [9] }],
    configs := [{ dvr_id := 3, dvr_update_window := 300, dvr_entries := [1, 2] }],
    broadcasts := [bcast_late] }

/-! ## Theorems -/

theorem find_replace (l : List dvr_entry_t) (id : Nat) (de de' : dvr_entry_t)
    (h : l.find? (fun e => e.de_id == id) = some de) (hid : de'.de_id = id) :
    (l.map (fun e => if e.de_id = de'.de_id then de' else e)).find?
      (fun e => e.de_id == id) = some de' := by
  induction l with
  | nil => simp at h
  | cons x xs ih =>
    rw [List.map_cons]
    by_cases hx : x.de_id = id
    · have hh : (if x.de_id = de'.de_id then de' else x) = de' := by simp [hx, hid]
      have hb : (de'.de_id == id) = true := by simp [hid]
      rw [hh]
      simp only [List.find?, hb]
    · have hb : (x.de_id == id) = false := by simpa using hx
      have hh : (if x.de_id = de'.de_id then de' else x) = x := by simp [hid, hx]
      rw [hh]
      simp only [List.find?, hb] at h ⊢
      exact ih h

theorem de_get_de_put (s : dvr_db_t) (id : Nat) (de de' : dvr_entry_t)
    (h : de_get s id = some de) (hid : de'.de_id = id) :
    de_get (de_put s de') id = some de' := by
  unfold de_get de_put
  exact find_replace s.entries id de de' h hid

theorem de_get_id (s : dvr_db_t) (id : Nat) (de : dvr_entry_t)
    (h : de_get s id = some de) : de.de_id = id := by
  unfold de_get at h
  have := List.find?_some h
  simpa using this

theorem de_get_emit (s : dvr_db_t) (fx : List dvr_effect) (id : Nat) :
    de_get (emit s fx) id = de_get s id := rfl

/-- Reading an entry back after it was stored and calls were traced. -/
theorem de_get_emit_de_put (s : dvr_db_t) (id : Nat) (de de' : dvr_entry_t)
    (fx : List dvr_effect) (h : de_get s id = some de) (hid : de'.de_id = id) :
    de_get (emit (de_put s de') fx) id = some de' := by
  rw [de_get_emit]
  exact de_get_de_put s id de de' h hid

/-- C2. An entry that is RECORDING, with `now` before its effective stop and
`dont_reschedule` unset, keeps every field (so `de_sched_state` stays RECORDING
and `de_rec_state` is unchanged) except the timer, which is armed with the
stop-recording callback at the effective stop. -/
theorem set_timer_recording (now : Int) (s : dvr_db_t) (id : Nat) (de : dvr_entry_t)
    (start stop : Int)
    (hde : de_get s id = some de)
    (hstart : dvr_entry_get_start_time s de = some start)
    (hstop : dvr_entry_get_stop_time s de = some stop)
    (hrec : de.de_sched_state = DVR_RECORDING)
    (hnow : now < stop)
    (hdr : de.de_dont_reschedule = false) :
    ∃ s' de', dvr_entry_set_timer now s id = some s' ∧ de_get s' id = some de' ∧
      de' = { de with de_timer := some { gti_callback := dvr_timer_cb.stop_recording,
                                         gti_expire := stop } } ∧
      de'.de_sched_state = DVR_RECORDING ∧ de'.de_rec_state = de.de_rec_state := by
  have hid := de_get_id s id de hde
  have hterm : ¬ (now ≥ stop ∨ de.de_dont_reschedule = true) := by
    rw [hdr]; simp; exact hnow
  unfold dvr_entry_set_timer
  simp only [hde, hstart, hstop, if_neg hterm, if_pos hrec]
  exact ⟨_, _, rfl, de_get_de_put s id de _ hde hid, rfl, hrec, rfl⟩

/-- C2 at the store `db_rec`, reconciled at time 1500, before the stop 2000. -/
theorem set_timer_recording_witness :
    ∃ s' de', dvr_entry_set_timer 1500 db_rec 1 = some s' ∧ de_get s' 1 = some de' ∧
      de' = { de_rec with de_timer := some { gti_callback := dvr_timer_cb.stop_recording,
                                             gti_expire := 2000 } } ∧
      de'.de_sched_state = DVR_RECORDING ∧ de'.de_rec_state = de_rec.de_rec_state :=
  set_timer_recording 1500 db_rec 1 de_rec 970 2000 (by decide) (by decide) (by decide)
    (by decide) (by decide) (by decide)

/-- C3. An entry that is not RECORDING, with `now` before its effective stop,
`dont_reschedule` unset and a non-null enabled channel, becomes SCHEDULED with
the start-recording callback armed at the effective start; no other field
changes. -/
theorem set_timer_scheduled (now : Int) (s : dvr_db_t) (id : Nat) (de : dvr_entry_t)
    (start stop : Int) (c : Nat) (ch : channel_t)
    (hde : de_get s id = some de)
    (hstart : dvr_entry_get_start_time s de = some start)
    (hstop : dvr_entry_get_stop_time s de = some stop)
    (hrec : de.de_sched_state ≠ DVR_RECORDING)
    (hnow : now < stop)
    (hdr : de.de_dont_reschedule = false)
    (hc : de.de_channel = some c) (hch : ch_get s c = some ch)
    (hen : ch.ch_enabled = true) :
    ∃ s' de', dvr_entry_set_timer now s id = some s' ∧ de_get s' id = some de' ∧
      de' = { de with de_sched_state := DVR_SCHEDULED,
                      de_timer := some { gti_callback := dvr_timer_cb.start_recording,
                                         gti_expire := start } } := by
  have hid := de_get_id s id de hde
  have hterm : ¬ (now ≥ stop ∨ de.de_dont_reschedule = true) := by
    rw [hdr]; simp; exact hnow
  have hce : dvr_entry_channel_enabled s de = some true := by
    simp [dvr_entry_channel_enabled, hc, hch, hen]
  unfold dvr_entry_set_timer
  simp only [hde, hstart, hstop, if_neg hterm, if_neg hrec, hce]
  exact ⟨_, _, rfl, de_get_emit_de_put s id de _ _ hde hid, rfl⟩

/-- C3 at the store `db_sched`, reconciled at time 500. -/
theorem set_timer_scheduled_witness :
    ∃ s' de', dvr_entry_set_timer 500 db_sched 1 = some s' ∧ de_get s' 1 = some de' ∧
      de' = { de_sched with de_sched_state := DVR_SCHEDULED,
                            de_timer := some { gti_callback := dvr_timer_cb.start_recording,
                                               gti_expire := 970 } } :=
  set_timer_scheduled 500 db_sched 1 de_sched 970 2000 7 { ch_id := 7, ch_dvrs := [1] }
    (by decide) (by decide) (by decide) (by decide) (by decide) (by decide) (by decide)
    (by decide) (by decide)

/-- C4 as stated fails: in `db_disabled` the entry is not RECORDING, time 500
is before its effective stop 2000, `dont_reschedule` is unset and its channel
is disabled; after the reconciler the state is NOSTATE but the start-recording
callback armed before the call is still armed. -/
theorem nostate_keeps_armed_timer :
    de_get db_disabled 1 = some de_disabled ∧
    de_disabled.de_sched_state ≠ DVR_RECORDING ∧
    dvr_entry_get_stop_time db_disabled de_disabled = some 2000 ∧
    de_disabled.de_dont_reschedule = false ∧
    dvr_entry_channel_enabled db_disabled de_disabled = some false ∧
    (dvr_entry_set_timer 500 db_disabled 1).bind (fun s' => de_get s' 1) =
      some { de_disabled with de_sched_state := DVR_NOSTATE } ∧
    ({ de_disabled with de_sched_state := DVR_NOSTATE } : dvr_entry_t).de_timer =
      some { gti_callback := dvr_timer_cb.start_recording, gti_expire := 970 } := by
  decide

/-- C4 (amended). An entry that is not RECORDING, with `now` before its
effective stop, `dont_reschedule` unset and a channel that is null or
disabled, gets state NOSTATE; the reconciler arms no timer and leaves the
timer slot, like every other field, as it was before the call. -/
theorem set_timer_nostate (now : Int) (s : dvr_db_t) (id : Nat) (de : dvr_entry_t)
    (start stop : Int)
    (hde : de_get s id = some de)
    (hstart : dvr_entry_get_start_time s de = some start)
    (hstop : dvr_entry_get_stop_time s de = some stop)
    (hrec : de.de_sched_state ≠ DVR_RECORDING)
    (hnow : now < stop)
    (hdr : de.de_dont_reschedule = false)
    (hch : de.de_channel = none ∨
           ∃ c ch, de.de_channel = some c ∧ ch_get s c = some ch ∧ ch.ch_enabled = false) :
    ∃ s' de', dvr_entry_set_timer now s id = some s' ∧ de_get s' id = some de' ∧
      de' = { de with de_sched_state := DVR_NOSTATE } ∧
      de'.de_sched_state = DVR_NOSTATE ∧ de'.de_timer = de.de_timer := by
  have hid := de_get_id s id de hde
  have hterm : ¬ (now ≥ stop ∨ de.de_dont_reschedule = true) := by
    rw [hdr]; simp; exact hnow
  have hce : dvr_entry_channel_enabled s de = some false := by
    rcases hch with h | ⟨c, ch, hc, hg, hen⟩
    · simp [dvr_entry_channel_enabled, h]
    · simp [dvr_entry_channel_enabled, hc, hg, hen]
  unfold dvr_entry_set_timer
  simp only [hde, hstart, hstop, if_neg hterm, if_neg hrec, hce]
  exact ⟨_, _, rfl, de_get_de_put s id de _ hde hid, rfl, rfl, rfl⟩

/-- C4 (amended) at the store `db_disabled`, reconciled at time 500. -/
theorem set_timer_nostate_witness :
    ∃ s' de', dvr_entry_set_timer 500 db_disabled 1 = some s' ∧ de_get s' 1 = some de' ∧
      de' = { de_disabled with de_sched_state := DVR_NOSTATE } ∧
      de'.de_sched_state = DVR_NOSTATE ∧ de'.de_timer = de_disabled.de_timer :=
  set_timer_nostate 500 db_disabled 1 de_disabled 970 2000 (by decide) (by decide) (by decide)
    (by decide) (by decide) (by decide)
    (Or.inr ⟨7, { ch_id := 7, ch_enabled := false, ch_dvrs := [1] }, by decide, by decide,
      by decide⟩)

/-- A value inside the range of `int` is unchanged by the conversion. -/
theorem to_int_of_range (x : Int) (hlo : -2147483648 ≤ x) (hhi : x < 2147483648) :
    to_int x = x := by
  unfold to_int Int.bmod
  simp only
  split <;> omega

/-- The code of `dvr_entry_get_start_time` and `dvr_entry_get_stop_time`
yields `start - 60 * pre - 30` and `stop + 60 * post` when these fit in an
`int`. -/
theorem get_start_stop_time_in_range (s : dvr_db_t) (de : dvr_entry_t) (pre post : Int)
    (hpre : dvr_entry_get_extra_time_pre s de = some pre)
    (hpost : dvr_entry_get_extra_time_post s de = some post)
    (h1 : -2147483648 ≤ de.de_start - 60 * pre - 30)
    (h2 : de.de_start - 60 * pre - 30 < 2147483648)
    (h3 : -2147483648 ≤ de.de_stop + 60 * post)
    (h4 : de.de_stop + 60 * post < 2147483648) :
    dvr_entry_get_start_time s de = some (de.de_start - 60 * pre - 30) ∧
    dvr_entry_get_stop_time s de = some (de.de_stop + 60 * post) := by
  unfold dvr_entry_get_start_time dvr_entry_get_stop_time
  rw [hpre, hpost]
  simp only [Option.map_some']
  rw [to_int_of_range _ h1 h2, to_int_of_range _ h3 h4]
  exact ⟨rfl, rfl⟩

/-- C10 at an entry starting on 19 January 2038: the extra times are 0, so the
claimed values are `2147483678 - 60 * 0 - 30 = 2147483648` and
`2147487278 + 60 * 0 = 2147487278`; the functions, declared `int`, return
`-2147483648` and `-2147480018`. -/
theorem get_start_stop_time_2038 :
    dvr_entry_get_extra_time_pre db_2038 de_2038 = some 0 ∧
    dvr_entry_get_start_time db_2038 de_2038 = some (-2147483648) ∧
    de_2038.de_start - 60 * 0 - 30 = 2147483648 ∧
    dvr_entry_get_extra_time_post db_2038 de_2038 = some 0 ∧
    dvr_entry_get_stop_time db_2038 de_2038 = some (-2147480018) ∧
    de_2038.de_stop + 60 * 0 = 2147487278 := by
  decide

/-- Dereferencing an entry looks at the allocated entries only. -/
theorem de_get_congr (s1 s2 : dvr_db_t) (id : Nat) (h : s1.entries = s2.entries) :
    de_get s1 id = de_get s2 id := by
  unfold de_get
  rw [h]

/-- The retention does not depend on the trace. -/
theorem get_retention_emit (s : dvr_db_t) (fx : List dvr_effect) (d : dvr_entry_t) :
    dvr_entry_get_retention (emit s fx) d = dvr_entry_get_retention s d := rfl

/-- The retention does not depend on the allocated entries. -/
theorem get_retention_de_put (s : dvr_db_t) (x d : dvr_entry_t) :
    dvr_entry_get_retention (de_put s x) d = dvr_entry_get_retention s d := rfl

/-- The retention does not depend on the settings store. -/
theorem get_retention_settings_save (s : dvr_db_t) (k : Nat) (x d : dvr_entry_t) :
    dvr_entry_get_retention (hts_settings_save s k x) d = dvr_entry_get_retention s d := rfl

/-- The function `dvr_entry_dec_ref` on an entry that has other references left. -/
theorem dec_ref_shared (s : dvr_db_t) (id : Nat) (de : dvr_entry_t)
    (hde : de_get s id = some de) (h : de.de_refcnt > 1) :
    dvr_entry_dec_ref s id = some (de_put s { de with de_refcnt := de.de_refcnt - 1 }) := by
  unfold dvr_entry_dec_ref
  simp only [hde, if_pos h]

/-- The function `dvr_entry_dec_ref` on the last reference, table by table. -/
theorem dec_ref_last (s : dvr_db_t) (id : Nat) (de : dvr_entry_t)
    (hde : de_get s id = some de) (h : ¬ de.de_refcnt > 1) :
    ∃ s', dvr_entry_dec_ref s id = some s' ∧
      s'.dvrentries = s.dvrentries ∧ s'.channels = s.channels ∧ s'.settings = s.settings ∧
      s'.entries = s.entries.filter (fun e => e.de_id != id) ∧
      s'.configs = (match de.de_config with
                    | some k => (config_link_remove s k id).configs
                    | none => s.configs) ∧
      s'.autorecs = (match de.de_autorec with
                     | some a => (autorec_link_remove s a id).autorecs
                     | none => s.autorecs) ∧
      s'.timerecs = (match de.de_timerec with
                     | some t => (timerec_spawn_clear s t).timerecs
                     | none => s.timerecs) ∧
      s'.trace = s.trace ++ [dvr_effect.idnode_unlink id] := by
  unfold dvr_entry_dec_ref
  simp only [hde, if_neg h]
  cases de.de_autorec <;> cases de.de_timerec <;> cases de.de_config <;> cases de.de_bcast <;>
    exact ⟨_, rfl, rfl, rfl, rfl, rfl, rfl, rfl, rfl, rfl⟩

/-- Storing an entry does not change what another pointer refers to. -/
theorem de_get_de_put_ne (s : dvr_db_t) (x : dvr_entry_t) (j : Nat) (h : x.de_id ≠ j) :
    de_get (de_put s x) j = de_get s j := by
  unfold de_get de_put
  simp only
  induction s.entries with
  | nil => rfl
  | cons e es ih =>
    rw [List.map_cons]
    by_cases he : e.de_id = x.de_id
    · have hb : (e.de_id == j) = false := by
        rw [he]; simpa using h
      have hb' : (x.de_id == j) = false := by simpa using h
      rw [if_pos he]
      simp only [List.find?, hb, hb']
      exact ih
    · rw [if_neg he]
      cases hb : (e.de_id == j)
      · simp only [List.find?, hb]
        exact ih
      · simp only [List.find?, hb]

/-- Freeing an entry does not change what another pointer refers to. -/
theorem find_filter_ne (l : List dvr_entry_t) (id j : Nat) (h : j ≠ id) :
    (l.filter (fun e => e.de_id != id)).find? (fun e => e.de_id == j) =
      l.find? (fun e => e.de_id == j) := by
  induction l with
  | nil => rfl
  | cons e es ih =>
    by_cases he : e.de_id = id
    · have hb : (e.de_id != id) = false := by simp [he]
      have hb' : (e.de_id == j) = false := by
        rw [he]; simpa using (Ne.symm h)
      simp only [List.filter_cons, hb, Bool.false_eq_true, if_false]
      simp only [List.find?, hb']
      exact ih
    · have hb : (e.de_id != id) = true := by simpa using he
      simp only [List.filter_cons, hb, if_true]
      cases hb' : (e.de_id == j)
      · simp only [List.find?, hb']
        exact ih
      · simp only [List.find?, hb']

/-- A freed entry is no longer allocated. -/
theorem find_filter_self (l : List dvr_entry_t) (id : Nat) :
    (l.filter (fun e => e.de_id != id)).find? (fun e => e.de_id == id) = none := by
  induction l with
  | nil => rfl
  | cons e es ih =>
    by_cases he : e.de_id = id
    · have hb : (e.de_id != id) = false := by simp [he]
      simp only [List.filter_cons, hb, Bool.false_eq_true, if_false]
      exact ih
    · have hb : (e.de_id != id) = true := by simpa using he
      have hb' : (e.de_id == id) = false := by simpa using he
      simp only [List.filter_cons, hb, if_true]
      simp only [List.find?, hb']
      exact ih

/-- What `dvr_entry_destroy` does, table by table. -/
theorem destroy_spec (s : dvr_db_t) (id : Nat) (de : dvr_entry_t) (delconf : Bool)
    (hde : de_get s id = some de) :
    ∃ s', dvr_entry_destroy s id delconf = some s' ∧
      s'.dvrentries = s.dvrentries.filter (fun i => i != id) ∧
      s'.channels = (match de.de_channel with
                     | some c => (channel_link_remove s c id).channels
                     | none => s.channels) ∧
      s'.settings = (if delconf = true then s.settings.filter (fun kv => kv.1 != id)
                     else s.settings) ∧
      (∀ j, j ≠ id → de_get s' j = de_get s j) ∧
      (∀ x, x ∈ s'.trace → x ∈ s.trace ∨ x = dvr_effect.htsp_dvr_entry_delete id ∨
        x = dvr_effect.dvr_inotify_del id ∨ x = dvr_effect.dvr_dbus_timer_arm 2 ∨
        x = dvr_effect.idnode_unlink id) ∧
      (de.de_refcnt > 1 →
        de_get s' id = some { de with de_timer := none, de_channel := none,
                                      de_refcnt := de.de_refcnt - 1 } ∧
        s'.configs = s.configs ∧ s'.autorecs = s.autorecs ∧ s'.timerecs = s.timerecs) ∧
      (¬ de.de_refcnt > 1 →
        de_get s' id = none ∧
        s'.configs = (match de.de_config with
                      | some k => (config_link_remove s k id).configs
                      | none => s.configs) ∧
        s'.autorecs = (match de.de_autorec with
                       | some a => (autorec_link_remove s a id).autorecs
                       | none => s.autorecs) ∧
        s'.timerecs = (match de.de_timerec with
                       | some t => (timerec_spawn_clear s t).timerecs
                       | none => s.timerecs)) := by
  have hid := de_get_id s id de hde
  have key : ∀ s4 : dvr_db_t, s4.entries = s.entries →
      ∃ s', dvr_entry_dec_ref (de_put s4 { gtimer_disarm de with de_channel := none }) id
          = some s' ∧
        s'.dvrentries = s4.dvrentries ∧ s'.channels = s4.channels ∧
        s'.settings = s4.settings ∧
        (∀ j, j ≠ id → de_get s' j = de_get s j) ∧
        (∀ x, x ∈ s'.trace → x ∈ s4.trace ∨ x = dvr_effect.idnode_unlink id) ∧
        (de.de_refcnt > 1 →
          de_get s' id = some { de with de_timer := none, de_channel := none,
                                        de_refcnt := de.de_refcnt - 1 } ∧
          s'.configs = s4.configs ∧ s'.autorecs = s4.autorecs ∧ s'.timerecs = s4.timerecs) ∧
        (¬ de.de_refcnt > 1 →
          de_get s' id = none ∧
          s'.configs = (match de.de_config with
                        | some k => (config_link_remove s4 k id).configs
                        | none => s4.configs) ∧
          s'.autorecs = (match de.de_autorec with
                         | some a => (autorec_link_remove s4 a id).autorecs
                         | none => s4.autorecs) ∧
          s'.timerecs = (match de.de_timerec with
                         | some t => (timerec_spawn_clear s4 t).timerecs
                         | none => s4.timerecs)) := by
    intro s4 h4
    have hg4 : de_get s4 id = some de := by rw [de_get_congr s4 s id h4]; exact hde
    have hgA : de_get (de_put s4 { gtimer_disarm de with de_channel := none }) id
        = some { gtimer_disarm de with de_channel := none } :=
      de_get_de_put s4 id de _ hg4 hid
    have hframe : ∀ j, j ≠ id →
        de_get (de_put s4 { gtimer_disarm de with de_channel := none }) j = de_get s j := by
      intro j hj
      rw [de_get_de_put_ne s4 _ j (by rw [show ({ gtimer_disarm de with de_channel := none } :
        dvr_entry_t).de_id = de.de_id from rfl, hid]; exact Ne.symm hj)]
      exact de_get_congr s4 s j h4
    by_cases hr : de.de_refcnt > 1
    · refine ⟨_, dec_ref_shared _ id _ hgA hr, rfl, rfl, rfl, ?_, ?_, ?_, ?_⟩
      · intro j hj
        rw [de_get_de_put_ne _ _ j (by
          rw [show ({ ({ gtimer_disarm de with de_channel := none } : dvr_entry_t) with
            de_refcnt := de.de_refcnt - 1 } : dvr_entry_t).de_id = de.de_id from rfl, hid]
          exact Ne.symm hj)]
        exact hframe j hj
      · intro x hx
        exact Or.inl hx
      · intro _
        exact ⟨de_get_de_put _ id _ _ hgA hid, rfl, rfl, rfl⟩
      · intro hn
        exact absurd hr hn
    · obtain ⟨s', h1, h2, h3, h5, h6, h7, h8, h9, h10⟩ := dec_ref_last _ id _ hgA hr
      refine ⟨s', h1, h2, h3, h5, ?_, ?_, ?_, ?_⟩
      · intro j hj
        unfold de_get
        rw [h6]
        rw [find_filter_ne _ id j hj]
        exact hframe j hj
      · intro x hx
        rw [h10] at hx
        rcases List.mem_append.mp hx with h | h
        · exact Or.inl h
        · exact Or.inr (by simpa using h)
      · intro hp
        exact absurd hp hr
      · intro _
        refine ⟨?_, h7, h8, h9⟩
        unfold de_get
        rw [h6]
        exact find_filter_self _ id
  unfold dvr_entry_destroy
  simp only [hde]
  obtain ⟨s', h1, h2, h3, h4, h5, h6, h7, h8⟩ := key
    (global_link_remove
      (match de.de_channel with
       | some c =>
         channel_link_remove
           (emit (if delconf = true then hts_settings_remove s de.de_id else s)
             [dvr_effect.htsp_dvr_entry_delete id, dvr_effect.dvr_inotify_del id,
              dvr_effect.dvr_dbus_timer_arm 2]) c id
       | none =>
         emit (if delconf = true then hts_settings_remove s de.de_id else s)
           [dvr_effect.htsp_dvr_entry_delete id, dvr_effect.dvr_inotify_del id,
            dvr_effect.dvr_dbus_timer_arm 2]) id)
    (by cases de.de_channel <;> cases delconf <;> rfl)
  refine ⟨s', h1, ?_, ?_, ?_, h5, ?_, ?_, ?_⟩
  · rw [h2]; cases de.de_channel <;> cases delconf <;> rfl
  · rw [h3]; cases de.de_channel <;> cases delconf <;> rfl
  · rw [h4, ← hid]; cases de.de_channel <;> cases delconf <;> rfl
  · intro x hx
    have htr : ∀ y, y ∈ (global_link_remove
        (match de.de_channel with
         | some c =>
           channel_link_remove
             (emit (if delconf = true then hts_settings_remove s de.de_id else s)
               [dvr_effect.htsp_dvr_entry_delete id, dvr_effect.dvr_inotify_del id,
                dvr_effect.dvr_dbus_timer_arm 2]) c id
         | none =>
           emit (if delconf = true then hts_settings_remove s de.de_id else s)
             [dvr_effect.htsp_dvr_entry_delete id, dvr_effect.dvr_inotify_del id,
              dvr_effect.dvr_dbus_timer_arm 2]) id).trace →
        y ∈ s.trace ++ [dvr_effect.htsp_dvr_entry_delete id,
            dvr_effect.dvr_inotify_del id, dvr_effect.dvr_dbus_timer_arm 2] := by
      intro y hy
      cases hc : de.de_channel <;> cases delconf <;> (rw [hc] at hy; exact hy)
    rcases h6 x hx with h | h
    · rcases List.mem_append.mp (htr x h) with h' | h'
      · exact Or.inl h'
      · simp at h'
        rcases h' with h' | h' | h'
        · exact Or.inr (Or.inl h')
        · exact Or.inr (Or.inr (Or.inl h'))
        · exact Or.inr (Or.inr (Or.inr (Or.inl h')))
    · exact Or.inr (Or.inr (Or.inr (Or.inr h)))
  · intro hp
    obtain ⟨a, b, c, d⟩ := h7 hp
    refine ⟨a, ?_, ?_, ?_⟩
    · rw [b]; cases de.de_channel <;> cases delconf <;> rfl
    · rw [c]; cases de.de_channel <;> cases delconf <;> rfl
    · rw [d]; cases de.de_channel <;> cases delconf <;> rfl
  · intro hp
    obtain ⟨a, b, c, d⟩ := h8 hp
    refine ⟨a, ?_, ?_, ?_⟩
    · rw [b]; cases de.de_channel <;> cases delconf <;> cases de.de_config <;> rfl
    · rw [c]; cases de.de_channel <;> cases delconf <;> cases de.de_autorec <;> rfl
    · rw [d]; cases de.de_channel <;> cases delconf <;> cases de.de_timerec <;> rfl

/-- After `LIST_REMOVE(de, de_channel_link)` no channel list holds the entry,
provided only the list of its own channel did. -/
theorem channel_link_remove_clean (chs : List channel_t) (c id : Nat)
    (h : ∀ ch ∈ chs, id ∈ ch.ch_dvrs → ch.ch_id = c) :
    ∀ ch' ∈ chs.map (fun ch => if ch.ch_id = c
        then { ch with ch_dvrs := ch.ch_dvrs.filter (fun i => i != id) } else ch),
      id ∉ ch'.ch_dvrs := by
  intro ch' hmem
  obtain ⟨ch, hch, rfl⟩ := List.mem_map.mp hmem
  by_cases hc : ch.ch_id = c
  · simp [hc]
  · rw [if_neg hc]
    intro hin
    exact hc (h ch hch hin)

/-- After `LIST_REMOVE(de, de_config_link)` no configuration list holds the
entry, provided only the list of its own configuration did. -/
theorem config_link_remove_clean (cfgs : List dvr_config_t) (k id : Nat)
    (h : ∀ cfg ∈ cfgs, id ∈ cfg.dvr_entries → cfg.dvr_id = k) :
    ∀ cfg' ∈ cfgs.map (fun cfg => if cfg.dvr_id = k
        then { cfg with dvr_entries := cfg.dvr_entries.filter (fun i => i != id) } else cfg),
      id ∉ cfg'.dvr_entries := by
  intro cfg' hmem
  obtain ⟨cfg, hcfg, rfl⟩ := List.mem_map.mp hmem
  by_cases hc : cfg.dvr_id = k
  · simp [hc]
  · rw [if_neg hc]
    intro hin
    exact hc (h cfg hcfg hin)

/-- After `LIST_REMOVE(de, de_autorec_link)` no spawn list holds the entry,
provided only the list of its own rule did. -/
theorem autorec_link_remove_clean (daes : List dvr_autorec_entry_t) (a id : Nat)
    (h : ∀ dae ∈ daes, id ∈ dae.dae_spawns → dae.dae_id = a) :
    ∀ dae' ∈ daes.map (fun dae => if dae.dae_id = a
        then { dae with dae_spawns := dae.dae_spawns.filter (fun i => i != id) } else dae),
      id ∉ dae'.dae_spawns := by
  intro dae' hmem
  obtain ⟨dae, hdae, rfl⟩ := List.mem_map.mp hmem
  by_cases hc : dae.dae_id = a
  · simp [hc]
  · rw [if_neg hc]
    intro hin
    exact hc (h dae hdae hin)

/-- After `de->de_timerec->dte_spawn = NULL` no rule points back at the entry,
provided only its own rule did. -/
theorem timerec_spawn_clear_clean (dtes : List dvr_timerec_entry_t) (t id : Nat)
    (h : ∀ dte ∈ dtes, dte.dte_spawn = some id → dte.dte_id = t) :
    ∀ dte' ∈ dtes.map (fun dte => if dte.dte_id = t
        then { dte with dte_spawn := none } else dte),
      dte'.dte_spawn ≠ some id := by
  intro dte' hmem
  obtain ⟨dte, hdte, rfl⟩ := List.mem_map.mp hmem
  by_cases hc : dte.dte_id = t
  · simp [hc]
  · rw [if_neg hc]
    intro hin
    exact hc (h dte hdte hin)

/-- C9 as stated fails: the entry of `db_shared` has reference count 2 and is
listed by configuration 3; after `dvr_entry_destroy` with persist-delete the
entry is still allocated and still a member of that configuration's list. -/
theorem destroy_shared_keeps_config :
    de_get db_shared 1 = some { de_sched with de_refcnt := 2 } ∧
    (dvr_entry_destroy db_shared 1 true).bind (fun s' => cfg_get s' 3) =
      some { dvr_id := 3, dvr_entries := [1] } ∧
    (dvr_timer_expire db_shared 1).bind (fun s' => cfg_get s' 3) =
      some { dvr_id := 3, dvr_entries := [1] } := by
  decide

/-- C9 (amended). For an entry of the store whose index links are consistent,
`dvr_entry_destroy` (and so the expire callback, which is destroy with
persist-delete) leaves the entry in neither the global list nor any channel
list, with its timer slot disarmed, and with its settings key removed when
persist-delete is set.  When the call drops the last reference (count at most
1) the entry is freed and is in no configuration list, no autorec spawn list
and no timerec back-pointer; when other references remain it stays allocated,
the count one less, and the configuration, autorec and timerec indices are
untouched. -/
theorem destroy_unlinks (s : dvr_db_t) (id : Nat) (de : dvr_entry_t) (delconf : Bool)
    (hde : de_get s id = some de) (hlink : dvr_entry_linked s id de) :
    dvr_timer_expire s id = dvr_entry_destroy s id true ∧
    ∃ s', dvr_entry_destroy s id delconf = some s' ∧
      id ∉ s'.dvrentries ∧
      (∀ ch ∈ s'.channels, id ∉ ch.ch_dvrs) ∧
      (∀ e, de_get s' id = some e → e.de_timer = none) ∧
      (delconf = true → ∀ kv ∈ s'.settings, kv.1 ≠ id) ∧
      (de.de_refcnt ≤ 1 →
        de_get s' id = none ∧
        (∀ cfg ∈ s'.configs, id ∉ cfg.dvr_entries) ∧
        (∀ dae ∈ s'.autorecs, id ∉ dae.dae_spawns) ∧
        (∀ dte ∈ s'.timerecs, dte.dte_spawn ≠ some id)) ∧
      (de.de_refcnt > 1 →
        de_get s' id = some { de with de_timer := none, de_channel := none,
                                      de_refcnt := de.de_refcnt - 1 } ∧
        s'.configs = s.configs ∧ s'.autorecs = s.autorecs ∧ s'.timerecs = s.timerecs) := by
  refine ⟨rfl, ?_⟩
  obtain ⟨hlch, hlcfg, hldae, hldte⟩ := hlink
  obtain ⟨s', h1, h2, h3, h4, _, _, h7, h8⟩ := destroy_spec s id de delconf hde
  refine ⟨s', h1, ?_, ?_, ?_, ?_, ?_, h7⟩
  · rw [h2]
    simp
  · rw [h3]
    cases hc : de.de_channel with
    | none =>
      intro ch hch hin
      have := hlch ch hch hin
      rw [hc] at this
      cases this
    | some c =>
      apply channel_link_remove_clean
      intro ch hch hin
      have := hlch ch hch hin
      rw [hc] at this
      exact (Option.some.inj this).symm
  · intro e he
    by_cases hr : de.de_refcnt > 1
    · rw [(h7 hr).1] at he
      rw [← Option.some.inj he]
    · rw [(h8 hr).1] at he
      cases he
  · intro hd kv hkv
    rw [h4, if_pos hd] at hkv
    simpa using (List.mem_filter.mp hkv).2
  · intro hle
    have hr : ¬ de.de_refcnt > 1 := by omega
    obtain ⟨a, b, c, d⟩ := h8 hr
    refine ⟨a, ?_, ?_, ?_⟩
    · rw [b]
      cases hc : de.de_config with
      | none =>
        intro cfg hcfg hin
        have := hlcfg cfg hcfg hin
        rw [hc] at this
        cases this
      | some k =>
        apply config_link_remove_clean
        intro cfg hcfg hin
        have := hlcfg cfg hcfg hin
        rw [hc] at this
        exact (Option.some.inj this).symm
    · rw [c]
      cases hc : de.de_autorec with
      | none =>
        intro dae hdae hin
        have := hldae dae hdae hin
        rw [hc] at this
        cases this
      | some k =>
        apply autorec_link_remove_clean
        intro dae hdae hin
        have := hldae dae hdae hin
        rw [hc] at this
        exact (Option.some.inj this).symm
    · rw [d]
      cases hc : de.de_timerec with
      | none =>
        intro dte hdte hin
        have := hldte dte hdte hin
        rw [hc] at this
        cases this
      | some k =>
        apply timerec_spawn_clear_clean
        intro dte hdte hin
        have := hldte dte hdte hin
        rw [hc] at this
        exact (Option.some.inj this).symm

/-- C9 (amended) at the store `db_rules`, destroyed with persist-delete. -/
theorem destroy_unlinks_witness :
    dvr_timer_expire db_rules 1 = dvr_entry_destroy db_rules 1 true ∧
    ∃ s', dvr_entry_destroy db_rules 1 true = some s' ∧
      1 ∉ s'.dvrentries ∧
      (∀ ch ∈ s'.channels, 1 ∉ ch.ch_dvrs) ∧
      (∀ e, de_get s' 1 = some e → e.de_timer = none) ∧
      (true = true → ∀ kv ∈ s'.settings, kv.1 ≠ 1) ∧
      (de_rules.de_refcnt ≤ 1 →
        de_get s' 1 = none ∧
        (∀ cfg ∈ s'.configs, 1 ∉ cfg.dvr_entries) ∧
        (∀ dae ∈ s'.autorecs, 1 ∉ dae.dae_spawns) ∧
        (∀ dte ∈ s'.timerecs, dte.dte_spawn ≠ some 1)) ∧
      (de_rules.de_refcnt > 1 →
        de_get s' 1 = some { de_rules with de_timer := none, de_channel := none,
                                           de_refcnt := de_rules.de_refcnt - 1 } ∧
        s'.configs = db_rules.configs ∧ s'.autorecs = db_rules.autorecs ∧
        s'.timerecs = db_rules.timerecs) :=
  destroy_unlinks db_rules 1 de_rules true (by decide) (by unfold dvr_entry_linked; decide)

/-- A hit of the deduper's loop is an entry of the scanned list other than the
entry being checked. -/
theorem dup_scan_hit (s : dvr_db_t) (de : dvr_entry_t) (record : dvr_autorec_dedup_t)
    (t : tm) (l : List Nat) (d : Nat)
    (h : dvr_duplicate_scan s de record t l = some (some d)) :
    d ≠ de.de_id ∧ d ∈ l := by
  induction l with
  | nil =>
    rw [dvr_duplicate_scan] at h
    cases h
  | cons i rest ih =>
    rw [dvr_duplicate_scan] at h
    have hrec : dvr_duplicate_scan s de record t rest = some (some d) →
        d ≠ de.de_id ∧ d ∈ i :: rest :=
      fun hh => ⟨(ih hh).1, List.mem_cons_of_mem _ (ih hh).2⟩
    have hhit : (some (some i) : Option (Option Nat)) = some (some d) → ¬ i = de.de_id →
        d ≠ de.de_id ∧ d ∈ i :: rest := by
      intro hh hne
      cases hh
      exact ⟨hne, List.mem_cons_self _ _⟩
    iterate 14
      all_goals
        try (first
          | exact hrec h
          | exact hhit h (by assumption)
          | exact Option.noConfusion h
          | split at h
          | simp only at h)

/-- The timer slot of the entry being checked plays no part in the deduper's
loop. -/
theorem dup_scan_disarm (s : dvr_db_t) (de : dvr_entry_t) (record : dvr_autorec_dedup_t)
    (t : tm) (l : List Nat) :
    dvr_duplicate_scan (de_put s (gtimer_disarm de)) (gtimer_disarm de) record t l =
      dvr_duplicate_scan s de record t l := by
  induction l with
  | nil => simp only [dvr_duplicate_scan]
  | cons i rest ih =>
    simp only [dvr_duplicate_scan]
    by_cases hi : i = de.de_id
    · have hi' : i = (gtimer_disarm de).de_id := hi
      rw [if_pos hi, if_pos hi']
      exact ih
    · have hi' : ¬ i = (gtimer_disarm de).de_id := hi
      rw [if_neg hi, if_neg hi']
      rw [de_get_de_put_ne s (gtimer_disarm de) i (fun hh => hi (hh.symm))]
      cases de_get s i with
      | none => rfl
      | some de2 =>
        simp only [ih]
        rfl

/-- The timer slot of the entry being checked plays no part in the deduper. -/
theorem duplicate_event_disarm (s : dvr_db_t) (de : dvr_entry_t) :
    _dvr_duplicate_event (de_put s (gtimer_disarm de)) (gtimer_disarm de) =
      _dvr_duplicate_event s de := by
  unfold _dvr_duplicate_event
  have h1 : (gtimer_disarm de).de_autorec = de.de_autorec := rfl
  rw [h1]
  cases de.de_autorec with
  | none => rfl
  | some a =>
    have h2 : dae_get (de_put s (gtimer_disarm de)) a = dae_get s a := rfl
    simp only [h2]
    cases dae_get s a with
    | none => rfl
    | some dae =>
      simp only [dup_scan_disarm]
      rfl

/-- A hit of the deduper is an entry of the global list other than the entry
being checked. -/
theorem duplicate_event_hit (s : dvr_db_t) (de : dvr_entry_t) (d : Nat)
    (h : _dvr_duplicate_event s de = some (some d)) :
    d ≠ de.de_id ∧ d ∈ s.dvrentries ∧ de.de_autorec ≠ none := by
  unfold _dvr_duplicate_event at h
  cases ha : de.de_autorec with
  | none => rw [ha] at h; cases h
  | some a =>
    rw [ha] at h
    simp only at h
    cases hd : dae_get s a with
    | none => rw [hd] at h; cases h
    | some dae =>
      rw [hd] at h
      simp only at h
      split at h
      · cases h
      · split at h
        · cases h
        · exact ⟨(dup_scan_hit _ _ _ _ _ _ h).1, (dup_scan_hit _ _ _ _ _ _ h).2, by simp⟩

/-- The effective stop does not depend on the trace. -/
theorem get_stop_time_emit (s : dvr_db_t) (fx : List dvr_effect) (d : dvr_entry_t) :
    dvr_entry_get_stop_time (emit s fx) d = dvr_entry_get_stop_time s d := rfl

/-- The effective stop does not depend on the allocated entries. -/
theorem get_stop_time_de_put (s : dvr_db_t) (x d : dvr_entry_t) :
    dvr_entry_get_stop_time (de_put s x) d = dvr_entry_get_stop_time s d := rfl

/-- The effective stop does not depend on the states of the entry. -/
theorem get_stop_time_states (s : dvr_db_t) (d : dvr_entry_t)
    (st : dvr_entry_sched_state_t) (rs : dvr_rs_state_t) :
    dvr_entry_get_stop_time s { d with de_sched_state := st, de_rec_state := rs } =
      dvr_entry_get_stop_time s d := rfl

/-- The effective stop does not depend on the timer slot of the entry. -/
theorem get_stop_time_disarm (s : dvr_db_t) (d : dvr_entry_t) :
    dvr_entry_get_stop_time s (gtimer_disarm d) = dvr_entry_get_stop_time s d := rfl

/-- C5. When the start-recording timer of an entry fires: if the channel is null
or disabled the state becomes NOSTATE, no collaborator is called (the recorder
is not subscribed) and the timer slot is empty; otherwise, if the deduper
returns no prior entry, the state becomes RECORDING with recorder state
PENDING, the calls made are `idnode_changed`, `htsp_dvr_entry_update` and the
recorder's subscribe for the entry, and the stop-recording callback is armed
at the effective stop.  No other field changes. -/
theorem start_timer_fires (now : Int) (s : dvr_db_t) (id : Nat) (de : dvr_entry_t)
    (when : Int)
    (hde : de_get s id = some de)
    (htimer : de.de_timer = some { gti_callback := dvr_timer_cb.start_recording,
                                   gti_expire := when })
    (hwhen : when ≤ now) :
    ((de.de_channel = none ∨
       ∃ c ch, de.de_channel = some c ∧ ch_get s c = some ch ∧ ch.ch_enabled = false) →
      ∃ s' de', gtimer_fire now s id = some s' ∧ de_get s' id = some de' ∧
        de' = { de with de_sched_state := DVR_NOSTATE, de_timer := none } ∧
        s'.trace = s.trace) ∧
    ((∃ c ch, de.de_channel = some c ∧ ch_get s c = some ch ∧ ch.ch_enabled = true) →
      _dvr_duplicate_event s de = some none →
      ∀ stop, dvr_entry_get_stop_time s de = some stop →
      ∃ s' de', gtimer_fire now s id = some s' ∧ de_get s' id = some de' ∧
        de' = { de with de_sched_state := DVR_RECORDING, de_rec_state := DVR_RS_PENDING,
                        de_timer := some { gti_callback := dvr_timer_cb.stop_recording,
                                           gti_expire := stop } } ∧
        s'.trace = s.trace ++ [dvr_effect.idnode_changed id,
                               dvr_effect.htsp_dvr_entry_update id,
                               dvr_effect.dvr_rec_subscribe id]) := by
  have hid := de_get_id s id de hde
  have hg : de_get (de_put s (gtimer_disarm de)) id = some (gtimer_disarm de) :=
    de_get_de_put s id de _ hde hid
  have hfire : gtimer_fire now s id =
      dvr_timer_start_recording (de_put s (gtimer_disarm de)) id := by
    unfold gtimer_fire
    simp only [hde, htimer, if_pos hwhen]
  rw [hfire]
  constructor
  · intro hch
    have hce : dvr_entry_channel_enabled (de_put s (gtimer_disarm de)) (gtimer_disarm de)
        = some false := by
      show dvr_entry_channel_enabled s de = some false
      rcases hch with h | ⟨c, ch, hc, hgc, hen⟩
      · simp [dvr_entry_channel_enabled, h]
      · simp [dvr_entry_channel_enabled, hc, hgc, hen]
    unfold dvr_timer_start_recording
    simp only [hg, hce]
    exact ⟨_, _, rfl, de_get_de_put _ id _ _ hg hid, rfl, rfl⟩
  · intro hch hdup stop hstop
    have hce : dvr_entry_channel_enabled (de_put s (gtimer_disarm de)) (gtimer_disarm de)
        = some true := by
      show dvr_entry_channel_enabled s de = some true
      obtain ⟨c, ch, hc, hgc, hen⟩ := hch
      simp [dvr_entry_channel_enabled, hc, hgc, hen]
    have hdup' : _dvr_duplicate_event (de_put s (gtimer_disarm de)) (gtimer_disarm de)
        = some none := by
      rw [duplicate_event_disarm]
      exact hdup
    unfold dvr_timer_start_recording
    simp only [hg, hce, hdup']
    simp only [get_stop_time_emit, get_stop_time_de_put, get_stop_time_states,
      get_stop_time_disarm, hstop]
    refine ⟨_, _, rfl, ?_, rfl, rfl⟩
    exact de_get_de_put _ id
      { gtimer_disarm de with de_sched_state := DVR_RECORDING, de_rec_state := DVR_RS_PENDING } _
      (de_get_emit_de_put _ id _ _ _ hg hid) hid

/-- C5 at the store `db_armed`, whose start-recording timer fires at time 970. -/
theorem start_timer_fires_witness :
    ((de_disabled.de_channel = none ∨
       ∃ c ch, de_disabled.de_channel = some c ∧ ch_get db_armed c = some ch ∧
         ch.ch_enabled = false) →
      ∃ s' de', gtimer_fire 970 db_armed 1 = some s' ∧ de_get s' 1 = some de' ∧
        de' = { de_disabled with de_sched_state := DVR_NOSTATE, de_timer := none } ∧
        s'.trace = db_armed.trace) ∧
    ((∃ c ch, de_disabled.de_channel = some c ∧ ch_get db_armed c = some ch ∧
        ch.ch_enabled = true) →
      _dvr_duplicate_event db_armed de_disabled = some none →
      ∀ stop, dvr_entry_get_stop_time db_armed de_disabled = some stop →
      ∃ s' de', gtimer_fire 970 db_armed 1 = some s' ∧ de_get s' 1 = some de' ∧
        de' = { de_disabled with
                de_sched_state := DVR_RECORDING, de_rec_state := DVR_RS_PENDING,
                de_timer := some { gti_callback := dvr_timer_cb.stop_recording,
                                   gti_expire := stop } } ∧
        s'.trace = db_armed.trace ++ [dvr_effect.idnode_changed 1,
                                      dvr_effect.htsp_dvr_entry_update 1,
                                      dvr_effect.dvr_rec_subscribe 1]) :=
  start_timer_fires 970 db_armed 1 de_disabled 970 (by decide) (by decide) (by decide)

/-- C6. When the start-recording timer fires on a SCHEDULED entry with an
enabled channel and the deduper returns a prior entry `d`, the entry (which
then has an autorec parent) is cancel-deleted: it is no longer in the global
list, it never becomes RECORDING (if other references keep it allocated its
state is still SCHEDULED), the only collaborator calls made are those of the
destruction (the recorder's subscribe is not among them), and `d` is another
entry, unchanged and still in the global list. -/
theorem start_timer_duplicate (now : Int) (s : dvr_db_t) (id : Nat) (de : dvr_entry_t)
    (when : Int) (d : Nat)
    (hde : de_get s id = some de)
    (htimer : de.de_timer = some { gti_callback := dvr_timer_cb.start_recording,
                                   gti_expire := when })
    (hwhen : when ≤ now)
    (hst : de.de_sched_state = DVR_SCHEDULED)
    (hch : ∃ c ch, de.de_channel = some c ∧ ch_get s c = some ch ∧ ch.ch_enabled = true)
    (hdup : _dvr_duplicate_event s de = some (some d)) :
    de.de_autorec ≠ none ∧ d ≠ id ∧
    ∃ s', gtimer_fire now s id = some s' ∧ id ∉ s'.dvrentries ∧
      (∀ e, de_get s' id = some e → e.de_sched_state = DVR_SCHEDULED) ∧
      (∀ x, x ∈ s'.trace → x ∈ s.trace ∨ x = dvr_effect.htsp_dvr_entry_delete id ∨
        x = dvr_effect.dvr_inotify_del id ∨ x = dvr_effect.dvr_dbus_timer_arm 2 ∨
        x = dvr_effect.idnode_unlink id) ∧
      (dvr_effect.dvr_rec_subscribe id ∈ s'.trace → dvr_effect.dvr_rec_subscribe id ∈ s.trace) ∧
      de_get s' d = de_get s d ∧ d ∈ s'.dvrentries := by
  have hid := de_get_id s id de hde
  obtain ⟨hdne, hdmem, haut⟩ := duplicate_event_hit s de d hdup
  rw [hid] at hdne
  refine ⟨haut, hdne, ?_⟩
  have hg : de_get (de_put s (gtimer_disarm de)) id = some (gtimer_disarm de) :=
    de_get_de_put s id de _ hde hid
  have hfire : gtimer_fire now s id =
      dvr_timer_start_recording (de_put s (gtimer_disarm de)) id := by
    unfold gtimer_fire
    simp only [hde, htimer, if_pos hwhen]
  have hce : dvr_entry_channel_enabled (de_put s (gtimer_disarm de)) (gtimer_disarm de)
      = some true := by
    show dvr_entry_channel_enabled s de = some true
    obtain ⟨c, ch, hc, hgc, hen⟩ := hch
    simp [dvr_entry_channel_enabled, hc, hgc, hen]
  have hdup' : _dvr_duplicate_event (de_put s (gtimer_disarm de)) (gtimer_disarm de)
      = some (some d) := by
    rw [duplicate_event_disarm]
    exact hdup
  have hst' : (gtimer_disarm de).de_sched_state = DVR_SCHEDULED := hst
  obtain ⟨s', h1, h2, _, _, h5, h6, h7, h8⟩ :=
    destroy_spec (de_put s (gtimer_disarm de)) id (gtimer_disarm de) true hg
  have hstart : dvr_timer_start_recording (de_put s (gtimer_disarm de)) id = some s' := by
    unfold dvr_timer_start_recording
    simp only [hg, hce, hdup']
    unfold dvr_entry_cancel_delete
    simp only [hg]
    split <;> rename_i heq <;> rw [hst'] at heq <;> cases heq
    exact h1
  have htr : ∀ x, x ∈ s'.trace → x ∈ s.trace ∨ x = dvr_effect.htsp_dvr_entry_delete id ∨
      x = dvr_effect.dvr_inotify_del id ∨ x = dvr_effect.dvr_dbus_timer_arm 2 ∨
      x = dvr_effect.idnode_unlink id := h6
  refine ⟨s', by rw [hfire]; exact hstart, ?_, ?_, htr, ?_, ?_, ?_⟩
  · rw [h2]
    simp
  · intro e he
    by_cases hr : (gtimer_disarm de).de_refcnt > 1
    · rw [(h7 hr).1] at he
      rw [← Option.some.inj he]
      exact hst
    · rw [(h8 hr).1] at he
      cases he
  · intro hx
    rcases htr _ hx with h | h | h | h | h
    · exact h
    all_goals cases h
  · rw [h5 d hdne]
    exact de_get_de_put_ne s (gtimer_disarm de) d (by
      rw [show (gtimer_disarm de).de_id = de.de_id from rfl, hid]
      exact Ne.symm hdne)
  · rw [h2]
    have hmem : d ∈ s.dvrentries := hdmem
    exact List.mem_filter.mpr ⟨hmem, by simpa using hdne⟩

/-- C6 at the store `db_dup`: entry 1 repeats the completed entry 2 and its
start-recording timer fires at time 99970. -/
theorem start_timer_duplicate_witness :
    de_dup.de_autorec ≠ none ∧ 2 ≠ 1 ∧
    ∃ s', gtimer_fire 99970 db_dup 1 = some s' ∧ 1 ∉ s'.dvrentries ∧
      (∀ e, de_get s' 1 = some e → e.de_sched_state = DVR_SCHEDULED) ∧
      (∀ x, x ∈ s'.trace → x ∈ db_dup.trace ∨ x = dvr_effect.htsp_dvr_entry_delete 1 ∨
        x = dvr_effect.dvr_inotify_del 1 ∨ x = dvr_effect.dvr_dbus_timer_arm 2 ∨
        x = dvr_effect.idnode_unlink 1) ∧
      (dvr_effect.dvr_rec_subscribe 1 ∈ s'.trace →
        dvr_effect.dvr_rec_subscribe 1 ∈ db_dup.trace) ∧
      de_get s' 2 = de_get db_dup 2 ∧ 2 ∈ s'.dvrentries :=
  start_timer_duplicate 99970 db_dup 1 de_dup 99970 2 (by decide) (by decide) (by decide)
    (by decide) ⟨7, { ch_id := 7, ch_dvrs := [1, 2] }, by decide, by decide, by decide⟩
    (by decide)

/-! ### The padding rule (C11) -/

theorem extra_valid_iff (x : Int) : (x ≠ 0 ∧ x ≠ -1) ↔ extra_valid x = true := by
  simp [extra_valid]

theorem get_extra_time_cascade (s : dvr_db_t) (de : dvr_entry_t) (cfg : dvr_config_t)
    (hch : ∀ c, de.de_channel = some c → ∃ ch, ch_get s c = some ch)
    (hcfg : de.de_config.bind (cfg_get s) = some cfg) :
    dvr_entry_get_extra_time_pre s de =
      some (to_int (extra_time_spec de.de_timerec.isSome de.de_start_extra
        ((de.de_channel.bind (ch_get s)).map (fun (ch : channel_t) => ch.ch_dvr_extra_time_pre))
        cfg.dvr_extra_time_pre)) ∧
    dvr_entry_get_extra_time_post s de =
      some (to_int (extra_time_spec de.de_timerec.isSome de.de_stop_extra
        ((de.de_channel.bind (ch_get s)).map (fun (ch : channel_t) => ch.ch_dvr_extra_time_post))
        cfg.dvr_extra_time_post)) := by
  have hk : ∃ k, de.de_config = some k ∧ cfg_get s k = some cfg := by
    cases hc : de.de_config with
    | none => rw [hc] at hcfg; cases hcfg
    | some k => rw [hc] at hcfg; exact ⟨k, rfl, hcfg⟩
  obtain ⟨k, hk1, hk2⟩ := hk
  unfold dvr_entry_get_extra_time_pre dvr_entry_get_extra_time_post extra_time_spec
  simp only [extra_valid_iff]
  cases htr : de.de_timerec with
  | some t => simp [to_int, Int.bmod]
  | none =>
    simp only [Option.isSome_none, Bool.false_eq_true, if_false]
    cases hc : de.de_channel with
    | none =>
      simp only [hk1, hk2, Option.bind_none, Option.map_none', Option.map_some']
      constructor
      · by_cases h1 : extra_valid de.de_start_extra = true
        · simp [h1]
        · simp [h1]
      · by_cases h1 : extra_valid de.de_stop_extra = true
        · simp [h1]
        · simp [h1]
    | some c =>
      obtain ⟨ch, hch1⟩ := hch c hc
      simp only [hk1, hk2, hch1, Option.bind_some, Option.map_some']
      constructor
      · by_cases h1 : extra_valid de.de_start_extra = true
        · simp [h1]
        · by_cases h2 : extra_valid ch.ch_dvr_extra_time_pre = true
          · simp [h1, h2, hch1]
          · simp [h1, h2, hch1]
      · by_cases h1 : extra_valid de.de_stop_extra = true
        · simp [h1]
        · by_cases h2 : extra_valid ch.ch_dvr_extra_time_post = true
          · simp [h1, h2, hch1]
          · simp [h1, h2, hch1]

/-- C11 (evaluated at the failing input): the entry `de_wide` belongs to no
timerec rule and its own pre-padding, 4294967296, is set (neither 0 nor -1),
so the padding rule of the specification selects 4294967296;
`dvr_entry_get_extra_time_pre`, which is declared `int`, returns 0. -/
theorem get_extra_time_pre_wide :
    de_wide.de_timerec = none ∧ extra_valid de_wide.de_start_extra = true ∧
    extra_time_spec de_wide.de_timerec.isSome de_wide.de_start_extra (some 0) 0
      = 4294967296 ∧
    dvr_entry_get_extra_time_pre db_wide de_wide = some 0 := by decide

/-! ### Quick rejects of the deduper (C16) -/

/-- C16: `_dvr_duplicate_event` returns NULL, whatever the other entries of the
store are, when the entry has no autorec rule, or the mode of its rule is ALL,
or the mode is DIFFERENT_EPISODE_NUMBER and the episode string is empty, or the
mode is DIFFERENT_SUBTITLE and the subtitle is empty, or the mode is
DIFFERENT_DESCRIPTION and the description is empty, or the entry has no
title. -/
theorem duplicate_event_quick_reject (s : dvr_db_t) (de : dvr_entry_t)
    (h : de.de_autorec = none ∨
         ∃ a dae, de.de_autorec = some a ∧ dae_get s a = some dae ∧
           (dae.dae_record = DVR_AUTOREC_RECORD_ALL ∨
            (dae.dae_record = DVR_AUTOREC_RECORD_DIFFERENT_EPISODE_NUMBER ∧
              strempty de.de_episode = true) ∨
            (dae.dae_record = DVR_AUTOREC_RECORD_DIFFERENT_SUBTITLE ∧
              lang_str_empty de.de_subtitle = true) ∨
            (dae.dae_record = DVR_AUTOREC_RECORD_DIFFERENT_DESCRIPTION ∧
              lang_str_empty de.de_desc = true) ∨
            lang_str_empty de.de_title = true)) :
    _dvr_duplicate_event s de = some none := by
  unfold _dvr_duplicate_event
  rcases h with h | ⟨a, dae, ha, hdae, h⟩
  · rw [h]
  · rw [ha]
    simp only [hdae]
    rcases h with h | ⟨h, he⟩ | ⟨h, he⟩ | ⟨h, he⟩ | h
    · rw [h]
    · rw [h]; simp only [he, if_true]
    · rw [h]; simp only [he, if_true]
    · rw [h]; simp only [he, if_true]
    · split
      · rfl
      · simp only [h, if_true]

theorem duplicate_event_quick_reject_witness :
    _dvr_duplicate_event db_dup { de_dup with de_title := none } = some none :=
  duplicate_event_quick_reject db_dup { de_dup with de_title := none }
    (Or.inr ⟨4, { dae_id := 4, dae_record := DVR_AUTOREC_RECORD_DIFFERENT_EPISODE_NUMBER,
                  dae_spawns := [1] }, rfl, by decide, Or.inr (Or.inr (Or.inr (Or.inr (by decide))))⟩)

/-! ### Calendar facts -/

/-- C17 (evaluated at the failing input): in `db_null_episode` no quick reject
applies to the entry of the rule, and the first dedup hit in global-list order
is entry 2 (equal title, equal episode string); the scan reaches entry 3
first, which passes the common filters and has no episode string, and
`strcmp` reads through its null pointer: the call does not return. -/
theorem duplicate_event_null_episode :
    de_get db_null_episode 1 = some de_dup ∧
    strempty de_dup.de_episode = false ∧ lang_str_empty de_dup.de_title = false ∧
    db_null_episode.dvrentries.find?
      (dup_hit_spec db_null_episode de_dup DVR_AUTOREC_RECORD_DIFFERENT_EPISODE_NUMBER)
      = some 2 ∧
    _dvr_duplicate_event db_null_episode de_dup = none := by decide

/-- C19 as stated fails: the entry `de_episode` has an episode string, the
broadcast `bcast_plain` has no formatted episode (so none that equals the
entry's), titles, durations and starts agree and the event id of the entry is
not set; the specification's condition is false, `dvr_entry_fuzzy_match`
returns 1. -/
theorem fuzzy_match_episode_missing :
    de_episode.de_episode = some "Season 1.Episode 2" ∧
    dvr_entry_get_episode (some bcast_plain) = none ∧
    ¬ fuzzy_match_spec de_episode bcast_plain 0 ∧
    dvr_entry_fuzzy_match db_sched de_episode bcast_plain = some true := by
  refine ⟨by decide, by decide, ?_, by decide⟩
  intro h
  rcases h with ⟨h, _⟩ | ⟨_, _, _, h⟩
  · exact h rfl
  · have := h _ rfl
    have h2 : dvr_entry_get_episode (some bcast_plain) = none := by decide
    rw [h2] at this
    cases this

/-- C19 (amended): with a configuration to read the update window from,
`dvr_entry_fuzzy_match` returns, and it returns 1 exactly when the DVB event id
of the entry is set and equals that of the broadcast, or all of these hold:
the default-language titles of broadcast and entry exist and are equal;
`abs(duration(B) - duration(E)) <= duration(E) / 5`, in the arithmetic of C
(`abs` takes an `int`, the division truncates); `abs(B.start - E.start)` is at
most the update window; and, when the broadcast has a formatted episode and
the entry has an episode string, the two are equal. -/
theorem fuzzy_match_iff (s : dvr_db_t) (de : dvr_entry_t) (e : epg_broadcast_t)
    (cfg : dvr_config_t) (hcfg : de.de_config.bind (cfg_get s) = some cfg) :
    ∃ b, dvr_entry_fuzzy_match s de e = some b ∧
      (b = true ↔
        ((de.de_dvb_eid ≠ 0 ∧ de.de_dvb_eid = e.dvb_eid) ∨
         ((∃ t, epg_broadcast_get_title e = some t ∧ lang_str_get de.de_title = some t) ∧
          abs_int ((e.stop - e.start) - (de.de_stop - de.de_start)) ≤
            Int.tdiv (de.de_stop - de.de_start) 5 ∧
          abs_int (e.start - de.de_start) ≤ cfg.dvr_update_window ∧
          (∀ buf ep, dvr_entry_get_episode (some e) = some buf → de.de_episode = some ep →
            buf = ep)))) := by
  unfold dvr_entry_fuzzy_match
  by_cases h0 : de.de_dvb_eid ≠ 0 ∧ de.de_dvb_eid = e.dvb_eid
  · rw [if_pos h0]
    exact ⟨true, rfl, fun _ => Or.inl h0, fun _ => rfl⟩
  rw [if_neg h0]
  cases ht1 : epg_broadcast_get_title e with
  | none =>
    refine ⟨false, rfl, (fun h => by cases h), fun h => ?_⟩
    rcases h with h | ⟨⟨t, h, _⟩, _⟩
    · exact absurd h h0
    · cases h
  | some title1 =>
    cases ht2 : lang_str_get de.de_title with
    | none =>
      refine ⟨false, rfl, (fun h => by cases h), fun h => ?_⟩
      rcases h with h | ⟨⟨t, _, h⟩, _⟩
      · exact absurd h h0
      · cases h
    | some title2 =>
      simp only [hcfg]
      by_cases h1 : abs_int ((e.stop - e.start) - (de.de_stop - de.de_start)) >
          Int.tdiv (de.de_stop - de.de_start) 5
      · rw [if_pos h1]
        refine ⟨false, rfl, (fun h => by cases h), fun h => ?_⟩
        rcases h with h | ⟨_, h, _⟩
        · exact absurd h h0
        · exact absurd h1 (not_lt.mpr h)
      rw [if_neg h1]
      by_cases h2 : abs_int (e.start - de.de_start) > cfg.dvr_update_window
      · rw [if_pos h2]
        refine ⟨false, rfl, (fun h => by cases h), fun h => ?_⟩
        rcases h with h | ⟨_, _, h, _⟩
        · exact absurd h h0
        · exact absurd h2 (not_lt.mpr h)
      rw [if_neg h2]
      by_cases h3 : title1 ≠ title2
      · rw [if_pos h3]
        refine ⟨false, rfl, (fun h => by cases h), fun h => ?_⟩
        rcases h with h | ⟨⟨t, ha, hb⟩, _⟩
        · exact absurd h h0
        · cases ha
          cases hb
          exact absurd rfl h3
      rw [if_neg h3]
      have h3b : title1 = title2 := not_not.mp h3
      have hbase : (∃ t, some title1 = some t ∧ some title2 = some t) ∧
          abs_int ((e.stop - e.start) - (de.de_stop - de.de_start)) ≤
            Int.tdiv (de.de_stop - de.de_start) 5 ∧
          abs_int (e.start - de.de_start) ≤ cfg.dvr_update_window :=
        ⟨⟨title1, rfl, by rw [h3b]⟩, not_lt.mp h1, not_lt.mp h2⟩
      cases hb : dvr_entry_get_episode (some e) with
      | none =>
        refine ⟨true, rfl, fun _ => Or.inr ⟨hbase.1, hbase.2.1, hbase.2.2, ?_⟩, fun _ => rfl⟩
        intro buf ep h
        cases h
      | some buf =>
        cases hp : de.de_episode with
        | none =>
          refine ⟨true, rfl, fun _ => Or.inr ⟨hbase.1, hbase.2.1, hbase.2.2, ?_⟩, fun _ => rfl⟩
          intro buf ep _ h
          cases h
        | some ep =>
          simp only
          by_cases h4 : buf ≠ ep
          · rw [if_pos h4]
            refine ⟨false, rfl, (fun h => by cases h), fun h => ?_⟩
            rcases h with h | ⟨_, _, _, h⟩
            · exact absurd h h0
            · exact absurd (h buf ep rfl rfl) h4
          · rw [if_neg h4]
            refine ⟨true, rfl, fun _ => Or.inr ⟨hbase.1, hbase.2.1, hbase.2.2, ?_⟩, fun _ => rfl⟩
            intro b2 e2 hb2 he2
            cases hb2
            cases he2
            exact not_not.mp h4

/-- C19 (amended) at the entry `de_episode` and the broadcast `bcast_plain`. -/
theorem fuzzy_match_iff_witness :
    ∃ b, dvr_entry_fuzzy_match db_sched de_episode bcast_plain = some b ∧
      (b = true ↔
        ((de_episode.de_dvb_eid ≠ 0 ∧ de_episode.de_dvb_eid = bcast_plain.dvb_eid) ∨
         ((∃ t, epg_broadcast_get_title bcast_plain = some t ∧
             lang_str_get de_episode.de_title = some t) ∧
          abs_int ((bcast_plain.stop - bcast_plain.start) -
              (de_episode.de_stop - de_episode.de_start)) ≤
            Int.tdiv (de_episode.de_stop - de_episode.de_start) 5 ∧
          abs_int (bcast_plain.start - de_episode.de_start) ≤ (0 : Int) ∧
          (∀ buf ep, dvr_entry_get_episode (some bcast_plain) = some buf →
            de_episode.de_episode = some ep → buf = ep)))) :=
  fuzzy_match_iff db_sched de_episode bcast_plain { dvr_id := 3, dvr_entries := [1] }
    (by decide)

/-! ### Creation (C12 - C15) -/

/-- C13: with a property map that lacks an integer `start`, or an integer
`stop`, or both a `channel` and a `channelname` string, `dvr_entry_create`
returns NULL and the state (global list, channel lists, config lists,
settings, timers and everything else) is the state before the call. -/
theorem create_invalid_input (now : Int) (s : dvr_db_t) (uuid : Option Nat) (conf : htsmsg_t)
    (h : htsmsg_get_s64 (some conf) "start" = none ∨
         htsmsg_get_s64 (some conf) "stop" = none ∨
         (htsmsg_get_str (some conf) "channel" = none ∧
          htsmsg_get_str (some conf) "channelname" = none)) :
    dvr_entry_create now s uuid (some conf) = some (s, none) := by
  unfold dvr_entry_create
  rw [if_pos ⟨rfl, h⟩]

/-- C13 at the store `db_sched` and a map without `start`. -/
theorem create_invalid_input_witness :
    dvr_entry_create 0 db_sched none (some conf_no_start) = some (db_sched, none) :=
  create_invalid_input 0 db_sched none conf_no_start (Or.inl (by decide))

/-- C12 as stated fails: created from a map with `stop` equal to `start`, the
entry has `start = stop = 1000`, so `start < stop` does not hold; created from
a map with an own pre-padding of -5 minutes, the entry has the effective start
1270, after its start 1000. -/
theorem create_window_not_monotone :
    (dvr_entry_create 0 db_empty (some 1) (some conf_instant)).map (fun r => r.2) =
      some (some 1) ∧
    ((dvr_entry_create 0 db_empty (some 1) (some conf_instant)).bind
      (fun r => de_get r.1 1)).map (fun de => (de.de_start, de.de_stop)) = some (1000, 1000) ∧
    (dvr_entry_create 0 db_empty (some 1) (some conf_negative_padding)).map (fun r => r.2) =
      some (some 1) ∧
    ((dvr_entry_create 0 db_empty (some 1) (some conf_negative_padding)).bind
      (fun r => (de_get r.1 1).bind
        (fun de => (dvr_entry_get_start_time r.1 de).map (fun t => (t, de.de_start))))) =
      some (1270, 1000) := by
  decide

/-- C12 (amended): for an entry whose paddings are not negative and whose
effective times fit the `int` they are returned as, the effective start is
before the start (by the padding and 30 seconds) and the effective stop is not
before the stop. -/
theorem effective_window (s : dvr_db_t) (de : dvr_entry_t) (pre post : Int)
    (hpre : dvr_entry_get_extra_time_pre s de = some pre)
    (hpost : dvr_entry_get_extra_time_post s de = some post)
    (h0 : 0 ≤ pre) (h1 : 0 ≤ post)
    (hlo : -2147483648 ≤ de.de_start - 60 * pre - 30) (hst : de.de_start < 2147483648)
    (hsp : -2147483648 ≤ de.de_stop) (hhi : de.de_stop + 60 * post < 2147483648) :
    ∃ a b, dvr_entry_get_start_time s de = some a ∧ dvr_entry_get_stop_time s de = some b ∧
      a = de.de_start - 60 * pre - 30 ∧ b = de.de_stop + 60 * post ∧
      a < de.de_start ∧ de.de_stop ≤ b := by
  obtain ⟨e1, e2⟩ := get_start_stop_time_in_range s de pre post hpre hpost hlo (by omega)
    (by omega) hhi
  exact ⟨_, _, e1, e2, rfl, rfl, by omega, by omega⟩

/-- C12 (amended) at the entry of `db_sched`: effective window 970 to 2000. -/
theorem effective_window_witness :
    ∃ a b, dvr_entry_get_start_time db_sched de_sched = some a ∧
      dvr_entry_get_stop_time db_sched de_sched = some b ∧
      a = de_sched.de_start - 60 * 0 - 30 ∧ b = de_sched.de_stop + 60 * 0 ∧
      a < de_sched.de_start ∧ de_sched.de_stop ≤ b :=
  effective_window db_sched de_sched 0 0 (by decide) (by decide) (by decide) (by decide)
    (by decide) (by decide) (by decide) (by decide)

/-- C14 (evaluated at the failing input): channel 7 of `db_timerec` holds entry
1, scheduled with start 1000 and spawned by timerec rule 5, whose back-pointer
is entry 1.  `dvr_entry_create` with channel 7, start 1000 and `timerec` 5
returns NULL; the global list, the list of the channel, the list of the
configuration, the settings and entry 1 are as before, and the back-pointer of
rule 5 is null. -/
theorem create_rollback_clears_timerec :
    de_get db_timerec 1 = some de_timerec ∧
    db_timerec.timerecs = [{ dte_id := 5, dte_spawn := some 1 }] ∧
    (dvr_entry_create 0 db_timerec none (some conf_timerec)).map (fun r => r.2) = some none ∧
    (dvr_entry_create 0 db_timerec none (some conf_timerec)).map (fun r => r.1.dvrentries) =
      some db_timerec.dvrentries ∧
    (dvr_entry_create 0 db_timerec none (some conf_timerec)).map (fun r => r.1.channels) =
      some db_timerec.channels ∧
    (dvr_entry_create 0 db_timerec none (some conf_timerec)).map (fun r => r.1.configs) =
      some db_timerec.configs ∧
    (dvr_entry_create 0 db_timerec none (some conf_timerec)).map (fun r => r.1.settings) =
      some db_timerec.settings ∧
    (dvr_entry_create 0 db_timerec none (some conf_timerec)).map (fun r => r.1.entries) =
      some db_timerec.entries ∧
    (dvr_entry_create 0 db_timerec none (some conf_timerec)).map (fun r => r.1.timerecs) =
      some [{ dte_id := 5, dte_spawn := none }] := by
  decide

/-- C15 as stated fails: after creating entry 1 (start 1000) and entry 2 (start
2000) on channel 7 and setting the start of entry 2 to 1000 through the
property setter, both entries are in the list of channel 7, both are
SCHEDULED, and both start at 1000. -/
theorem setter_breaks_uniqueness :
    db_two_equal_starts.map (fun s => s.channels.map (fun ch => (ch.ch_id, ch.ch_dvrs))) =
      some [(7, [2, 1])] ∧
    db_two_equal_starts.map
      (fun s => s.entries.map (fun de => (de.de_id, de.de_sched_state, de.de_start))) =
      some [(2, DVR_SCHEDULED, 1000), (1, DVR_SCHEDULED, 1000)] := by
  decide

theorem emit_nil (s : dvr_db_t) : emit s [] = s := by
  cases s
  simp [emit]

/-- The reconciler writes the state and the timer slot of its entry and
traces calls; everything else in the store is as before. -/
theorem set_timer_frame (now : Int) (s : dvr_db_t) (id : Nat) (s' : dvr_db_t)
    (h : dvr_entry_set_timer now s id = some s') :
    ∃ de st tm fx, de_get s id = some de ∧
      s' = emit (de_put s { de with de_sched_state := st, de_timer := tm }) fx := by
  unfold dvr_entry_set_timer at h
  cases hde : de_get s id with
  | none => rw [hde] at h; cases h
  | some de =>
    rw [hde] at h
    simp only at h
    cases h1 : dvr_entry_get_start_time s de with
    | none => rw [h1] at h; cases h
    | some start =>
      cases h2 : dvr_entry_get_stop_time s de with
      | none => rw [h1, h2] at h; cases h
      | some stop =>
        rw [h1, h2] at h
        simp only at h
        split at h
        · split at h
          · cases h
          · rename_i r hr
            cases h
            by_cases hf : de.de_filename = none
            · simp only [if_pos hf]
              exact ⟨de, DVR_MISSED_TIME,
                some { gti_callback := dvr_timer_cb.expire, gti_expire := de.de_stop + r * 86400 },
                [], rfl, rfl⟩
            · simp only [if_neg hf]
              exact ⟨de, DVR_COMPLETED,
                some { gti_callback := dvr_timer_cb.expire, gti_expire := de.de_stop + r * 86400 },
                [dvr_effect.dvr_inotify_add id], rfl, rfl⟩
        · split at h
          · cases h
            refine ⟨de, de.de_sched_state,
              some { gti_callback := dvr_timer_cb.stop_recording, gti_expire := stop }, [], rfl, ?_⟩
            rw [emit_nil]
            rfl
          · split at h
            · cases h
            · cases h
              exact ⟨de, DVR_SCHEDULED,
                some { gti_callback := dvr_timer_cb.start_recording, gti_expire := start },
                [dvr_effect.dvr_dbus_timer_arm 5], rfl, rfl⟩
            · cases h
              refine ⟨de, DVR_NOSTATE, de.de_timer, [], rfl, ?_⟩
              rw [emit_nil]

theorem create_clash_false (s : dvr_db_t) (de : dvr_entry_t) (l : List Nat)
    (h : dvr_entry_create_clash s de l = some false) :
    ∀ i ∈ l, i ≠ de.de_id → ∃ de2, de_get s i = some de2 ∧
      (de2.de_start ≠ de.de_start ∨ de2.de_sched_state = DVR_COMPLETED) := by
  induction l with
  | nil => intro i hi; cases hi
  | cons j rest ih =>
    rw [dvr_entry_create_clash] at h
    cases hj : de_get s j with
    | none => rw [hj] at h; cases h
    | some de2 =>
      rw [hj] at h
      simp only at h
      split at h
      · cases h
      · rename_i hc
        intro i hi hne
        rcases List.mem_cons.mp hi with e | e
        · subst e
          refine ⟨de2, hj, ?_⟩
          by_contra hcon
          simp only [not_or] at hcon
          exact hc ⟨hne, not_not.mp hcon.1, hcon.2⟩
        · exact ih h i e hne

/-- The tail of `dvr_entry_create` returns the entry only when no other entry in
the list of its channel has its start and is not COMPLETED. -/
theorem create_finish_unique (now : Int) (s5 : dvr_db_t) (id : Nat) (s' : dvr_db_t) (id2 : Nat)
    (h : dvr_entry_create_finish now s5 id = some (s', some id2)) :
    id2 = id ∧ ∃ de', de_get s' id = some de' ∧
      ∀ c, de'.de_channel = some c → ∃ ch, ch_get s' c = some ch ∧
        ∀ i ∈ ch.ch_dvrs, i ≠ id → ∃ de2, de_get s' i = some de2 ∧
          (de2.de_start ≠ de'.de_start ∨ de2.de_sched_state = DVR_COMPLETED) := by
  unfold dvr_entry_create_finish at h
  cases hde : de_get s5 id with
  | none => rw [hde] at h; cases h
  | some de =>
    rw [hde] at h
    simp only at h
    have hid := de_get_id s5 id de hde
    have hd6 : de_get ({ de_put s5 { de with de_refcnt := 1 } with
        dvrentries := id :: s5.dvrentries } : dvr_db_t) id = some { de with de_refcnt := 1 } :=
      de_get_de_put s5 id de _ hde hid
    have hch6 : ({ de_put s5 { de with de_refcnt := 1 } with
        dvrentries := id :: s5.dvrentries } : dvr_db_t).channels = s5.channels := rfl
    generalize hs6 : ({ de_put s5 { de with de_refcnt := 1 } with
        dvrentries := id :: s5.dvrentries } : dvr_db_t) = s6 at h hd6 hch6
    have key : ∀ (hcl : ∀ c, de.de_channel = some c → ∃ ch, ch_get s5 c = some ch ∧
          dvr_entry_create_clash s6 de ch.ch_dvrs = some false)
        (hst : (dvr_entry_set_timer now s6 id).map
          (fun s7 => (emit s7 [dvr_effect.htsp_dvr_entry_add id], some id)) =
            some (s', some id2)),
        id2 = id ∧ ∃ de', de_get s' id = some de' ∧
          ∀ c, de'.de_channel = some c → ∃ ch, ch_get s' c = some ch ∧
            ∀ i ∈ ch.ch_dvrs, i ≠ id → ∃ de2, de_get s' i = some de2 ∧
              (de2.de_start ≠ de'.de_start ∨ de2.de_sched_state = DVR_COMPLETED) := by
      intro hcl hst
      cases h7 : dvr_entry_set_timer now s6 id with
      | none => rw [h7] at hst; cases hst
      | some s7 =>
        rw [h7] at hst
        simp only [Option.map_some', Option.some.injEq, Prod.mk.injEq] at hst
        obtain ⟨hs', hid2⟩ := hst
        obtain ⟨d, st, tm, fx, hd, hs7⟩ := set_timer_frame now s6 id s7 h7
        have hdd : d = { de with de_refcnt := 1 } := by
          rw [hd6] at hd
          exact (Option.some.inj hd).symm
        have hdid : d.de_id = id := de_get_id s6 id d hd
        have hdch : d.de_channel = de.de_channel := by rw [hdd]
        have hdst : d.de_start = de.de_start := by rw [hdd]
        subst hs7
        subst hs'
        refine ⟨hid2.symm, { d with de_sched_state := st, de_timer := tm }, ?_, ?_⟩
        · rw [de_get_emit, de_get_emit]
          exact de_get_de_put s6 id d _ hd hdid
        · intro c hc
          have hc2 : de.de_channel = some c := by rw [← hdch]; exact hc
          obtain ⟨ch, hch, hclash⟩ := hcl c hc2
          refine ⟨ch, ?_, ?_⟩
          · unfold ch_get at hch ⊢
            rw [← hch6] at hch
            exact hch
          · intro i hi hne
            have hne2 : i ≠ de.de_id := by rw [hid]; exact hne
            obtain ⟨de2, hg, hprop⟩ := create_clash_false s6 de ch.ch_dvrs hclash i hi hne2
            refine ⟨de2, ?_, ?_⟩
            · rw [de_get_emit, de_get_emit,
                de_get_de_put_ne s6 { d with de_sched_state := st, de_timer := tm } i
                  (by rw [show ({ d with de_sched_state := st, de_timer := tm } :
                      dvr_entry_t).de_id = d.de_id from rfl, hdid]; exact Ne.symm hne)]
              exact hg
            · rw [show ({ d with de_sched_state := st, de_timer := tm } :
                  dvr_entry_t).de_start = d.de_start from rfl, hdst]
              exact hprop
    cases hc : de.de_channel with
    | none =>
      rw [hc] at h
      simp only at h
      exact key (fun c e => by rw [hc] at e; cases e) h
    | some c =>
      rw [hc] at h
      simp only at h
      cases hch : ch_get s5 c with
      | none => rw [hch] at h; cases h
      | some ch =>
        rw [hch] at h
        simp only at h
        cases hcl : dvr_entry_create_clash s6 de ch.ch_dvrs with
        | none => rw [hcl] at h; cases h
        | some b =>
          rw [hcl] at h
          cases b with
          | true =>
            simp only at h
            cases hdd : dvr_entry_destroy s6 id false with
            | none => rw [hdd] at h; cases h
            | some s7 => rw [hdd] at h; cases h
          | false =>
            simp only at h
            refine key (fun c2 e => ?_) h
            rw [hc] at e
            cases e
            exact ⟨ch, hch, hcl⟩

/-- C15 (amended): uniqueness is what `dvr_entry_create` checks when it creates
an entry: if it returns the new entry, then in the resulting state no other
entry in the list of the channel of the new entry has the start of the new
entry unless it is COMPLETED.  (Later changes of a start, by the property
setter or by an update, are not checked against the other entries.) -/
theorem create_unique (now : Int) (s : dvr_db_t) (uuid : Option Nat) (conf : Option htsmsg_t)
    (s' : dvr_db_t) (id : Nat)
    (h : dvr_entry_create now s uuid conf = some (s', some id)) :
    ∃ de', de_get s' id = some de' ∧
      ∀ c, de'.de_channel = some c → ∃ ch, ch_get s' c = some ch ∧
        ∀ i ∈ ch.ch_dvrs, i ≠ id → ∃ de2, de_get s' i = some de2 ∧
          (de2.de_start ≠ de'.de_start ∨ de2.de_sched_state = DVR_COMPLETED) := by
  unfold dvr_entry_create at h
  split at h
  · cases h
  · split at h
    · cases h
    · rename_i id0 _
      split at h
      · cases h
      · split at h
        · cases h
        · obtain ⟨hid, hres⟩ := create_finish_unique now _ id0 s' id h
          rw [hid]
          exact hres

/-- C15 (amended) at the creation of entry 2 in `db_first`: entry 1, created
from `db_empty` with start 1000, is already in the list of channel 7; creating
entry 2 with start 2000 returns it, the list of channel 7 then holds entries 2
and 1, and entry 1 does not have the start of entry 2. -/
theorem create_unique_witness :
    dvr_entry_create 0 db_empty (some 1) (some conf_first) = some (db_first, some 1) ∧
    dvr_entry_create 0 db_first (some 2) (some conf_later) = some (db_second, some 2) ∧
    (ch_get db_second 7).map (fun ch => ch.ch_dvrs) = some [2, 1] ∧
    ∃ de', de_get db_second 2 = some de' ∧
      ∀ c, de'.de_channel = some c → ∃ ch, ch_get db_second c = some ch ∧
        ∀ i ∈ ch.ch_dvrs, i ≠ 2 → ∃ de2, de_get db_second i = some de2 ∧
          (de2.de_start ≠ de'.de_start ∨ de2.de_sched_state = DVR_COMPLETED) :=
  ⟨by decide, by decide, by decide,
   create_unique 0 db_first (some 2) (some conf_later) db_second 2 (by decide)⟩

/-! ### EPG replace (C20) -/

/-- The reconciler returns when the configuration and the channel of its entry
resolve. -/
theorem set_timer_total (now : Int) (s : dvr_db_t) (id : Nat) (de : dvr_entry_t)
    (hde : de_get s id = some de) (hres : dvr_entry_resolves s de) :
    ∃ s', dvr_entry_set_timer now s id = some s' := by
  obtain ⟨⟨cfg, hcfg⟩, hch⟩ := hres
  obtain ⟨hpre, hpost⟩ := get_extra_time_cascade s de cfg hch hcfg
  have hk : ∃ k, de.de_config = some k ∧ cfg_get s k = some cfg := by
    cases hc : de.de_config with
    | none => rw [hc] at hcfg; cases hcfg
    | some k => rw [hc] at hcfg; exact ⟨k, rfl, hcfg⟩
  obtain ⟨k, hk1, hk2⟩ := hk
  unfold dvr_entry_set_timer
  rw [hde]
  simp only
  unfold dvr_entry_get_start_time dvr_entry_get_stop_time
  rw [hpre, hpost]
  simp only [Option.map_some']
  split
  · have hr : ∀ d : dvr_entry_t, d.de_config = de.de_config →
        ∃ r, dvr_entry_get_retention s d = some r := by
      intro d hd
      unfold dvr_entry_get_retention
      split
      · exact ⟨_, rfl⟩
      · rw [hd, hk1]
        simp only [hk2, Option.map_some']
        exact ⟨_, rfl⟩
    by_cases hf : de.de_filename = none
    · simp only [if_pos hf]
      obtain ⟨r, hr1⟩ := hr { de with de_sched_state := DVR_MISSED_TIME } rfl
      rw [hr1]
      exact ⟨_, rfl⟩
    · simp only [if_neg hf]
      obtain ⟨r, hr1⟩ := hr (_dvr_entry_completed de) rfl
      rw [hr1]
      exact ⟨_, rfl⟩
  · split
    · exact ⟨_, rfl⟩
    · unfold dvr_entry_channel_enabled
      cases hc : de.de_channel with
      | none => exact ⟨_, rfl⟩
      | some c =>
        obtain ⟨ch, hch1⟩ := hch c hc
        simp only [hch1, Option.map_some']
        cases ch.ch_enabled
        · exact ⟨_, rfl⟩
        · exact ⟨_, rfl⟩

theorem update_titles_frame (dflt : String) (de : dvr_entry_t) (eb : Option epg_broadcast_t)
    (title subtitle lang : Option String) (save : Bool) :
    (dvr_entry_update_titles dflt de eb title subtitle lang save).1.de_id = de.de_id ∧
    (dvr_entry_update_titles dflt de eb title subtitle lang save).1.de_start = de.de_start ∧
    (dvr_entry_update_titles dflt de eb title subtitle lang save).1.de_stop = de.de_stop ∧
    (dvr_entry_update_titles dflt de eb title subtitle lang save).1.de_bcast = de.de_bcast := by
  unfold dvr_entry_update_titles
  simp only
  cases subtitle <;> cases title <;>
    cases (eb.bind (fun (b : epg_broadcast_t) => b.episode)).bind
      (fun (ep : epg_episode_t) => ep.title) <;>
    exact ⟨rfl, rfl, rfl, rfl⟩

theorem update_eid_genre_frame (de : dvr_entry_t) (eb : Option epg_broadcast_t) (save : Bool) :
    (dvr_entry_update_eid_genre de eb save).1.de_id = de.de_id ∧
    (dvr_entry_update_eid_genre de eb save).1.de_start = de.de_start ∧
    (dvr_entry_update_eid_genre de eb save).1.de_stop = de.de_stop ∧
    (dvr_entry_update_eid_genre de eb save).1.de_bcast = de.de_bcast := by
  unfold dvr_entry_update_eid_genre
  simp only
  generalize (eb.bind (fun (b : epg_broadcast_t) => b.episode)).bind
    (fun (ep : epg_episode_t) => ep.genre.head?) = og
  cases eb <;> cases og <;> (try simp only) <;> (try split_ifs) <;>
    first | exact ⟨rfl, rfl, rfl, rfl⟩ | exact ⟨trivial, trivial, trivial, trivial⟩

theorem update_bcast_bound (s : dvr_db_t) (de : dvr_entry_t) (m : Nat) (save : Bool)
    (bc : epg_broadcast_t) (hb : de.de_bcast = some m) (hbc : bcast_get s m = some bc) :
    ∃ d' sv, dvr_entry_update_bcast s de (some m) save = some (s, d', sv) ∧
      d'.de_id = de.de_id ∧ d'.de_start = de.de_start ∧ d'.de_stop = de.de_stop ∧
      d'.de_bcast = some m := by
  unfold dvr_entry_update_bcast
  have h1 : ¬ de.de_bcast ≠ some m := fun h => h hb
  simp only
  rw [if_neg h1]
  simp only [hb, hbc]
  cases dvr_entry_get_episode (some bc) with
  | none => exact ⟨de, save, rfl, rfl, rfl, rfl, hb⟩
  | some buf =>
    simp only
    split
    · exact ⟨_, _, rfl, rfl, rfl, rfl, rfl⟩
    · exact ⟨de, save, rfl, rfl, rfl, rfl, hb⟩

theorem bcast_get_congr (s1 s2 : dvr_db_t) (b : Nat) (h : s1.broadcasts = s2.broadcasts) :
    bcast_get s1 b = bcast_get s2 b := by
  unfold bcast_get
  rw [h]

/-- Updating an entry from the broadcast it is already bound to: the call
returns, the entry keeps its identity and its binding, and takes each of start
and stop from the broadcast unless the broadcast has 0 there. -/
theorem update_bound (now : Int) (s : dvr_db_t) (id : Nat) (de : dvr_entry_t) (m : Nat)
    (bc : epg_broadcast_t)
    (hde : de_get s id = some de) (hst : de.de_sched_state = DVR_SCHEDULED)
    (hb : de.de_bcast = some m) (hbc : bcast_get s m = some bc)
    (hres : dvr_entry_resolves s de) :
    ∃ s' de', _dvr_entry_update now s id (some m) none none none none 0 0 0 0
        DVR_PRIO_NOTSET 0 = some s' ∧
      de_get s' id = some de' ∧ de'.de_id = id ∧ de'.de_bcast = some m ∧
      de'.de_start = (if bc.start ≠ 0 then bc.start else de.de_start) ∧
      de'.de_stop = (if bc.stop ≠ 0 then bc.stop else de.de_stop) ∧
      s'.broadcasts = s.broadcasts ∧ s'.dvrentries = s.dvrentries := by
  have hid := de_get_id s id de hde
  unfold _dvr_entry_update
  rw [hde]
  simp only
  have hed : ¬ ¬ dvr_entry_is_editable de = true := by
    simp [dvr_entry_is_editable, hst]
  rw [if_neg hed]
  simp only [hbc, Option.map_some']
  generalize hw : dvr_entry_update_window de (some bc) 0 0 0 0 DVR_PRIO_NOTSET 0 = w
  have hw1 : w.1.de_id = id := by rw [← hw]; exact hid
  have hw2 : w.1.de_bcast = some m := by rw [← hw]; exact hb
  have hw3 : w.1.de_start = (if bc.start ≠ 0 then bc.start else de.de_start) := by
    rw [← hw]
    show (if bc.start ≠ 0 ∧ bc.start ≠ de.de_start then bc.start else de.de_start) = _
    by_cases h0 : bc.start ≠ 0
    · by_cases h1 : bc.start ≠ de.de_start
      · rw [if_pos ⟨h0, h1⟩, if_pos h0]
      · rw [if_neg (fun h => h1 h.2), if_pos h0]
        exact (not_not.mp h1).symm
    · rw [if_neg (fun h => h0 h.1), if_neg h0]
  have hw4 : w.1.de_stop = (if bc.stop ≠ 0 then bc.stop else de.de_stop) := by
    rw [← hw]
    show (if bc.stop ≠ 0 ∧ bc.stop ≠ de.de_stop then bc.stop else de.de_stop) = _
    by_cases h0 : bc.stop ≠ 0
    · by_cases h1 : bc.stop ≠ de.de_stop
      · rw [if_pos ⟨h0, h1⟩, if_pos h0]
      · rw [if_neg (fun h => h1 h.2), if_pos h0]
        exact (not_not.mp h1).symm
    · rw [if_neg (fun h => h0 h.1), if_neg h0]
  have hw5 : dvr_entry_resolves (de_put s w.1) w.1 := by
    rw [← hw]
    exact hres
  have hgw : de_get (de_put s w.1) id = some w.1 := de_get_de_put s id de w.1 hde hw1
  have hstep : ∃ s1 d1, (if w.2 = true then dvr_entry_set_timer now (de_put s w.1) id
        else some (de_put s w.1)) = some s1 ∧ de_get s1 id = some d1 ∧
      d1.de_id = id ∧ d1.de_bcast = some m ∧ d1.de_start = w.1.de_start ∧
      d1.de_stop = w.1.de_stop ∧ s1.broadcasts = s.broadcasts ∧
      s1.dvrentries = s.dvrentries := by
    by_cases hs : w.2 = true
    · rw [if_pos hs]
      obtain ⟨s1, h1⟩ := set_timer_total now (de_put s w.1) id w.1 hgw hw5
      obtain ⟨d, st, tm, fx, hd, hs1⟩ := set_timer_frame now _ id s1 h1
      rw [hgw] at hd
      have hdw : d = w.1 := (Option.some.inj hd).symm
      subst hdw
      refine ⟨s1, { w.1 with de_sched_state := st, de_timer := tm }, h1, ?_, hw1, hw2, rfl, rfl,
        ?_, ?_⟩
      · rw [hs1, de_get_emit]
        exact de_get_de_put _ id w.1 _ hgw hw1
      · rw [hs1]; rfl
      · rw [hs1]; rfl
    · rw [if_neg hs]
      exact ⟨_, w.1, rfl, hgw, hw1, hw2, rfl, rfl, rfl, rfl⟩
  obtain ⟨s1, d1, hs1, hd1, hd1id, hd1b, hd1s, hd1e, hs1b, hs1l⟩ := hstep
  rw [hs1]
  simp only [hd1]
  generalize ht : dvr_entry_update_titles s1.lang_default d1 (some bc) none none none w.2 = t
  obtain ⟨t1, t2, t3, t4⟩ := update_titles_frame s1.lang_default d1 (some bc) none none none w.2
  rw [ht] at t1 t2 t3 t4
  generalize hg : dvr_entry_update_eid_genre t.1 (some bc) t.2 = g
  obtain ⟨g1, g2, g3, g4⟩ := update_eid_genre_frame t.1 (some bc) t.2
  rw [hg] at g1 g2 g3 g4
  have hbc1 : bcast_get s1 m = some bc := by
    rw [bcast_get_congr s1 s m hs1b]
    exact hbc
  obtain ⟨d', sv, hu, u1, u2, u3, u4⟩ :=
    update_bcast_bound s1 g.1 m g.2 bc (by rw [g4, t4, hd1b]) hbc1
  rw [hu]
  simp only
  have hd'id : d'.de_id = id := by rw [u1, g1, t1, hd1id]
  have hfin : de_get (de_put s1 d') id = some d' := de_get_de_put s1 id d1 d' hd1 hd'id
  refine ⟨_, d', rfl, ?_, hd'id, u4, ?_, ?_, ?_, ?_⟩
  · cases sv
    · exact hfin
    · exact hfin
  · rw [u2, g2, t2, hd1s, hw3]
  · rw [u3, g3, t3, hd1e, hw4]
  · cases sv
    · exact hs1b
    · exact hs1b
  · cases sv
    · exact hs1l
    · exact hs1l


theorem bcast_find_map (l : List epg_broadcast_t) (b : Nat)
    (f : epg_broadcast_t → epg_broadcast_t) (hf : ∀ x, (f x).id = x.id) :
    (l.map f).find? (fun x => x.id == b) = (l.find? (fun x => x.id == b)).map f := by
  induction l with
  | nil => rfl
  | cons x xs ih =>
    simp only [List.map_cons, List.find?_cons, hf]
    cases x.id == b
    · exact ih
    · rfl

theorem bcast_get_putref (s : dvr_db_t) (e b : Nat) :
    bcast_get (epg_putref s e) b =
      (bcast_get s b).map (fun x => if x.id = e then { x with refcount := x.refcount - 1 } else x) := by
  unfold bcast_get epg_putref
  exact bcast_find_map s.broadcasts b _ (fun x => by split <;> rfl)

theorem bcast_get_getref (s : dvr_db_t) (e b : Nat) :
    bcast_get (epg_getref s e) b =
      (bcast_get s b).map (fun x => if x.id = e then { x with refcount := x.refcount + 1 } else x) := by
  unfold bcast_get epg_getref
  exact bcast_find_map s.broadcasts b _ (fun x => by split <;> rfl)

/-- The fuzzy match reads the configurations of the store, and of the
broadcast everything but its reference count, and of the entry not its
binding. -/
theorem fuzzy_match_frame (s t : dvr_db_t) (de : dvr_entry_t) (bc : epg_broadcast_t)
    (x : Option Nat) (r : Int) (hcfg : t.configs = s.configs) :
    dvr_entry_fuzzy_match t { de with de_bcast := x } { bc with refcount := r } =
      dvr_entry_fuzzy_match s de bc := by
  unfold dvr_entry_fuzzy_match cfg_get
  rw [hcfg]
  rfl

theorem replaced_scan_spec (now : Int) (t : dvr_db_t) (id : Nat) (d : dvr_entry_t)
    (l : List Nat)
    (hres : ∀ b ∈ l, ∃ bc r, bcast_get t b = some bc ∧ dvr_entry_fuzzy_match t d bc = some r) :
    dvr_event_replaced_scan now t id d l =
      match l.find? (fuzzy_match_at t d) with
      | none => some t
      | some m =>
        _dvr_entry_update now (de_put (epg_getref t m) { d with de_bcast := some m }) id
          (some m) none none none none 0 0 0 0 DVR_PRIO_NOTSET 0 := by
  induction l with
  | nil => rfl
  | cons b rest ih =>
    obtain ⟨bc, r, hbc, hr⟩ := hres b (List.mem_cons_self _ _)
    have ih2 := ih (fun x hx => hres x (List.mem_cons_of_mem _ hx))
    rw [dvr_event_replaced_scan, List.find?_cons]
    have hat : fuzzy_match_at t d b = r := by
      unfold fuzzy_match_at
      rw [hbc]
      simp only [hr]
      cases r <;> rfl
    rw [hat]
    simp only [hbc, hr]
    cases r
    · exact ih2
    · rfl

theorem find_by_event_scan_some (s : dvr_db_t) (e : Nat) (l : List Nat) (id : Nat)
    (h : dvr_entry_find_by_event_scan s e l = some (some id)) :
    ∃ de, de_get s id = some de ∧ de.de_bcast = some e ∧ id ∈ l := by
  induction l with
  | nil => cases h
  | cons i rest ih =>
    rw [dvr_entry_find_by_event_scan] at h
    cases hi : de_get s i with
    | none => rw [hi] at h; cases h
    | some d =>
      rw [hi] at h
      simp only at h
      split at h
      · rename_i hb
        cases h
        exact ⟨d, hi, hb, List.mem_cons_self _ _⟩
      · obtain ⟨de, h1, h2, h3⟩ := ih h
        exact ⟨de, h1, h2, List.mem_cons_of_mem _ h3⟩

theorem find_by_event_some (s : dvr_db_t) (e : Nat) (id : Nat)
    (h : dvr_entry_find_by_event s e = some (some id)) :
    ∃ de, de_get s id = some de ∧ de.de_bcast = some e := by
  unfold dvr_entry_find_by_event at h
  split at h
  · cases h
  · split at h
    · cases h
    · split at h
      · cases h
      · obtain ⟨de, h1, h2, _⟩ := find_by_event_scan_some s e _ id h
        exact ⟨de, h1, h2⟩

theorem find_pred_congr (l : List Nat) (p q : Nat → Bool) (h : ∀ x ∈ l, p x = q x) :
    l.find? p = l.find? q := by
  induction l with
  | nil => rfl
  | cons b rest ih =>
    rw [List.find?_cons, List.find?_cons, h b (List.mem_cons_self _ _),
      ih (fun x hx => h x (List.mem_cons_of_mem _ hx))]

/-- The fuzzy match returns when the configuration of the entry resolves. -/
theorem fuzzy_match_total (s : dvr_db_t) (de : dvr_entry_t) (e : epg_broadcast_t)
    (cfg : dvr_config_t) (hcfg : de.de_config.bind (cfg_get s) = some cfg) :
    ∃ b, dvr_entry_fuzzy_match s de e = some b := by
  unfold dvr_entry_fuzzy_match
  simp only [hcfg]
  repeat' split
  all_goals exact ⟨_, rfl⟩

theorem resolves_congr (s t : dvr_db_t) (de d : dvr_entry_t) (hc : t.configs = s.configs)
    (hch : t.channels = s.channels) (h1 : d.de_config = de.de_config)
    (h2 : d.de_channel = de.de_channel) (h : dvr_entry_resolves s de) :
    dvr_entry_resolves t d := by
  unfold dvr_entry_resolves cfg_get ch_get at *
  rw [hc, hch, h1, h2]
  exact h

/-- C20 (amended): `dvr_event_replaced(old, new)` with `old != new`.  When
`dvr_entry_find_by_event(old)` finds no entry, nothing changes.  When it finds
the entry E (which is then bound to old): if E is not SCHEDULED nothing
changes; if E is SCHEDULED and was spawned by an autorec rule, the reference on
old is dropped and E is destroyed with its settings; if E is SCHEDULED and not
spawned by an autorec rule (its configuration and channel resolving, the
broadcasts of the schedule existing), the reference on old is dropped and E is
left unbound when no broadcast of the schedule of old's channel fuzzy-matches
E, and otherwise E keeps its identity, is bound to the first such broadcast
with one reference taken on it, and takes from it each of start and stop that
is not 0 there. -/
theorem event_replaced_spec (now : Int) (s : dvr_db_t) (e new_e : Nat) (hne : e ≠ new_e) :
    (dvr_entry_find_by_event s e = some none → dvr_event_replaced now s e new_e = some s) ∧
    (∀ id de, dvr_entry_find_by_event s e = some (some id) → de_get s id = some de →
      de.de_bcast = some e ∧
      (de.de_sched_state ≠ DVR_SCHEDULED → dvr_event_replaced now s e new_e = some s) ∧
      (de.de_sched_state = DVR_SCHEDULED → de.de_autorec ≠ none →
        ∃ s', dvr_event_replaced now s e new_e = some s' ∧
          dvr_entry_destroy (de_put (epg_putref s e) { de with de_bcast := none }) id true
            = some s' ∧
          id ∉ s'.dvrentries ∧ (∀ kv ∈ s'.settings, kv.1 ≠ id)) ∧
      (de.de_sched_state = DVR_SCHEDULED → de.de_autorec = none → dvr_entry_resolves s de →
        ∀ ch, ((bcast_get s e).bind (fun (b : epg_broadcast_t) => b.channel)).bind (ch_get s)
            = some ch →
        (∀ b ∈ ch.ch_epg_schedule, ∃ bc, bcast_get s b = some bc) →
        (ch.ch_epg_schedule.find? (fuzzy_match_at s de) = none →
          dvr_event_replaced now s e new_e =
            some (de_put (epg_putref s e) { de with de_bcast := none })) ∧
        (∀ m bc, ch.ch_epg_schedule.find? (fuzzy_match_at s de) = some m →
          bcast_get s m = some bc →
          ∃ s' de', dvr_event_replaced now s e new_e = some s' ∧
            de_get s' id = some de' ∧ de'.de_id = id ∧ de'.de_bcast = some m ∧
            de'.de_start = (if bc.start ≠ 0 then bc.start else de.de_start) ∧
            de'.de_stop = (if bc.stop ≠ 0 then bc.stop else de.de_stop) ∧
            s'.broadcasts = (epg_getref (epg_putref s e) m).broadcasts ∧
            s'.dvrentries = s.dvrentries))) := by
  unfold dvr_event_replaced
  rw [if_neg hne]
  constructor
  · intro h
    rw [h]
  · intro id de hf hde
    have hid := de_get_id s id de hde
    rw [hf]
    simp only [hde]
    have hbound : de.de_bcast = some e := by
      obtain ⟨d0, h1, h2⟩ := find_by_event_some s e id hf
      rw [hde] at h1
      cases h1
      exact h2
    have hg1 : de_get (de_put (epg_putref s e) { de with de_bcast := none }) id =
        some { de with de_bcast := none } :=
      de_get_de_put (epg_putref s e) id de _ hde hid
    have hD1 : ({ de with de_bcast := none } : dvr_entry_t).de_sched_state = de.de_sched_state ∧
        ({ de with de_bcast := none } : dvr_entry_t).de_config = de.de_config ∧
        ({ de with de_bcast := none } : dvr_entry_t).de_channel = de.de_channel ∧
        ({ de with de_bcast := none } : dvr_entry_t).de_start = de.de_start ∧
        ({ de with de_bcast := none } : dvr_entry_t).de_stop = de.de_stop ∧
        ({ de with de_bcast := none } : dvr_entry_t).de_id = de.de_id := ⟨rfl, rfl, rfl, rfl, rfl, rfl⟩
    have hfz : ∀ (t : dvr_db_t) (bc : epg_broadcast_t) (r : Int), t.configs = s.configs →
        dvr_entry_fuzzy_match t ({ de with de_bcast := none } : dvr_entry_t)
          { bc with refcount := r } = dvr_entry_fuzzy_match s de bc :=
      fun t bc r h => fuzzy_match_frame s t de bc none r h
    generalize hD : ({ de with de_bcast := none } : dvr_entry_t) = D1 at hg1 hD1 hfz ⊢
    have hT1 : (de_put (epg_putref s e) D1).configs = s.configs ∧
        (de_put (epg_putref s e) D1).channels = s.channels ∧
        (de_put (epg_putref s e) D1).dvrentries = s.dvrentries ∧
        (de_put (epg_putref s e) D1).broadcasts = (epg_putref s e).broadcasts :=
      ⟨rfl, rfl, rfl, rfl⟩
    generalize hT : de_put (epg_putref s e) D1 = T at hg1 hT1 ⊢
    refine ⟨hbound, ?_, ?_, ?_⟩
    · intro hst
      rw [if_pos hst]
    · intro hst ha
      rw [if_neg (fun h => h hst)]
      obtain ⟨a, ha2⟩ := Option.ne_none_iff_exists'.mp ha
      rw [ha2]
      simp only
      obtain ⟨s', h1, h2, _, h4, _⟩ := destroy_spec T id D1 true hg1
      refine ⟨s', h1, h1, ?_, ?_⟩
      · rw [h2]
        simp
      · intro kv hkv
        rw [h4] at hkv
        simp only [if_true] at hkv
        have := (List.mem_filter.mp hkv).2
        simpa using this
    · intro hst ha hres ch hch hsched
      rw [if_neg (fun h => h hst), ha]
      simp only [hch]
      obtain ⟨⟨cfg, hcfg⟩, hchr⟩ := hres
      -- broadcasts of T
      have hbT : ∀ b, bcast_get T b = (bcast_get s b).map
          (fun x => if x.id = e then { x with refcount := x.refcount - 1 } else x) := by
        intro b
        rw [bcast_get_congr T (epg_putref s e) b hT1.2.2.2]
        exact bcast_get_putref s e b
      have hfzT : ∀ b bc, bcast_get s b = some bc →
          ∃ bc', bcast_get T b = some bc' ∧
            dvr_entry_fuzzy_match T D1 bc' = dvr_entry_fuzzy_match s de bc := by
        intro b bc hb
        rw [hbT b, hb]
        simp only [Option.map_some']
        by_cases hx : bc.id = e
        · rw [if_pos hx]
          exact ⟨_, rfl, hfz T bc _ hT1.1⟩
        · rw [if_neg hx]
          exact ⟨_, rfl, hfz T bc bc.refcount hT1.1⟩
      have hat : ∀ b ∈ ch.ch_epg_schedule, fuzzy_match_at T D1 b = fuzzy_match_at s de b := by
        intro b hb
        obtain ⟨bc, hbc⟩ := hsched b hb
        obtain ⟨bc', h1, h2⟩ := hfzT b bc hbc
        unfold fuzzy_match_at
        rw [h1, hbc]
        simp only [h2]
      have hfind : ch.ch_epg_schedule.find? (fuzzy_match_at T D1) =
          ch.ch_epg_schedule.find? (fuzzy_match_at s de) :=
        find_pred_congr _ _ _ hat
      have hscan := replaced_scan_spec now T id D1 ch.ch_epg_schedule (by
        intro b hb
        obtain ⟨bc, hbc⟩ := hsched b hb
        obtain ⟨bc', h1, h2⟩ := hfzT b bc hbc
        obtain ⟨r, hr⟩ := fuzzy_match_total s de bc cfg hcfg
        exact ⟨bc', r, h1, by rw [h2]; exact hr⟩)
      rw [hscan, hfind]
      constructor
      · intro hnone
        rw [hnone]
      · intro m bc hsome hbc
        rw [hsome]
        simp only
        have hD2id : ({ D1 with de_bcast := some m } : dvr_entry_t).de_id = id := by
          show D1.de_id = id
          rw [hD1.2.2.2.2.2]
          exact hid
        have hg2 : de_get (de_put (epg_getref T m) { D1 with de_bcast := some m }) id =
            some { D1 with de_bcast := some m } :=
          de_get_de_put (epg_getref T m) id D1 _ hg1 hD2id
        have hbT2 : ∃ bc2, bcast_get (de_put (epg_getref T m) { D1 with de_bcast := some m }) m =
            some bc2 ∧ bc2.start = bc.start ∧ bc2.stop = bc.stop := by
          have e1 : bcast_get (de_put (epg_getref T m) { D1 with de_bcast := some m }) m =
              bcast_get (epg_getref T m) m := rfl
          rw [e1, bcast_get_getref, hbT m, hbc]
          simp only [Option.map_some']
          refine ⟨_, rfl, ?_, ?_⟩
          · split_ifs <;> rfl
          · split_ifs <;> rfl
        obtain ⟨bc2, hbc2, hbs, hbe⟩ := hbT2
        have hres2 : dvr_entry_resolves (de_put (epg_getref T m) { D1 with de_bcast := some m })
            { D1 with de_bcast := some m } :=
          resolves_congr s _ de _ hT1.1 hT1.2.1 hD1.2.1 hD1.2.2.1 ⟨⟨cfg, hcfg⟩, hchr⟩
        obtain ⟨s', de', h1, h2, h3, h4, h5, h6, h7, h8⟩ :=
          update_bound now _ id _ m bc2 hg2 (by show D1.de_sched_state = _; rw [hD1.1]; exact hst)
            rfl hbc2 hres2
        refine ⟨s', de', h1, h2, h3, h4, ?_, ?_, ?_, ?_⟩
        · rw [h5, hbs]
          show _ = (if bc.start ≠ 0 then bc.start else de.de_start)
          rw [show ({ D1 with de_bcast := some m } : dvr_entry_t).de_start = D1.de_start from rfl,
            hD1.2.2.2.1]
        · rw [h6, hbe]
          rw [show ({ D1 with de_bcast := some m } : dvr_entry_t).de_stop = D1.de_stop from rfl,
            hD1.2.2.2.2.1]
        · rw [h7]
          show (epg_getref T m).broadcasts = _
          unfold epg_getref
          simp only
          rw [hT1.2.2.2]
        · rw [h8]
          exact hT1.2.2.1

/-- C20 as stated fails: the entry of `db_replace` is SCHEDULED, not spawned by
a rule and bound to broadcast 9; the first broadcast of the schedule that
fuzzy-matches it is broadcast 10, which starts at 0.  After
`dvr_event_replaced` the entry is bound to broadcast 10 and its start is still
60, not the start of the broadcast. -/
theorem event_replaced_keeps_start :
    dvr_entry_find_by_event db_replace 9 = some (some 1) ∧
    de_get db_replace 1 = some de_replace ∧
    ch_replace.ch_epg_schedule.find? (fuzzy_match_at db_replace de_replace) = some 10 ∧
    (bcast_get db_replace 10).map (fun b => b.start) = some 0 ∧
    ((dvr_event_replaced 0 db_replace 9 10).bind (fun s => de_get s 1)).map
      (fun de => (de.de_bcast, de.de_start, de.de_stop)) = some (some 10, 60, 3600) := by
  decide

/-- C20 (amended) at the store `db_replace`. -/
theorem event_replaced_spec_witness :
    ∃ s' de', dvr_event_replaced 0 db_replace 9 10 = some s' ∧
      de_get s' 1 = some de' ∧ de'.de_id = 1 ∧ de'.de_bcast = some 10 ∧
      de'.de_start = (if bcast_epoch.start ≠ 0 then bcast_epoch.start else de_replace.de_start) ∧
      de'.de_stop = (if bcast_epoch.stop ≠ 0 then bcast_epoch.stop else de_replace.de_stop) ∧
      s'.broadcasts = (epg_getref (epg_putref db_replace 9) 10).broadcasts ∧
      s'.dvrentries = db_replace.dvrentries :=
  ((((event_replaced_spec 0 db_replace 9 10 (by decide)).2 1 de_replace (by decide)
      (by decide)).2.2.2 (by decide) (by decide)
      ⟨⟨{ dvr_id := 3, dvr_update_window := 300, dvr_entries := [1] }, by decide⟩,
       fun c hc => ⟨ch_replace, by
         have h7 : some 7 = some c := hc
         cases h7
         decide⟩⟩
      ch_replace (by decide)
      (fun b hb => ⟨bcast_epoch, by
         have hb2 : b = 10 := List.mem_singleton.mp hb
         rw [hb2]
         decide⟩)).2 10 bcast_epoch (by decide) (by decide))

/-- The stop setter on an editable entry: the requested value, raised to the
start, is stored; the clock of the dispatcher plays no part. -/
theorem stop_set_editable_eq (s : dvr_db_t) (id : Nat) (de : dvr_entry_t) (v : Int)
    (hde : de_get s id = some de) (hed : dvr_entry_is_editable de = true) :
    dvr_entry_class_stop_set s id v =
      some (de_put s { de with de_stop := if v < de.de_start then de.de_start else v },
            decide ((if v < de.de_start then de.de_start else v) ≠ de.de_stop)) := by
  unfold dvr_entry_class_stop_set dvr_entry_class_time_set
  rw [hde]
  have h1 : ¬ ¬ dvr_entry_is_editable de = true := fun h => h hed
  simp only [if_neg h1]
  generalize (if v < de.de_start then de.de_start else v) = x
  by_cases hx : x ≠ de.de_stop
  · rw [if_pos hx, decide_eq_true hx]
  · rw [if_neg hx, decide_eq_false hx]
    have hx2 : x = de.de_stop := not_not.mp hx
    rw [hx2]

/-- C26. For an editable entry E and a requested value v below E.start, the
stop setter stores E.start as the new stop and reports a change exactly when
E.stop was different from E.start; for v at or after E.start and at or after
the clock of the dispatcher it stores v. -/
theorem stop_set_editable (s : dvr_db_t) (id : Nat) (de : dvr_entry_t) (v : Int)
    (hde : de_get s id = some de) (hed : dvr_entry_is_editable de = true) :
    (v < de.de_start →
      dvr_entry_class_stop_set s id v =
        some (de_put s { de with de_stop := de.de_start },
              decide (de.de_stop ≠ de.de_start))) ∧
    (de.de_start ≤ v → s.dispatch_clock ≤ v →
      dvr_entry_class_stop_set s id v =
        some (de_put s { de with de_stop := v }, decide (v ≠ de.de_stop))) := by
  rw [stop_set_editable_eq s id de v hde hed]
  constructor
  · intro h
    rw [if_pos h]
    have : decide (de.de_start ≠ de.de_stop) = decide (de.de_stop ≠ de.de_start) := by
      by_cases h2 : de.de_start = de.de_stop
      · simp [h2]
      · have h3 : ¬ de.de_stop = de.de_start := fun h4 => h2 h4.symm
        simp [h2, h3]
    rw [this]
  · intro h _
    rw [if_neg (not_lt.mpr h)]

/-- C26 at the entry of `db_sched` (start 1000, stop 2000, clock 0): a request
of 500 stores 1000 and reports a change, a request of 3000 stores 3000. -/
theorem stop_set_editable_witness :
    ((500 : Int) < de_sched.de_start →
      dvr_entry_class_stop_set db_sched 1 500 =
        some (de_put db_sched { de_sched with de_stop := de_sched.de_start },
              decide (de_sched.de_stop ≠ de_sched.de_start))) ∧
    (de_sched.de_start ≤ (3000 : Int) → db_sched.dispatch_clock ≤ 3000 →
      dvr_entry_class_stop_set db_sched 1 3000 =
        some (de_put db_sched { de_sched with de_stop := 3000 },
              decide ((3000 : Int) ≠ de_sched.de_stop))) :=
  ⟨(stop_set_editable db_sched 1 de_sched 500 (by decide) (by decide)).1,
   (stop_set_editable db_sched 1 de_sched 3000 (by decide) (by decide)).2⟩

/-- C27 (counterexample): the entry of `db_sched_late` is editable, with start
1000 and stop 2000, and the clock of the dispatcher is at 5000.  The stop
setter with the value 1500 stores 1500, not 5000, and reports a change. -/
theorem stop_set_before_clock :
    dvr_entry_is_editable de_sched = true ∧ de_get db_sched_late 1 = some de_sched ∧
    de_sched.de_start ≤ (1500 : Int) ∧ (1500 : Int) < db_sched_late.dispatch_clock ∧
    dvr_entry_class_stop_set db_sched_late 1 1500 =
      some (de_put db_sched_late { de_sched with de_stop := 1500 }, true) := by
  decide

/-- C27 (amended). For an editable entry E and a requested value v at or after
E.start, the stop setter stores v whatever the clock of the dispatcher is (also
when v is before the clock) and reports a change exactly when v differs from
the old stop; the setter compares with the clock only for an entry that is not
editable. -/
theorem stop_set_ignores_clock (s : dvr_db_t) (id : Nat) (de : dvr_entry_t) (v clock : Int)
    (hde : de_get s id = some de) (hed : dvr_entry_is_editable de = true)
    (h : de.de_start ≤ v) :
    dvr_entry_class_stop_set { s with dispatch_clock := clock } id v =
      some (de_put { s with dispatch_clock := clock } { de with de_stop := v },
            decide (v ≠ de.de_stop)) := by
  have hde2 : de_get { s with dispatch_clock := clock } id = some de := hde
  rw [stop_set_editable_eq _ id de v hde2 hed, if_neg (not_lt.mpr h)]

/-- C27 (amended) at the entry of `db_sched`, the value 1500 and the clock at
5000. -/
theorem stop_set_ignores_clock_witness :
    dvr_entry_class_stop_set { db_sched with dispatch_clock := 5000 } 1 1500 =
      some (de_put { db_sched with dispatch_clock := 5000 } { de_sched with de_stop := 1500 },
            decide ((1500 : Int) ≠ de_sched.de_stop)) :=
  stop_set_ignores_clock db_sched 1 de_sched 1500 5000 (by decide) (by decide) (by decide)

/-- C25 (evaluated at the failing input): the entry of `db_sched` is SCHEDULED
with start 1000 and stop 2000.  The start setter with the value 5000 stores it
and reports a change: the entry then has start 5000 and stop 2000.
`dvr_entry_update` with start 5000 and no stop (0) does the same. -/
theorem start_set_breaks_order :
    de_get db_sched 1 = some de_sched ∧ de_sched.de_start ≤ de_sched.de_stop ∧
    (dvr_entry_class_start_set db_sched 1 5000).map
        (fun r => ((de_get r.1 1).map (fun d => (d.de_start, d.de_stop)), r.2)) =
      some (some (5000, 2000), true) ∧
    (dvr_entry_update 0 db_sched 1 none none none none 5000 0 0 0 DVR_PRIO_NOTSET 0).map
        (fun s => (de_get s 1).map (fun d => (d.de_start, d.de_stop))) =
      some (some (5000, 2000)) := by
  decide

/-- C29 (evaluated at the failing input): entry 1 of `db_two_rules` is SCHEDULED,
spawned by autorec rule 4 (whose spawn list is [1]) and by timerec rule 5
(whose back-pointer is entry 1).  The autorec setter with rule 6 reports a
change and makes rule 6 the rule of the entry; the spawn list of rule 4 still
holds the entry.  The timerec setter with rule 8 reports a change and makes
rule 8 the rule of the entry; the back-pointer of rule 5 still is entry 1. -/
theorem rule_setters_keep_old_link :
    de_get db_two_rules 1 = some de_rules ∧ dvr_entry_is_editable de_rules = true ∧
    (dvr_entry_class_autorec_set db_two_rules 1 (some "6")).map
        (fun r => (r.2, (de_get r.1 1).map (fun d => d.de_autorec), r.1.autorecs)) =
      some (true, some (some 6),
            [{ dae_id := 4, dae_spawns := [1] }, { dae_id := 6, dae_spawns := [1] }]) ∧
    (dvr_entry_class_timerec_set db_two_rules 1 (some "8")).map
        (fun r => (r.2, (de_get r.1 1).map (fun d => d.de_timerec), r.1.timerecs)) =
      some (true, some (some 8),
            [{ dte_id := 5, dte_spawn := some 1 }, { dte_id := 8, dte_spawn := some 1 }]) := by
  decide

theorem de_get_de_put_same (s : dvr_db_t) (id : Nat) (de : dvr_entry_t)
    (hde : de_get s id = some de) (j : Nat) : de_get (de_put s de) j = de_get s j := by
  have hid := de_get_id s id de hde
  by_cases hj : j = id
  · rw [hj, hde]
    exact de_get_de_put s id de de hde hid
  · exact de_get_de_put_ne s de j (fun h2 => hj (h2.symm.trans hid))

theorem entries_put_put (l : List dvr_entry_t) (a b : dvr_entry_t) (h : a.de_id = b.de_id) :
    (l.map (fun e => if e.de_id = a.de_id then a else e)).map
        (fun e => if e.de_id = b.de_id then b else e) =
      l.map (fun e => if e.de_id = b.de_id then b else e) := by
  rw [List.map_map]
  apply List.map_congr_left
  intro x _
  simp only [Function.comp]
  by_cases hx : x.de_id = a.de_id
  · rw [if_pos hx, if_pos h, if_pos (hx.trans h)]
  · rw [if_neg hx]

theorem update_not_editable (now : Int) (s : dvr_db_t) (id : Nat) (de : dvr_entry_t)
    (e : Option Nat) (title subtitle desc lang : Option String)
    (start stop start_extra stop_extra pri retention : Int)
    (hde : de_get s id = some de) (hne : dvr_entry_is_editable de = false) :
    _dvr_entry_update now s id e title subtitle desc lang start stop start_extra stop_extra
      pri retention = some s := by
  unfold _dvr_entry_update
  rw [hde]
  have h1 : ¬ dvr_entry_is_editable de = true := by rw [hne]; exact Bool.false_ne_true
  simp only [if_pos h1]

theorem update_titles_eq (dflt : String) (de : dvr_entry_t) (eb : Option epg_broadcast_t)
    (title subtitle lang : Option String) (save : Bool) :
    (dvr_entry_update_titles dflt de eb title subtitle lang save).1 =
      { de with
        de_title := (dvr_entry_update_titles dflt de eb title subtitle lang save).1.de_title,
        de_subtitle :=
          (dvr_entry_update_titles dflt de eb title subtitle lang save).1.de_subtitle } := by
  unfold dvr_entry_update_titles
  simp only
  cases subtitle <;> cases title <;>
    cases (eb.bind (fun (b : epg_broadcast_t) => b.episode)).bind
      (fun (ep : epg_episode_t) => ep.title) <;> rfl

theorem update_titles_congr (dflt : String) (d d0 : dvr_entry_t) (eb : Option epg_broadcast_t)
    (title subtitle lang : Option String) (sv sv0 : Bool)
    (h1 : d.de_title = d0.de_title) (h2 : d.de_subtitle = d0.de_subtitle) :
    (dvr_entry_update_titles dflt d eb title subtitle lang sv).1.de_title =
      (dvr_entry_update_titles dflt d0 eb title subtitle lang sv0).1.de_title ∧
    (dvr_entry_update_titles dflt d eb title subtitle lang sv).1.de_subtitle =
      (dvr_entry_update_titles dflt d0 eb title subtitle lang sv0).1.de_subtitle := by
  unfold dvr_entry_update_titles
  simp only
  cases subtitle <;> cases title <;>
    cases (eb.bind (fun (b : epg_broadcast_t) => b.episode)).bind
      (fun (ep : epg_episode_t) => ep.title) <;>
    simp only [h1, h2, and_self]

theorem update_eid_genre_eq (de : dvr_entry_t) (eb : Option epg_broadcast_t) (save : Bool) :
    (dvr_entry_update_eid_genre de eb save).1 =
      { de with
        de_dvb_eid := (dvr_entry_update_eid_genre de eb save).1.de_dvb_eid,
        de_content_type := (dvr_entry_update_eid_genre de eb save).1.de_content_type } := by
  unfold dvr_entry_update_eid_genre
  simp only
  generalize (eb.bind (fun (b : epg_broadcast_t) => b.episode)).bind
    (fun (ep : epg_episode_t) => ep.genre.head?) = og
  cases eb <;> cases og <;> (try simp only) <;> (try split_ifs) <;> rfl

/-- What `dvr_entry_update_eid_genre` stores: the event id of the broadcast, and
the major genre (first genre code / 16) of its episode when it has one. -/
theorem update_eid_genre_val (de : dvr_entry_t) (eb : Option epg_broadcast_t) (save : Bool) :
    (dvr_entry_update_eid_genre de eb save).1.de_dvb_eid =
      (match eb with
       | some b => b.dvb_eid
       | none => de.de_dvb_eid) ∧
    (dvr_entry_update_eid_genre de eb save).1.de_content_type =
      (match (eb.bind (fun (b : epg_broadcast_t) => b.episode)).bind
               (fun (ep : epg_episode_t) => ep.genre.head?) with
       | some g => g / 16
       | none => de.de_content_type) := by
  unfold dvr_entry_update_eid_genre
  simp only
  generalize (eb.bind (fun (b : epg_broadcast_t) => b.episode)).bind
    (fun (ep : epg_episode_t) => ep.genre.head?) = og
  cases eb with
  | none =>
    cases og with
    | none => exact ⟨rfl, rfl⟩
    | some g =>
      simp only
      by_cases hg : g / 16 ≠ de.de_content_type
      · rw [if_pos hg]; exact ⟨rfl, rfl⟩
      · rw [if_neg hg]; exact ⟨rfl, (not_not.mp hg).symm⟩
  | some b =>
    simp only
    by_cases hb : b.dvb_eid ≠ de.de_dvb_eid
    · rw [if_pos hb]
      cases og with
      | none => exact ⟨rfl, rfl⟩
      | some g =>
        simp only
        by_cases hg : g / 16 ≠ de.de_content_type
        · rw [if_pos hg]; exact ⟨rfl, rfl⟩
        · rw [if_neg hg]; exact ⟨rfl, (not_not.mp hg).symm⟩
    · rw [if_neg hb]
      have hb2 : b.dvb_eid = de.de_dvb_eid := not_not.mp hb
      cases og with
      | none => exact ⟨hb2.symm, rfl⟩
      | some g =>
        simp only
        by_cases hg : g / 16 ≠ de.de_content_type
        · rw [if_pos hg]; exact ⟨hb2.symm, rfl⟩
        · rw [if_neg hg]; exact ⟨hb2.symm, (not_not.mp hg).symm⟩

theorem get_episode_nonempty (x : Option epg_broadcast_t) (buf : String)
    (h : dvr_entry_get_episode x = some buf) : buf ≠ "" := by
  unfold dvr_entry_get_episode at h
  cases x with
  | none => cases h
  | some b =>
    simp only at h
    cases hep : b.episode with
    | none => rw [hep] at h; cases h
    | some ep =>
      rw [hep] at h
      simp only at h
      split at h
      · rename_i hl
        cases h
        intro h0
        rw [h0] at hl
        exact hl rfl
      · cases h

theorem update_bcast_inner (s1 : dvr_db_t) (d : dvr_entry_t) (sv : Bool) (b : Nat)
    (r : dvr_db_t × dvr_entry_t × Bool)
    (h : (match bcast_get s1 b with
          | none => none
          | some bc =>
            match dvr_entry_get_episode (some bc) with
            | some buf =>
              if d.de_episode.getD "" ≠ buf then
                some (s1, { d with de_episode := some buf }, true)
              else some (s1, d, sv)
            | none => some (s1, d, sv)) = some r) :
    r.1 = s1 ∧
    r.2.1 = { d with de_episode := r.2.1.de_episode } ∧
    ∃ bc, bcast_get r.1 b = some bc ∧
      r.2.1.de_episode = (dvr_entry_get_episode (some bc)).or d.de_episode := by
  cases hbc : bcast_get s1 b with
  | none => rw [hbc] at h; cases h
  | some bc =>
    rw [hbc] at h
    simp only at h
    cases hep : dvr_entry_get_episode (some bc) with
    | none =>
      rw [hep] at h
      simp only at h
      cases h
      exact ⟨rfl, rfl, bc, hbc, by rw [hep]; rfl⟩
    | some buf =>
      rw [hep] at h
      simp only at h
      by_cases hne : d.de_episode.getD "" ≠ buf
      · rw [if_pos hne] at h
        cases h
        exact ⟨rfl, rfl, bc, hbc, by rw [hep]; rfl⟩
      · rw [if_neg hne] at h
        cases h
        have hbuf := get_episode_nonempty (some bc) buf hep
        have heq : d.de_episode = some buf := by
          have h5 : d.de_episode.getD "" = buf := not_not.mp hne
          cases hx : d.de_episode with
          | none => rw [hx] at h5; exact absurd h5.symm hbuf
          | some x => rw [hx] at h5; exact congrArg some h5
        exact ⟨rfl, rfl, bc, hbc, by rw [hep]; exact heq⟩

theorem update_bcast_episode (s1 : dvr_db_t) (d : dvr_entry_t) (sv : Bool)
    (r : dvr_db_t × dvr_entry_t × Bool)
    (h : (match d.de_bcast with
          | none => some (s1, d, sv)
          | some b =>
            match bcast_get s1 b with
            | none => none
            | some bc =>
              match dvr_entry_get_episode (some bc) with
              | some buf =>
                if d.de_episode.getD "" ≠ buf then
                  some (s1, { d with de_episode := some buf }, true)
                else some (s1, d, sv)
              | none => some (s1, d, sv)) = some r) :
    r.1 = s1 ∧
    r.2.1 = { d with de_episode := r.2.1.de_episode } ∧
    (∀ b, d.de_bcast = some b →
      ∃ bc, bcast_get r.1 b = some bc ∧
        r.2.1.de_episode = (dvr_entry_get_episode (some bc)).or d.de_episode) ∧
    (d.de_bcast = none → r.2.1.de_episode = d.de_episode) := by
  split at h
  · rename_i hb
    cases h
    refine ⟨rfl, rfl, ?_, fun _ => rfl⟩
    intro b h2
    rw [hb] at h2
    cases h2
  · rename_i b hb
    obtain ⟨h1, h2, h3⟩ := update_bcast_inner s1 d sv b r h
    refine ⟨h1, h2, ?_, ?_⟩
    · intro b2 hb2
      have e2 : b = b2 := Option.some.inj (hb.symm.trans hb2)
      rw [← e2]
      exact h3
    · intro hb2
      rw [hb] at hb2
      cases hb2

/-- The binding step of `_dvr_entry_update`: the references moved, the new
binding, and the episode string taken from the bound broadcast. -/
theorem update_bcast_frame (s : dvr_db_t) (de : dvr_entry_t) (e : Option Nat) (save : Bool)
    (r : dvr_db_t × dvr_entry_t × Bool) (h : dvr_entry_update_bcast s de e save = some r) :
    r.1 = dvr_entry_update_refs s de.de_bcast e ∧
    r.2.1 = { de with de_bcast := r.2.1.de_bcast, de_episode := r.2.1.de_episode } ∧
    r.2.1.de_bcast = e.or de.de_bcast ∧
    (∀ b, r.2.1.de_bcast = some b →
      ∃ bc, bcast_get r.1 b = some bc ∧
        r.2.1.de_episode = (dvr_entry_get_episode (some bc)).or de.de_episode) ∧
    (r.2.1.de_bcast = none → r.2.1.de_episode = de.de_episode) := by
  unfold dvr_entry_update_refs
  unfold dvr_entry_update_bcast at h
  cases e with
  | none =>
    simp only at h
    obtain ⟨h1, h2, h3, h4⟩ := update_bcast_episode s de save r h
    have hb : r.2.1.de_bcast = de.de_bcast := by rw [h2]
    refine ⟨h1, ?_, hb, ?_, ?_⟩
    · rw [h2]
    · intro b hb2
      exact h3 b (hb.symm.trans hb2)
    · intro hb2
      exact h4 (hb.symm.trans hb2)
  | some b =>
    simp only at h
    by_cases hb : de.de_bcast ≠ some b
    · simp only [if_pos hb] at h
      obtain ⟨h1, h2, h3⟩ := update_bcast_inner _ { de with de_bcast := some b } true b r h
      have hb3 : r.2.1.de_bcast = some b := by rw [h2]
      refine ⟨?_, ?_, hb3, ?_, ?_⟩
      · simp only [if_pos hb]
        exact h1
      · rw [h2]
      · intro b2 hb2
        have e2 : b = b2 := Option.some.inj (hb3.symm.trans hb2)
        rw [← e2]
        exact h3
      · intro hb2
        rw [hb3] at hb2
        cases hb2
    · simp only [if_neg hb] at h
      obtain ⟨h1, h2, h3, h4⟩ := update_bcast_episode s de save r h
      have hb2 : de.de_bcast = some b := not_not.mp hb
      have hb3 : r.2.1.de_bcast = some b := by rw [h2]; exact hb2
      refine ⟨?_, ?_, hb3, ?_, ?_⟩
      · simp only [if_neg hb]
        exact h1
      · rw [h2]
      · intro b2 hb4
        have := h3 b hb2
        have e2 : b = b2 := Option.some.inj (hb3.symm.trans hb4)
        rw [← e2]
        exact this
      · intro hb4
        rw [hb3] at hb4
        cases hb4

theorem update_refs_tables (s s1 : dvr_db_t) (old e : Option Nat)
    (hb : s1.broadcasts = s.broadcasts) :
    (dvr_entry_update_refs s1 old e).entries = s1.entries ∧
    (dvr_entry_update_refs s1 old e).broadcasts = (dvr_entry_update_refs s old e).broadcasts ∧
    (dvr_entry_update_refs s1 old e).dvrentries = s1.dvrentries ∧
    (dvr_entry_update_refs s1 old e).channels = s1.channels ∧
    (dvr_entry_update_refs s1 old e).configs = s1.configs ∧
    (dvr_entry_update_refs s1 old e).autorecs = s1.autorecs ∧
    (dvr_entry_update_refs s1 old e).timerecs = s1.timerecs ∧
    (dvr_entry_update_refs s1 old e).settings = s1.settings := by
  unfold dvr_entry_update_refs
  cases e with
  | none => exact ⟨rfl, hb, rfl, rfl, rfl, rfl, rfl, rfl⟩
  | some b =>
    simp only
    by_cases h : old ≠ some b
    · simp only [if_pos h]
      cases old <;> simp [epg_getref, epg_putref, hb]
    · simp only [if_neg h]
      simp [hb]

/-- The step of `_dvr_entry_update` after the window is stored: the reconciler
runs when the flag `save` is up; it touches the state and the timer slot of the
entry only. -/
theorem update_step_frame (now : Int) (s : dvr_db_t) (id : Nat) (de w : dvr_entry_t)
    (flag : Bool) (s1 : dvr_db_t) (d1 : dvr_entry_t)
    (hde : de_get s id = some de) (hw : w.de_id = id)
    (hstep : (if flag = true then dvr_entry_set_timer now (de_put s w) id
              else some (de_put s w)) = some s1)
    (hd1 : de_get s1 id = some d1) :
    (∃ st tm, d1 = { w with de_sched_state := st, de_timer := tm }) ∧
    s1.entries = (de_put s d1).entries ∧
    s1.broadcasts = s.broadcasts ∧ s1.dvrentries = s.dvrentries ∧ s1.channels = s.channels ∧
    s1.configs = s.configs ∧ s1.autorecs = s.autorecs ∧ s1.timerecs = s.timerecs ∧
    s1.settings = s.settings ∧ s1.lang_default = s.lang_default ∧
    (flag = true → dvr_entry_set_timer now (de_put s w) id = some s1) ∧
    (flag = false → d1 = w) := by
  have hgw : de_get (de_put s w) id = some w := de_get_de_put s id de w hde hw
  by_cases hs : flag = true
  · rw [if_pos hs] at hstep
    obtain ⟨d, st, tm, fx, hd, hs1⟩ := set_timer_frame now _ id s1 hstep
    rw [hgw] at hd
    have hdw : d = w := (Option.some.inj hd).symm
    subst hdw
    have hd2 : de_get s1 id = some { d with de_sched_state := st, de_timer := tm } := by
      rw [hs1, de_get_emit]
      exact de_get_de_put _ id d _ hgw hw
    have hd3 : d1 = { d with de_sched_state := st, de_timer := tm } :=
      Option.some.inj (hd1.symm.trans hd2)
    refine ⟨⟨st, tm, hd3⟩, ?_, ?_, ?_, ?_, ?_, ?_, ?_, ?_, ?_, fun _ => hstep, ?_⟩
    · rw [hs1, hd3]
      show (s.entries.map _).map _ = s.entries.map _
      exact entries_put_put s.entries d _ rfl
    all_goals first
      | (rw [hs1]; rfl)
      | (intro h2; rw [hs] at h2; cases h2)
  · rw [if_neg hs] at hstep
    cases hstep
    have hd3 : d1 = w := Option.some.inj (hd1.symm.trans hgw)
    refine ⟨⟨w.de_sched_state, w.de_timer, by rw [hd3]⟩, ?_, rfl, rfl, rfl, rfl, rfl, rfl, rfl,
      rfl, fun h2 => absurd h2 hs, fun _ => hd3⟩
    rw [hd3]

/-- What `_dvr_entry_update` does to an editable entry, for every input on
which it returns: the entry is stored back with the window of
`dvr_entry_update_window`, the titles of `dvr_entry_update_titles`, the event
id and genre of `dvr_entry_update_eid_genre`, the binding asked for and the
episode string of the bound broadcast; a reference moves when the binding
changes; no list changes; the reconciler has run when the window step raised
the flag. -/
theorem update_frame (now : Int) (s : dvr_db_t) (id : Nat) (e : Option Nat)
    (title subtitle desc lang : Option String) (start stop start_extra stop_extra : Int)
    (pri retention : Int) (s' : dvr_db_t) (de : dvr_entry_t)
    (hde : de_get s id = some de) (hed : dvr_entry_is_editable de = true)
    (h : _dvr_entry_update now s id e title subtitle desc lang start stop start_extra
           stop_extra pri retention = some s') :
    ∃ eb de',
      dvr_entry_update_eb s e = some eb ∧
      s'.entries = (de_put s de').entries ∧
      de' = { (dvr_entry_update_window de eb start stop start_extra stop_extra pri
                 retention).1 with
              de_sched_state := de'.de_sched_state, de_timer := de'.de_timer,
              de_title := de'.de_title, de_subtitle := de'.de_subtitle,
              de_dvb_eid := de'.de_dvb_eid, de_content_type := de'.de_content_type,
              de_bcast := de'.de_bcast, de_episode := de'.de_episode } ∧
      de'.de_bcast = e.or de.de_bcast ∧
      de'.de_title =
        (dvr_entry_update_titles s.lang_default de eb title subtitle lang false).1.de_title ∧
      de'.de_subtitle =
        (dvr_entry_update_titles s.lang_default de eb title subtitle lang false).1.de_subtitle ∧
      de'.de_dvb_eid = (dvr_entry_update_eid_genre de eb false).1.de_dvb_eid ∧
      de'.de_content_type = (dvr_entry_update_eid_genre de eb false).1.de_content_type ∧
      (∀ b, de'.de_bcast = some b →
        ∃ bc, bcast_get s' b = some bc ∧
          de'.de_episode = (dvr_entry_get_episode (some bc)).or de.de_episode) ∧
      (de'.de_bcast = none → de'.de_episode = de.de_episode) ∧
      s'.broadcasts = (dvr_entry_update_refs s de.de_bcast e).broadcasts ∧
      s'.dvrentries = s.dvrentries ∧ s'.channels = s.channels ∧ s'.configs = s.configs ∧
      s'.autorecs = s.autorecs ∧ s'.timerecs = s.timerecs ∧ s'.settings = s.settings ∧
      ((dvr_entry_update_window de eb start stop start_extra stop_extra pri retention).2 = true →
        ∃ s1 d1, dvr_entry_set_timer now
            (de_put s (dvr_entry_update_window de eb start stop start_extra stop_extra pri
                         retention).1) id = some s1 ∧
          de_get s1 id = some d1 ∧ de'.de_sched_state = d1.de_sched_state ∧
          de'.de_timer = d1.de_timer) ∧
      ((dvr_entry_update_window de eb start stop start_extra stop_extra pri retention).2 = false →
        de'.de_sched_state = de.de_sched_state ∧ de'.de_timer = de.de_timer) := by
  have hid := de_get_id s id de hde
  unfold _dvr_entry_update at h
  rw [hde] at h
  simp only at h
  have hed2 : ¬ ¬ dvr_entry_is_editable de = true := fun h2 => h2 hed
  rw [if_neg hed2] at h
  split at h
  · cases h
  · rename_i eb heb
    refine ⟨eb, ?_⟩
    have hwd : ∀ w, w = dvr_entry_update_window de eb start stop start_extra stop_extra pri
        retention → w.1.de_id = id ∧ w.1.de_title = de.de_title ∧
          w.1.de_subtitle = de.de_subtitle ∧ w.1.de_dvb_eid = de.de_dvb_eid ∧
          w.1.de_content_type = de.de_content_type ∧ w.1.de_bcast = de.de_bcast ∧
          w.1.de_episode = de.de_episode ∧ w.1.de_sched_state = de.de_sched_state ∧
          w.1.de_timer = de.de_timer := by
      intro w hw
      rw [hw]
      exact ⟨hid, rfl, rfl, rfl, rfl, rfl, rfl, rfl, rfl⟩
    generalize dvr_entry_update_window de eb start stop start_extra stop_extra pri
      retention = w at h hwd ⊢
    obtain ⟨hw1, hw2, hw3, hw4, hw5, hw6, hw7, hw8, hw9⟩ := hwd w rfl
    generalize hstep : (if w.2 = true then dvr_entry_set_timer now (de_put s w.1) id
        else some (de_put s w.1)) = step at h
    cases step with
    | none => cases h
    | some s1 =>
      simp only at h
      cases hd1 : de_get s1 id with
      | none => rw [hd1] at h; cases h
      | some d1 =>
        rw [hd1] at h
        simp only at h
        obtain ⟨⟨st, tm, hd1e⟩, a2, a3, a4, a5, a6, a7, a8, a9, a10, a11, a12⟩ :=
          update_step_frame now s id de w.1 w.2 s1 d1 hde hw1 hstep hd1
        have ht := update_titles_eq s1.lang_default d1 eb title subtitle lang w.2
        have htc := update_titles_congr s1.lang_default d1 de eb title subtitle lang w.2 false
          (by rw [hd1e]; exact hw2) (by rw [hd1e]; exact hw3)
        generalize dvr_entry_update_titles s1.lang_default d1 eb title subtitle lang w.2 = t
          at h ht htc
        rw [a10] at htc
        have hg := update_eid_genre_eq t.1 eb t.2
        have hgv := update_eid_genre_val t.1 eb t.2
        have hgv0 := update_eid_genre_val de eb false
        generalize dvr_entry_update_eid_genre t.1 eb t.2 = g at h hg hgv
        split at h
        · cases h
        · rename_i r hr
          obtain ⟨r1, r2, r3, r4, r5⟩ := update_bcast_frame s1 g.1 e g.2 r hr
          have hgb : g.1.de_bcast = de.de_bcast := by rw [hg, ht, hd1e]; exact hw6
          have hge : g.1.de_episode = de.de_episode := by rw [hg, ht, hd1e]; exact hw7
          rw [hgb] at r1 r3
          obtain ⟨b1, b2, b3, b4, b5, b6, b7, b8⟩ :=
            update_refs_tables s s1 de.de_bcast e a3
          rw [← r1] at b1 b2 b3 b4 b5 b6 b7 b8
          have hfin : ∀ x : dvr_db_t,
              x = (if r.2.2 = true then
                     emit (de_put r.1 r.2.1)
                       [dvr_effect.idnode_changed id, dvr_effect.htsp_dvr_entry_update id]
                   else de_put r.1 r.2.1) →
              x.entries = (de_put r.1 r.2.1).entries ∧ x.broadcasts = r.1.broadcasts ∧
              x.dvrentries = r.1.dvrentries ∧ x.channels = r.1.channels ∧
              x.configs = r.1.configs ∧ x.autorecs = r.1.autorecs ∧
              x.timerecs = r.1.timerecs ∧ x.settings = r.1.settings := by
            intro x hx
            rw [hx]
            cases r.2.2
            · exact ⟨rfl, rfl, rfl, rfl, rfl, rfl, rfl, rfl⟩
            · exact ⟨rfl, rfl, rfl, rfl, rfl, rfl, rfl, rfl⟩
          obtain ⟨c1, c2, c3, c4, c5, c6, c7, c8⟩ := hfin s' (Option.some.inj h).symm
          have hrid : r.2.1.de_id = d1.de_id := by rw [r2, hg, ht]
          refine ⟨r.2.1, heb, ?_, ?_, r3, ?_, ?_, ?_, ?_, ?_, ?_, ?_, ?_, ?_, ?_, ?_, ?_, ?_,
            ?_, ?_⟩
          · rw [c1]
            show r.1.entries.map _ = s.entries.map _
            rw [b1, a2]
            show (s.entries.map _).map _ = s.entries.map _
            exact entries_put_put s.entries d1 r.2.1 hrid.symm
          · rw [r2, hg, ht, hd1e]
          · rw [r2, hg, ht]
            exact htc.1
          · rw [r2, hg, ht]
            exact htc.2
          · rw [r2, hgv.1, hgv0.1]
            cases eb with
            | none => simp only; rw [ht, hd1e]; exact hw4
            | some b => rfl
          · rw [r2, hgv.2, hgv0.2]
            cases (eb.bind (fun (b : epg_broadcast_t) => b.episode)).bind
                (fun (ep : epg_episode_t) => ep.genre.head?) with
            | none => simp only; rw [ht, hd1e]; exact hw5
            | some g0 => rfl
          · intro b hb
            obtain ⟨bc, hbc, hep⟩ := r4 b hb
            rw [hge] at hep
            refine ⟨bc, ?_, hep⟩
            rw [bcast_get_congr s' r.1 b c2]
            exact hbc
          · intro hb
            exact (r5 hb).trans hge
          · rw [c2, b2]
          · rw [c3, b3, a4]
          · rw [c4, b4, a5]
          · rw [c5, b5, a6]
          · rw [c6, b6, a7]
          · rw [c7, b7, a8]
          · rw [c8, b8, a9]
          · intro hf
            refine ⟨s1, d1, a11 hf, hd1, ?_, ?_⟩
            · rw [r2, hg, ht]
            · rw [r2, hg, ht]
          · intro hf
            have := a12 hf
            constructor
            · rw [r2, hg, ht, this]; exact hw8
            · rw [r2, hg, ht, this]; exact hw9

/-- Storing back the record an entry pointer reads changes nothing that the
engine stores. -/
theorem db_same_de_put (s : dvr_db_t) (id : Nat) (de : dvr_entry_t)
    (hde : de_get s id = some de) : dvr_db_same s (de_put s de) :=
  ⟨de_get_de_put_same s id de hde, rfl, rfl, rfl, rfl, rfl, rfl, rfl, rfl⟩

theorem db_same_refl (s : dvr_db_t) : dvr_db_same s s :=
  ⟨fun _ => rfl, rfl, rfl, rfl, rfl, rfl, rfl, rfl, rfl⟩

/-- C23 (counterexample): entry 1 of `db_done` is COMPLETED, hence not editable,
and has no post-padding of its own.  A schema write of `stop_extra` = 10 stores
10 in the entry and reports a change: the property has no setter and is not
read-only. -/
theorem stop_extra_written_when_completed :
    de_get db_done 1 = some de_done ∧ dvr_entry_is_editable de_done = false ∧
    de_done.de_stop_extra = 0 ∧
    (idnode_update 6000 db_done 1 (some [("stop_extra", htsmsg_field.s64 10)])).map
        (fun r => ((de_get r.1 1).map (fun d => d.de_stop_extra), r.2)) =
      some (some 10, true) := by
  decide

/-- C23 (amended). For every entry that is not editable, the setters of start,
start_extra, stop, channel, channelname, config_name, autorec and timerec,
`_dvr_entry_update` and `dvr_entry_update` with any arguments, and the EPG
updates `dvr_event_updated` and `dvr_event_replaced` for a broadcast the entry
is found bound to, leave the entry and everything else that is stored
unchanged; the setters report no change.  (The property stop_extra has no
setter; the schema stores it at its offset.) -/
theorem non_editable_noop (now : Int) (s : dvr_db_t) (id : Nat) (de : dvr_entry_t)
    (hde : de_get s id = some de) (hne : dvr_entry_is_editable de = false) :
    (∀ v, ∃ s', dvr_entry_class_start_set s id v = some (s', false) ∧ dvr_db_same s s') ∧
    (∀ v, ∃ s', dvr_entry_class_start_extra_set s id v = some (s', false) ∧
      dvr_db_same s s') ∧
    (∀ v, ∃ s', dvr_entry_class_stop_set s id v = some (s', false) ∧ dvr_db_same s s') ∧
    (∀ v, dvr_entry_class_channel_set s id v = some (s, false)) ∧
    (∀ v, dvr_entry_class_channel_name_set s id v = some (s, false)) ∧
    (∀ v, dvr_entry_class_config_name_set s id v = some (s, false)) ∧
    (∀ v, dvr_entry_class_autorec_set s id v = some (s, false)) ∧
    (∀ v, dvr_entry_class_timerec_set s id v = some (s, false)) ∧
    (∀ e title subtitle desc lang start stop start_extra stop_extra pri retention,
      _dvr_entry_update now s id e title subtitle desc lang start stop start_extra stop_extra
        pri retention = some s) ∧
    (∀ title subtitle desc lang start stop start_extra stop_extra pri retention,
      dvr_entry_update now s id title subtitle desc lang start stop start_extra stop_extra
        pri retention = some s) ∧
    (∀ e, dvr_entry_find_by_event s e = some (some id) →
      dvr_event_updated now s e = some s ∧
      ∀ new_e, dvr_event_replaced now s e new_e = some s) := by
  have h1 : ¬ dvr_entry_is_editable de = true := by rw [hne]; exact Bool.false_ne_true
  have hsame := db_same_de_put s id de hde
  refine ⟨?_, ?_, ?_, ?_, ?_, ?_, ?_, ?_, ?_, ?_, ?_⟩
  · intro v
    unfold dvr_entry_class_start_set dvr_entry_class_time_set
    rw [hde]
    simp only [if_pos h1]
    exact ⟨_, rfl, hsame⟩
  · intro v
    unfold dvr_entry_class_start_extra_set dvr_entry_class_time_set
    rw [hde]
    simp only [if_pos h1]
    exact ⟨_, rfl, hsame⟩
  · intro v
    unfold dvr_entry_class_stop_set dvr_entry_class_time_set
    rw [hde]
    simp only [if_pos h1]
    exact ⟨_, rfl, hsame⟩
  · intro v
    unfold dvr_entry_class_channel_set
    rw [hde]
    simp only [if_pos h1]
  · intro v
    unfold dvr_entry_class_channel_name_set
    rw [hde]
    simp only [if_pos h1]
  · intro v
    unfold dvr_entry_class_config_name_set
    rw [hde]
    simp only [if_pos h1]
  · intro v
    unfold dvr_entry_class_autorec_set
    rw [hde]
    simp only [if_pos h1]
  · intro v
    unfold dvr_entry_class_timerec_set
    rw [hde]
    simp only [if_pos h1]
  · intro e title subtitle desc lang start stop start_extra stop_extra pri retention
    exact update_not_editable now s id de e title subtitle desc lang start stop start_extra
      stop_extra pri retention hde hne
  · intro title subtitle desc lang start stop start_extra stop_extra pri retention
    unfold dvr_entry_update
    exact update_not_editable now s id de none title subtitle desc lang start stop
      start_extra stop_extra pri retention hde hne
  · intro e hfind
    constructor
    · unfold dvr_event_updated
      rw [hfind]
      exact update_not_editable now s id de (some e) none none none none 0 0 0 0
        DVR_PRIO_NOTSET 0 hde hne
    · intro new_e
      unfold dvr_event_replaced
      by_cases he : e = new_e
      · rw [if_pos he]
      · rw [if_neg he, hfind]
        simp only
        rw [hde]
        have h2 : de.de_sched_state ≠ DVR_SCHEDULED := by
          intro h3
          apply h1
          simp [dvr_entry_is_editable, h3]
        simp only [if_pos h2]

/-- C23 (amended) at the COMPLETED entry of `db_done`. -/
theorem non_editable_noop_witness :
    (∀ v, ∃ s', dvr_entry_class_start_set db_done 1 v = some (s', false) ∧
      dvr_db_same db_done s') ∧
    (∀ v, ∃ s', dvr_entry_class_start_extra_set db_done 1 v = some (s', false) ∧
      dvr_db_same db_done s') ∧
    (∀ v, ∃ s', dvr_entry_class_stop_set db_done 1 v = some (s', false) ∧
      dvr_db_same db_done s') ∧
    (∀ v, dvr_entry_class_channel_set db_done 1 v = some (db_done, false)) ∧
    (∀ v, dvr_entry_class_channel_name_set db_done 1 v = some (db_done, false)) ∧
    (∀ v, dvr_entry_class_config_name_set db_done 1 v = some (db_done, false)) ∧
    (∀ v, dvr_entry_class_autorec_set db_done 1 v = some (db_done, false)) ∧
    (∀ v, dvr_entry_class_timerec_set db_done 1 v = some (db_done, false)) ∧
    (∀ e title subtitle desc lang start stop start_extra stop_extra pri retention,
      _dvr_entry_update 6000 db_done 1 e title subtitle desc lang start stop start_extra
        stop_extra pri retention = some db_done) ∧
    (∀ title subtitle desc lang start stop start_extra stop_extra pri retention,
      dvr_entry_update 6000 db_done 1 title subtitle desc lang start stop start_extra
        stop_extra pri retention = some db_done) ∧
    (∀ e, dvr_entry_find_by_event db_done e = some (some 1) →
      dvr_event_updated 6000 db_done e = some db_done ∧
      ∀ new_e, dvr_event_replaced 6000 db_done e new_e = some db_done) :=
  non_editable_noop 6000 db_done 1 de_done (by decide) (by decide)

/-- C24 (counterexample): entry 1 of `db_done` is COMPLETED with retention 0.
The retention setter with the value 7 stores nothing and reports no change,
and so does a schema write of `retention` = 7. -/
theorem retention_set_completed :
    de_get db_done 1 = some de_done ∧ de_done.de_sched_state = DVR_COMPLETED ∧
    de_done.de_retention = 0 ∧
    dvr_entry_class_retention_set db_done 1 7 = some (db_done, false) ∧
    idnode_update 6000 db_done 1 (some [("retention", htsmsg_field.s64 7)]) =
      some (db_done, false) := by
  decide

theorem idnode_update_comment (now : Int) (s : dvr_db_t) (id : Nat) (v : String) :
    idnode_update now s id (some [("comment", htsmsg_field.str v)]) =
      match prop_off_upd (some v) id
          (fun de v => { de with de_comment := prop_str_wr de.de_comment v }) (s, false) with
      | none => none
      | some r =>
        if r.2 then
          (dvr_entry_class_save now r.1 id).map
            (fun s1 => (emit s1 [dvr_effect.idnode_notify_simple id], true))
        else some (r.1, false) := by
  unfold idnode_update
  have e1 : ∀ n : String, n ≠ "comment" →
      htsmsg_get_s64 (some [("comment", htsmsg_field.str v)]) n = none := by
    intro n hn
    have : ("comment" == n) = false := by
      simp only [beq_eq_false_iff_ne, ne_eq]
      exact fun h => hn h.symm
    simp [htsmsg_get_s64, htsmsg_field_find, List.find?, this]
  have e2 : ∀ n : String, n ≠ "comment" →
      htsmsg_get_str (some [("comment", htsmsg_field.str v)]) n = none := by
    intro n hn
    have : ("comment" == n) = false := by
      simp only [beq_eq_false_iff_ne, ne_eq]
      exact fun h => hn h.symm
    simp [htsmsg_get_str, htsmsg_field_find, List.find?, this]
  have e3 : htsmsg_get_str (some [("comment", htsmsg_field.str v)]) "comment" = some v := by
    simp [htsmsg_get_str, htsmsg_field_find, List.find?]
  rw [e1 "start" (by decide), e1 "start_extra" (by decide), e1 "stop" (by decide),
    e1 "stop_extra" (by decide), e2 "channel" (by decide), e2 "disp_title" (by decide),
    e2 "disp_subtitle" (by decide), e2 "config_name" (by decide), e3]
  have e4 : ∀ n : String, n ≠ "comment" →
      prop_int (some [("comment", htsmsg_field.str v)]) n = none := by
    intro n hn
    simp [prop_int, e1 n hn]
  rw [e4 "pri" (by decide), e4 "retention" (by decide)]
  rfl

/-- C24 (amended). On an entry that is not editable the comment remains
settable: a schema write of a comment that differs from the stored one stores
it and reports a change (the pointers of the entry resolving, for the
reconciler that the class save runs).  The retention does not: its setter goes
through `dvr_entry_class_int_set`, which refuses an entry that is not editable,
stores nothing and reports no change. -/
theorem housekeeping_non_editable (now : Int) (s : dvr_db_t) (id : Nat) (de : dvr_entry_t)
    (hde : de_get s id = some de) (hne : dvr_entry_is_editable de = false)
    (hres : dvr_entry_resolves s de) :
    (∀ v, ∃ s', dvr_entry_class_retention_set s id v = some (s', false) ∧
      dvr_db_same s s') ∧
    (∀ v, de.de_comment.getD "" ≠ v →
      ∃ s' de', idnode_update now s id (some [("comment", htsmsg_field.str v)]) =
          some (s', true) ∧
        de_get s' id = some de' ∧ de'.de_comment = some v) := by
  have h1 : ¬ dvr_entry_is_editable de = true := by rw [hne]; exact Bool.false_ne_true
  have hid := de_get_id s id de hde
  constructor
  · intro v
    unfold dvr_entry_class_retention_set dvr_entry_class_int_set
    rw [hde]
    simp only [if_pos h1]
    exact ⟨_, rfl, db_same_de_put s id de hde⟩
  · intro v hv
    rw [idnode_update_comment]
    unfold prop_off_upd
    simp only [hde]
    have hw : prop_str_wr de.de_comment v = some v := by
      unfold prop_str_wr
      rw [if_pos hv]
    simp only [hw]
    have hne2 : ({ de with de_comment := some v } : dvr_entry_t) ≠ de := by
      intro h2
      have h3 : some v = de.de_comment := congrArg dvr_entry_t.de_comment h2
      rw [← h3] at hv
      exact hv rfl
    generalize hdc : ({ de with de_comment := some v } : dvr_entry_t) = dc at hne2 ⊢
    have hdc1 : dc.de_id = id := by rw [← hdc]; exact hid
    have hdc2 : dc.de_comment = some v := by rw [← hdc]
    have hdc3 : dc.de_config = de.de_config := by rw [← hdc]
    have hdc4 : dc.de_channel = de.de_channel := by rw [← hdc]
    simp only [Bool.false_or, decide_eq_true hne2, if_true]
    have hg : de_get (de_put s dc) id = some dc := de_get_de_put s id de dc hde hdc1
    unfold dvr_entry_class_save dvr_entry_save
    rw [hg]
    simp only
    have hg2 : de_get (hts_settings_save (de_put s dc) dc.de_id dc) id = some dc := hg
    rw [hg2]
    simp only
    by_cases hv2 : dvr_entry_is_valid dc = true
    · rw [if_pos hv2]
      have hres2 : dvr_entry_resolves (hts_settings_save (de_put s dc) dc.de_id dc) dc :=
        resolves_congr s _ de dc rfl rfl hdc3 hdc4 hres
      obtain ⟨s1, hs1⟩ := set_timer_total now _ id dc hg2 hres2
      obtain ⟨d, st, tm, fx, hd, hs1e⟩ := set_timer_frame now _ id s1 hs1
      rw [hg2] at hd
      have hdd : d = dc := (Option.some.inj hd).symm
      subst hdd
      rw [hs1]
      refine ⟨_, { d with de_sched_state := st, de_timer := tm }, rfl, ?_, hdc2⟩
      simp only [de_get_emit]
      rw [hs1e, de_get_emit]
      exact de_get_de_put _ id d _ hg2 hdc1
    · rw [if_neg hv2]
      exact ⟨_, dc, rfl, hg2, hdc2⟩

/-- C24 (amended) at the COMPLETED entry of `db_done`. -/
theorem housekeeping_non_editable_witness :
    (∀ v, ∃ s', dvr_entry_class_retention_set db_done 1 v = some (s', false) ∧
      dvr_db_same db_done s') ∧
    (∀ v, de_done.de_comment.getD "" ≠ v →
      ∃ s' de', idnode_update 6000 db_done 1 (some [("comment", htsmsg_field.str v)]) =
          some (s', true) ∧
        de_get s' 1 = some de' ∧ de'.de_comment = some v) :=
  housekeeping_non_editable 6000 db_done 1 de_done (by decide) (by decide)
    ⟨⟨{ dvr_id := 3, dvr_entries := [1] }, by decide⟩,
     fun c hc => ⟨{ ch_id := 7, ch_dvrs := [1] }, by
       have h7 : c = 7 := (Option.some.inj hc).symm
       rw [h7]
       decide⟩⟩

theorem update_window_flag (de : dvr_entry_t) (bc : epg_broadcast_t) :
    (dvr_entry_update_window de (some bc) 0 0 0 0 DVR_PRIO_NOTSET 0).2 = true ↔
      ((bc.start ≠ 0 ∧ bc.start ≠ de.de_start) ∨ (bc.stop ≠ 0 ∧ bc.stop ≠ de.de_stop)) := by
  simp [dvr_entry_update_window]

/-- Updating a SCHEDULED entry from the broadcast it is bound to, with pointers
that resolve: the call returns; what the entry takes from the broadcast; no
reference moves, no other entry and no list changes. -/
theorem update_bound_full (now : Int) (s : dvr_db_t) (e id : Nat) (de : dvr_entry_t)
    (bc : epg_broadcast_t)
    (hde : de_get s id = some de) (hst : de.de_sched_state = DVR_SCHEDULED)
    (hb : de.de_bcast = some e)
    (hbc : bcast_get s e = some bc) (hres : dvr_entry_resolves s de) :
    ∃ s' de', _dvr_entry_update now s id (some e) none none none none 0 0 0 0
        DVR_PRIO_NOTSET 0 = some s' ∧ de_get s' id = some de' ∧
      de'.de_bcast = some e ∧
      de'.de_title =
        (bc.episode.bind (fun (ep : epg_episode_t) => ep.title)).or de.de_title ∧
      de'.de_subtitle = de.de_subtitle ∧
      de'.de_dvb_eid = bc.dvb_eid ∧
      de'.de_content_type =
        ((bc.episode.bind (fun (ep : epg_episode_t) => ep.genre.head?)).map
          (fun g => g / 16)).getD de.de_content_type ∧
      de'.de_episode = (dvr_entry_get_episode (some bc)).or de.de_episode ∧
      de'.de_start = (if bc.start ≠ 0 then bc.start else de.de_start) ∧
      de'.de_stop = (if bc.stop ≠ 0 then bc.stop else de.de_stop) ∧
      ((bc.start ≠ 0 ∧ bc.start ≠ de.de_start) ∨ (bc.stop ≠ 0 ∧ bc.stop ≠ de.de_stop) →
        ∃ s1 d1, dvr_entry_set_timer now
            (de_put s (dvr_entry_update_window de (some bc) 0 0 0 0 DVR_PRIO_NOTSET 0).1) id =
              some s1 ∧
          de_get s1 id = some d1 ∧ de'.de_sched_state = d1.de_sched_state ∧
          de'.de_timer = d1.de_timer) ∧
      s'.broadcasts = s.broadcasts ∧ (∀ j, j ≠ id → de_get s' j = de_get s j) ∧
      s'.dvrentries = s.dvrentries ∧ s'.channels = s.channels ∧ s'.configs = s.configs ∧
      s'.autorecs = s.autorecs ∧ s'.timerecs = s.timerecs ∧ s'.settings = s.settings ∧
      de'.de_channel = de.de_channel ∧ de'.de_config = de.de_config ∧
      de'.de_autorec = de.de_autorec ∧ de'.de_timerec = de.de_timerec ∧
      de'.de_refcnt = de.de_refcnt := by
  obtain ⟨s', d0, hup, hg0, _, _, hs0, he0, hbr, _⟩ :=
    update_bound now s id de e bc hde hst hb hbc hres
  have hed : dvr_entry_is_editable de = true := by
    simp [dvr_entry_is_editable, hst]
  obtain ⟨eb, de', heb, fe, frec, fb, fti, fsu, feid, fct, fep, _, _, g1, g2, g3, g4, g5, g6,
      ft, _⟩ :=
    update_frame now s id (some e) none none none none 0 0 0 0 DVR_PRIO_NOTSET 0 s' de hde hed
      hup
  have hebv : eb = some bc := by
    unfold dvr_entry_update_eb at heb
    simp only at heb
    rw [hbc] at heb
    exact (Option.some.inj heb).symm
  subst hebv
  have hid' : de'.de_id = id := by
    rw [frec]
    exact de_get_id s id de hde
  have hg : de_get s' id = some de' := by
    rw [de_get_congr s' (de_put s de') id fe]
    exact de_get_de_put s id de de' hde hid'
  have hd0 : d0 = de' := Option.some.inj (hg0.symm.trans hg)
  rw [hd0] at hs0 he0
  have hb' : de'.de_bcast = some e := fb
  refine ⟨s', de', hup, hg, hb', ?_, ?_, ?_, ?_, ?_, hs0, he0, ?_, hbr, ?_, g1, g2, g3, g4, g5,
    g6, ?_, ?_, ?_, ?_, ?_⟩
  · rw [fti]
    unfold dvr_entry_update_titles
    simp only [Option.some_bind]
    cases bc.episode.bind (fun (ep : epg_episode_t) => ep.title) <;> rfl
  · rw [fsu]
    unfold dvr_entry_update_titles
    simp only [Option.some_bind]
    cases bc.episode.bind (fun (ep : epg_episode_t) => ep.title) <;> rfl
  · rw [feid]
    exact (update_eid_genre_val de (some bc) false).1
  · rw [fct, (update_eid_genre_val de (some bc) false).2]
    simp only [Option.some_bind]
    cases bc.episode.bind (fun (ep : epg_episode_t) => ep.genre.head?) <;> rfl
  · obtain ⟨bc', hbc', hep⟩ := fep e hb'
    rw [bcast_get_congr s' s e hbr, hbc] at hbc'
    have : bc = bc' := Option.some.inj hbc'
    rw [this]
    exact hep
  · intro hchg
    exact ft ((update_window_flag de bc).mpr hchg)
  · intro j hj
    rw [de_get_congr s' (de_put s de') j fe]
    exact de_get_de_put_ne s de' j (fun h2 => hj (h2.symm.trans hid'))
  · rw [frec]; rfl
  · rw [frec]; rfl
  · rw [frec]; rfl
  · rw [frec]; rfl
  · rw [frec]; rfl

/-- C21 (counterexample). With the broadcast of `db_updated_sparse`, which starts
at time 0 and whose episode has neither title nor genre nor number, the
SCHEDULED entry bound to it keeps its title, its genre, its episode string
and its start after `dvr_event_updated`.  In `db_updated_pair` two SCHEDULED
entries are bound to broadcast 9; `dvr_entry_find_by_event` returns entry 1,
and after `dvr_event_updated` entry 2 still has title X, event id 0, genre 0,
no episode string and stop 3600 where the broadcast stops at 4000.  In `db_updated` the entry has subtitle "old" and the
episode of the broadcast has subtitle "new"; after `dvr_event_updated` the
entry has the title Y of the episode and subtitle "old". -/
theorem event_updated_partial :
    dvr_entry_find_by_event db_updated_sparse 9 = some (some 1) ∧
    de_get db_updated_sparse 1 = some de_updated ∧
    de_updated.de_sched_state = DVR_SCHEDULED ∧ de_updated.de_bcast = some 9 ∧
    bcast_get db_updated_sparse 9 = some bcast_sparse ∧
    (dvr_event_updated 0 db_updated_sparse 9).map
        (fun s => (de_get s 1).map (fun d => (d.de_title, d.de_content_type, d.de_episode))) =
      some (some (some [("eng", "X")], 0, none)) ∧
    (dvr_event_updated 0 db_updated_sparse 9).map
        (fun s => (de_get s 1).map (fun d => (d.de_start, d.de_stop))) =
      some (some (60, 4000)) ∧
    dvr_entry_find_by_event db_updated_pair 9 = some (some 1) ∧
    (de_get db_updated_pair 2).map (fun d => (d.de_sched_state, d.de_bcast)) =
      some (DVR_SCHEDULED, some 9) ∧
    bcast_get db_updated_pair 9 = some bcast_late ∧
    (dvr_event_updated 0 db_updated_pair 9).map
        (fun s => (de_get s 2).map (fun d => (d.de_title, d.de_content_type, d.de_episode))) =
      some (some (some [("eng", "X")], 0, none)) ∧
    (dvr_event_updated 0 db_updated_pair 9).map
        (fun s => (de_get s 2).map (fun d => d.de_dvb_eid)) = some (some 0) ∧
    (dvr_event_updated 0 db_updated_pair 9).map
        (fun s => (de_get s 2).map (fun d => (d.de_start, d.de_stop))) =
      some (some (60, 3600)) ∧
    dvr_entry_find_by_event db_updated 9 = some (some 1) ∧
    de_get db_updated 1 = some de_updated ∧
    bcast_get db_updated 9 = some bcast_full ∧
    bcast_full.episode.bind (fun (ep : epg_episode_t) => ep.subtitle) =
      some [("eng", "new")] ∧
    (dvr_event_updated 0 db_updated 9).map
        (fun s => (de_get s 1).map (fun d => (d.de_title, d.de_subtitle))) =
      some (some (some [("eng", "Y")], some [("eng", "old")])) := by
  repeat' apply And.intro
  all_goals decide

/-- C21 (amended). For the SCHEDULED entry E that `dvr_entry_find_by_event(B)`
returns (the first entry in the list of the channel of B that is bound to B),
with pointers that resolve, `dvr_event_updated(B)` returns and afterwards E is
still bound to B; its title is the title of B's episode when the episode has
one and is unchanged otherwise; its DVB event id is B's; its content type is
the first genre code of B's episode / 16 when there is one and is unchanged
otherwise; its episode string is B's formatted episode when that is not empty
and is unchanged otherwise; its start and stop are B's unless B has 0 there;
and the reconciler has run on the new window if start or stop changed. -/
theorem event_updated_bound (now : Int) (s : dvr_db_t) (e id : Nat) (de : dvr_entry_t)
    (bc : epg_broadcast_t)
    (hfind : dvr_entry_find_by_event s e = some (some id))
    (hde : de_get s id = some de) (hst : de.de_sched_state = DVR_SCHEDULED)
    (hbc : bcast_get s e = some bc) (hres : dvr_entry_resolves s de) :
    ∃ s' de', dvr_event_updated now s e = some s' ∧ de_get s' id = some de' ∧
      de'.de_bcast = some e ∧
      de'.de_title =
        (bc.episode.bind (fun (ep : epg_episode_t) => ep.title)).or de.de_title ∧
      de'.de_dvb_eid = bc.dvb_eid ∧
      de'.de_content_type =
        ((bc.episode.bind (fun (ep : epg_episode_t) => ep.genre.head?)).map
          (fun g => g / 16)).getD de.de_content_type ∧
      de'.de_episode = (dvr_entry_get_episode (some bc)).or de.de_episode ∧
      de'.de_start = (if bc.start ≠ 0 then bc.start else de.de_start) ∧
      de'.de_stop = (if bc.stop ≠ 0 then bc.stop else de.de_stop) ∧
      ((bc.start ≠ 0 ∧ bc.start ≠ de.de_start) ∨ (bc.stop ≠ 0 ∧ bc.stop ≠ de.de_stop) →
        ∃ s1 d1, dvr_entry_set_timer now
            (de_put s (dvr_entry_update_window de (some bc) 0 0 0 0 DVR_PRIO_NOTSET 0).1) id =
              some s1 ∧
          de_get s1 id = some d1 ∧ de'.de_sched_state = d1.de_sched_state ∧
          de'.de_timer = d1.de_timer) := by
  obtain ⟨de0, hde0, hb0⟩ := find_by_event_some s e id hfind
  have hb : de.de_bcast = some e := by
    have : de0 = de := Option.some.inj (hde0.symm.trans hde)
    rw [← this]
    exact hb0
  obtain ⟨s', de', hup, hg, f1, f2, _, f4, f5, f6, f7, f8, f9, _⟩ :=
    update_bound_full now s e id de bc hde hst hb hbc hres
  have hev : dvr_event_updated now s e = some s' := by
    unfold dvr_event_updated
    rw [hfind]
    exact hup
  exact ⟨s', de', hev, hg, f1, f2, f4, f5, f6, f7, f8, f9⟩

/-- C21 (amended) at entry 1 of `db_updated_pair`, the one of the two entries
bound to broadcast 9 that `dvr_entry_find_by_event` returns; the broadcast
stops at 4000 where the entry stops at 3600, so the window changes. -/
theorem event_updated_bound_witness :
    dvr_entry_find_by_event db_updated_pair 9 = some (some 1) ∧
    (bcast_late.stop ≠ 0 ∧ bcast_late.stop ≠ de_updated.de_stop) ∧
    ∃ s' de', dvr_event_updated 0 db_updated_pair 9 = some s' ∧ de_get s' 1 = some de' ∧
      de'.de_bcast = some 9 ∧
      de'.de_title =
        (bcast_late.episode.bind (fun (ep : epg_episode_t) => ep.title)).or
          de_updated.de_title ∧
      de'.de_dvb_eid = bcast_late.dvb_eid ∧
      de'.de_content_type =
        ((bcast_late.episode.bind (fun (ep : epg_episode_t) => ep.genre.head?)).map
          (fun g => g / 16)).getD de_updated.de_content_type ∧
      de'.de_episode = (dvr_entry_get_episode (some bcast_late)).or de_updated.de_episode ∧
      de'.de_start = (if bcast_late.start ≠ 0 then bcast_late.start else de_updated.de_start) ∧
      de'.de_stop = (if bcast_late.stop ≠ 0 then bcast_late.stop else de_updated.de_stop) ∧
      ((bcast_late.start ≠ 0 ∧ bcast_late.start ≠ de_updated.de_start) ∨
          (bcast_late.stop ≠ 0 ∧ bcast_late.stop ≠ de_updated.de_stop) →
        ∃ s1 d1, dvr_entry_set_timer 0
            (de_put db_updated_pair
              (dvr_entry_update_window de_updated (some bcast_late) 0 0 0 0
                 DVR_PRIO_NOTSET 0).1) 1 = some s1 ∧
          de_get s1 1 = some d1 ∧ de'.de_sched_state = d1.de_sched_state ∧
          de'.de_timer = d1.de_timer) :=
  ⟨by decide, by decide,
   event_updated_bound 0 db_updated_pair 9 1 de_updated bcast_late (by decide) (by decide)
    (by decide) (by decide)
    ⟨⟨{ dvr_id := 3, dvr_update_window := 300, dvr_entries := [1, 2] }, by decide⟩,
     fun c hc =>
      ⟨{ ch_id := 7, ch_name := "one", ch_dvrs := [1, 2], ch_epg_schedule := [9] }, by
       have h7 : c = 7 := (Option.some.inj hc).symm
       rw [h7]
       decide⟩⟩⟩

theorem updated_scan_spec (now : Int) (s : dvr_db_t) (e : Nat) (bc : epg_broadcast_t)
    (l : List Nat)
    (hres : ∀ i ∈ l, ∃ de r, de_get s i = some de ∧ dvr_entry_fuzzy_match s de bc = some r) :
    dvr_event_updated_scan now s e bc l =
      match l.find? (event_updated_candidate s bc) with
      | none => some s
      | some i =>
        (de_get s i).bind (fun de =>
          _dvr_entry_update now (de_put (epg_getref s e) { de with de_bcast := some e }) i
            (some e) none none none none 0 0 0 0 DVR_PRIO_NOTSET 0) := by
  induction l with
  | nil => rfl
  | cons i rest ih =>
    obtain ⟨de, r, hde, hr⟩ := hres i (List.mem_cons_self _ _)
    have ih2 := ih (fun x hx => hres x (List.mem_cons_of_mem _ hx))
    rw [dvr_event_updated_scan, List.find?_cons]
    simp only [hde]
    by_cases h1 : de.de_sched_state ≠ DVR_SCHEDULED
    · rw [if_pos h1]
      have hc : event_updated_candidate s bc i = false := by
        unfold event_updated_candidate
        rw [hde]
        simp [h1]
      rw [hc]
      exact ih2
    · rw [if_neg h1]
      by_cases h2 : de.de_bcast ≠ none
      · rw [if_pos h2]
        have hc : event_updated_candidate s bc i = false := by
          unfold event_updated_candidate
          rw [hde]
          simp [h2]
        rw [hc]
        exact ih2
      · rw [if_neg h2]
        by_cases h3 : de.de_channel ≠ bc.channel
        · rw [if_pos h3]
          have hc : event_updated_candidate s bc i = false := by
            unfold event_updated_candidate
            rw [hde]
            simp [h3]
          rw [hc]
          exact ih2
        · rw [if_neg h3, hr]
          have hc : event_updated_candidate s bc i = r := by
            unfold event_updated_candidate
            rw [hde]
            simp only [hr]
            have e1 : de.de_sched_state = DVR_SCHEDULED := not_not.mp h1
            have e2 : de.de_bcast = none := not_not.mp h2
            have e3 : de.de_channel = bc.channel := not_not.mp h3
            rw [e1, e2, e3]
            cases r <;> simp
          rw [hc]
          cases r
          · exact ih2
          · simp only [hde, Option.some_bind]

theorem candidate_spec (s : dvr_db_t) (bc : epg_broadcast_t) (i : Nat)
    (h : event_updated_candidate s bc i = true) :
    ∃ de, de_get s i = some de ∧ de.de_sched_state = DVR_SCHEDULED ∧ de.de_bcast = none ∧
      de.de_channel = bc.channel ∧ dvr_entry_fuzzy_match s de bc = some true := by
  unfold event_updated_candidate at h
  cases hde : de_get s i with
  | none => rw [hde] at h; cases h
  | some de =>
    rw [hde] at h
    simp only [Bool.and_eq_true, beq_iff_eq] at h
    exact ⟨de, rfl, h.1.1.1, h.1.1.2, h.1.2, h.2⟩

/-- C22. When no entry is bound to broadcast B (`dvr_entry_find_by_event`
returns NULL), `dvr_event_updated(B)` binds B to the first entry of the global
list that is SCHEDULED, not bound, on B's channel and fuzzy-matches B: B gains
exactly one reference, that entry is bound to B and updated from B (title,
event id, start and stop as `_dvr_entry_update` takes them), no other entry and
no list changes; without such an entry the state is unchanged.  The pointers
of the listed entries resolve. -/
theorem event_updated_unbound (now : Int) (s : dvr_db_t) (e : Nat) (bc : epg_broadcast_t)
    (hfind : dvr_entry_find_by_event s e = some none) (hbc : bcast_get s e = some bc)
    (hres : ∀ i ∈ s.dvrentries, ∃ de, de_get s i = some de ∧ dvr_entry_resolves s de) :
    (s.dvrentries.find? (event_updated_candidate s bc) = none →
      dvr_event_updated now s e = some s) ∧
    (∀ id, s.dvrentries.find? (event_updated_candidate s bc) = some id →
      ∃ de s' de', de_get s id = some de ∧ dvr_event_updated now s e = some s' ∧
        dvr_event_updated now s e =
          _dvr_entry_update now (de_put (epg_getref s e) { de with de_bcast := some e }) id
            (some e) none none none none 0 0 0 0 DVR_PRIO_NOTSET 0 ∧
        de_get s' id = some de' ∧ de'.de_bcast = some e ∧
        de'.de_title =
          (bc.episode.bind (fun (ep : epg_episode_t) => ep.title)).or de.de_title ∧
        de'.de_dvb_eid = bc.dvb_eid ∧
        de'.de_start = (if bc.start ≠ 0 then bc.start else de.de_start) ∧
        de'.de_stop = (if bc.stop ≠ 0 then bc.stop else de.de_stop) ∧
        s'.broadcasts = (epg_getref s e).broadcasts ∧
        (∀ j, j ≠ id → de_get s' j = de_get s j) ∧
        s'.dvrentries = s.dvrentries ∧ s'.channels = s.channels ∧ s'.configs = s.configs ∧
        s'.autorecs = s.autorecs ∧ s'.timerecs = s.timerecs ∧ s'.settings = s.settings) := by
  have hscan : dvr_event_updated now s e =
      match s.dvrentries.find? (event_updated_candidate s bc) with
      | none => some s
      | some i =>
        (de_get s i).bind (fun de =>
          _dvr_entry_update now (de_put (epg_getref s e) { de with de_bcast := some e }) i
            (some e) none none none none 0 0 0 0 DVR_PRIO_NOTSET 0) := by
    unfold dvr_event_updated
    rw [hfind]
    simp only
    rw [hbc]
    simp only
    apply updated_scan_spec
    intro i hi
    obtain ⟨de, hde, ⟨cfg, hcfg⟩, _⟩ := hres i hi
    obtain ⟨r, hr⟩ := fuzzy_match_total s de bc cfg hcfg
    exact ⟨de, r, hde, hr⟩
  constructor
  · intro hnone
    rw [hscan, hnone]
  · intro id hsome
    have hmem : id ∈ s.dvrentries := List.mem_of_find?_eq_some hsome
    have hcand : event_updated_candidate s bc id = true := List.find?_some hsome
    obtain ⟨de, hde, hst, hb, _, _⟩ := candidate_spec s bc id hcand
    obtain ⟨de2, hde2, hres2⟩ := hres id hmem
    have hdd : de2 = de := Option.some.inj (hde2.symm.trans hde)
    rw [hdd] at hres2
    have hid := de_get_id s id de hde
    rw [hscan, hsome]
    simp only [hde, Option.some_bind]
    generalize hD : ({ de with de_bcast := some e } : dvr_entry_t) = D
    have hD1 : D.de_id = id := by rw [← hD]; exact hid
    have hD2 : D.de_sched_state = DVR_SCHEDULED := by rw [← hD]; exact hst
    have hD3 : D.de_bcast = some e := by rw [← hD]
    have hD4 : D.de_title = de.de_title := by rw [← hD]
    have hD5 : D.de_start = de.de_start := by rw [← hD]
    have hD6 : D.de_stop = de.de_stop := by rw [← hD]
    have hD7 : D.de_config = de.de_config := by rw [← hD]
    have hD8 : D.de_channel = de.de_channel := by rw [← hD]
    have hgD : de_get (de_put (epg_getref s e) D) id = some D :=
      de_get_de_put (epg_getref s e) id de D hde hD1
    have hbc2 : ∃ bc2, bcast_get (de_put (epg_getref s e) D) e = some bc2 ∧
        bc2.episode = bc.episode ∧ bc2.dvb_eid = bc.dvb_eid ∧ bc2.start = bc.start ∧
        bc2.stop = bc.stop := by
      have : bcast_get (de_put (epg_getref s e) D) e = bcast_get (epg_getref s e) e := rfl
      rw [this, bcast_get_getref, hbc]
      refine ⟨_, rfl, ?_, ?_, ?_, ?_⟩ <;> (dsimp only; split <;> rfl)
    obtain ⟨bc2, hbc2, k1, k2, k3, k4⟩ := hbc2
    have hresD : dvr_entry_resolves (de_put (epg_getref s e) D) D :=
      resolves_congr s _ de D rfl rfl hD7 hD8 hres2
    obtain ⟨s', de', hup, hg, f1, f2, _, f4, _, _, f7, f8, _, g0, g1, g2, g3, g4, g5, g6, g7,
        _⟩ :=
      update_bound_full now (de_put (epg_getref s e) D) e id D bc2 hgD hD2 hD3 hbc2 hresD
    rw [k1, hD4] at f2
    rw [k2] at f4
    rw [k3, hD5] at f7
    rw [k4, hD6] at f8
    refine ⟨de, s', de', rfl, hup, by rw [hD], hg, f1, f2, f4, f7, f8, g0, ?_, g2, g3, g4, g5, g6,
      g7⟩
    intro j hj
    rw [g1 j hj]
    exact de_get_de_put_ne (epg_getref s e) D j (fun h2 => hj (h2.symm.trans hD1))

/-- C22 at the store `db_unbound` and its broadcast 9, which no entry is bound
to: entry 2, the first of the global list, does not match; entry 1 does. -/
theorem event_updated_unbound_witness :
    (db_unbound.dvrentries.find? (event_updated_candidate db_unbound
        { bcast_full with refcount := 0 }) = none →
      dvr_event_updated 0 db_unbound 9 = some db_unbound) ∧
    (∀ id, db_unbound.dvrentries.find? (event_updated_candidate db_unbound
        { bcast_full with refcount := 0 }) = some id →
      ∃ de s' de', de_get db_unbound id = some de ∧
        dvr_event_updated 0 db_unbound 9 = some s' ∧
        dvr_event_updated 0 db_unbound 9 =
          _dvr_entry_update 0 (de_put (epg_getref db_unbound 9) { de with de_bcast := some 9 })
            id (some 9) none none none none 0 0 0 0 DVR_PRIO_NOTSET 0 ∧
        de_get s' id = some de' ∧ de'.de_bcast = some 9 ∧
        de'.de_title =
          (({ bcast_full with refcount := 0 } : epg_broadcast_t).episode.bind
            (fun (ep : epg_episode_t) => ep.title)).or de.de_title ∧
        de'.de_dvb_eid = ({ bcast_full with refcount := 0 } : epg_broadcast_t).dvb_eid ∧
        de'.de_start =
          (if ({ bcast_full with refcount := 0 } : epg_broadcast_t).start ≠ 0 then
             ({ bcast_full with refcount := 0 } : epg_broadcast_t).start
           else de.de_start) ∧
        de'.de_stop =
          (if ({ bcast_full with refcount := 0 } : epg_broadcast_t).stop ≠ 0 then
             ({ bcast_full with refcount := 0 } : epg_broadcast_t).stop
           else de.de_stop) ∧
        s'.broadcasts = (epg_getref db_unbound 9).broadcasts ∧
        (∀ j, j ≠ id → de_get s' j = de_get db_unbound j) ∧
        s'.dvrentries = db_unbound.dvrentries ∧ s'.channels = db_unbound.channels ∧
        s'.configs = db_unbound.configs ∧ s'.autorecs = db_unbound.autorecs ∧
        s'.timerecs = db_unbound.timerecs ∧ s'.settings = db_unbound.settings) :=
  event_updated_unbound 0 db_unbound 9 { bcast_full with refcount := 0 } (by decide) (by decide)
    (fun i hi =>
      have hcfg : ∀ de : dvr_entry_t, de.de_config = some 3 → de.de_channel = some 7 →
          dvr_entry_resolves db_unbound de := fun de h3 h7 =>
        ⟨⟨{ dvr_id := 3, dvr_update_window := 300, dvr_entries := [2, 1] }, by
            rw [h3]; decide⟩,
         fun c hc => ⟨{ ch_id := 7, ch_name := "one", ch_dvrs := [2, 1],
                        ch_epg_schedule := [9] }, by
           rw [h7] at hc
           have hc7 : c = 7 := (Option.some.inj hc).symm
           rw [hc7]
           decide⟩⟩
      have h21 : i = 2 ∨ i = 1 := by
        have : i ∈ [2, 1] := hi
        simpa using this
      h21.elim
        (fun h2 => ⟨{ de_updated with
                      de_id := 2, de_bcast := none, de_start := 5000,
                      de_stop := 6000, de_title := some [("eng", "Z")] },
          by rw [h2]; decide, hcfg _ rfl rfl⟩)
        (fun h1 => ⟨{ de_updated with de_bcast := none, de_title := some [("eng", "Y")] },
          by rw [h1]; decide, hcfg _ rfl rfl⟩))

theorem countP_put (p : dvr_entry_t → Bool) (l : List dvr_entry_t) (id : Nat)
    (de de' : dvr_entry_t) (hnd : (l.map (fun x => x.de_id)).Nodup)
    (hde : l.find? (fun x => x.de_id == id) = some de) (hid : de'.de_id = id) :
    ((l.map (fun x => if x.de_id = de'.de_id then de' else x)).countP p : Int) =
      (l.countP p : Int) - (if p de = true then 1 else 0) + (if p de' = true then 1 else 0) := by
  induction l with
  | nil => simp at hde
  | cons x xs ih =>
    rw [List.map_cons, List.nodup_cons] at hnd
    obtain ⟨hx, hnd2⟩ := hnd
    by_cases hxi : x.de_id = id
    · have hb : (x.de_id == id) = true := by simp [hxi]
      simp only [List.find?, hb] at hde
      have hxd : x = de := Option.some.inj hde
      have hrest : xs.map (fun y => if y.de_id = de'.de_id then de' else y) = xs := by
        conv => rhs; rw [← List.map_id xs]
        apply List.map_congr_left
        intro y hy
        have hyi : y.de_id ≠ de'.de_id := by
          intro h2
          apply hx
          rw [hxi, ← hid, ← h2]
          exact List.mem_map_of_mem (fun x => x.de_id) hy
        simp [hyi]
      rw [List.map_cons, hrest, if_pos (hxi.trans hid.symm), List.countP_cons, List.countP_cons,
        hxd]
      push_cast
      split_ifs <;> omega
    · have hb : (x.de_id == id) = false := by simpa using hxi
      simp only [List.find?, hb] at hde
      have ih2 := ih hnd2 hde
      have hxi2 : ¬ x.de_id = de'.de_id := by rw [hid]; exact hxi
      rw [List.map_cons, if_neg hxi2, List.countP_cons, List.countP_cons]
      push_cast
      rw [ih2]
      ring

theorem countP_free (p : dvr_entry_t → Bool) (l : List dvr_entry_t) (id : Nat)
    (de : dvr_entry_t) (hnd : (l.map (fun x => x.de_id)).Nodup)
    (hde : l.find? (fun x => x.de_id == id) = some de) :
    ((l.filter (fun x => x.de_id != id)).countP p : Int) =
      (l.countP p : Int) - (if p de = true then 1 else 0) := by
  induction l with
  | nil => simp at hde
  | cons x xs ih =>
    rw [List.map_cons, List.nodup_cons] at hnd
    obtain ⟨hx, hnd2⟩ := hnd
    by_cases hxi : x.de_id = id
    · have hb : (x.de_id == id) = true := by simp [hxi]
      simp only [List.find?, hb] at hde
      have hxd : x = de := Option.some.inj hde
      have hrest : xs.filter (fun y => y.de_id != id) = xs := by
        apply List.filter_eq_self.mpr
        intro y hy
        have hyi : y.de_id ≠ id := by
          intro h2
          apply hx
          rw [hxi, ← h2]
          exact List.mem_map_of_mem (fun x => x.de_id) hy
        simp [hyi]
      have hf : (x.de_id != id) = false := by simp [hxi]
      rw [List.filter_cons, hf]
      simp only [Bool.false_eq_true, if_false]
      rw [hrest, List.countP_cons, hxd]
      push_cast
      split_ifs <;> omega
    · have hb : (x.de_id == id) = false := by simpa using hxi
      simp only [List.find?, hb] at hde
      have ih2 := ih hnd2 hde
      have hf : (x.de_id != id) = true := by simp [hxi]
      rw [List.filter_cons, hf]
      simp only [if_true]
      rw [List.countP_cons, List.countP_cons]
      push_cast
      rw [ih2]
      ring

theorem ids_put (l : List dvr_entry_t) (de' : dvr_entry_t) :
    (l.map (fun x => if x.de_id = de'.de_id then de' else x)).map (fun x => x.de_id) =
      l.map (fun x => x.de_id) := by
  rw [List.map_map]
  apply List.map_congr_left
  intro x _
  simp only [Function.comp]
  split_ifs with h
  · exact h.symm
  · rfl

theorem bcast_get_id (s : dvr_db_t) (b : Nat) (bc : epg_broadcast_t)
    (h : bcast_get s b = some bc) : bc.id = b := by
  unfold bcast_get at h
  have := List.find?_some h
  simpa using this

theorem refcount_putref (s : dvr_db_t) (x b : Nat) (hx : ∃ bc, bcast_get s x = some bc) :
    epg_refcount (epg_putref s x) b = epg_refcount s b - (if x = b then 1 else 0) := by
  unfold epg_refcount
  rw [bcast_get_putref]
  cases hb : bcast_get s b with
  | none =>
    simp only [Option.map_none']
    have hxb : x ≠ b := by
      intro h2
      obtain ⟨bc, hbc⟩ := hx
      rw [h2, hb] at hbc
      cases hbc
    rw [if_neg hxb]
    rfl
  | some bc =>
    have hid := bcast_get_id s b bc hb
    simp only [Option.map_some']
    by_cases hxb : x = b
    · rw [if_pos hxb, if_pos (hid.trans hxb.symm)]
    · rw [if_neg hxb, if_neg (fun h2 => hxb (h2.symm.trans hid))]
      simp

theorem refcount_getref (s : dvr_db_t) (x b : Nat) (hx : ∃ bc, bcast_get s x = some bc) :
    epg_refcount (epg_getref s x) b = epg_refcount s b + (if x = b then 1 else 0) := by
  unfold epg_refcount
  rw [bcast_get_getref]
  cases hb : bcast_get s b with
  | none =>
    simp only [Option.map_none']
    have hxb : x ≠ b := by
      intro h2
      obtain ⟨bc, hbc⟩ := hx
      rw [h2, hb] at hbc
      cases hbc
    rw [if_neg hxb]
    rfl
  | some bc =>
    have hid := bcast_get_id s b bc hb
    simp only [Option.map_some']
    by_cases hxb : x = b
    · rw [if_pos hxb, if_pos (hid.trans hxb.symm)]
    · rw [if_neg hxb, if_neg (fun h2 => hxb (h2.symm.trans hid))]
      simp

theorem bcast_some_putref (s : dvr_db_t) (x b : Nat) :
    (∃ bc, bcast_get (epg_putref s x) b = some bc) ↔ ∃ bc, bcast_get s b = some bc := by
  rw [bcast_get_putref]
  cases bcast_get s b <;> simp

theorem bcast_some_getref (s : dvr_db_t) (x b : Nat) :
    (∃ bc, bcast_get (epg_getref s x) b = some bc) ↔ ∃ bc, bcast_get s b = some bc := by
  rw [bcast_get_getref]
  cases bcast_get s b <;> simp

theorem de_get_mem (s : dvr_db_t) (id : Nat) (de : dvr_entry_t) (h : de_get s id = some de) :
    de ∈ s.entries := List.mem_of_find?_eq_some h

theorem refcount_congr (s1 s2 : dvr_db_t) (b : Nat) (h : s1.broadcasts = s2.broadcasts) :
    epg_refcount s1 b = epg_refcount s2 b := by
  unfold epg_refcount
  rw [bcast_get_congr s1 s2 b h]

theorem users_congr (s1 s2 : dvr_db_t) (b : Nat) (h : s1.entries = s2.entries) :
    dvr_bcast_users s1 b = dvr_bcast_users s2 b := by
  unfold dvr_bcast_users
  rw [h]

/-- Parity depends on the entries and the broadcasts only. -/
theorem parity_same (s s' : dvr_db_t) (he : s'.entries = s.entries)
    (hb : s'.broadcasts = s.broadcasts) (hwf : dvr_bcast_wf s) :
    dvr_bcast_wf s' ∧ dvr_bcast_parity s s' := by
  refine ⟨⟨?_, ?_⟩, ?_⟩
  · rw [he]; exact hwf.1
  · intro de hde b hdb
    rw [he] at hde
    rw [bcast_get_congr s' s b hb]
    exact hwf.2 de hde b hdb
  · intro b
    rw [refcount_congr s' s b hb, users_congr s' s b he]
    simp

theorem parity_trans (s s1 s2 : dvr_db_t)
    (h1 : dvr_bcast_wf s1 ∧ dvr_bcast_parity s s1)
    (h2 : dvr_bcast_wf s1 → dvr_bcast_wf s2 ∧ dvr_bcast_parity s1 s2) :
    dvr_bcast_wf s2 ∧ dvr_bcast_parity s s2 := by
  obtain ⟨w2, p2⟩ := h2 h1.1
  refine ⟨w2, ?_⟩
  intro b
  have a := h1.2 b
  have c := p2 b
  omega

/-- Storing an entry back with another binding, the reference counts having
moved accordingly, keeps the parity. -/
theorem parity_put (s s' : dvr_db_t) (id : Nat) (de de' : dvr_entry_t)
    (hwf : dvr_bcast_wf s) (hde : de_get s id = some de) (hid : de'.de_id = id)
    (hent : s'.entries = (de_put s de').entries)
    (hrc : ∀ b, epg_refcount s' b =
      epg_refcount s b - (if de.de_bcast = some b then 1 else 0) +
        (if de'.de_bcast = some b then 1 else 0))
    (hex : ∀ b, (∃ bc, bcast_get s b = some bc) → ∃ bc, bcast_get s' b = some bc)
    (hnew : ∀ b, de'.de_bcast = some b → ∃ bc, bcast_get s' b = some bc) :
    dvr_bcast_wf s' ∧ dvr_bcast_parity s s' := by
  refine ⟨⟨?_, ?_⟩, ?_⟩
  · rw [hent]
    show ((s.entries.map _).map _).Nodup
    rw [ids_put]
    exact hwf.1
  · intro x hx b hxb
    rw [hent] at hx
    have hx2 : x ∈ s.entries.map (fun e => if e.de_id = de'.de_id then de' else e) := hx
    rw [List.mem_map] at hx2
    obtain ⟨y, hy, hyx⟩ := hx2
    by_cases hyi : y.de_id = de'.de_id
    · rw [if_pos hyi] at hyx
      rw [← hyx] at hxb
      exact hnew b hxb
    · rw [if_neg hyi] at hyx
      rw [← hyx] at hxb
      exact hex b (hwf.2 y hy b hxb)
  · intro b
    have hc := countP_put (fun x => x.de_bcast == some b) s.entries id de de' hwf.1 hde hid
    have hu : (dvr_bcast_users s' b : Int) =
        (dvr_bcast_users s b : Int) - (if de.de_bcast = some b then 1 else 0) +
          (if de'.de_bcast = some b then 1 else 0) := by
      unfold dvr_bcast_users
      rw [hent]
      simp only [beq_iff_eq] at hc
      exact hc
    rw [hu, hrc b]
    ring

/-- Freeing an entry, its broadcast having lost a reference, keeps the
parity. -/
theorem parity_free (s s' : dvr_db_t) (id : Nat) (de : dvr_entry_t)
    (hwf : dvr_bcast_wf s) (hde : de_get s id = some de)
    (hent : s'.entries = (de_free s id).entries)
    (hrc : ∀ b, epg_refcount s' b =
      epg_refcount s b - (if de.de_bcast = some b then 1 else 0))
    (hex : ∀ b, (∃ bc, bcast_get s b = some bc) → ∃ bc, bcast_get s' b = some bc) :
    dvr_bcast_wf s' ∧ dvr_bcast_parity s s' := by
  refine ⟨⟨?_, ?_⟩, ?_⟩
  · rw [hent]
    exact List.Nodup.sublist (List.Sublist.map _ (List.filter_sublist s.entries)) hwf.1
  · intro x hx b hxb
    rw [hent] at hx
    have hx2 : x ∈ s.entries := List.mem_of_mem_filter hx
    exact hex b (hwf.2 x hx2 b hxb)
  · intro b
    have hc := countP_free (fun x => x.de_bcast == some b) s.entries id de hwf.1 hde
    have hu : (dvr_bcast_users s' b : Int) =
        (dvr_bcast_users s b : Int) - (if de.de_bcast = some b then 1 else 0) := by
      unfold dvr_bcast_users
      rw [hent]
      simp only [beq_iff_eq] at hc
      exact hc
    rw [hu, hrc b]
    ring

/-- The reference counts after the binding step of `_dvr_entry_update`. -/
theorem refs_refcount (s : dvr_db_t) (old e : Option Nat)
    (hold : ∀ b0, old = some b0 → ∃ bc, bcast_get s b0 = some bc)
    (hnew : ∀ b1, e = some b1 → ∃ bc, bcast_get s b1 = some bc) :
    (∀ b, epg_refcount (dvr_entry_update_refs s old e) b =
      epg_refcount s b - (if old = some b then 1 else 0) +
        (if e.or old = some b then 1 else 0)) ∧
    (∀ b, (∃ bc, bcast_get s b = some bc) →
      ∃ bc, bcast_get (dvr_entry_update_refs s old e) b = some bc) := by
  unfold dvr_entry_update_refs
  cases e with
  | none =>
    simp only [Option.none_or]
    exact ⟨fun b => by ring, fun b h => h⟩
  | some b1 =>
    simp only [Option.or_some]
    by_cases h1 : old ≠ some b1
    · simp only [if_pos h1]
      cases old with
      | none =>
        simp only
        constructor
        · intro b
          rw [refcount_getref s b1 b (hnew b1 rfl)]
          simp
        · intro b hb
          exact (bcast_some_getref s b1 b).mpr hb
      | some b0 =>
        simp only
        have hb0 := hold b0 rfl
        have hb1 : ∃ bc, bcast_get (epg_putref s b0) b1 = some bc :=
          (bcast_some_putref s b0 b1).mpr (hnew b1 rfl)
        constructor
        · intro b
          rw [refcount_getref _ b1 b hb1, refcount_putref s b0 b hb0]
          simp only [Option.some.injEq]
        · intro b hb
          exact (bcast_some_getref _ b1 b).mpr ((bcast_some_putref s b0 b).mpr hb)
    · simp only [if_neg h1]
      have h2 : old = some b1 := not_not.mp h1
      rw [h2]
      exact ⟨fun b => by ring, fun b h => h⟩

/-- `_dvr_entry_update` keeps the reference parity. -/
theorem update_parity (now : Int) (s : dvr_db_t) (id : Nat) (e : Option Nat)
    (title subtitle desc lang : Option String) (start stop start_extra stop_extra : Int)
    (pri retention : Int) (s' : dvr_db_t) (hwf : dvr_bcast_wf s)
    (h : _dvr_entry_update now s id e title subtitle desc lang start stop start_extra
           stop_extra pri retention = some s') :
    dvr_bcast_wf s' ∧ dvr_bcast_parity s s' := by
  cases hde : de_get s id with
  | none =>
    unfold _dvr_entry_update at h
    rw [hde] at h
    cases h
  | some de =>
    by_cases hed : dvr_entry_is_editable de = true
    · obtain ⟨eb, de', heb, fe, frec, fb, _, _, _, _, _, _, fbr, _⟩ :=
        update_frame now s id e title subtitle desc lang start stop start_extra stop_extra
          pri retention s' de hde hed h
      have hid' : de'.de_id = id := by
        rw [frec]
        exact de_get_id s id de hde
      have hold : ∀ b0, de.de_bcast = some b0 → ∃ bc, bcast_get s b0 = some bc :=
        fun b0 hb0 => hwf.2 de (de_get_mem s id de hde) b0 hb0
      have hnew : ∀ b1, e = some b1 → ∃ bc, bcast_get s b1 = some bc := by
        intro b1 hb1
        rw [hb1] at heb
        unfold dvr_entry_update_eb at heb
        simp only at heb
        cases hbc : bcast_get s b1 with
        | none => rw [hbc] at heb; cases heb
        | some bc => exact ⟨bc, rfl⟩
      obtain ⟨r1, r2⟩ := refs_refcount s de.de_bcast e hold hnew
      have hexs : ∀ b, (∃ bc, bcast_get s b = some bc) → ∃ bc, bcast_get s' b = some bc := by
        intro b hb
        rw [bcast_get_congr s' _ b fbr]
        exact r2 b hb
      refine parity_put s s' id de de' hwf hde hid' fe ?_ hexs ?_
      · intro b
        rw [refcount_congr s' _ b fbr, r1 b, fb]
      · intro b hb
        rw [fb] at hb
        cases e with
        | none =>
          rw [Option.none_or] at hb
          exact hexs b (hold b hb)
        | some b1 =>
          rw [Option.or_some] at hb
          have hbb : b1 = b := Option.some.inj hb
          rw [← hbb]
          exact hexs b1 (hnew b1 rfl)
    · have hne : dvr_entry_is_editable de = false := by
        cases hx : dvr_entry_is_editable de with
        | true => exact absurd hx hed
        | false => rfl
      rw [update_not_editable now s id de e title subtitle desc lang start stop start_extra
        stop_extra pri retention hde hne] at h
      have : s' = s := (Option.some.inj h).symm
      rw [this]
      exact parity_same s s rfl rfl hwf

/-- The broadcast setter keeps the reference parity. -/
theorem broadcast_set_parity (s : dvr_db_t) (id v : Nat) (s' : dvr_db_t) (r : Bool)
    (hwf : dvr_bcast_wf s) (h : dvr_entry_class_broadcast_set s id v = some (s', r)) :
    dvr_bcast_wf s' ∧ dvr_bcast_parity s s' := by
  unfold dvr_entry_class_broadcast_set at h
  cases hde : de_get s id with
  | none => rw [hde] at h; cases h
  | some de =>
    rw [hde] at h
    simp only at h
    have hid := de_get_id s id de hde
    have hold : ∀ b0, de.de_bcast = some b0 → ∃ bc, bcast_get s b0 = some bc :=
      fun b0 hb0 => hwf.2 de (de_get_mem s id de hde) b0 hb0
    by_cases hed : ¬ dvr_entry_is_editable de = true
    · rw [if_pos hed] at h
      cases h
      exact parity_same s s rfl rfl hwf
    · rw [if_neg hed] at h
      unfold epg_broadcast_find_by_id at h
      cases hbc : bcast_get s v with
      | none =>
        rw [hbc] at h
        simp only [Option.map_none'] at h
        split at h
        · rename_i b0 hb0
          cases h
          refine parity_put s _ id de { de with de_bcast := none } hwf hde hid rfl ?_ ?_ ?_
          · intro b
            rw [refcount_congr (de_put (epg_putref s b0) { de with de_bcast := none })
              (epg_putref s b0) b rfl, refcount_putref s b0 b (hold b0 hb0), hb0]
            simp
          · intro b hb
            exact (bcast_some_putref s b0 b).mpr hb
          · intro b hb
            cases hb
        · cases h
          exact parity_same s s rfl rfl hwf
      | some bc =>
        rw [hbc] at h
        simp only [Option.map_some'] at h
        have hbcid := bcast_get_id s v bc hbc
        by_cases hne : de.de_bcast ≠ some bc.id
        · rw [if_pos hne] at h
          cases h
          have hnew : ∀ b1, some bc.id = some b1 → ∃ x, bcast_get s b1 = some x := by
            intro b1 hb1
            have : bc.id = b1 := Option.some.inj hb1
            rw [← this, hbcid]
            exact ⟨bc, hbc⟩
          obtain ⟨r1, r2⟩ := refs_refcount s de.de_bcast (some bc.id) hold hnew
          have hbr : (epg_getref (de_put (match de.de_bcast with
                | some b0 => epg_putref s b0
                | none => s) { de with de_bcast := some bc.id }) bc.id).broadcasts =
              (dvr_entry_update_refs s de.de_bcast (some bc.id)).broadcasts := by
            unfold dvr_entry_update_refs
            simp only [if_pos hne]
            rfl
          have hex : ∀ b, (∃ x, bcast_get s b = some x) →
              ∃ x, bcast_get (epg_getref (de_put (match de.de_bcast with
                | some b0 => epg_putref s b0
                | none => s) { de with de_bcast := some bc.id }) bc.id) b = some x := by
            intro b hb
            rw [bcast_get_congr _ _ b hbr]
            exact r2 b hb
          refine parity_put s _ id de { de with de_bcast := some bc.id } hwf hde hid ?_ ?_ hex ?_
          · cases de.de_bcast <;> rfl
          · intro b
            refine Eq.trans (refcount_congr _ _ b hbr) ?_
            rw [r1 b, Option.or_some]
          · intro b hb
            have : bc.id = b := Option.some.inj hb
            rw [← this]
            exact hex bc.id (hnew bc.id rfl)
        · rw [if_neg hne] at h
          cases h
          exact parity_same s s rfl rfl hwf

theorem dec_ref_last_bcast (s : dvr_db_t) (id : Nat) (de : dvr_entry_t)
    (hde : de_get s id = some de) (h : ¬ de.de_refcnt > 1) :
    ∃ s', dvr_entry_dec_ref s id = some s' ∧ s'.entries = (de_free s id).entries ∧
      s'.broadcasts = (de.de_bcast.elim s (epg_putref s)).broadcasts := by
  unfold dvr_entry_dec_ref
  rw [hde]
  simp only [if_neg h]
  refine ⟨_, rfl, ?_, ?_⟩
  · cases de.de_autorec <;> cases de.de_timerec <;> cases de.de_config <;>
      cases de.de_bcast <;> rfl
  · cases de.de_autorec <;> cases de.de_timerec <;> cases de.de_config <;>
      cases de.de_bcast <;> rfl

/-- `dvr_entry_dec_ref` keeps the reference parity: dropping the last reference
releases the broadcast of the entry and frees the entry. -/
theorem dec_ref_parity (s : dvr_db_t) (id : Nat) (s' : dvr_db_t) (hwf : dvr_bcast_wf s)
    (h : dvr_entry_dec_ref s id = some s') :
    dvr_bcast_wf s' ∧ dvr_bcast_parity s s' := by
  cases hde : de_get s id with
  | none =>
    unfold dvr_entry_dec_ref at h
    rw [hde] at h
    cases h
  | some de =>
    have hid := de_get_id s id de hde
    have hold : ∀ b0, de.de_bcast = some b0 → ∃ bc, bcast_get s b0 = some bc :=
      fun b0 hb0 => hwf.2 de (de_get_mem s id de hde) b0 hb0
    by_cases hrc : de.de_refcnt > 1
    · unfold dvr_entry_dec_ref at h
      rw [hde] at h
      simp only [if_pos hrc] at h
      cases h
      refine parity_put s _ id de { de with de_refcnt := de.de_refcnt - 1 } hwf hde hid rfl ?_
        (fun b hb => hb) ?_
      · intro b
        rw [refcount_congr (de_put s { de with de_refcnt := de.de_refcnt - 1 }) s b rfl]
        ring
      · intro b hb
        exact hold b hb
    · obtain ⟨s2, h2, he, hb⟩ := dec_ref_last_bcast s id de hde hrc
      rw [h2] at h
      have hs : s2 = s' := Option.some.inj h
      rw [hs] at he hb
      have hcase : de.de_bcast = none ∨ ∃ b0, de.de_bcast = some b0 := by
        cases de.de_bcast with
        | none => exact Or.inl rfl
        | some b0 => exact Or.inr ⟨b0, rfl⟩
      rcases hcase with hn | ⟨b0, hb0⟩
      · rw [hn] at hb
        refine parity_free s s' id de hwf hde he ?_ ?_
        · intro b
          rw [refcount_congr s' s b hb, hn]
          simp
        · intro b hx
          rw [bcast_get_congr s' s b hb]
          exact hx
      · rw [hb0] at hb
        refine parity_free s s' id de hwf hde he ?_ ?_
        · intro b
          rw [refcount_congr s' (epg_putref s b0) b hb, refcount_putref s b0 b (hold b0 hb0),
            hb0]
          simp
        · intro b hx
          rw [bcast_get_congr s' (epg_putref s b0) b hb]
          exact (bcast_some_putref s b0 b).mpr hx

/-- `dvr_entry_destroy` keeps the reference parity. -/
theorem destroy_parity (s : dvr_db_t) (id : Nat) (delconf : Bool) (s' : dvr_db_t)
    (hwf : dvr_bcast_wf s) (h : dvr_entry_destroy s id delconf = some s') :
    dvr_bcast_wf s' ∧ dvr_bcast_parity s s' := by
  unfold dvr_entry_destroy at h
  cases hde : de_get s id with
  | none => rw [hde] at h; cases h
  | some de =>
    rw [hde] at h
    simp only at h
    have hid := de_get_id s id de hde
    refine parity_trans s _ s' ?_ (fun hw => dec_ref_parity _ id s' hw h)
    refine parity_put s _ id de { gtimer_disarm de with de_channel := none } hwf hde hid ?_ ?_
      ?_ ?_
    · cases delconf <;> cases de.de_channel <;> rfl
    · intro b
      have : ({ gtimer_disarm de with de_channel := none } : dvr_entry_t).de_bcast =
          de.de_bcast := rfl
      rw [this]
      have hb : ∀ t : dvr_db_t, t.broadcasts = s.broadcasts →
          epg_refcount t b = epg_refcount s b - (if de.de_bcast = some b then 1 else 0) +
            (if de.de_bcast = some b then 1 else 0) := by
        intro t ht
        rw [refcount_congr t s b ht]
        ring
      apply hb
      cases delconf <;> cases de.de_channel <;> rfl
    · intro b hx
      rw [bcast_get_congr _ s b]
      · exact hx
      · cases delconf <;> cases de.de_channel <;> rfl
    · intro b hb
      rw [bcast_get_congr _ s b]
      · exact hwf.2 de (de_get_mem s id de hde) b hb
      · cases delconf <;> cases de.de_channel <;> rfl

/-- Binding an entry that has no broadcast to a broadcast that gains a
reference keeps the parity. -/
theorem bind_parity (s : dvr_db_t) (id e : Nat) (de : dvr_entry_t) (hwf : dvr_bcast_wf s)
    (hde : de_get s id = some de) (hb : de.de_bcast = none)
    (he : ∃ bc, bcast_get s e = some bc) :
    dvr_bcast_wf (de_put (epg_getref s e) { de with de_bcast := some e }) ∧
    dvr_bcast_parity s (de_put (epg_getref s e) { de with de_bcast := some e }) := by
  have hid := de_get_id s id de hde
  refine parity_put s _ id de { de with de_bcast := some e } hwf hde hid rfl ?_ ?_ ?_
  · intro b
    rw [refcount_congr (de_put (epg_getref s e) { de with de_bcast := some e })
      (epg_getref s e) b rfl, refcount_getref s e b he, hb]
    simp
  · intro b hx
    exact (bcast_some_getref s e b).mpr hx
  · intro b hx
    have : e = b := Option.some.inj hx
    rw [← this]
    exact (bcast_some_getref s e e).mpr he

/-- Unbinding an entry from its broadcast, which loses a reference, keeps the
parity. -/
theorem unbind_parity (s : dvr_db_t) (id e : Nat) (de : dvr_entry_t) (hwf : dvr_bcast_wf s)
    (hde : de_get s id = some de) (hb : de.de_bcast = some e) :
    dvr_bcast_wf (de_put (epg_putref s e) { de with de_bcast := none }) ∧
    dvr_bcast_parity s (de_put (epg_putref s e) { de with de_bcast := none }) := by
  have hid := de_get_id s id de hde
  have he : ∃ bc, bcast_get s e = some bc := hwf.2 de (de_get_mem s id de hde) e hb
  refine parity_put s _ id de { de with de_bcast := none } hwf hde hid rfl ?_ ?_ ?_
  · intro b
    rw [refcount_congr (de_put (epg_putref s e) { de with de_bcast := none })
      (epg_putref s e) b rfl, refcount_putref s e b he, hb]
    simp
  · intro b hx
    exact (bcast_some_putref s e b).mpr hx
  · intro b hx
    cases hx

theorem updated_scan_inv (now : Int) (s : dvr_db_t) (e : Nat) (bc : epg_broadcast_t)
    (l : List Nat) (s' : dvr_db_t) (h : dvr_event_updated_scan now s e bc l = some s') :
    s' = s ∨ ∃ i de, de_get s i = some de ∧ de.de_bcast = none ∧
      _dvr_entry_update now (de_put (epg_getref s e) { de with de_bcast := some e }) i
        (some e) none none none none 0 0 0 0 DVR_PRIO_NOTSET 0 = some s' := by
  induction l with
  | nil =>
    left
    exact (Option.some.inj h).symm
  | cons i rest ih =>
    rw [dvr_event_updated_scan] at h
    cases hde : de_get s i with
    | none => rw [hde] at h; cases h
    | some de =>
      rw [hde] at h
      simp only at h
      by_cases h1 : de.de_sched_state ≠ DVR_SCHEDULED
      · rw [if_pos h1] at h
        exact ih h
      · rw [if_neg h1] at h
        by_cases h2 : de.de_bcast ≠ none
        · rw [if_pos h2] at h
          exact ih h
        · rw [if_neg h2] at h
          by_cases h3 : de.de_channel ≠ bc.channel
          · rw [if_pos h3] at h
            exact ih h
          · rw [if_neg h3] at h
            cases hf : dvr_entry_fuzzy_match s de bc with
            | none => rw [hf] at h; cases h
            | some r =>
              rw [hf] at h
              cases r
              · exact ih h
              · right
                exact ⟨i, de, hde, not_not.mp h2, h⟩

theorem replaced_scan_inv (now : Int) (t : dvr_db_t) (id : Nat) (d : dvr_entry_t)
    (l : List Nat) (s' : dvr_db_t) (h : dvr_event_replaced_scan now t id d l = some s') :
    s' = t ∨ ∃ b bc, bcast_get t b = some bc ∧
      _dvr_entry_update now (de_put (epg_getref t b) { d with de_bcast := some b }) id
        (some b) none none none none 0 0 0 0 DVR_PRIO_NOTSET 0 = some s' := by
  induction l with
  | nil =>
    left
    exact (Option.some.inj h).symm
  | cons b rest ih =>
    rw [dvr_event_replaced_scan] at h
    cases hbc : bcast_get t b with
    | none => rw [hbc] at h; cases h
    | some bc =>
      rw [hbc] at h
      simp only at h
      cases hf : dvr_entry_fuzzy_match t d bc with
      | none => rw [hf] at h; cases h
      | some r =>
        rw [hf] at h
        cases r
        · exact ih h
        · right
          exact ⟨b, bc, hbc, h⟩

/-- `dvr_event_updated` keeps the reference parity. -/
theorem event_updated_parity (now : Int) (s : dvr_db_t) (e : Nat) (s' : dvr_db_t)
    (hwf : dvr_bcast_wf s) (h : dvr_event_updated now s e = some s') :
    dvr_bcast_wf s' ∧ dvr_bcast_parity s s' := by
  unfold dvr_event_updated at h
  split at h
  · cases h
  · exact update_parity now s _ (some e) none none none none 0 0 0 0 DVR_PRIO_NOTSET 0 s' hwf h
  · cases hbc : bcast_get s e with
    | none => rw [hbc] at h; cases h
    | some bc =>
      rw [hbc] at h
      simp only at h
      rcases updated_scan_inv now s e bc s.dvrentries s' h with hs | ⟨i, de, hde, hb, hup⟩
      · rw [hs]
        exact parity_same s s rfl rfl hwf
      · exact parity_trans s _ s' (bind_parity s i e de hwf hde hb ⟨bc, hbc⟩)
          (fun hw => update_parity now _ i (some e) none none none none 0 0 0 0
            DVR_PRIO_NOTSET 0 s' hw hup)

/-- `dvr_event_replaced` keeps the reference parity. -/
theorem event_replaced_parity (now : Int) (s : dvr_db_t) (e new_e : Nat) (s' : dvr_db_t)
    (hwf : dvr_bcast_wf s) (h : dvr_event_replaced now s e new_e = some s') :
    dvr_bcast_wf s' ∧ dvr_bcast_parity s s' := by
  unfold dvr_event_replaced at h
  by_cases hee : e = new_e
  · rw [if_pos hee] at h
    rw [← Option.some.inj h]
    exact parity_same s s rfl rfl hwf
  · rw [if_neg hee] at h
    cases hfind : dvr_entry_find_by_event s e with
    | none => rw [hfind] at h; cases h
    | some oid =>
      cases oid with
      | none =>
        rw [hfind] at h
        rw [← Option.some.inj h]
        exact parity_same s s rfl rfl hwf
      | some id =>
        rw [hfind] at h
        simp only at h
        obtain ⟨de, hde, hb⟩ := find_by_event_some s e id hfind
        rw [hde] at h
        simp only at h
        by_cases hst : de.de_sched_state ≠ DVR_SCHEDULED
        · rw [if_pos hst] at h
          rw [← Option.some.inj h]
          exact parity_same s s rfl rfl hwf
        · rw [if_neg hst] at h
          have hun := unbind_parity s id e de hwf hde hb
          have hid := de_get_id s id de hde
          have hgt : de_get (de_put (epg_putref s e) { de with de_bcast := none }) id =
              some { de with de_bcast := none } :=
            de_get_de_put (epg_putref s e) id de _ hde hid
          split at h
          · exact parity_trans s _ s' hun (fun hw => destroy_parity _ id true s' hw h)
          · split at h
            · cases h
            · rcases replaced_scan_inv now _ id _ _ s' h with hs | ⟨b, bc, hbc, hup⟩
              · rw [hs]
                exact hun
              · refine parity_trans s _ s' hun (fun hw => ?_)
                exact parity_trans _ _ s'
                  (bind_parity _ id b { de with de_bcast := none } hw hgt rfl ⟨bc, hbc⟩)
                  (fun hw2 => update_parity now _ id (some b) none none none none 0 0 0 0
                    DVR_PRIO_NOTSET 0 s' hw2 hup)

/-- C30. Reference parity: in a state whose entries are distinct allocations
with broadcast pointers that resolve, each of the broadcast setter,
`_dvr_entry_update`, `dvr_event_replaced`, `dvr_event_updated` and
`dvr_entry_dec_ref` (the final one, which frees the entry, included), on every
input on which it returns, leads to such a state again, in which the
reference count of every broadcast has moved (getref +1, putref -1) by
exactly the change of the number of entries whose broadcast pointer it is. -/
theorem reference_parity (now : Int) (s : dvr_db_t) (hwf : dvr_bcast_wf s) :
    (∀ id v s' r, dvr_entry_class_broadcast_set s id v = some (s', r) →
      dvr_bcast_wf s' ∧ dvr_bcast_parity s s') ∧
    (∀ id e title subtitle desc lang start stop start_extra stop_extra pri retention s',
      _dvr_entry_update now s id e title subtitle desc lang start stop start_extra
          stop_extra pri retention = some s' →
      dvr_bcast_wf s' ∧ dvr_bcast_parity s s') ∧
    (∀ e new_e s', dvr_event_replaced now s e new_e = some s' →
      dvr_bcast_wf s' ∧ dvr_bcast_parity s s') ∧
    (∀ e s', dvr_event_updated now s e = some s' →
      dvr_bcast_wf s' ∧ dvr_bcast_parity s s') ∧
    (∀ id s', dvr_entry_dec_ref s id = some s' →
      dvr_bcast_wf s' ∧ dvr_bcast_parity s s') :=
  ⟨fun id v s' r h => broadcast_set_parity s id v s' r hwf h,
   fun id e title subtitle desc lang start stop start_extra stop_extra pri retention s' h =>
     update_parity now s id e title subtitle desc lang start stop start_extra stop_extra pri
       retention s' hwf h,
   fun e new_e s' h => event_replaced_parity now s e new_e s' hwf h,
   fun e s' h => event_updated_parity now s e s' hwf h,
   fun id s' h => dec_ref_parity s id s' hwf h⟩

/-- C30 at the store `db_updated`, whose entry is bound to broadcast 9 with one
reference: replacing the broadcast by broadcast 10, which is not in the
schedule, returns (the entry is unbound and the reference dropped), and so
does dropping the reference of the entry; both keep the parity. -/
theorem reference_parity_witness :
    ((dvr_event_replaced 0 db_updated 9 10).isSome = true ∧
     ∀ s', dvr_event_replaced 0 db_updated 9 10 = some s' →
       dvr_bcast_wf s' ∧ dvr_bcast_parity db_updated s') ∧
    ((dvr_entry_dec_ref db_updated 1).isSome = true ∧
     ∀ s', dvr_entry_dec_ref db_updated 1 = some s' →
       dvr_bcast_wf s' ∧ dvr_bcast_parity db_updated s') :=
  have hwf : dvr_bcast_wf db_updated :=
    ⟨by decide, fun de hde b hb => by
      have h1 : de = de_updated := by
        have : de ∈ [de_updated] := hde
        simpa using this
      rw [h1] at hb
      have h9 : b = 9 := (Option.some.inj hb).symm
      rw [h9]
      exact ⟨bcast_full, by decide⟩⟩
  ⟨⟨by decide, fun s' h => (reference_parity 0 db_updated hwf).2.2.1 9 10 s' h⟩,
   ⟨by decide, fun s' h => (reference_parity 0 db_updated hwf).2.2.2.2 1 s' h⟩⟩

/-- The entries keep their allocation and their channel and configuration
pointers, and the three indices are the same lists. -/
theorem links_frame (s t : dvr_db_t) (hf : dvr_ptr_frame s t)
    (h : dvr_links_ok s) : dvr_links_ok t := by
  obtain ⟨_, hch, hcf, hp⟩ := hf
  have key : ∀ (p : Option Nat × Option Nat → Prop) (j : Nat),
      (∃ de, de_get t j = some de ∧ p (de.de_channel, de.de_config)) ↔
        (∃ de, de_get s j = some de ∧ p (de.de_channel, de.de_config)) := by
    intro p j
    have := hp j
    cases ht : de_get t j with
    | none =>
      rw [ht] at this
      cases hs : de_get s j with
      | none => simp
      | some d => rw [hs] at this; cases this
    | some d' =>
      rw [ht] at this
      cases hs : de_get s j with
      | none => rw [hs] at this; cases this
      | some d =>
        rw [hs] at this
        have e : (d'.de_channel, d'.de_config) = (d.de_channel, d.de_config) :=
          Option.some.inj this
        constructor
        · rintro ⟨x, hx, hpx⟩
          cases hx
          exact ⟨d, rfl, by rw [← e]; exact hpx⟩
        · rintro ⟨x, hx, hpx⟩
          cases hx
          exact ⟨d', rfl, by rw [e]; exact hpx⟩
  constructor
  · intro ch hc
    rw [hch] at hc
    obtain ⟨h1, h2⟩ := h.1 ch hc
    refine ⟨h1, fun j => ?_⟩
    rw [h2 j]
    exact (key (fun q => q.1 = some ch.ch_id) j).symm
  · intro cfg hc
    rw [hcf] at hc
    obtain ⟨h1, h2⟩ := h.2 cfg hc
    refine ⟨h1, fun j => ?_⟩
    rw [h2 j]
    exact (key (fun q => q.2 = some cfg.dvr_id) j).symm

theorem ptr_frame_refl (s : dvr_db_t) : dvr_ptr_frame s s :=
  ⟨rfl, rfl, rfl, fun _ => rfl⟩

theorem ptr_frame_trans (s t u : dvr_db_t) (h1 : dvr_ptr_frame s t) (h2 : dvr_ptr_frame t u) :
    dvr_ptr_frame s u :=
  ⟨h2.1.trans h1.1, h2.2.1.trans h1.2.1, h2.2.2.1.trans h1.2.2.1,
   fun j => (h2.2.2.2 j).trans (h1.2.2.2 j)⟩

/-- Storing an entry back with the same channel and configuration pointers,
whatever else is stored outside the entries and the three indices. -/
theorem ptr_frame_put (s t : dvr_db_t) (id : Nat) (de D : dvr_entry_t)
    (hde : de_get s id = some de) (hid : D.de_id = id)
    (hch : D.de_channel = de.de_channel) (hcf : D.de_config = de.de_config)
    (he : t.entries = (de_put s D).entries) (h1 : t.dvrentries = s.dvrentries)
    (h2 : t.channels = s.channels) (h3 : t.configs = s.configs) : dvr_ptr_frame s t := by
  refine ⟨h1, h2, h3, fun j => ?_⟩
  rw [de_get_congr t (de_put s D) j he]
  by_cases hj : j = id
  · rw [hj, de_get_de_put s id de D hde hid, hde]
    simp only [Option.map_some', hch, hcf]
  · rw [de_get_de_put_ne s D j (fun h => hj (h.symm.trans hid))]

theorem ptr_frame_tables (s t : dvr_db_t) (he : t.entries = s.entries)
    (h1 : t.dvrentries = s.dvrentries) (h2 : t.channels = s.channels)
    (h3 : t.configs = s.configs) : dvr_ptr_frame s t :=
  ⟨h1, h2, h3, fun j => by rw [de_get_congr t s j he]⟩

theorem step_ok_refl (s : dvr_db_t) : dvr_step_ok s s :=
  ⟨fun h => h, rfl, fun _ => rfl⟩

theorem step_ok_trans (s t u : dvr_db_t) (h1 : dvr_step_ok s t) (h2 : dvr_step_ok t u) :
    dvr_step_ok s u :=
  ⟨fun h => h2.1 (h1.1 h), h2.2.1.trans h1.2.1, fun j => (h2.2.2 j).trans (h1.2.2 j)⟩

theorem ptr_frame_step (s t : dvr_db_t) (h : dvr_ptr_frame s t) : dvr_step_ok s t := by
  refine ⟨links_frame s t h, h.1, fun j => ?_⟩
  have := h.2.2.2 j
  cases ht : de_get t j <;> cases hs : de_get s j <;> rw [ht, hs] at this <;>
    first | rfl | cases this

/-- The time and integer setters, the rule setters, the broadcast setter and the
display setters keep the pointers and the indices. -/
theorem setters_ptr_frame (s : dvr_db_t) (id : Nat) :
    (∀ v t r, dvr_entry_class_start_set s id v = some (t, r) → dvr_ptr_frame s t) ∧
    (∀ v t r, dvr_entry_class_start_extra_set s id v = some (t, r) → dvr_ptr_frame s t) ∧
    (∀ v t r, dvr_entry_class_stop_set s id v = some (t, r) → dvr_ptr_frame s t) ∧
    (∀ v t r, dvr_entry_class_pri_set s id v = some (t, r) → dvr_ptr_frame s t) ∧
    (∀ v t r, dvr_entry_class_retention_set s id v = some (t, r) → dvr_ptr_frame s t) ∧
    (∀ v t r, dvr_entry_class_mc_set s id v = some (t, r) → dvr_ptr_frame s t) ∧
    (∀ v t r, dvr_entry_class_autorec_set s id v = some (t, r) → dvr_ptr_frame s t) ∧
    (∀ v t r, dvr_entry_class_timerec_set s id v = some (t, r) → dvr_ptr_frame s t) ∧
    (∀ v t r, dvr_entry_class_broadcast_set s id v = some (t, r) → dvr_ptr_frame s t) ∧
    (∀ v t r, dvr_entry_class_disp_title_set s id v = some (t, r) → dvr_ptr_frame s t) ∧
    (∀ v t r, dvr_entry_class_disp_subtitle_set s id v = some (t, r) → dvr_ptr_frame s t) := by
  cases hde : de_get s id with
  | none =>
    refine ⟨?_, ?_, ?_, ?_, ?_, ?_, ?_, ?_, ?_, ?_, ?_⟩ <;> intro v t r h
    · unfold dvr_entry_class_start_set at h; rw [hde] at h; cases h
    · unfold dvr_entry_class_start_extra_set at h; rw [hde] at h; cases h
    · unfold dvr_entry_class_stop_set at h; rw [hde] at h; cases h
    · unfold dvr_entry_class_pri_set at h; rw [hde] at h; cases h
    · unfold dvr_entry_class_retention_set at h; rw [hde] at h; cases h
    · unfold dvr_entry_class_mc_set at h; rw [hde] at h; cases h
    · unfold dvr_entry_class_autorec_set at h; rw [hde] at h; cases h
    · unfold dvr_entry_class_timerec_set at h; rw [hde] at h; cases h
    · unfold dvr_entry_class_broadcast_set at h; rw [hde] at h; cases h
    · unfold dvr_entry_class_disp_title_set at h; rw [hde] at h; cases h
    · unfold dvr_entry_class_disp_subtitle_set at h; rw [hde] at h; cases h
  | some de =>
    have hid := de_get_id s id de hde
    have put : ∀ (t : dvr_db_t) (D : dvr_entry_t),
        t.entries = (de_put s D).entries → t.dvrentries = s.dvrentries →
        t.channels = s.channels → t.configs = s.configs → D.de_id = id →
        D.de_channel = de.de_channel → D.de_config = de.de_config → dvr_ptr_frame s t :=
      fun t D d e f g a b c => ptr_frame_put s t id de D hde a b c d e f g
    refine ⟨?_, ?_, ?_, ?_, ?_, ?_, ?_, ?_, ?_, ?_, ?_⟩ <;> intro v t r h
    · unfold dvr_entry_class_start_set at h
      rw [hde] at h
      cases h
      exact put _ _ rfl rfl rfl rfl hid rfl rfl
    · unfold dvr_entry_class_start_extra_set at h
      rw [hde] at h
      cases h
      exact put _ _ rfl rfl rfl rfl hid rfl rfl
    · unfold dvr_entry_class_stop_set at h
      rw [hde] at h
      cases h
      exact put _ _ rfl rfl rfl rfl hid rfl rfl
    · unfold dvr_entry_class_pri_set at h
      rw [hde] at h
      cases h
      exact put _ _ rfl rfl rfl rfl hid rfl rfl
    · unfold dvr_entry_class_retention_set at h
      rw [hde] at h
      cases h
      exact put _ _ rfl rfl rfl rfl hid rfl rfl
    · unfold dvr_entry_class_mc_set at h
      rw [hde] at h
      cases h
      exact put _ _ rfl rfl rfl rfl hid rfl rfl
    · unfold dvr_entry_class_autorec_set at h
      rw [hde] at h
      simp only at h
      split at h
      · cases h; exact ptr_frame_refl s
      · split at h
        · split at h
          · cases h; exact put _ _ rfl rfl rfl rfl hid rfl rfl
          · cases h; exact ptr_frame_refl s
        · split at h
          · cases h; exact put _ _ rfl rfl rfl rfl hid rfl rfl
          · cases h; exact ptr_frame_refl s
    · unfold dvr_entry_class_timerec_set at h
      rw [hde] at h
      simp only at h
      split at h
      · cases h; exact ptr_frame_refl s
      · split at h
        · split at h
          · cases h; exact put _ _ rfl rfl rfl rfl hid rfl rfl
          · cases h; exact ptr_frame_refl s
        · split at h
          · cases h; exact put _ _ rfl rfl rfl rfl hid rfl rfl
          · cases h; exact ptr_frame_refl s
    · unfold dvr_entry_class_broadcast_set at h
      rw [hde] at h
      simp only at h
      split at h
      · cases h; exact ptr_frame_refl s
      · split at h
        · split at h
          · cases h; exact put _ _ rfl rfl rfl rfl hid rfl rfl
          · cases h; exact ptr_frame_refl s
        · rename_i _ k hk
          split at h
          · cases h
            refine put _ { de with de_bcast := some k } ?_ ?_ ?_ ?_ hid rfl rfl <;>
              (cases de.de_bcast <;> rfl)
          · cases h; exact ptr_frame_refl s
    · unfold dvr_entry_class_disp_title_set at h
      rw [hde] at h
      simp only at h
      repeat' split at h
      all_goals first
        | (cases h; exact ptr_frame_refl s)
        | (cases h; exact put _ _ rfl rfl rfl rfl hid rfl rfl)
        | cases h
    · unfold dvr_entry_class_disp_subtitle_set at h
      rw [hde] at h
      simp only at h
      repeat' split at h
      all_goals first
        | (cases h; exact ptr_frame_refl s)
        | (cases h; exact put _ _ rfl rfl rfl rfl hid rfl rfl)
        | cases h

/-- A list that is consistent before one entry pointer changes is consistent
after it, when the list was left alone, filtered, extended at the head, or
filtered and extended, as the change of the entry requires. -/
theorem list_ok_update (s t : dvr_db_t) (id : Nat) (L L' : List Nat) (p : dvr_entry_t → Prop)
    (hne : ∀ j, j ≠ id → de_get t j = de_get s j)
    (hL : dvr_list_ok s L p)
    (hcase :
      (L' = L ∧ ((∃ d, de_get s id = some d ∧ p d) ↔ (∃ D, de_get t id = some D ∧ p D))) ∨
      (L' = L.filter (fun i => i != id) ∧ ¬ (∃ D, de_get t id = some D ∧ p D)) ∨
      (L' = id :: L ∧ ¬ (∃ d, de_get s id = some d ∧ p d) ∧
        (∃ D, de_get t id = some D ∧ p D)) ∨
      (L' = id :: L.filter (fun i => i != id) ∧ (∃ D, de_get t id = some D ∧ p D))) :
    dvr_list_ok t L' p := by
  obtain ⟨hnd, hmem⟩ := hL
  have hfm : ∀ j, j ∈ L.filter (fun i => i != id) ↔ j ∈ L ∧ j ≠ id := by
    intro j
    simp [List.mem_filter]
  have hfn : (L.filter (fun i => i != id)).Nodup := List.Nodup.filter _ hnd
  have hother : ∀ j, j ≠ id →
      (j ∈ L ↔ ∃ de, de_get t j = some de ∧ p de) := by
    intro j hj
    rw [hne j hj]
    exact hmem j
  rcases hcase with ⟨e, hq⟩ | ⟨e, hq⟩ | ⟨e, hq1, hq2⟩ | ⟨e, hq⟩
  · rw [e]
    refine ⟨hnd, fun j => ?_⟩
    by_cases hj : j = id
    · rw [hj, hmem id]
      exact hq
    · exact hother j hj
  · rw [e]
    refine ⟨hfn, fun j => ?_⟩
    rw [hfm]
    by_cases hj : j = id
    · rw [hj]
      constructor
      · intro h
        exact absurd rfl h.2
      · intro h
        exact absurd h hq
    · rw [← hother j hj]
      exact ⟨fun h => h.1, fun h => ⟨h, hj⟩⟩
  · rw [e]
    have hni : id ∉ L := fun h => hq1 ((hmem id).mp h)
    refine ⟨List.nodup_cons.mpr ⟨hni, hnd⟩, fun j => ?_⟩
    rw [List.mem_cons]
    by_cases hj : j = id
    · rw [hj]
      exact ⟨fun _ => hq2, fun _ => Or.inl rfl⟩
    · rw [← hother j hj]
      exact ⟨fun h => h.elim (fun h2 => absurd h2 hj) (fun h2 => h2), fun h => Or.inr h⟩
  · rw [e]
    have hni : id ∉ L.filter (fun i => i != id) := fun h => ((hfm id).mp h).2 rfl
    refine ⟨List.nodup_cons.mpr ⟨hni, hfn⟩, fun j => ?_⟩
    rw [List.mem_cons, hfm]
    by_cases hj : j = id
    · rw [hj]
      exact ⟨fun _ => hq, fun _ => Or.inl rfl⟩
    · rw [← hother j hj]
      exact ⟨fun h => h.elim (fun h2 => absurd h2 hj) (fun h2 => h2.1),
        fun h => Or.inr ⟨h, hj⟩⟩

/-- The lists of a table of owners stay consistent when every owner's list is
updated as `list_ok_update` requires. -/
theorem table_update {α : Type} (s t : dvr_db_t) (id : Nat) (tab : List α) (key : α → Nat)
    (lst : α → List Nat) (ptr : dvr_entry_t → Option Nat) (f : α → α)
    (hkey : ∀ x, key (f x) = key x)
    (hne : ∀ j, j ≠ id → de_get t j = de_get s j)
    (h : ∀ x ∈ tab, dvr_list_ok s (lst x) (fun de => ptr de = some (key x)))
    (hcase : ∀ x ∈ tab,
      (lst (f x) = lst x ∧
        ((∃ d, de_get s id = some d ∧ ptr d = some (key x)) ↔
          (∃ D, de_get t id = some D ∧ ptr D = some (key x)))) ∨
      (lst (f x) = (lst x).filter (fun i => i != id) ∧
        ¬ (∃ D, de_get t id = some D ∧ ptr D = some (key x))) ∨
      (lst (f x) = id :: lst x ∧ ¬ (∃ d, de_get s id = some d ∧ ptr d = some (key x)) ∧
        (∃ D, de_get t id = some D ∧ ptr D = some (key x))) ∨
      (lst (f x) = id :: (lst x).filter (fun i => i != id) ∧
        (∃ D, de_get t id = some D ∧ ptr D = some (key x)))) :
    ∀ x ∈ tab.map f, dvr_list_ok t (lst x) (fun de => ptr de = some (key x)) := by
  intro x' hx'
  rw [List.mem_map] at hx'
  obtain ⟨x, hx, hfx⟩ := hx'
  rw [← hfx, hkey x]
  exact list_ok_update s t id (lst x) (lst (f x)) (fun de => ptr de = some (key x)) hne
    (h x hx) (hcase x hx)

/-- The lists of a table of owners stay consistent when one entry pointer
changes (or is allocated, or freed) and every owner's list has lost the entry
if the old pointer named the owner and has gained it at the head if the new
pointer names the owner. -/
theorem table_relink {α : Type} (s t : dvr_db_t) (id : Nat) (tab : List α) (key : α → Nat)
    (lst : α → List Nat) (ptr : dvr_entry_t → Option Nat) (f : α → α)
    (hkey : ∀ x, key (f x) = key x)
    (hne : ∀ j, j ≠ id → de_get t j = de_get s j)
    (hlst : ∀ x ∈ tab, lst (f x) =
      (if (de_get t id).bind ptr = some (key x) then [id] else []) ++
        (if (de_get s id).bind ptr = some (key x) then (lst x).filter (fun i => i != id)
         else lst x))
    (h : ∀ x ∈ tab, dvr_list_ok s (lst x) (fun de => ptr de = some (key x))) :
    ∀ x ∈ tab.map f, dvr_list_ok t (lst x) (fun de => ptr de = some (key x)) := by
  have hq : ∀ (u : dvr_db_t) (k : Nat),
      (∃ d, de_get u id = some d ∧ ptr d = some k) ↔ (de_get u id).bind ptr = some k := by
    intro u k
    rw [Option.bind_eq_some]
  apply table_update s t id tab key lst ptr f hkey hne h
  intro x hx
  have hl := hlst x hx
  rw [hq s, hq t]
  by_cases hn : (de_get t id).bind ptr = some (key x)
  · by_cases ho : (de_get s id).bind ptr = some (key x)
    · rw [if_pos hn, if_pos ho] at hl
      exact Or.inr (Or.inr (Or.inr ⟨hl, hn⟩))
    · rw [if_pos hn, if_neg ho] at hl
      exact Or.inr (Or.inr (Or.inl ⟨hl, ho, hn⟩))
  · by_cases ho : (de_get s id).bind ptr = some (key x)
    · rw [if_neg hn, if_pos ho] at hl
      exact Or.inr (Or.inl ⟨hl, hn⟩)
    · rw [if_neg hn, if_neg ho] at hl
      exact Or.inl ⟨hl, ⟨fun h2 => absurd h2 ho, fun h2 => absurd h2 hn⟩⟩

/-- The lists of a table of owners stay consistent when no entry changes the
pointer that the table follows. -/
theorem table_keep {α : Type} (s t : dvr_db_t) (tab : List α) (key : α → Nat)
    (lst : α → List Nat) (ptr : dvr_entry_t → Option Nat)
    (hp : ∀ j, (de_get t j).bind ptr = (de_get s j).bind ptr)
    (h : ∀ x ∈ tab, dvr_list_ok s (lst x) (fun de => ptr de = some (key x))) :
    ∀ x ∈ tab, dvr_list_ok t (lst x) (fun de => ptr de = some (key x)) := by
  intro x hx
  obtain ⟨h1, h2⟩ := h x hx
  refine ⟨h1, fun j => ?_⟩
  rw [h2 j]
  have hq : ∀ (u : dvr_db_t),
      (∃ d, de_get u j = some d ∧ ptr d = some (key x)) ↔
        (de_get u j).bind ptr = some (key x) := by
    intro u
    rw [Option.bind_eq_some]
  rw [hq s, hq t, hp j]

theorem de_get_put_other (s t : dvr_db_t) (id : Nat) (D : dvr_entry_t)
    (he : t.entries = (de_put s D).entries) (hid : D.de_id = id) :
    ∀ j, j ≠ id → de_get t j = de_get s j := by
  intro j hj
  rw [de_get_congr t (de_put s D) j he]
  exact de_get_de_put_ne s D j (fun h => hj (h.symm.trans hid))

theorem de_get_put_self (s t : dvr_db_t) (id : Nat) (de D : dvr_entry_t)
    (he : t.entries = (de_put s D).entries)
    (hde : de_get s id = some de) (hid : D.de_id = id) : de_get t id = some D := by
  rw [de_get_congr t (de_put s D) id he]
  exact de_get_de_put s id de D hde hid

theorem de_get_put_some (s t : dvr_db_t) (id : Nat) (de D : dvr_entry_t)
    (he : t.entries = (de_put s D).entries)
    (hde : de_get s id = some de) (hid : D.de_id = id) :
    ∀ j, (de_get t j).isSome = (de_get s j).isSome := by
  intro j
  by_cases hj : j = id
  · rw [hj, de_get_put_self s t id de D he hde hid, hde]
    rfl
  · rw [de_get_put_other s t id D he hid j hj]

theorem de_get_put_bind (s t : dvr_db_t) (id : Nat) (de D : dvr_entry_t)
    (ptr : dvr_entry_t → Option Nat)
    (he : t.entries = (de_put s D).entries)
    (hde : de_get s id = some de) (hid : D.de_id = id) (hp : ptr D = ptr de) :
    ∀ j, (de_get t j).bind ptr = (de_get s j).bind ptr := by
  intro j
  by_cases hj : j = id
  · rw [hj, de_get_put_self s t id de D he hde hid, hde]
    exact hp
  · rw [de_get_put_other s t id D he hid j hj]

/-- The channel setter keeps the lists consistent. -/
theorem channel_set_step (s : dvr_db_t) (id : Nat) (v : Option String) (t : dvr_db_t)
    (r : Bool) (h : dvr_entry_class_channel_set s id v = some (t, r)) : dvr_step_ok s t := by
  unfold dvr_entry_class_channel_set at h
  cases hde : de_get s id with
  | none => rw [hde] at h; cases h
  | some de =>
    rw [hde] at h
    simp only at h
    have hid := de_get_id s id de hde
    split at h
    · cases h; exact step_ok_refl s
    · split at h
      · split at h
        · rename_i c0 hc0
          cases h
          have he : (de_put (channel_link_remove s c0 id)
              { de with de_channel_name := none, de_channel := none }).entries =
              (de_put s { de with de_channel_name := none, de_channel := none }).entries := rfl
          refine ⟨fun hl => ⟨?_, ?_⟩, rfl, de_get_put_some s _ id de _ he hde hid⟩
          · refine table_relink s _ id s.channels (fun x => x.ch_id) (fun x => x.ch_dvrs)
              (fun de => de.de_channel) _ ?_ (de_get_put_other s _ id _ he hid) ?_ hl.1
            · intro x
              dsimp only
              split <;> rfl
            · intro x _
              rw [de_get_put_self s _ id de _ he hde hid, hde]
              simp only [Option.some_bind, hc0]
              by_cases hx : x.ch_id = c0
              · simp [hx]
              · have hx2 : ¬ c0 = x.ch_id := fun h2 => hx h2.symm
                simp [hx, hx2]
          · exact table_keep s _ s.configs (fun x => x.dvr_id) (fun x => x.dvr_entries)
              (fun de => de.de_config) (de_get_put_bind s _ id de _ _ he hde hid rfl) hl.2
        · cases h; exact step_ok_refl s
      · rename_i _ ch hch
        split at h
        · rename_i hne
          split at h
          · cases h
          · rename_i chn hchn
            cases h
            have he : (channel_link_insert
                (de_put (match de.de_channel with
                         | some c0 => channel_link_remove s c0 id
                         | none => s)
                  { de with de_channel_name := some chn.ch_name, de_channel := some ch }) ch
                id).entries =
                (de_put s { de with de_channel_name := some chn.ch_name,
                                    de_channel := some ch }).entries := by
              cases de.de_channel <;> rfl
            refine ⟨fun hl => ⟨?_, ?_⟩, ?_, de_get_put_some s _ id de _ he hde hid⟩
            · have htab : (channel_link_insert
                  (de_put (match de.de_channel with
                           | some c0 => channel_link_remove s c0 id
                           | none => s)
                    { de with de_channel_name := some chn.ch_name, de_channel := some ch }) ch
                  id).channels =
                  s.channels.map (fun x =>
                    { x with ch_dvrs :=
                        (if some ch = some x.ch_id then [id] else []) ++
                          (if de.de_channel = some x.ch_id then
                             x.ch_dvrs.filter (fun i => i != id)
                           else x.ch_dvrs) }) := by
                cases hdc : de.de_channel with
                | none =>
                  show s.channels.map _ = s.channels.map _
                  apply List.map_congr_left
                  intro x _
                  by_cases hx : x.ch_id = ch
                  · simp [hx]
                  · have hx2 : ¬ ch = x.ch_id := fun h2 => hx h2.symm
                    simp [hx, hx2]
                | some c0 =>
                  show (s.channels.map _).map _ = s.channels.map _
                  rw [List.map_map]
                  apply List.map_congr_left
                  intro x _
                  have hcc : c0 ≠ ch := by
                    intro h2
                    apply hne
                    rw [hdc, h2]
                  simp only [Function.comp]
                  by_cases hx : x.ch_id = ch
                  · have hx0 : ¬ x.ch_id = c0 := fun h2 => hcc (h2.symm.trans hx)
                    have hx1 : ¬ c0 = ch := hcc
                    have hx4 : ¬ ch = c0 := fun h2 => hcc h2.symm
                    simp [hx, hx1, hx4]
                  · have hx2 : ¬ ch = x.ch_id := fun h2 => hx h2.symm
                    by_cases hx0 : x.ch_id = c0
                    · have hx5 : ¬ ch = c0 := fun h2 => hcc h2.symm
                      simp [hx, hx0, hx2, hcc, hx5]
                    · have hx3 : ¬ c0 = x.ch_id := fun h2 => hx0 h2.symm
                      simp [hx, hx0, hx2, hx3]
              intro y hy
              refine table_relink s _ id s.channels (fun x => x.ch_id) (fun x => x.ch_dvrs)
                (fun de => de.de_channel)
                (fun x =>
                  { x with ch_dvrs :=
                      (if some ch = some x.ch_id then [id] else []) ++
                        (if de.de_channel = some x.ch_id then
                           x.ch_dvrs.filter (fun i => i != id)
                         else x.ch_dvrs) })
                (fun x => rfl) (de_get_put_other s _ id _ he hid) ?_ hl.1 y
                (by rw [← htab]; exact hy)
              intro x _
              rw [de_get_put_self s _ id de _ he hde hid, hde]
              rfl
            · have hcf : (channel_link_insert
                  (de_put (match de.de_channel with
                           | some c0 => channel_link_remove s c0 id
                           | none => s)
                    { de with de_channel_name := some chn.ch_name, de_channel := some ch }) ch
                  id).configs = s.configs := by
                cases de.de_channel <;> rfl
              intro y hy
              exact table_keep s _ s.configs (fun x => x.dvr_id) (fun x => x.dvr_entries)
                (fun de => de.de_config) (de_get_put_bind s _ id de _ _ he hde hid rfl) hl.2 y
                (by rw [← hcf]; exact hy)
            · cases de.de_channel <;> rfl
        · cases h; exact step_ok_refl s

/-- The configuration setter keeps the lists consistent. -/
theorem config_name_set_step (s : dvr_db_t) (id : Nat) (v : Option String) (t : dvr_db_t)
    (r : Bool) (h : dvr_entry_class_config_name_set s id v = some (t, r)) :
    dvr_step_ok s t := by
  unfold dvr_entry_class_config_name_set at h
  cases hde : de_get s id with
  | none => rw [hde] at h; cases h
  | some de =>
    rw [hde] at h
    simp only at h
    have hid := de_get_id s id de hde
    split at h
    · cases h; exact step_ok_refl s
    · split at h
      · split at h
        · rename_i k0 hk0
          cases h
          have he : (de_put (config_link_remove s k0 id) { de with de_config := none }).entries =
              (de_put s { de with de_config := none }).entries := rfl
          refine ⟨fun hl => ⟨?_, ?_⟩, rfl, de_get_put_some s _ id de _ he hde hid⟩
          · exact table_keep s _ s.channels (fun x => x.ch_id) (fun x => x.ch_dvrs)
              (fun de => de.de_channel) (de_get_put_bind s _ id de _ _ he hde hid rfl) hl.1
          · refine table_relink s _ id s.configs (fun x => x.dvr_id) (fun x => x.dvr_entries)
              (fun de => de.de_config) _ ?_ (de_get_put_other s _ id _ he hid) ?_ hl.2
            · intro x
              dsimp only
              split <;> rfl
            · intro x _
              rw [de_get_put_self s _ id de _ he hde hid, hde]
              simp only [Option.some_bind, hk0]
              by_cases hx : x.dvr_id = k0
              · simp [hx]
              · have hx2 : ¬ k0 = x.dvr_id := fun h2 => hx h2.symm
                simp [hx, hx2]
        · cases h; exact step_ok_refl s
      · rename_i _ cfg hcfg
        split at h
        · rename_i hne
          cases h
          have he : (config_link_insert
              (de_put (match de.de_config with
                       | some k0 => config_link_remove s k0 id
                       | none => s)
                { de with de_config := some cfg }) cfg id).entries =
              (de_put s { de with de_config := some cfg }).entries := by
            cases de.de_config <;> rfl
          refine ⟨fun hl => ⟨?_, ?_⟩, ?_, de_get_put_some s _ id de _ he hde hid⟩
          · have hch : (config_link_insert
                (de_put (match de.de_config with
                         | some k0 => config_link_remove s k0 id
                         | none => s)
                  { de with de_config := some cfg }) cfg id).channels = s.channels := by
              cases de.de_config <;> rfl
            intro y hy
            exact table_keep s _ s.channels (fun x => x.ch_id) (fun x => x.ch_dvrs)
              (fun de => de.de_channel) (de_get_put_bind s _ id de _ _ he hde hid rfl) hl.1 y
              (by rw [← hch]; exact hy)
          · have htab : (config_link_insert
                (de_put (match de.de_config with
                         | some k0 => config_link_remove s k0 id
                         | none => s)
                  { de with de_config := some cfg }) cfg id).configs =
                s.configs.map (fun x =>
                  { x with dvr_entries :=
                      (if some cfg = some x.dvr_id then [id] else []) ++
                        (if de.de_config = some x.dvr_id then
                           x.dvr_entries.filter (fun i => i != id)
                         else x.dvr_entries) }) := by
              cases hdc : de.de_config with
              | none =>
                show s.configs.map _ = s.configs.map _
                apply List.map_congr_left
                intro x _
                by_cases hx : x.dvr_id = cfg
                · simp [hx]
                · have hx2 : ¬ cfg = x.dvr_id := fun h2 => hx h2.symm
                  simp [hx, hx2]
              | some k0 =>
                show (s.configs.map _).map _ = s.configs.map _
                rw [List.map_map]
                apply List.map_congr_left
                intro x _
                have hcc : k0 ≠ cfg := by
                  intro h2
                  apply hne
                  rw [hdc, h2]
                have hcc2 : ¬ cfg = k0 := fun h2 => hcc h2.symm
                simp only [Function.comp]
                by_cases hx : x.dvr_id = cfg
                · simp [hx, hcc, hcc2]
                · have hx2 : ¬ cfg = x.dvr_id := fun h2 => hx h2.symm
                  by_cases hx0 : x.dvr_id = k0
                  · simp [hx, hx0, hx2, hcc, hcc2]
                  · have hx3 : ¬ k0 = x.dvr_id := fun h2 => hx0 h2.symm
                    simp [hx, hx0, hx2, hx3]
            intro y hy
            refine table_relink s _ id s.configs (fun x => x.dvr_id) (fun x => x.dvr_entries)
              (fun de => de.de_config)
              (fun x =>
                { x with dvr_entries :=
                    (if some cfg = some x.dvr_id then [id] else []) ++
                      (if de.de_config = some x.dvr_id then
                         x.dvr_entries.filter (fun i => i != id)
                       else x.dvr_entries) })
              (fun x => rfl) (de_get_put_other s _ id _ he hid) ?_ hl.2 y
              (by rw [← htab]; exact hy)
            intro x _
            rw [de_get_put_self s _ id de _ he hde hid, hde]
            rfl
          · cases de.de_config <;> rfl
        · cases h; exact step_ok_refl s

/-- The channel-name setter keeps the lists consistent: it either hands over
to the channel setter or stores the name only. -/
theorem channel_name_set_step (s : dvr_db_t) (id : Nat) (v : Option String) (t : dvr_db_t)
    (r : Bool) (h : dvr_entry_class_channel_name_set s id v = some (t, r)) :
    dvr_step_ok s t := by
  unfold dvr_entry_class_channel_name_set at h
  cases hde : de_get s id with
  | none => rw [hde] at h; cases h
  | some de =>
    rw [hde] at h
    simp only at h
    have hid := de_get_id s id de hde
    split at h
    · cases h; exact step_ok_refl s
    · split at h
      · cases h; exact step_ok_refl s
      · split at h
        · exact channel_set_step s id _ t r h
        · cases h
          exact ptr_frame_step s _
            (ptr_frame_put s _ id de { de with de_channel_name := v } hde hid rfl rfl rfl rfl
              rfl rfl)

theorem index_step (s t : dvr_db_t) (h : dvr_step_ok s t) (hi : dvr_index_ok s) :
    dvr_index_ok t := by
  obtain ⟨h1, h2, h3⟩ := h
  refine ⟨⟨?_, ?_⟩, h1 hi.2⟩
  · rw [h2]; exact hi.1.1
  · intro j
    rw [h2, hi.1.2 j]
    have := h3 j
    cases ht : de_get t j <;> cases hs : de_get s j <;> rw [ht, hs] at this <;>
      simp at this ⊢

theorem set_timer_ptr_frame (now : Int) (s : dvr_db_t) (id : Nat) (t : dvr_db_t)
    (h : dvr_entry_set_timer now s id = some t) : dvr_ptr_frame s t := by
  obtain ⟨de, st, tm, fx, hde, ht⟩ := set_timer_frame now s id t h
  rw [ht]
  exact ptr_frame_put s _ id de { de with de_sched_state := st, de_timer := tm } hde
    (de_get_id s id de hde) rfl rfl rfl rfl rfl rfl

theorem save_ptr_frame (s : dvr_db_t) (id : Nat) (t : dvr_db_t)
    (h : dvr_entry_save s id = some t) : dvr_ptr_frame s t := by
  unfold dvr_entry_save at h
  cases hde : de_get s id with
  | none => rw [hde] at h; cases h
  | some de =>
    rw [hde] at h
    cases h
    exact ptr_frame_tables s _ rfl rfl rfl rfl

theorem stop_recording_ptr_frame (s : dvr_db_t) (id : Nat) (code : sm_code) (saveconf : Bool)
    (t : dvr_db_t) (h : dvr_stop_recording s id code saveconf = some t) :
    dvr_ptr_frame s t := by
  unfold dvr_stop_recording at h
  cases hde : de_get s id with
  | none => rw [hde] at h; cases h
  | some de =>
    rw [hde] at h
    simp only at h
    have hid := de_get_id s id de hde
    split at h
    · cases h
    · rename_i r hr
      cases h
      by_cases hm : de.de_rec_state = DVR_RS_PENDING ∨
          de.de_rec_state = DVR_RS_WAIT_PROGRAM_START ∨ de.de_filename = none
      · simp only [if_pos hm]
        refine ptr_frame_put s _ id de
          (gtimer_arm_abs { de with de_sched_state := DVR_MISSED_TIME } dvr_timer_cb.expire
            (de.de_stop + r * 86400)) hde hid rfl rfl ?_ ?_ ?_ ?_
        · cases saveconf
          · exact entries_put_put s.entries _ _ rfl
          · exact entries_put_put s.entries _ _ rfl
        · cases saveconf <;> rfl
        · cases saveconf <;> rfl
        · cases saveconf <;> rfl
      · simp only [if_neg hm]
        refine ptr_frame_put s _ id de
          (gtimer_arm_abs (_dvr_entry_completed de) dvr_timer_cb.expire
            ((_dvr_entry_completed de).de_stop + r * 86400)) hde hid rfl rfl ?_ ?_ ?_ ?_
        · cases saveconf
          · exact entries_put_put s.entries _ _ rfl
          · exact entries_put_put s.entries _ _ rfl
        · cases saveconf <;> rfl
        · cases saveconf <;> rfl
        · cases saveconf <;> rfl

theorem purge_ptr_frame (s : dvr_db_t) (id : Nat) (delconf : Bool) (t : dvr_db_t)
    (h : dvr_entry_purge s id delconf = some t) : dvr_ptr_frame s t := by
  unfold dvr_entry_purge at h
  cases hde : de_get s id with
  | none => rw [hde] at h; cases h
  | some de =>
    rw [hde] at h
    simp only at h
    split at h
    · exact stop_recording_ptr_frame s id _ delconf t h
    · cases h
      exact ptr_frame_refl s

theorem filter_put (l : List dvr_entry_t) (D : dvr_entry_t) :
    (l.map (fun e => if e.de_id = D.de_id then D else e)).filter
        (fun e => e.de_id != D.de_id) =
      l.filter (fun e => e.de_id != D.de_id) := by
  induction l with
  | nil => rfl
  | cons x xs ih =>
    rw [List.map_cons]
    by_cases hx : x.de_id = D.de_id
    · rw [if_pos hx]
      have h1 : (D.de_id != D.de_id) = false := by simp
      have h2 : (x.de_id != D.de_id) = false := by simp [hx]
      rw [List.filter_cons, List.filter_cons, h1, h2]
      simp only [Bool.false_eq_true, if_false]
      exact ih
    · rw [if_neg hx]
      have h2 : (x.de_id != D.de_id) = true := by simp [hx]
      rw [List.filter_cons, List.filter_cons, h2]
      simp only [if_true]
      rw [ih]

/-- The tables after `dvr_entry_destroy` dropped the last reference. -/
theorem destroy_last_tables (s : dvr_db_t) (id : Nat) (de : dvr_entry_t) (delconf : Bool)
    (hde : de_get s id = some de) (hrc : ¬ de.de_refcnt > 1) :
    ∃ s', dvr_entry_destroy s id delconf = some s' ∧
      s'.dvrentries = s.dvrentries.filter (fun i => i != id) ∧
      s'.channels = s.channels.map (fun x =>
        if de.de_channel = some x.ch_id then
          { x with ch_dvrs := x.ch_dvrs.filter (fun i => i != id) }
        else x) ∧
      s'.configs = s.configs.map (fun x =>
        if de.de_config = some x.dvr_id then
          { x with dvr_entries := x.dvr_entries.filter (fun i => i != id) }
        else x) ∧
      s'.entries = (de_free s id).entries := by
  have hid := de_get_id s id de hde
  have hchid : (fun (x : channel_t) => if de.de_channel = some x.ch_id then
        { x with ch_dvrs := x.ch_dvrs.filter (fun i => i != id) } else x) =
      (match de.de_channel with
       | some c => fun (x : channel_t) => if x.ch_id = c then
           { x with ch_dvrs := x.ch_dvrs.filter (fun i => i != id) } else x
       | none => fun x => x) := by
    cases de.de_channel with
    | none =>
      funext x
      simp
    | some c =>
      funext x
      by_cases hx : x.ch_id = c
      · simp [hx]
      · have hx2 : ¬ c = x.ch_id := fun h2 => hx h2.symm
        simp [hx, hx2]
  have hcfid : (fun (x : dvr_config_t) => if de.de_config = some x.dvr_id then
        { x with dvr_entries := x.dvr_entries.filter (fun i => i != id) } else x) =
      (match de.de_config with
       | some k => fun (x : dvr_config_t) => if x.dvr_id = k then
           { x with dvr_entries := x.dvr_entries.filter (fun i => i != id) } else x
       | none => fun x => x) := by
    cases de.de_config with
    | none =>
      funext x
      simp
    | some k =>
      funext x
      by_cases hx : x.dvr_id = k
      · simp [hx]
      · have hx2 : ¬ k = x.dvr_id := fun h2 => hx h2.symm
        simp [hx, hx2]
  have key : ∀ (s4 : dvr_db_t) (D : dvr_entry_t), D.de_id = id →
      D.de_config = de.de_config → ¬ D.de_refcnt > 1 → s4.entries = s.entries →
      s4.dvrentries = s.dvrentries.filter (fun i => i != id) → s4.configs = s.configs →
      s4.channels = s.channels.map (fun x =>
        if de.de_channel = some x.ch_id then
          { x with ch_dvrs := x.ch_dvrs.filter (fun i => i != id) }
        else x) →
      ∃ s', dvr_entry_dec_ref (de_put s4 D) id = some s' ∧
        s'.dvrentries = s.dvrentries.filter (fun i => i != id) ∧
        s'.channels = s.channels.map (fun x =>
          if de.de_channel = some x.ch_id then
            { x with ch_dvrs := x.ch_dvrs.filter (fun i => i != id) }
          else x) ∧
        s'.configs = s.configs.map (fun x =>
          if de.de_config = some x.dvr_id then
            { x with dvr_entries := x.dvr_entries.filter (fun i => i != id) }
          else x) ∧
        s'.entries = (de_free s id).entries := by
    intro s4 D hD1 hD2 hD3 e1 e2 e3 e4
    have hg : de_get (de_put s4 D) id = some D := by
      have hg4 : de_get s4 id = some de := by
        rw [de_get_congr s4 s id e1]
        exact hde
      exact de_get_de_put s4 id de D hg4 hD1
    obtain ⟨s', hs', d1, d2, _, d4, d5, _⟩ := dec_ref_last (de_put s4 D) id D hg hD3
    refine ⟨s', hs', ?_, ?_, ?_, ?_⟩
    · rw [d1]
      exact e2
    · rw [d2]
      exact e4
    · rw [d5, hD2, hcfid]
      have : (de_put s4 D).configs = s.configs := e3
      cases de.de_config with
      | none =>
        simp only [List.map_id']
        exact this
      | some k =>
        show (de_put s4 D).configs.map _ = s.configs.map _
        rw [this]
    · rw [d4]
      show (s4.entries.map _).filter _ = s.entries.filter _
      rw [e1, ← hD1]
      exact filter_put s.entries D
  unfold dvr_entry_destroy
  rw [hde]
  refine key _ _ hid rfl hrc ?_ ?_ ?_ ?_
  · cases delconf <;> cases de.de_channel <;> rfl
  · cases delconf <;> cases de.de_channel <;> rfl
  · cases delconf <;> cases de.de_channel <;> rfl
  · rw [hchid]
    cases de.de_channel with
    | none =>
      simp only [List.map_id']
      cases delconf <;> rfl
    | some c => cases delconf <;> rfl

/-- `dvr_entry_destroy` dropping the last reference keeps the index
consistency. -/
theorem destroy_index (s : dvr_db_t) (id : Nat) (de : dvr_entry_t) (delconf : Bool)
    (s' : dvr_db_t) (hi : dvr_index_ok s) (hde : de_get s id = some de)
    (hrc : ¬ de.de_refcnt > 1) (h : dvr_entry_destroy s id delconf = some s') :
    dvr_index_ok s' := by
  obtain ⟨s2, h2, t1, t2, t3, t4⟩ := destroy_last_tables s id de delconf hde hrc
  rw [h2] at h
  have hs : s2 = s' := Option.some.inj h
  rw [hs] at t1 t2 t3 t4
  have hnone : de_get s' id = none := by
    rw [de_get_congr s' (de_free s id) id t4]
    exact find_filter_self s.entries id
  have hne : ∀ j, j ≠ id → de_get s' j = de_get s j := by
    intro j hj
    rw [de_get_congr s' (de_free s id) j t4]
    exact find_filter_ne s.entries id j hj
  refine ⟨?_, ?_, ?_⟩
  · rw [t1]
    refine list_ok_update s s' id s.dvrentries _ (fun _ => True) hne hi.1 (Or.inr (Or.inl ⟨rfl, ?_⟩))
    rintro ⟨D, hD, _⟩
    rw [hnone] at hD
    cases hD
  · rw [t2]
    refine table_relink s s' id s.channels (fun x => x.ch_id) (fun x => x.ch_dvrs)
      (fun de => de.de_channel) _ ?_ hne ?_ hi.2.1
    · intro x
      dsimp only
      split <;> rfl
    · intro x _
      rw [hnone, hde]
      simp only [Option.none_bind, Option.some_bind]
      by_cases hx : de.de_channel = some x.ch_id
      · simp [hx]
      · simp [hx]
  · rw [t3]
    refine table_relink s s' id s.configs (fun x => x.dvr_id) (fun x => x.dvr_entries)
      (fun de => de.de_config) _ ?_ hne ?_ hi.2.2
    · intro x
      dsimp only
      split <;> rfl
    · intro x _
      rw [hnone, hde]
      simp only [Option.none_bind, Option.some_bind]
      by_cases hx : de.de_config = some x.dvr_id
      · simp [hx]
      · simp [hx]

theorem ch_get_mem (s : dvr_db_t) (c : Nat) (cc : channel_t) (h : ch_get s c = some cc) :
    cc ∈ s.channels ∧ cc.ch_id = c := by
  unfold ch_get at h
  refine ⟨List.mem_of_find?_eq_some h, ?_⟩
  have := List.find?_some h
  simpa using this

theorem cfg_get_mem (s : dvr_db_t) (k : Nat) (cfg : dvr_config_t) (h : cfg_get s k = some cfg) :
    cfg ∈ s.configs ∧ cfg.dvr_id = k := by
  unfold cfg_get at h
  refine ⟨List.mem_of_find?_eq_some h, ?_⟩
  have := List.find?_some h
  simpa using this

/-- One iteration of `dvr_destroy_by_channel` before the purge. -/
theorem by_channel_iter (s : dvr_db_t) (c id : Nat) (cc : channel_t) (rest : List Nat)
    (de : dvr_entry_t) (name : Option String)
    (hc : ch_get s c = some cc) (hl : cc.ch_dvrs = id :: rest)
    (hde : de_get s id = some de) :
    dvr_step_ok s (de_put (channel_link_remove s c id)
      { de with de_channel := none, de_channel_name := name }) := by
  have hid := de_get_id s id de hde
  have he : (de_put (channel_link_remove s c id)
      { de with de_channel := none, de_channel_name := name }).entries =
      (de_put s { de with de_channel := none, de_channel_name := name }).entries := rfl
  obtain ⟨hcm, hcid⟩ := ch_get_mem s c cc hc
  refine ⟨fun hok => ⟨?_, ?_⟩, rfl, de_get_put_some s _ id de _ he hde hid⟩
  · have hdc : de.de_channel = some c := by
      have hmem : id ∈ cc.ch_dvrs := by rw [hl]; exact List.mem_cons_self _ _
      obtain ⟨d, hd, hdch⟩ := ((hok.1 cc hcm).2 id).mp hmem
      rw [hde] at hd
      have : de = d := Option.some.inj hd
      rw [this, hdch, hcid]
    refine table_relink s _ id s.channels (fun x => x.ch_id) (fun x => x.ch_dvrs)
      (fun de => de.de_channel) _ ?_ (de_get_put_other s _ id _ he hid) ?_ hok.1
    · intro x
      dsimp only
      split <;> rfl
    · intro x _
      rw [de_get_put_self s _ id de _ he hde hid, hde]
      simp only [Option.some_bind, hdc]
      by_cases hx : x.ch_id = c
      · simp [hx]
      · have hx2 : ¬ c = x.ch_id := fun h2 => hx h2.symm
        simp [hx, hx2]
  · exact table_keep s _ s.configs (fun x => x.dvr_id) (fun x => x.dvr_entries)
      (fun de => de.de_config) (de_get_put_bind s _ id de _ _ he hde hid rfl) hok.2

/-- `dvr_destroy_by_channel`, whenever it returns, has kept the lists
consistent, the global list and the set of allocated entries. -/
theorem destroy_by_channel_step (fuel : Nat) :
    ∀ (s : dvr_db_t) (c : Nat) (delconf : Bool) (s' : dvr_db_t),
      dvr_destroy_by_channel fuel s c delconf = dvr_run.returned s' → dvr_step_ok s s' := by
  induction fuel with
  | zero =>
    intro s c delconf s' h
    unfold dvr_destroy_by_channel at h
    cases hc : ch_get s c with
    | none => rw [hc] at h; cases h
    | some cc =>
      rw [hc] at h
      simp only at h
      cases hl : cc.ch_dvrs with
      | nil =>
        rw [hl] at h
        cases h
        exact step_ok_refl s
      | cons id rest => rw [hl] at h; cases h
  | succ n ih =>
    intro s c delconf s' h
    unfold dvr_destroy_by_channel at h
    cases hc : ch_get s c with
    | none => rw [hc] at h; cases h
    | some cc =>
      rw [hc] at h
      simp only at h
      cases hl : cc.ch_dvrs with
      | nil =>
        rw [hl] at h
        cases h
        exact step_ok_refl s
      | cons id rest =>
        rw [hl] at h
        simp only at h
        cases hde : de_get s id with
        | none => rw [hde] at h; cases h
        | some de =>
          rw [hde] at h
          simp only at h
          split at h
          · cases h
          · rename_i s1 hp
            exact step_ok_trans s _ s'
              (step_ok_trans s _ s1 (by_channel_iter s c id cc rest de _ hc hl hde)
                (ptr_frame_step _ s1 (purge_ptr_frame _ id delconf s1 hp)))
              (ih s1 c delconf s' h)

/-- One iteration of `dvr_entry_destroy_by_config` before the save: the entry
moves from the list of the configuration to the list of `d1` (or to none). -/
theorem by_config_iter (s : dvr_db_t) (cfg id : Nat) (k : dvr_config_t) (rest : List Nat)
    (de : dvr_entry_t) (d1 : Option Nat)
    (hc : cfg_get s cfg = some k) (hl : k.dvr_entries = id :: rest)
    (hde : de_get s id = some de) :
    dvr_step_ok s
      (match d1 with
       | some d =>
         config_link_insert (de_put (config_link_remove s cfg id) { de with de_config := d1 })
           d id
       | none => de_put (config_link_remove s cfg id) { de with de_config := d1 }) := by
  have hid := de_get_id s id de hde
  obtain ⟨hcm, hcid⟩ := cfg_get_mem s cfg k hc
  have key : ∀ t : dvr_db_t, t.entries = (de_put s { de with de_config := d1 }).entries →
      t.dvrentries = s.dvrentries → t.channels = s.channels →
      t.configs = s.configs.map (fun x =>
        { x with dvr_entries :=
            (if d1 = some x.dvr_id then [id] else []) ++
              (if x.dvr_id = cfg then x.dvr_entries.filter (fun i => i != id)
               else x.dvr_entries) }) →
      dvr_step_ok s t := by
    intro t he h1 h2 h3
    refine ⟨fun hok => ⟨?_, ?_⟩, h1, de_get_put_some s t id de _ he hde hid⟩
    · rw [h2]
      exact table_keep s t s.channels (fun x => x.ch_id) (fun x => x.ch_dvrs)
        (fun de => de.de_channel) (de_get_put_bind s t id de _ _ he hde hid rfl) hok.1
    · have hdc : de.de_config = some cfg := by
        have hmem : id ∈ k.dvr_entries := by rw [hl]; exact List.mem_cons_self _ _
        obtain ⟨d, hd, hdch⟩ := ((hok.2 k hcm).2 id).mp hmem
        rw [hde] at hd
        have : de = d := Option.some.inj hd
        rw [this, hdch, hcid]
      rw [h3]
      refine table_relink s t id s.configs (fun x => x.dvr_id) (fun x => x.dvr_entries)
        (fun de => de.de_config) _ (fun x => rfl) (de_get_put_other s t id _ he hid) ?_ hok.2
      intro x _
      rw [de_get_put_self s t id de _ he hde hid, hde]
      simp only [Option.some_bind, hdc]
      by_cases hx : x.dvr_id = cfg
      · simp [hx]
      · have hx2 : ¬ cfg = x.dvr_id := fun h2 => hx h2.symm
        simp [hx, hx2]
  cases d1 with
  | none =>
    refine key _ rfl rfl rfl ?_
    show s.configs.map _ = s.configs.map _
    apply List.map_congr_left
    intro x _
    by_cases hx : x.dvr_id = cfg
    · simp [hx]
    · simp [hx]
  | some d =>
    refine key _ rfl rfl rfl ?_
    show (s.configs.map _).map _ = s.configs.map _
    rw [List.map_map]
    apply List.map_congr_left
    intro x _
    simp only [Function.comp]
    by_cases hx : x.dvr_id = cfg
    · by_cases hd : x.dvr_id = d
      · have hd2 : cfg = d := hx.symm.trans hd
        simp [hx, hd2]
      · have hd2 : ¬ d = x.dvr_id := fun h2 => hd h2.symm
        have hd3 : ¬ cfg = d := fun h2 => hd (hx.trans h2)
        have hd4 : ¬ d = cfg := fun h2 => hd3 h2.symm
        simp [hx, hd3, hd4]
    · by_cases hd : x.dvr_id = d
      · have hx5 : ¬ d = cfg := fun h2 => hx (hd.trans h2)
        simp [hx, hd, hx5]
      · have hd2 : ¬ d = x.dvr_id := fun h2 => hd h2.symm
        simp [hx, hd, hd2]

/-- The loop of `dvr_entry_destroy_by_config`, whenever it returns, has kept the
lists consistent, the global list and the set of allocated entries. -/
theorem destroy_by_config_step (fuel : Nat) :
    ∀ (s : dvr_db_t) (cfg : Nat) (delconf : Bool) (dflt : Option Nat) (s' : dvr_db_t),
      dvr_entry_destroy_by_config_loop fuel s cfg delconf dflt = dvr_run.returned s' →
      dvr_step_ok s s' := by
  induction fuel with
  | zero =>
    intro s cfg delconf dflt s' h
    unfold dvr_entry_destroy_by_config_loop at h
    cases hc : cfg_get s cfg with
    | none => rw [hc] at h; cases h
    | some k =>
      rw [hc] at h
      simp only at h
      cases hl : k.dvr_entries with
      | nil =>
        rw [hl] at h
        cases h
        exact step_ok_refl s
      | cons id rest => rw [hl] at h; cases h
  | succ n ih =>
    intro s cfg delconf dflt s' h
    unfold dvr_entry_destroy_by_config_loop at h
    cases hc : cfg_get s cfg with
    | none => rw [hc] at h; cases h
    | some k =>
      rw [hc] at h
      simp only at h
      cases hl : k.dvr_entries with
      | nil =>
        rw [hl] at h
        cases h
        exact step_ok_refl s
      | cons id rest =>
        rw [hl] at h
        simp only at h
        cases hde : de_get s id with
        | none => rw [hde] at h; cases h
        | some de =>
          rw [hde] at h
          simp only at h
          generalize (if dflt = none ∧ delconf = true then
              dvr_config_find_by_name_default s none else dflt) = d1 at h
          have hit := by_config_iter s cfg id k rest de d1 hc hl hde
          cases delconf with
          | false =>
            simp only [Bool.false_eq_true, if_false] at h
            exact step_ok_trans s _ s' hit (ih _ cfg false d1 s' h)
          | true =>
            simp only [if_true] at h
            split at h
            · cases h
            · rename_i s4 hs4
              exact step_ok_trans s _ s'
                (step_ok_trans s _ s4 hit (ptr_frame_step _ s4 (save_ptr_frame _ id s4 hs4)))
                (ih s4 cfg true d1 s' h)

theorem bind_step_ok (s0 : dvr_db_t) (x : Option dvr_db_t) (f : dvr_db_t → Option dvr_db_t)
    (hx : ∀ a, x = some a → dvr_step_ok s0 a)
    (hf : ∀ a b, f a = some b → dvr_step_ok a b) :
    ∀ t, x.bind f = some t → dvr_step_ok s0 t := by
  intro t h
  rw [Option.bind_eq_some] at h
  obtain ⟨a, ha, hfa⟩ := h
  exact step_ok_trans s0 a t (hx a ha) (hf a t hfa)

theorem prop_set_step {α : Type} (nv : Option α)
    (set : dvr_db_t → α → Option (dvr_db_t × Bool))
    (hset : ∀ a v b r, set a v = some (b, r) → dvr_step_ok a b) :
    ∀ a b, prop_set nv set a = some b → dvr_step_ok a b := by
  intro a b h
  unfold prop_set at h
  cases nv with
  | none =>
    cases h
    exact step_ok_refl a
  | some v =>
    simp only at h
    rw [Option.map_eq_some'] at h
    obtain ⟨q, hq, hb⟩ := h
    rw [← hb]
    exact hset a v q.1 q.2 hq

theorem prop_off_step {α : Type} (nv : Option α) (id : Nat)
    (wr : dvr_entry_t → α → dvr_entry_t)
    (hwr : ∀ de v, (wr de v).de_id = de.de_id ∧ (wr de v).de_channel = de.de_channel ∧
      (wr de v).de_config = de.de_config) :
    ∀ a b, prop_off nv id wr a = some b → dvr_step_ok a b := by
  intro a b h
  unfold prop_off at h
  cases nv with
  | none =>
    cases h
    exact step_ok_refl a
  | some v =>
    simp only at h
    cases hde : de_get a id with
    | none => rw [hde] at h; cases h
    | some de =>
      rw [hde] at h
      cases h
      obtain ⟨w1, w2, w3⟩ := hwr de v
      exact ptr_frame_step a _
        (ptr_frame_put a _ id de (wr de v) hde (w1.trans (de_get_id a id de hde)) w2 w3 rfl rfl
          rfl rfl)

/-- `idnode_load` keeps the lists consistent, the global list and the set of
allocated entries. -/
theorem idnode_load_step (s : dvr_db_t) (id : Nat) (c : Option htsmsg_t) :
    ∀ t, idnode_load s id c = some t → dvr_step_ok s t := by
  unfold idnode_load
  have hs := fun (a : dvr_db_t) => setters_ptr_frame a id
  repeat' (first
    | exact fun a ha => (Option.some.inj ha) ▸ step_ok_refl s
    | exact prop_off_step _ _ _ (fun de v => ⟨rfl, rfl, rfl⟩)
    | exact prop_set_step _ _ (fun a v b r h => ptr_frame_step a b ((hs a).1 v b r h))
    | exact prop_set_step _ _ (fun a v b r h => ptr_frame_step a b ((hs a).2.1 v b r h))
    | exact prop_set_step _ _ (fun a v b r h => ptr_frame_step a b ((hs a).2.2.1 v b r h))
    | exact prop_set_step _ _ (fun a v b r h => ptr_frame_step a b ((hs a).2.2.2.1 v b r h))
    | exact prop_set_step _ _
        (fun a v b r h => ptr_frame_step a b ((hs a).2.2.2.2.1 v b r h))
    | exact prop_set_step _ _
        (fun a v b r h => ptr_frame_step a b ((hs a).2.2.2.2.2.1 v b r h))
    | exact prop_set_step _ _
        (fun a v b r h => ptr_frame_step a b ((hs a).2.2.2.2.2.2.1 (some v) b r h))
    | exact prop_set_step _ _
        (fun a v b r h => ptr_frame_step a b ((hs a).2.2.2.2.2.2.2.1 (some v) b r h))
    | exact prop_set_step _ _
        (fun a v b r h => ptr_frame_step a b ((hs a).2.2.2.2.2.2.2.2.1 v b r h))
    | exact prop_set_step _ _ (fun a v b r h => channel_set_step a id (some v) b r h)
    | exact prop_set_step _ _ (fun a v b r h => channel_name_set_step a id (some v) b r h)
    | exact prop_set_step _ _ (fun a v b r h => config_name_set_step a id (some v) b r h)
    | refine bind_step_ok s _ _ ?_ ?_)

theorem foldl_max_ge (l : List Nat) :
    ∀ a, a ≤ l.foldl max a ∧ ∀ x ∈ l, x ≤ l.foldl max a := by
  induction l with
  | nil =>
    intro a
    exact ⟨le_refl a, fun x hx => by cases hx⟩
  | cons y ys ih =>
    intro a
    obtain ⟨h1, h2⟩ := ih (max a y)
    rw [List.foldl_cons]
    refine ⟨le_trans (le_max_left a y) h1, fun x hx => ?_⟩
    rw [List.mem_cons] at hx
    rcases hx with hx | hx
    · rw [hx]
      exact le_trans (le_max_right a y) h1
    · exact h2 x hx

/-- The identifier that `idnode_insert` hands out is not in use. -/
theorem idnode_insert_fresh (s : dvr_db_t) (uuid : Option Nat) (id : Nat)
    (h : idnode_insert s uuid = some id) : de_get s id = none := by
  unfold idnode_insert at h
  cases uuid with
  | some u =>
    simp only at h
    split at h
    · cases h
    · rename_i hu
      cases h
      cases hg : de_get s id with
      | none => rfl
      | some d => rw [hg] at hu; exact absurd rfl hu
  | none =>
    simp only at h
    cases h
    unfold de_get
    rw [List.find?_eq_none]
    intro x hx
    have hle := (foldl_max_ge (s.entries.map (fun e => e.de_id)) 0).2 x.de_id
      (List.mem_map_of_mem (fun e => e.de_id) hx)
    simp only [beq_iff_eq]
    omega

theorem create_titles_frame (s3 : dvr_db_t) (id : Nat) (conf : Option htsmsg_t)
    (s5 : dvr_db_t) (h : dvr_entry_create_titles s3 id conf = some s5) :
    dvr_ptr_frame s3 s5 := by
  unfold dvr_entry_create_titles at h
  have hset := fun (a : dvr_db_t) => setters_ptr_frame a id
  have h1 : ∀ (a b : dvr_db_t) (t : String),
      (dvr_entry_class_disp_title_set a id (some t)).map Prod.fst = some b →
      dvr_ptr_frame a b := by
    intro a b t hm
    rw [Option.map_eq_some'] at hm
    obtain ⟨q, hq, hb⟩ := hm
    rw [← hb]
    exact (hset a).2.2.2.2.2.2.2.2.2.1 (some t) q.1 q.2 hq
  have h2 : ∀ (a b : dvr_db_t) (t : String),
      (dvr_entry_class_disp_subtitle_set a id (some t)).map Prod.fst = some b →
      dvr_ptr_frame a b := by
    intro a b t hm
    rw [Option.map_eq_some'] at hm
    obtain ⟨q, hq, hb⟩ := hm
    rw [← hb]
    exact (hset a).2.2.2.2.2.2.2.2.2.2 (some t) q.1 q.2 hq
  split at h
  · cases h
  · rename_i s4 hs4
    have f1 : dvr_ptr_frame s3 s4 := by
      split at hs4
      · split at hs4
        · exact h1 s3 _ _ hs4
        · cases hs4; exact ptr_frame_refl s3
      · cases hs4; exact ptr_frame_refl s3
      · cases hs4
    have f2 : dvr_ptr_frame s4 s5 := by
      split at h
      · split at h
        · exact h2 _ s5 _ h
        · cases h; exact ptr_frame_refl _
      · cases h; exact ptr_frame_refl _
      · cases h
    exact ptr_frame_trans s3 s4 s5 f1 f2

theorem links_congr (s t : dvr_db_t) (he : t.entries = s.entries)
    (hch : t.channels = s.channels) (hcf : t.configs = s.configs) (h : dvr_links_ok s) :
    dvr_links_ok t := by
  constructor
  · rw [hch]
    exact table_keep s t s.channels (fun x => x.ch_id) (fun x => x.ch_dvrs)
      (fun de => de.de_channel) (fun j => by rw [de_get_congr t s j he]) h.1
  · rw [hcf]
    exact table_keep s t s.configs (fun x => x.dvr_id) (fun x => x.dvr_entries)
      (fun de => de.de_config) (fun j => by rw [de_get_congr t s j he]) h.2

/-- The allocation step of `dvr_entry_create`: the new entry, with no channel
and the default configuration (or none), at the head of the list of that
configuration. -/
theorem create_alloc (s s0 : dvr_db_t) (id : Nat) (E : dvr_entry_t) (f : dvr_config_t → dvr_config_t)
    (hfresh : de_get s id = none) (hE : E.de_id = id) (hEc : E.de_channel = none)
    (he : s0.entries = E :: s.entries) (hch : s0.channels = s.channels)
    (hcf : s0.configs = s.configs.map f)
    (hfk : ∀ x, (f x).dvr_id = x.dvr_id)
    (hfl : ∀ x, (f x).dvr_entries =
      (if E.de_config = some x.dvr_id then [id] else []) ++ x.dvr_entries)
    (hl : dvr_links_ok s) :
    dvr_links_ok s0 ∧ de_get s0 id = some E ∧ ∀ j, j ≠ id → de_get s0 j = de_get s j := by
  have hself : de_get s0 id = some E := by
    unfold de_get
    rw [he, List.find?_cons]
    simp [hE]
  have hne : ∀ j, j ≠ id → de_get s0 j = de_get s j := by
    intro j hj
    unfold de_get
    rw [he, List.find?_cons]
    have : (E.de_id == j) = false := by
      rw [hE]
      simp only [beq_eq_false_iff_ne, ne_eq]
      exact fun h2 => hj h2.symm
    rw [this]
  refine ⟨⟨?_, ?_⟩, hself, hne⟩
  · rw [hch]
    have := table_relink s s0 id s.channels (fun x => x.ch_id) (fun x => x.ch_dvrs)
      (fun de => de.de_channel) (fun x => x) (fun x => rfl) hne (by
        intro x _
        rw [hself, hfresh]
        simp [hEc]) hl.1
    rw [List.map_id'] at this
    exact this
  · rw [hcf]
    refine table_relink s s0 id s.configs (fun x => x.dvr_id) (fun x => x.dvr_entries)
      (fun de => de.de_config) f hfk hne ?_ hl.2
    intro x _
    rw [hself, hfresh]
    simp only [Option.some_bind, Option.none_bind, hfl x]
    simp

/-- The last step of `dvr_entry_create`, from a state in which everything but
the new entry is in the global list: the entry takes its reference and enters
the global list; on a clash it is destroyed, else the reconciler runs. -/
theorem create_finish_index (now : Int) (s5 : dvr_db_t) (id : Nat) (s' : dvr_db_t)
    (r : Option Nat) (hl : dvr_links_ok s5) (hnd : s5.dvrentries.Nodup)
    (hni : id ∉ s5.dvrentries)
    (hglob : ∀ j, j ≠ id → (j ∈ s5.dvrentries ↔ ∃ de, de_get s5 j = some de))
    (h : dvr_entry_create_finish now s5 id = some (s', r)) : dvr_index_ok s' := by
  unfold dvr_entry_create_finish at h
  cases hde : de_get s5 id with
  | none => rw [hde] at h; cases h
  | some de =>
    rw [hde] at h
    simp only at h
    have hid := de_get_id s5 id de hde
    have hput : de_get (de_put s5 { de with de_refcnt := 1 }) id =
        some { de with de_refcnt := 1 } := de_get_de_put s5 id de _ hde hid
    have hi6 : dvr_index_ok
        { de_put s5 { de with de_refcnt := 1 } with dvrentries := id :: s5.dvrentries } := by
      refine ⟨⟨List.nodup_cons.mpr ⟨hni, hnd⟩, fun j => ?_⟩, ?_⟩
      · show j ∈ id :: s5.dvrentries ↔
          ∃ d, de_get (de_put s5 { de with de_refcnt := 1 }) j = some d ∧ True
        rw [List.mem_cons]
        by_cases hj : j = id
        · rw [hj, hput]
          exact ⟨fun _ => ⟨_, rfl, trivial⟩, fun _ => Or.inl rfl⟩
        · rw [de_get_de_put_ne s5 { de with de_refcnt := 1 } j (fun h2 => hj (h2.symm.trans hid)),
            hglob j hj]
          constructor
          · rintro (h2 | ⟨d, hd⟩)
            · exact absurd h2 hj
            · exact ⟨d, hd, trivial⟩
          · rintro ⟨d, hd, _⟩
            exact Or.inr ⟨d, hd⟩
      · refine links_congr (de_put s5 { de with de_refcnt := 1 }) _ rfl rfl rfl ?_
        exact links_frame s5 _
          (ptr_frame_put s5 _ id de { de with de_refcnt := 1 } hde hid rfl rfl rfl rfl rfl rfl)
          hl
    have hg6 : de_get
        { de_put s5 { de with de_refcnt := 1 } with dvrentries := id :: s5.dvrentries } id =
        some { de with de_refcnt := 1 } := hput
    split at h
    · cases h
    · rw [Option.map_eq_some'] at h
      obtain ⟨s7, hs7, hr⟩ := h
      have : s7 = s' := congrArg Prod.fst hr
      rw [← this]
      exact destroy_index _ id { de with de_refcnt := 1 } false s7 hi6 hg6 (by simp) hs7
    · rw [Option.map_eq_some'] at h
      obtain ⟨s7, hs7, hr⟩ := h
      have : emit s7 [dvr_effect.htsp_dvr_entry_add id] = s' := congrArg Prod.fst hr
      rw [← this]
      have f1 := set_timer_ptr_frame now _ id s7 hs7
      have f2 : dvr_ptr_frame s7 (emit s7 [dvr_effect.htsp_dvr_entry_add id]) :=
        ptr_frame_tables s7 _ rfl rfl rfl rfl
      exact index_step _ _ (ptr_frame_step _ _ (ptr_frame_trans _ _ _ f1 f2)) hi6

/-- `dvr_entry_create`, whenever it returns (with an entry or with NULL after a
clash), has kept the index consistency. -/
theorem create_index (now : Int) (s : dvr_db_t) (uuid : Option Nat) (conf : Option htsmsg_t)
    (s' : dvr_db_t) (r : Option Nat) (hi : dvr_index_ok s)
    (h : dvr_entry_create now s uuid conf = some (s', r)) : dvr_index_ok s' := by
  unfold dvr_entry_create at h
  split at h
  · cases h
    exact hi
  · cases hins : idnode_insert s uuid with
    | none =>
      rw [hins] at h
      cases h
      exact hi
    | some id =>
      rw [hins] at h
      simp only at h
      have hfresh := idnode_insert_fresh s uuid id hins
      have hni : id ∉ s.dvrentries := by
        intro hm
        obtain ⟨d, hd, _⟩ := (hi.1.2 id).mp hm
        rw [hfresh] at hd
        cases hd
      have rest : ∀ s0 : dvr_db_t, dvr_links_ok s0 → s0.dvrentries = s.dvrentries →
          (∀ j, j ≠ id → de_get s0 j = de_get s j) →
          ∀ s3 s5, idnode_load s0 id conf = some s3 →
            dvr_entry_create_titles s3 id conf = some s5 →
            dvr_entry_create_finish now s5 id = some (s', r) → dvr_index_ok s' := by
        intro s0 hl0 hd0 hne0 s3 s5 h3 h5 h7
        have st := step_ok_trans s0 s3 s5 (idnode_load_step s0 id conf s3 h3)
          (ptr_frame_step s3 s5 (create_titles_frame s3 id conf s5 h5))
        obtain ⟨st1, st2, st3⟩ := st
        have hd5 : s5.dvrentries = s.dvrentries := st2.trans hd0
        refine create_finish_index now s5 id s' r (st1 hl0) ?_ ?_ ?_ h7
        · rw [hd5]; exact hi.1.1
        · rw [hd5]; exact hni
        · intro j hj
          rw [hd5, hi.1.2 j]
          have h1 := st3 j
          rw [hne0 j hj] at h1
          cases h5j : de_get s5 j <;> cases hsj : de_get s j <;> rw [h5j, hsj] at h1 <;>
            simp at h1 ⊢
      cases hdk : dvr_config_find_by_name_default s none with
      | none =>
        rw [hdk] at h
        simp only at h
        split at h
        · cases h
        · rename_i s3 h3
          split at h
          · cases h
          · rename_i s5 h5
            obtain ⟨a1, _, a3⟩ := create_alloc s
              { s with
                entries := { de_id := id, de_sched_state := DVR_SCHEDULED, de_refcnt := 0,
                             de_mc := -1, de_config := none } :: s.entries } id
              { de_id := id, de_sched_state := DVR_SCHEDULED, de_refcnt := 0, de_mc := -1,
                de_config := none } (fun x => x) hfresh rfl rfl rfl rfl
              (List.map_id' s.configs).symm (fun x => rfl) (fun x => by simp) hi.2
            exact rest _ a1 rfl a3 s3 s5 h3 h5 h
      | some k =>
        rw [hdk] at h
        simp only at h
        split at h
        · cases h
        · rename_i s3 h3
          split at h
          · cases h
          · rename_i s5 h5
            obtain ⟨a1, _, a3⟩ := create_alloc s
              (config_link_insert { s with
                entries := { de_id := id, de_sched_state := DVR_SCHEDULED, de_refcnt := 0,
                             de_mc := -1, de_config := some k } :: s.entries } k id) id
              { de_id := id, de_sched_state := DVR_SCHEDULED, de_refcnt := 0, de_mc := -1,
                de_config := some k }
              (fun cfg => if cfg.dvr_id = k then
                { cfg with dvr_entries := id :: cfg.dvr_entries } else cfg)
              hfresh rfl rfl rfl rfl rfl
              (fun x => by dsimp only; split <;> rfl)
              (fun x => by
                by_cases hx : x.dvr_id = k
                · simp [hx]
                · have hx2 : ¬ k = x.dvr_id := fun h2 => hx h2.symm
                  simp [hx, hx2]) hi.2
            exact rest _ a1 rfl a3 s3 s5 h3 h5 h

/-- C28. Index consistency of the global list, the channels and the
configurations (every allocated entry is in the global list exactly once, and
an entry is in the list of channel C, or configuration K, exactly when its
channel, or configuration, pointer is C, or K) is kept by every call of
`dvr_entry_create` that returns (with the new entry, or with NULL after the
rollback of a clash), by the `channel`, `channelname` and `config_name`
setters, by a `dvr_entry_destroy` that drops the last reference of the entry,
and by every run of `dvr_entry_destroy_by_config` and of
`dvr_destroy_by_channel` that returns. -/
theorem index_consistency_preserved (now : Int) (s : dvr_db_t) (hi : dvr_index_ok s) :
    (∀ uuid conf s' r, dvr_entry_create now s uuid conf = some (s', r) → dvr_index_ok s') ∧
    (∀ id v s' r, dvr_entry_class_channel_set s id v = some (s', r) → dvr_index_ok s') ∧
    (∀ id v s' r, dvr_entry_class_channel_name_set s id v = some (s', r) →
      dvr_index_ok s') ∧
    (∀ id v s' r, dvr_entry_class_config_name_set s id v = some (s', r) →
      dvr_index_ok s') ∧
    (∀ id de delconf s', de_get s id = some de → ¬ de.de_refcnt > 1 →
      dvr_entry_destroy s id delconf = some s' → dvr_index_ok s') ∧
    (∀ fuel cfg delconf s',
      dvr_entry_destroy_by_config fuel s cfg delconf = dvr_run.returned s' →
      dvr_index_ok s') ∧
    (∀ fuel ch delconf s', dvr_destroy_by_channel fuel s ch delconf = dvr_run.returned s' →
      dvr_index_ok s') :=
  ⟨fun uuid conf s' r h => create_index now s uuid conf s' r hi h,
   fun id v s' r h => index_step s s' (channel_set_step s id v s' r h) hi,
   fun id v s' r h => index_step s s' (channel_name_set_step s id v s' r h) hi,
   fun id v s' r h => index_step s s' (config_name_set_step s id v s' r h) hi,
   fun id de delconf s' hde hrc h => destroy_index s id de delconf s' hi hde hrc h,
   fun fuel cfg delconf s' h =>
     index_step s s' (destroy_by_config_step fuel s cfg delconf none s' h) hi,
   fun fuel ch delconf s' h =>
     index_step s s' (destroy_by_channel_step fuel s ch delconf s' h) hi⟩

/-- C28 at the store `db_index`, whose scheduled entry 1 is on channel 7 with
configuration 3: the store is consistent; a create that clashes with entry 1
and is rolled back, the move of entry 1 to channel 8, by its identifier and
by its name "two", and to the configuration "alt", its destruction and the two loops over
channel 7 and configuration 3 all return, in a consistent store. -/
theorem index_consistency_preserved_witness :
    dvr_index_ok db_index ∧
    ((dvr_entry_create 0 db_index none (some conf_instant)).map (fun r => r.2) = some none ∧
     ∀ s' r, dvr_entry_create 0 db_index none (some conf_instant) = some (s', r) →
       dvr_index_ok s') ∧
    (((dvr_entry_class_channel_set db_index 1 (some "8")).bind
        (fun r => de_get r.1 1)).map (fun de => de.de_channel) = some (some 8) ∧
     ∀ s' r, dvr_entry_class_channel_set db_index 1 (some "8") = some (s', r) →
       dvr_index_ok s') ∧
    (((dvr_entry_class_channel_name_set db_index 1 (some "two")).bind
        (fun r => de_get r.1 1)).map (fun de => de.de_channel) = some (some 8) ∧
     ∀ s' r, dvr_entry_class_channel_name_set db_index 1 (some "two") = some (s', r) →
       dvr_index_ok s') ∧
    (((dvr_entry_class_config_name_set db_index 1 (some "alt")).bind
        (fun r => de_get r.1 1)).map (fun de => de.de_config) = some (some 6) ∧
     ∀ s' r, dvr_entry_class_config_name_set db_index 1 (some "alt") = some (s', r) →
       dvr_index_ok s') ∧
    ((dvr_entry_destroy db_index 1 false).map (fun t => t.dvrentries) = some [] ∧
     ∀ s', dvr_entry_destroy db_index 1 false = some s' → dvr_index_ok s') ∧
    ((dvr_run_state (dvr_entry_destroy_by_config 2 db_index 3 false)).map
        (fun t => t.configs.map (fun k => k.dvr_entries)) = some [[], []] ∧
     ∀ s', dvr_entry_destroy_by_config 2 db_index 3 false = dvr_run.returned s' →
       dvr_index_ok s') ∧
    ((dvr_run_state (dvr_destroy_by_channel 2 db_index 7 false)).map
        (fun t => t.channels.map (fun c => c.ch_dvrs)) = some [[], []] ∧
     ∀ s', dvr_destroy_by_channel 2 db_index 7 false = dvr_run.returned s' →
       dvr_index_ok s') :=
  have hget : ∀ id, id ≠ 1 → de_get db_index id = none := by
    intro id hid
    have hid2 : ¬ 1 = id := fun h => hid h.symm
    simp [de_get, db_index, db_sched, hid2]
  have hlist : ∀ (l : List Nat) (p : dvr_entry_t → Prop), (l = [1] ∧ p de_sched) ∨
      (l = [] ∧ ¬ p de_sched) → dvr_list_ok db_index l p := by
    intro l p h
    rcases h with ⟨hl, hp⟩ | ⟨hl, hp⟩
    · subst hl
      refine ⟨by decide, fun id => ⟨fun hm => ?_, fun hm => ?_⟩⟩
      · have : id = 1 := by simpa using hm
        subst this
        exact ⟨de_sched, rfl, hp⟩
      · by_cases hid : id = 1
        · simp [hid]
        · obtain ⟨d, hd, _⟩ := hm
          rw [hget id hid] at hd
          cases hd
    · subst hl
      refine ⟨by decide, fun id => ⟨fun hm => (by cases hm), fun hm => ?_⟩⟩
      obtain ⟨d, hd, hpd⟩ := hm
      by_cases hid : id = 1
      · subst hid
        have : d = de_sched := (Option.some.inj hd).symm
        subst this
        exact absurd hpd hp
      · rw [hget id hid] at hd
        cases hd
  have hi : dvr_index_ok db_index := by
    refine ⟨hlist _ _ (Or.inl ⟨rfl, trivial⟩), fun ch hch => ?_, fun cfg hcfg => ?_⟩
    · have : ch ∈ [({ ch_id := 7, ch_dvrs := [1] } : channel_t), { ch_id := 8, ch_name := "two" }] := hch
      simp only [List.mem_cons, List.mem_singleton, List.not_mem_nil, or_false] at this
      rcases this with h | h <;> subst h
      · exact hlist _ _ (Or.inl ⟨rfl, rfl⟩)
      · exact hlist _ _ (Or.inr ⟨rfl, by decide⟩)
    · have : cfg ∈ [({ dvr_id := 3, dvr_entries := [1] } : dvr_config_t),
          { dvr_id := 6, dvr_config_name := "alt" }] := hcfg
      simp only [List.mem_cons, List.mem_singleton, List.not_mem_nil, or_false] at this
      rcases this with h | h <;> subst h
      · exact hlist _ _ (Or.inl ⟨rfl, rfl⟩)
      · exact hlist _ _ (Or.inr ⟨rfl, by decide⟩)
  ⟨hi,
   ⟨by decide, fun s' r h =>
     (index_consistency_preserved 0 db_index hi).1 none (some conf_instant) s' r h⟩,
   ⟨by decide, fun s' r h =>
     (index_consistency_preserved 0 db_index hi).2.1 1 (some "8") s' r h⟩,
   ⟨by decide, fun s' r h =>
     (index_consistency_preserved 0 db_index hi).2.2.1 1 (some "two") s' r h⟩,
   ⟨by decide, fun s' r h =>
     (index_consistency_preserved 0 db_index hi).2.2.2.1 1 (some "alt") s' r h⟩,
   ⟨by decide, fun s' h =>
     (index_consistency_preserved 0 db_index hi).2.2.2.2.1 1 de_sched false s' rfl
       (by decide) h⟩,
   ⟨by decide, fun s' h =>
     (index_consistency_preserved 0 db_index hi).2.2.2.2.2.1 2 3 false s' h⟩,
   ⟨by decide, fun s' h =>
     (index_consistency_preserved 0 db_index hi).2.2.2.2.2.2 2 7 false s' h⟩⟩

/-- The calculators and the channel test read neither the scheduling state nor
the timer slot of the entry, and nothing of the allocated entries or the
trace. -/
theorem set_timer_reads (s : dvr_db_t) (x de : dvr_entry_t) (fx : List dvr_effect)
    (st : dvr_entry_sched_state_t) (tm : Option gtimer_t) :
    dvr_entry_get_start_time (emit (de_put s x) fx)
        { de with de_sched_state := st, de_timer := tm } = dvr_entry_get_start_time s de ∧
    dvr_entry_get_stop_time (emit (de_put s x) fx)
        { de with de_sched_state := st, de_timer := tm } = dvr_entry_get_stop_time s de ∧
    dvr_entry_get_retention (emit (de_put s x) fx)
        { de with de_sched_state := st, de_timer := tm } = dvr_entry_get_retention s de ∧
    dvr_entry_channel_enabled (emit (de_put s x) fx)
        { de with de_sched_state := st, de_timer := tm } = dvr_entry_channel_enabled s de :=
  ⟨rfl, rfl, rfl, rfl⟩

/-- The terminal branch of `dvr_entry_set_timer`, without a file. -/
theorem set_timer_eval_missed (now : Int) (s : dvr_db_t) (id : Nat) (de : dvr_entry_t)
    (start stop r : Int) (hde : de_get s id = some de)
    (hstart : dvr_entry_get_start_time s de = some start)
    (hstop : dvr_entry_get_stop_time s de = some stop)
    (hterm : now ≥ stop ∨ de.de_dont_reschedule = true) (hf : de.de_filename = none)
    (hr : dvr_entry_get_retention s de = some r) :
    dvr_entry_set_timer now s id =
      some (emit (de_put s { de with
        de_sched_state := DVR_MISSED_TIME,
        de_timer := some { gti_callback := dvr_timer_cb.expire,
                           gti_expire := de.de_stop + r * 86400 } }) []) := by
  have hr2 : dvr_entry_get_retention s { de with de_sched_state := DVR_MISSED_TIME } = some r :=
    hr
  unfold dvr_entry_set_timer
  rw [hde]
  simp only
  rw [hstart, hstop]
  simp only
  rw [if_pos hterm]
  simp only [if_pos hf]
  rw [hr2]
  rfl

/-- The terminal branch of `dvr_entry_set_timer`, with a file. -/
theorem set_timer_eval_completed (now : Int) (s : dvr_db_t) (id : Nat) (de : dvr_entry_t)
    (start stop r : Int) (hde : de_get s id = some de)
    (hstart : dvr_entry_get_start_time s de = some start)
    (hstop : dvr_entry_get_stop_time s de = some stop)
    (hterm : now ≥ stop ∨ de.de_dont_reschedule = true) (hf : ¬ de.de_filename = none)
    (hr : dvr_entry_get_retention s de = some r) :
    dvr_entry_set_timer now s id =
      some (emit (de_put s { de with
        de_sched_state := DVR_COMPLETED,
        de_timer := some { gti_callback := dvr_timer_cb.expire,
                           gti_expire := de.de_stop + r * 86400 } })
        [dvr_effect.dvr_inotify_add id]) := by
  have hr2 : dvr_entry_get_retention s (_dvr_entry_completed de) = some r := hr
  unfold dvr_entry_set_timer
  rw [hde]
  simp only
  rw [hstart, hstop]
  simp only
  rw [if_pos hterm]
  simp only [if_neg hf]
  rw [hr2]
  rfl

/-- The branch of `dvr_entry_set_timer` for a recording in progress. -/
theorem set_timer_eval_recording (now : Int) (s : dvr_db_t) (id : Nat) (de : dvr_entry_t)
    (start stop : Int) (hde : de_get s id = some de)
    (hstart : dvr_entry_get_start_time s de = some start)
    (hstop : dvr_entry_get_stop_time s de = some stop)
    (hterm : ¬ (now ≥ stop ∨ de.de_dont_reschedule = true))
    (hrec : de.de_sched_state = DVR_RECORDING) :
    dvr_entry_set_timer now s id =
      some (de_put s { de with
        de_timer := some { gti_callback := dvr_timer_cb.stop_recording,
                           gti_expire := stop } }) := by
  unfold dvr_entry_set_timer
  rw [hde]
  simp only
  rw [hstart, hstop]
  simp only
  rw [if_neg hterm, if_pos hrec]
  rfl

/-- The branch of `dvr_entry_set_timer` for an enabled channel. -/
theorem set_timer_eval_scheduled (now : Int) (s : dvr_db_t) (id : Nat) (de : dvr_entry_t)
    (start stop : Int) (hde : de_get s id = some de)
    (hstart : dvr_entry_get_start_time s de = some start)
    (hstop : dvr_entry_get_stop_time s de = some stop)
    (hterm : ¬ (now ≥ stop ∨ de.de_dont_reschedule = true))
    (hrec : ¬ de.de_sched_state = DVR_RECORDING)
    (hen : dvr_entry_channel_enabled s de = some true) :
    dvr_entry_set_timer now s id =
      some (emit (de_put s { de with
        de_sched_state := DVR_SCHEDULED,
        de_timer := some { gti_callback := dvr_timer_cb.start_recording,
                           gti_expire := start } })
        [dvr_effect.dvr_dbus_timer_arm 5]) := by
  unfold dvr_entry_set_timer
  rw [hde]
  simp only
  rw [hstart, hstop]
  simp only
  rw [if_neg hterm, if_neg hrec, hen]
  rfl

/-- The last branch of `dvr_entry_set_timer`: no channel, or a disabled one. -/
theorem set_timer_eval_nostate (now : Int) (s : dvr_db_t) (id : Nat) (de : dvr_entry_t)
    (start stop : Int) (hde : de_get s id = some de)
    (hstart : dvr_entry_get_start_time s de = some start)
    (hstop : dvr_entry_get_stop_time s de = some stop)
    (hterm : ¬ (now ≥ stop ∨ de.de_dont_reschedule = true))
    (hrec : ¬ de.de_sched_state = DVR_RECORDING)
    (hen : dvr_entry_channel_enabled s de = some false) :
    dvr_entry_set_timer now s id = some (de_put s { de with de_sched_state := DVR_NOSTATE }) := by
  unfold dvr_entry_set_timer
  rw [hde]
  simp only
  rw [hstart, hstop]
  simp only
  rw [if_neg hterm, if_neg hrec, hen]

/-- Every call of `dvr_entry_set_timer` that returns took one of its five
branches. -/
theorem set_timer_cases (now : Int) (s : dvr_db_t) (id : Nat) (s' : dvr_db_t)
    (h : dvr_entry_set_timer now s id = some s') :
    ∃ de start stop, de_get s id = some de ∧ dvr_entry_get_start_time s de = some start ∧
      dvr_entry_get_stop_time s de = some stop ∧
      (((now ≥ stop ∨ de.de_dont_reschedule = true) ∧
        ∃ r, dvr_entry_get_retention s de = some r ∧
          ((de.de_filename = none ∧
            s' = emit (de_put s { de with
              de_sched_state := DVR_MISSED_TIME,
              de_timer := some { gti_callback := dvr_timer_cb.expire,
                                 gti_expire := de.de_stop + r * 86400 } }) []) ∨
           (¬ de.de_filename = none ∧
            s' = emit (de_put s { de with
              de_sched_state := DVR_COMPLETED,
              de_timer := some { gti_callback := dvr_timer_cb.expire,
                                 gti_expire := de.de_stop + r * 86400 } })
              [dvr_effect.dvr_inotify_add id]))) ∨
       (¬ (now ≥ stop ∨ de.de_dont_reschedule = true) ∧
        ((de.de_sched_state = DVR_RECORDING ∧
          s' = de_put s { de with
            de_timer := some { gti_callback := dvr_timer_cb.stop_recording,
                               gti_expire := stop } }) ∨
         (¬ de.de_sched_state = DVR_RECORDING ∧
          dvr_entry_channel_enabled s de = some true ∧
          s' = emit (de_put s { de with
            de_sched_state := DVR_SCHEDULED,
            de_timer := some { gti_callback := dvr_timer_cb.start_recording,
                               gti_expire := start } })
            [dvr_effect.dvr_dbus_timer_arm 5]) ∨
         (¬ de.de_sched_state = DVR_RECORDING ∧
          dvr_entry_channel_enabled s de = some false ∧
          s' = de_put s { de with de_sched_state := DVR_NOSTATE })))) := by
  cases hde : de_get s id with
  | none => unfold dvr_entry_set_timer at h; rw [hde] at h; cases h
  | some de =>
    cases hstart : dvr_entry_get_start_time s de with
    | none => unfold dvr_entry_set_timer at h; rw [hde] at h; simp only at h; rw [hstart] at h; cases h
    | some start =>
      cases hstop : dvr_entry_get_stop_time s de with
      | none =>
        unfold dvr_entry_set_timer at h; rw [hde] at h; simp only at h
        rw [hstart, hstop] at h; cases h
      | some stop =>
        refine ⟨de, start, stop, rfl, hstart, hstop, ?_⟩
        by_cases hterm : now ≥ stop ∨ de.de_dont_reschedule = true
        · left
          refine ⟨hterm, ?_⟩
          cases hr : dvr_entry_get_retention s de with
          | none =>
            have hr2 : dvr_entry_get_retention s
                (if de.de_filename = none then { de with de_sched_state := DVR_MISSED_TIME }
                 else _dvr_entry_completed de) = none := by
              split <;> exact hr
            unfold dvr_entry_set_timer at h; rw [hde] at h; simp only at h
            rw [hstart, hstop] at h; simp only at h
            rw [if_pos hterm, hr2] at h
            cases h
          | some r =>
            refine ⟨r, rfl, ?_⟩
            by_cases hf : de.de_filename = none
            · left
              rw [set_timer_eval_missed now s id de start stop r hde hstart hstop hterm hf hr] at h
              exact ⟨hf, (Option.some.inj h).symm⟩
            · right
              rw [set_timer_eval_completed now s id de start stop r hde hstart hstop hterm hf hr]
                at h
              exact ⟨hf, (Option.some.inj h).symm⟩
        · right
          refine ⟨hterm, ?_⟩
          by_cases hrec : de.de_sched_state = DVR_RECORDING
          · left
            rw [set_timer_eval_recording now s id de start stop hde hstart hstop hterm hrec] at h
            exact ⟨hrec, (Option.some.inj h).symm⟩
          · right
            cases hen : dvr_entry_channel_enabled s de with
            | none =>
              unfold dvr_entry_set_timer at h; rw [hde] at h; simp only at h
              rw [hstart, hstop] at h; simp only at h
              rw [if_neg hterm, if_neg hrec, hen] at h
              cases h
            | some b =>
              cases b with
              | true =>
                left
                rw [set_timer_eval_scheduled now s id de start stop hde hstart hstop hterm hrec
                  hen] at h
                exact ⟨hrec, rfl, (Option.some.inj h).symm⟩
              | false =>
                right
                rw [set_timer_eval_nostate now s id de start stop hde hstart hstop hterm hrec
                  hen] at h
                exact ⟨hrec, rfl, (Option.some.inj h).symm⟩

/-- C40. `dvr_entry_set_timer` is idempotent at a fixed clock: whenever a call
on an entry returns, a second call at the same clock returns too, and after
it the entry is, in every field, as the first call left it; so it has the
same scheduling state and the same armed timer (callback and target time). -/
theorem set_timer_idempotent (now : Int) (s : dvr_db_t) (id : Nat) (s1 : dvr_db_t)
    (h : dvr_entry_set_timer now s id = some s1) :
    ∃ s2 de1, dvr_entry_set_timer now s1 id = some s2 ∧
      de_get s1 id = some de1 ∧ de_get s2 id = some de1 ∧
      (de_get s2 id).map (fun de => (de.de_sched_state, de.de_timer)) =
        (de_get s1 id).map (fun de => (de.de_sched_state, de.de_timer)) := by
  have key : ∀ (S : dvr_db_t) (D : dvr_entry_t) (fx2 : List dvr_effect),
      de_get S id = some D → D.de_id = id →
      dvr_entry_set_timer now S id = some (emit (de_put S D) fx2) →
      ∃ s2 de1, dvr_entry_set_timer now S id = some s2 ∧
        de_get S id = some de1 ∧ de_get s2 id = some de1 ∧
        (de_get s2 id).map (fun de => (de.de_sched_state, de.de_timer)) =
          (de_get S id).map (fun de => (de.de_sched_state, de.de_timer)) := by
    intro S D fx2 g1 hid h2
    have g2 := de_get_emit_de_put S id D D fx2 g1 hid
    exact ⟨_, _, h2, g1, g2, by rw [g2, g1]⟩
  obtain ⟨de, start, stop, hde, hstart, hstop, hc⟩ := set_timer_cases now s id s1 h
  have hid := de_get_id s id de hde
  have put : ∀ (D : dvr_entry_t) (fx : List dvr_effect), D.de_id = id →
      de_get (emit (de_put s D) fx) id = some D :=
    fun D fx hD => de_get_emit_de_put s id de D fx hde hD
  have e0 : ∀ t : dvr_db_t, emit t [] = t := fun t => by
    unfold emit
    simp
  rcases hc with ⟨hterm, r, hr, ⟨hf, hs⟩ | ⟨hf, hs⟩⟩ |
    ⟨hterm, ⟨hrec, hs⟩ | ⟨hrec, hen, hs⟩ | ⟨hrec, hen, hs⟩⟩
  · subst hs
    have hD : ({ de with
        de_sched_state := DVR_MISSED_TIME,
        de_timer := some { gti_callback := dvr_timer_cb.expire,
                           gti_expire := de.de_stop + r * 86400 } } : dvr_entry_t).de_id = id :=
      hid
    have g := put _ [] hD
    have e := set_timer_eval_missed now _ id _ start stop r g hstart hstop hterm hf hr
    exact key _ _ [] g hD e
  · subst hs
    have hD : ({ de with
        de_sched_state := DVR_COMPLETED,
        de_timer := some { gti_callback := dvr_timer_cb.expire,
                           gti_expire := de.de_stop + r * 86400 } } : dvr_entry_t).de_id = id :=
      hid
    have g := put _ [dvr_effect.dvr_inotify_add id] hD
    have e := set_timer_eval_completed now _ id _ start stop r g hstart hstop hterm hf hr
    exact key _ _ [dvr_effect.dvr_inotify_add id] g hD e
  · subst hs
    have hD : ({ de with
        de_timer := some { gti_callback := dvr_timer_cb.stop_recording,
                           gti_expire := stop } } : dvr_entry_t).de_id = id := hid
    have g := put _ [] hD
    rw [e0] at g
    have e := set_timer_eval_recording now _ id _ start stop g hstart hstop hterm hrec
    refine key _ _ [] g hD ?_
    rw [e0]
    exact e
  · subst hs
    have hD : ({ de with
        de_sched_state := DVR_SCHEDULED,
        de_timer := some { gti_callback := dvr_timer_cb.start_recording,
                           gti_expire := start } } : dvr_entry_t).de_id = id := hid
    have g := put _ [dvr_effect.dvr_dbus_timer_arm 5] hD
    have e := set_timer_eval_scheduled now _ id _ start stop g hstart hstop hterm
      (by simp) hen
    exact key _ _ [dvr_effect.dvr_dbus_timer_arm 5] g hD e
  · subst hs
    have hD : ({ de with de_sched_state := DVR_NOSTATE } : dvr_entry_t).de_id = id := hid
    have g := put _ [] hD
    rw [e0] at g
    have e := set_timer_eval_nostate now _ id _ start stop g hstart hstop hterm (by simp) hen
    refine key _ _ [] g hD ?_
    rw [e0]
    exact e

/-- C40 at the store `db_sched`, whose entry is scheduled from 1000 to 2000 on
an enabled channel, at clock 0: the first call returns, so the second does
and finds nothing to change. -/
theorem set_timer_idempotent_witness :
    (dvr_entry_set_timer 0 db_sched 1).isSome = true ∧
    ∀ s1, dvr_entry_set_timer 0 db_sched 1 = some s1 →
      ∃ s2 de1, dvr_entry_set_timer 0 s1 1 = some s2 ∧
        de_get s1 1 = some de1 ∧ de_get s2 1 = some de1 ∧
        (de_get s2 1).map (fun de => (de.de_sched_state, de.de_timer)) =
          (de_get s1 1).map (fun de => (de.de_sched_state, de.de_timer)) :=
  ⟨by decide, fun s1 h => set_timer_idempotent 0 db_sched 1 s1 h⟩

/-- The calculators and the channel test read the tables of the channels and
of the configurations and nine fields of the entry. -/
theorem calc_congr (s t : dvr_db_t) (de d : dvr_entry_t) (hch : t.channels = s.channels)
    (hcf : t.configs = s.configs) (h1 : d.de_timerec = de.de_timerec)
    (h2 : d.de_start_extra = de.de_start_extra) (h3 : d.de_stop_extra = de.de_stop_extra)
    (h4 : d.de_channel = de.de_channel) (h5 : d.de_config = de.de_config)
    (h6 : d.de_start = de.de_start) (h7 : d.de_stop = de.de_stop)
    (h8 : d.de_retention = de.de_retention) :
    dvr_entry_get_start_time t d = dvr_entry_get_start_time s de ∧
    dvr_entry_get_stop_time t d = dvr_entry_get_stop_time s de ∧
    dvr_entry_get_retention t d = dvr_entry_get_retention s de ∧
    dvr_entry_channel_enabled t d = dvr_entry_channel_enabled s de := by
  have hc : ∀ c, ch_get t c = ch_get s c := fun c => by unfold ch_get; rw [hch]
  have hk : ∀ k, cfg_get t k = cfg_get s k := fun k => by unfold cfg_get; rw [hcf]
  have hkf : cfg_get t = cfg_get s := funext hk
  have hcf2 : ch_get t = ch_get s := funext hc
  refine ⟨?_, ?_, ?_, ?_⟩
  · unfold dvr_entry_get_start_time dvr_entry_get_extra_time_pre
    rw [h1, h2, h4, h5, h6, hkf, hcf2]
  · unfold dvr_entry_get_stop_time dvr_entry_get_extra_time_post
    rw [h1, h3, h4, h5, h7, hkf, hcf2]
  · unfold dvr_entry_get_retention
    rw [h5, h8, hkf]
  · unfold dvr_entry_channel_enabled
    rw [h4, hcf2]

/-- Every call of `dvr_stop_recording` that returns has classified the entry
by its recorder state and its file, and armed the expire callback. -/
theorem stop_recording_cases (s : dvr_db_t) (id : Nat) (code : sm_code) (saveconf : Bool)
    (s' : dvr_db_t) (h : dvr_stop_recording s id code saveconf = some s') :
    ∃ de r, de_get s id = some de ∧ dvr_entry_get_retention s de = some r ∧
      s'.entries = (de_put s { de with
        de_sched_state :=
          if de.de_rec_state = DVR_RS_PENDING ∨
             de.de_rec_state = DVR_RS_WAIT_PROGRAM_START ∨ de.de_filename = none
          then DVR_MISSED_TIME else DVR_COMPLETED,
        de_timer := some { gti_callback := dvr_timer_cb.expire,
                           gti_expire := de.de_stop + r * 86400 } }).entries ∧
      s'.channels = s.channels ∧ s'.configs = s.configs ∧ s'.dvrentries = s.dvrentries := by
  unfold dvr_stop_recording at h
  cases hde : de_get s id with
  | none => rw [hde] at h; cases h
  | some de =>
    have hid := de_get_id s id de hde
    rw [hde] at h
    simp only at h
    by_cases hm : de.de_rec_state = DVR_RS_PENDING ∨
        de.de_rec_state = DVR_RS_WAIT_PROGRAM_START ∨ de.de_filename = none
    · simp only [if_pos hm] at h
      cases hr : dvr_entry_get_retention s de with
      | none =>
        cases saveconf
        all_goals
          split at h
          · cases h
          · rename_i r2 hr2
            have hr3 : dvr_entry_get_retention s de = some r2 := hr2
            rw [hr] at hr3
            cases hr3
      | some r =>
        refine ⟨de, r, rfl, hr, ?_⟩
        cases saveconf
        all_goals
          simp only [Bool.false_eq_true, if_false, if_true] at h
          split at h
          · cases h
          · rename_i r2 hr2
            have hr3 : dvr_entry_get_retention s de = some r2 := hr2
            rw [hr] at hr3
            cases hr3
            cases h
            refine ⟨?_, rfl, rfl, rfl⟩
            rw [if_pos hm]
            exact entries_put_put s.entries _ _ rfl
    · simp only [if_neg hm] at h
      cases hr : dvr_entry_get_retention s de with
      | none =>
        cases saveconf
        all_goals
          split at h
          · cases h
          · rename_i r2 hr2
            have hr3 : dvr_entry_get_retention s de = some r2 := hr2
            rw [hr] at hr3
            cases hr3
      | some r =>
        refine ⟨de, r, rfl, hr, ?_⟩
        cases saveconf
        all_goals
          simp only [Bool.false_eq_true, if_false, if_true] at h
          split at h
          · cases h
          · rename_i r2 hr2
            have hr3 : dvr_entry_get_retention s de = some r2 := hr2
            rw [hr] at hr3
            cases hr3
            cases h
            refine ⟨?_, rfl, rfl, rfl⟩
            rw [if_neg hm]
            exact entries_put_put s.entries _ _ rfl

/-- Where `dvr_stop_recording` classified the entry by its file alone (no file,
or a recorder that had left the states PENDING and WAIT_PROGRAM_START), a call
of `dvr_entry_set_timer` at or after the effective stop returns and leaves the
entry, with its state and its expire callback, as it was. -/
theorem stop_recording_reconciled (now : Int) (s : dvr_db_t) (id : Nat) (code : sm_code)
    (saveconf : Bool) (s1 : dvr_db_t) (de : dvr_entry_t) (start stop : Int)
    (h : dvr_stop_recording s id code saveconf = some s1)
    (hde : de_get s id = some de)
    (hstart : dvr_entry_get_start_time s de = some start)
    (hstop : dvr_entry_get_stop_time s de = some stop) (hnow : now ≥ stop)
    (hc : de.de_filename = none ∨
      (de.de_rec_state ≠ DVR_RS_PENDING ∧ de.de_rec_state ≠ DVR_RS_WAIT_PROGRAM_START)) :
    ∃ s2 de1, dvr_entry_set_timer now s1 id = some s2 ∧
      de_get s1 id = some de1 ∧ de_get s2 id = some de1 := by
  obtain ⟨de0, r, hde0, hr, he, hch, hcf, _⟩ := stop_recording_cases s id code saveconf s1 h
  rw [hde] at hde0
  have hdd : de = de0 := Option.some.inj hde0
  subst hdd
  have hid := de_get_id s id de hde
  have hD : ({ de with
      de_sched_state :=
        if de.de_rec_state = DVR_RS_PENDING ∨
           de.de_rec_state = DVR_RS_WAIT_PROGRAM_START ∨ de.de_filename = none
        then DVR_MISSED_TIME else DVR_COMPLETED,
      de_timer := some { gti_callback := dvr_timer_cb.expire,
                         gti_expire := de.de_stop + r * 86400 } } : dvr_entry_t).de_id = id :=
    hid
  have g := de_get_put_self s s1 id de _ he hde hD
  obtain ⟨c1, c2, c3, _⟩ := calc_congr s s1 de _ hch hcf
    (rfl : ({ de with
      de_sched_state :=
        if de.de_rec_state = DVR_RS_PENDING ∨
           de.de_rec_state = DVR_RS_WAIT_PROGRAM_START ∨ de.de_filename = none
        then DVR_MISSED_TIME else DVR_COMPLETED,
      de_timer := some { gti_callback := dvr_timer_cb.expire,
                         gti_expire := de.de_stop + r * 86400 } } : dvr_entry_t).de_timerec =
        de.de_timerec) rfl rfl rfl rfl rfl rfl rfl
  by_cases hf : de.de_filename = none
  · have e := set_timer_eval_missed now s1 id _ start stop r g (c1.trans hstart)
      (c2.trans hstop) (Or.inl hnow) hf (c3.trans hr)
    have hm : de.de_rec_state = DVR_RS_PENDING ∨
        de.de_rec_state = DVR_RS_WAIT_PROGRAM_START ∨ de.de_filename = none :=
      Or.inr (Or.inr hf)
    rw [if_pos hm] at g e
    exact ⟨_, _, e, g, de_get_emit_de_put s1 id _ _ [] g hid⟩
  · have e := set_timer_eval_completed now s1 id _ start stop r g (c1.trans hstart)
      (c2.trans hstop) (Or.inl hnow) hf (c3.trans hr)
    have hm : ¬ (de.de_rec_state = DVR_RS_PENDING ∨
        de.de_rec_state = DVR_RS_WAIT_PROGRAM_START ∨ de.de_filename = none) := by
      rcases hc with hc | ⟨h1, h2⟩
      · exact absurd hc hf
      · intro h3
        rcases h3 with h3 | h3 | h3
        · exact h1 h3
        · exact h2 h3
        · exact hf h3
    rw [if_neg hm] at g e
    exact ⟨_, _, e, g, de_get_emit_de_put s1 id _ _ _ g hid⟩

/-- C37 fails at the store `db_waiting`, whose entry is being recorded, with a
file opened and the recorder still waiting for the programme to start: the
stop at the effective stop 2000 classifies it MISSED_TIME with the expire
callback at 2000 + 31 * 86400; a call of `dvr_entry_set_timer` at clock 2000
right after it (alone, or as part of `dvr_entry_class_save`) keeps that
callback and changes the state to COMPLETED. -/
theorem set_timer_reclassifies_waiting :
    (de_get db_waiting 1).bind (fun de => dvr_entry_get_stop_time db_waiting de) = some 2000 ∧
    ((dvr_stop_recording db_waiting 1 sm_code.SM_CODE_OK true).bind
        (fun s => de_get s 1)).map (fun de => (de.de_sched_state, de.de_timer)) =
      some (DVR_MISSED_TIME,
            some { gti_callback := dvr_timer_cb.expire, gti_expire := 2680400 }) ∧
    (((dvr_stop_recording db_waiting 1 sm_code.SM_CODE_OK true).bind
        (fun s => dvr_entry_set_timer 2000 s 1)).bind
        (fun s => de_get s 1)).map (fun de => (de.de_sched_state, de.de_timer)) =
      some (DVR_COMPLETED,
            some { gti_callback := dvr_timer_cb.expire, gti_expire := 2680400 }) ∧
    (((dvr_stop_recording db_waiting 1 sm_code.SM_CODE_OK true).bind
        (fun s => dvr_entry_class_save 2000 s 1)).bind
        (fun s => de_get s 1)).map (fun de => (de.de_sched_state, de.de_timer)) =
      some (DVR_COMPLETED,
            some { gti_callback := dvr_timer_cb.expire, gti_expire := 2680400 }) := by
  refine ⟨by decide, by decide, by decide, by decide⟩

/-- C36 fails at the store `db_titled`, whose scheduled entry has the title X:
`dvr_entry_update` with the new start 1500 and the title X stores the start
and re-arms the timer at 1470, and reports nothing (neither `idnode_changed`
nor `htsp_dvr_entry_update` is called); the same holds for a new retention of
9 days.  The same call without a title, or with another title, reports the
change. -/
theorem update_same_title_unreported :
    (dvr_entry_update 0 db_titled 1 (some "X") none none none 1500 0 0 0 DVR_PRIO_NOTSET 0).map
        (fun s => (s.trace, (de_get s 1).map (fun de => (de.de_start, de.de_timer)))) =
      some ([dvr_effect.dvr_dbus_timer_arm 5],
            some (1500, some { gti_callback := dvr_timer_cb.start_recording,
                               gti_expire := 1470 })) ∧
    (dvr_entry_update 0 db_titled 1 (some "X") none none none 0 0 0 0 DVR_PRIO_NOTSET 9).map
        (fun s => (s.trace, (de_get s 1).map (fun de => de.de_retention))) =
      some ([dvr_effect.dvr_dbus_timer_arm 5], some 9) ∧
    (dvr_entry_update 0 db_titled 1 none none none none 1500 0 0 0 DVR_PRIO_NOTSET 0).map
        (fun s => (s.trace, (de_get s 1).map (fun de => (de.de_start, de.de_timer)))) =
      some ([dvr_effect.dvr_dbus_timer_arm 5, dvr_effect.idnode_changed 1,
             dvr_effect.htsp_dvr_entry_update 1],
            some (1500, some { gti_callback := dvr_timer_cb.start_recording,
                               gti_expire := 1470 })) ∧
    (dvr_entry_update 0 db_titled 1 (some "Y") none none none 1500 0 0 0 DVR_PRIO_NOTSET 0).map
        (fun s => s.trace) =
      some [dvr_effect.dvr_dbus_timer_arm 5, dvr_effect.idnode_changed 1,
            dvr_effect.htsp_dvr_entry_update 1] := by
  refine ⟨by decide, by decide, by decide, by decide⟩

/-- C38 fails at the store `db_dup_null`: the entry of the rule (mode
DIFFERENT_EPISODE_NUMBER) has the episode string S01E01 and a title, so no
quick reject applies; the only other entry is an earlier, successful recording
with the same title and no episode string, and `strcmp` is handed its null
pointer: the call does not return a result.  With the episode string present
on that recording (store `db_dup`) the call returns it. -/
theorem duplicate_event_not_total :
    de_get db_dup_null 1 = some de_dup ∧
    strempty de_dup.de_episode = false ∧ lang_str_empty de_dup.de_title = false ∧
    (de_get db_dup_null 2).map (fun d => (d.de_episode, d.de_sched_state, d.de_last_error)) =
      some (none, DVR_COMPLETED, 0) ∧
    _dvr_duplicate_event db_dup_null de_dup = none ∧
    _dvr_duplicate_event db_dup de_dup = some (some 2) := by
  refine ⟨by decide, by decide, by decide, by decide, by decide, by decide⟩

/-- Looking a configuration up after each configuration was rewritten without
a change of its identifier. -/
theorem cfg_find_map (l : List dvr_config_t) (f : dvr_config_t → dvr_config_t) (cfg : Nat)
    (hf : ∀ x, (f x).dvr_id = x.dvr_id) :
    (l.map f).find? (fun c => c.dvr_id == cfg) =
      (l.find? (fun c => c.dvr_id == cfg)).map f := by
  induction l with
  | nil => rfl
  | cons x xs ih =>
    rw [List.map_cons, List.find?_cons, List.find?_cons, hf x]
    cases hx : (x.dvr_id == cfg)
    · simp only
      exact ih
    · rfl

/-- One iteration of the loop of `dvr_entry_destroy_by_config` on the default
configuration with `delconf` set: the head of the list is taken out and put
back at the head. -/
theorem by_config_default_iter (s : dvr_db_t) (cfg id : Nat) (k : dvr_config_t)
    (D : dvr_entry_t) (hc : cfg_get s cfg = some k) :
    cfg_get (config_link_insert (de_put (config_link_remove s cfg id) D) cfg id) cfg =
      some { k with dvr_entries := id :: k.dvr_entries.filter (fun i => i != id) } := by
  have hid : k.dvr_id = cfg := (cfg_get_mem s cfg k hc).2
  unfold cfg_get at hc ⊢
  have h1 := cfg_find_map s.configs
    (fun x => if x.dvr_id = cfg then
      { x with dvr_entries := x.dvr_entries.filter (fun i => i != id) } else x) cfg
    (fun x => by dsimp only; split <;> rfl)
  have h2 := cfg_find_map (s.configs.map
    (fun x => if x.dvr_id = cfg then
      { x with dvr_entries := x.dvr_entries.filter (fun i => i != id) } else x))
    (fun x => if x.dvr_id = cfg then { x with dvr_entries := id :: x.dvr_entries } else x) cfg
    (fun x => by dsimp only; split <;> rfl)
  rw [h1, hc] at h2
  refine Eq.trans h2 ?_
  simp [hid]

/-- On the configuration that the default lookup returns, with `delconf` set,
the loop of `dvr_entry_destroy_by_config` does not end: whatever the number of
iterations allowed, the run uses them up with the list still not empty. -/
theorem destroy_by_config_default_loops (fuel : Nat) :
    ∀ (s : dvr_db_t) (cfg : Nat) (dflt : Option Nat) (k : dvr_config_t) (id : Nat)
      (rest : List Nat) (de : dvr_entry_t),
      cfg_get s cfg = some k → k.dvr_entries = id :: rest → de_get s id = some de →
      (if dflt = none ∧ true = true then dvr_config_find_by_name_default s none else dflt) =
        some cfg →
      dvr_entry_destroy_by_config_loop fuel s cfg true dflt = dvr_run.out_of_fuel := by
  induction fuel with
  | zero =>
    intro s cfg dflt k id rest de hc hl hde _
    unfold dvr_entry_destroy_by_config_loop
    rw [hc]
    simp only
    rw [hl]
  | succ n ih =>
    intro s cfg dflt k id rest de hc hl hde hd
    have hid := de_get_id s id de hde
    unfold dvr_entry_destroy_by_config_loop
    rw [hd, hc]
    simp only
    rw [hl]
    simp only
    rw [hde]
    simp only [if_true]
    have hD : ({ de with de_config := some cfg } : dvr_entry_t).de_id = id := hid
    have g : de_get (config_link_insert
        (de_put (config_link_remove s cfg id) { de with de_config := some cfg }) cfg id) id =
        some { de with de_config := some cfg } :=
      de_get_put_self s _ id de _ rfl hde hD
    have hsave : dvr_entry_save (config_link_insert
        (de_put (config_link_remove s cfg id) { de with de_config := some cfg }) cfg id) id =
        some (hts_settings_save (config_link_insert
          (de_put (config_link_remove s cfg id) { de with de_config := some cfg }) cfg id)
          de.de_id { de with de_config := some cfg }) := by
      unfold dvr_entry_save
      rw [g]
    rw [hsave]
    simp only
    exact ih _ cfg (some cfg) _ id _ { de with de_config := some cfg }
      (by_config_default_iter s cfg id k { de with de_config := some cfg } hc) rfl g
      (by simp)

/-- C39 fails at the store `db_index`, whose configuration 3 is the default
configuration (the one with the empty name) and holds entry 1: with `delconf`
set the entry is taken out of the list and put back at its head, so
`dvr_entry_destroy_by_config` never ends, whatever the number of iterations
allowed.  On the same store, without `delconf` the call returns after one
iteration with the list empty and the configuration pointer of the entry
null; on configuration 6 with `delconf` it returns at once. -/
theorem destroy_by_config_default_diverges :
    dvr_config_find_by_name_default db_index none = some 3 ∧
    (∀ fuel, dvr_entry_destroy_by_config fuel db_index 3 true = dvr_run.out_of_fuel) ∧
    (dvr_run_state (dvr_entry_destroy_by_config 2 db_index 3 false)).map
        (fun t => (t.configs.map (fun k => k.dvr_entries), t.dvrentries,
                   (de_get t 1).map (fun de => de.de_config))) =
      some ([[], []], [1], some none) ∧
    (dvr_run_state (dvr_entry_destroy_by_config 0 db_index 6 true)).isSome = true := by
  refine ⟨by decide, fun fuel => ?_, by decide, by decide⟩
  exact destroy_by_config_default_loops fuel db_index 3 none
    { dvr_id := 3, dvr_entries := [1] } 1 [] de_sched (by decide) rfl (by decide) (by decide)

/-- C35. The ids of the rows of the `dvr_entry_class` schema that are not
marked `PO_NOSAVE` are exactly the 28 field names that the specification
lists (each of them once), and no id occurs twice in the schema. -/
theorem schema_saved_fields :
    (∀ x, x ∈ dvr_entry_class_saved_ids ↔ x ∈ spec_field_names) ∧
    dvr_entry_class_saved_ids.Nodup ∧ spec_field_names.Nodup ∧
    dvr_entry_class_saved_ids.length = 28 ∧
    (dvr_entry_class_properties.map (fun p => p.id)).Nodup := by
  have hp : dvr_entry_class_saved_ids.Perm spec_field_names := by decide
  exact ⟨fun x => hp.mem_iff, by decide, by decide, by decide, by decide⟩

/-- The effective starts of the scheduled entries of a list, entry by entry. -/
theorem scheduled_starts_cons (s : dvr_db_t) (i : Nat) (rest : List Nat) (de : dvr_entry_t)
    (hde : de_get s i = some de) :
    dvr_scheduled_starts s (i :: rest) =
      (if de.de_sched_state = DVR_SCHEDULED then
         (dvr_entry_get_start_time s de).toList else []) ++ dvr_scheduled_starts s rest := by
  unfold dvr_scheduled_starts
  rw [List.filterMap_cons, hde]
  simp only [Option.some_bind]
  by_cases hs : de.de_sched_state = DVR_SCHEDULED
  · rw [if_pos hs, if_pos hs]
    cases dvr_entry_get_start_time s de <;> rfl
  · rw [if_neg hs, if_neg hs]
    rfl

/-- The first loop of `dvr_dbus_timer_cb` returns the largest of the value it
starts from and the effective starts later than the clock. -/
theorem dbus_scan_max_spec (s : dvr_db_t) (l : List Nat) :
    ∀ m0 : Int,
      (∀ i ∈ l, ∃ de, de_get s i = some de ∧
        (de.de_sched_state = DVR_SCHEDULED → ∃ st, dvr_entry_get_start_time s de = some st)) →
      ∃ M, dvr_dbus_scan_max s l m0 = some M ∧ m0 ≤ M ∧
        (∀ x ∈ (dvr_scheduled_starts s l).filter (fun st => decide (s.dispatch_clock < st)),
          x ≤ M) ∧
        (M = m0 ∨
          M ∈ (dvr_scheduled_starts s l).filter (fun st => decide (s.dispatch_clock < st))) := by
  induction l with
  | nil =>
    intro m0 _
    exact ⟨m0, rfl, le_refl _, fun x hx => (by simp [dvr_scheduled_starts] at hx), Or.inl rfl⟩
  | cons i rest ih =>
    intro m0 hres
    obtain ⟨de, hde, hst⟩ := hres i (List.mem_cons_self _ _)
    have hrest := fun j hj => hres j (List.mem_cons_of_mem _ hj)
    rw [scheduled_starts_cons s i rest de hde]
    unfold dvr_dbus_scan_max
    rw [hde]
    simp only
    by_cases hs : de.de_sched_state = DVR_SCHEDULED
    · obtain ⟨st, hstart⟩ := hst hs
      rw [if_neg (fun h => h hs), hstart, if_pos hs]
      simp only [Option.toList, List.singleton_append]
      by_cases hc : s.dispatch_clock < st ∧ st > m0
      · rw [if_pos hc]
        obtain ⟨M, h1, h2, h3, h4⟩ := ih st hrest
        refine ⟨M, h1, le_trans (le_of_lt hc.2) h2, ?_, ?_⟩
        · intro x hx
          rw [List.filter_cons] at hx
          simp only [hc.1, decide_True, if_true, List.mem_cons] at hx
          rcases hx with hx | hx
          · rw [hx]; exact h2
          · exact h3 x hx
        · right
          rw [List.filter_cons]
          simp only [hc.1, decide_True, if_true, List.mem_cons]
          rcases h4 with h4 | h4
          · exact Or.inl h4
          · exact Or.inr h4
      · rw [if_neg hc]
        obtain ⟨M, h1, h2, h3, h4⟩ := ih m0 hrest
        refine ⟨M, h1, h2, ?_, ?_⟩
        · intro x hx
          rw [List.filter_cons] at hx
          by_cases hcl : s.dispatch_clock < st
          · simp only [hcl, decide_True, if_true, List.mem_cons] at hx
            rcases hx with hx | hx
            · rw [hx]
              have : ¬ st > m0 := fun h => hc ⟨hcl, h⟩
              exact le_trans (not_lt.mp this) h2
            · exact h3 x hx
          · simp only [hcl, decide_False] at hx
            exact h3 x hx
        · rcases h4 with h4 | h4
          · exact Or.inl h4
          · right
            rw [List.filter_cons]
            by_cases hcl : s.dispatch_clock < st
            · simp only [hcl, decide_True, if_true, List.mem_cons]
              exact Or.inr h4
            · simp only [hcl, decide_False]
              exact h4
    · rw [if_pos hs, if_neg hs]
      simp only [List.nil_append]
      exact ih m0 hrest

/-- The second loop of `dvr_dbus_timer_cb` returns the smallest of the value it
starts from and the effective starts later than the clock. -/
theorem dbus_scan_min_spec (s : dvr_db_t) (l : List Nat) :
    ∀ r0 : Int,
      (∀ i ∈ l, ∃ de, de_get s i = some de ∧
        (de.de_sched_state = DVR_SCHEDULED → ∃ st, dvr_entry_get_start_time s de = some st)) →
      ∃ R, dvr_dbus_scan_min s l r0 = some R ∧ R ≤ r0 ∧
        (∀ x ∈ (dvr_scheduled_starts s l).filter (fun st => decide (s.dispatch_clock < st)),
          R ≤ x) ∧
        (R = r0 ∨
          R ∈ (dvr_scheduled_starts s l).filter (fun st => decide (s.dispatch_clock < st))) := by
  induction l with
  | nil =>
    intro r0 _
    exact ⟨r0, rfl, le_refl _, fun x hx => (by simp [dvr_scheduled_starts] at hx), Or.inl rfl⟩
  | cons i rest ih =>
    intro r0 hres
    obtain ⟨de, hde, hst⟩ := hres i (List.mem_cons_self _ _)
    have hrest := fun j hj => hres j (List.mem_cons_of_mem _ hj)
    rw [scheduled_starts_cons s i rest de hde]
    unfold dvr_dbus_scan_min
    rw [hde]
    simp only
    by_cases hs : de.de_sched_state = DVR_SCHEDULED
    · obtain ⟨st, hstart⟩ := hst hs
      rw [if_neg (fun h => h hs), hstart, if_pos hs]
      simp only [Option.toList, List.singleton_append]
      by_cases hc : s.dispatch_clock < st ∧ st < r0
      · rw [if_pos hc]
        obtain ⟨R, h1, h2, h3, h4⟩ := ih st hrest
        refine ⟨R, h1, le_trans h2 (le_of_lt hc.2), ?_, ?_⟩
        · intro x hx
          rw [List.filter_cons] at hx
          simp only [hc.1, decide_True, if_true, List.mem_cons] at hx
          rcases hx with hx | hx
          · rw [hx]; exact h2
          · exact h3 x hx
        · right
          rw [List.filter_cons]
          simp only [hc.1, decide_True, if_true, List.mem_cons]
          rcases h4 with h4 | h4
          · exact Or.inl h4
          · exact Or.inr h4
      · rw [if_neg hc]
        obtain ⟨R, h1, h2, h3, h4⟩ := ih r0 hrest
        refine ⟨R, h1, h2, ?_, ?_⟩
        · intro x hx
          rw [List.filter_cons] at hx
          by_cases hcl : s.dispatch_clock < st
          · simp only [hcl, decide_True, if_true, List.mem_cons] at hx
            rcases hx with hx | hx
            · rw [hx]
              have : ¬ st < r0 := fun h => hc ⟨hcl, h⟩
              exact le_trans h2 (not_lt.mp this)
            · exact h3 x hx
          · simp only [hcl, decide_False] at hx
            exact h3 x hx
        · rcases h4 with h4 | h4
          · exact Or.inl h4
          · right
            rw [List.filter_cons]
            by_cases hcl : s.dispatch_clock < st
            · simp only [hcl, decide_True, if_true, List.mem_cons]
              exact Or.inr h4
            · simp only [hcl, decide_False]
              exact h4
    · rw [if_pos hs, if_neg hs]
      simp only [List.nil_append]
      exact ih r0 hrest

/-- C32. At a dispatcher clock that is not negative, in a store whose global
list resolves, `dvr_dbus_timer_cb` returns, and: when no SCHEDULED entry has an
effective start later than the clock it emits nothing and keeps `last_result`;
otherwise it computes the minimum `m` of those effective starts, emits the
signal `next` with `m` and records `m` as `last_result` when `m` differs from
`last_result`, and emits nothing and keeps `last_result` when `m` equals it. -/
theorem dbus_next_start (s : dvr_db_t) (last_result : Int) (hnow : 0 ≤ s.dispatch_clock)
    (hres : ∀ i ∈ s.dvrentries, ∃ de, de_get s i = some de ∧
      (de.de_sched_state = DVR_SCHEDULED → ∃ st, dvr_entry_get_start_time s de = some st)) :
    (dvr_next_start_candidates s = [] ∧
      dvr_dbus_timer_cb s last_result = some (s, last_result)) ∨
    (∃ m, m ∈ dvr_next_start_candidates s ∧ (∀ x ∈ dvr_next_start_candidates s, m ≤ x) ∧
      dvr_dbus_timer_cb s last_result =
        some (if m ≠ last_result then
                (emit s [dvr_effect.dbus_emit_signal_s64 "/dvr" "next" m], m)
              else (s, last_result))) := by
  obtain ⟨M, hM, hM0, hMub, hMmem⟩ := dbus_scan_max_spec s s.dvrentries 0 hres
  obtain ⟨R, hR, hRM, hRlb, hRmem⟩ := dbus_scan_min_spec s s.dvrentries M hres
  have hpos : ∀ x ∈ dvr_next_start_candidates s, 0 < x := by
    intro x hx
    have := (List.mem_filter.mp hx).2
    exact lt_of_le_of_lt hnow (of_decide_eq_true this)
  unfold dvr_dbus_timer_cb
  rw [hM]
  simp only
  rw [hR]
  simp only
  cases hc : dvr_next_start_candidates s with
  | nil =>
    left
    have hM2 : M = 0 := by
      rcases hMmem with h | h
      · exact h
      · have h2 : M ∈ dvr_next_start_candidates s := h
        rw [hc] at h2
        cases h2
    have hR2 : R = 0 := by
      rcases hRmem with h | h
      · rw [h, hM2]
      · have h2 : R ∈ dvr_next_start_candidates s := h
        rw [hc] at h2
        cases h2
    refine ⟨rfl, ?_⟩
    rw [if_neg (fun h => h.1 hR2)]
  | cons c cs =>
    right
    have hcm : c ∈ dvr_next_start_candidates s := by rw [hc]; exact List.mem_cons_self _ _
    have hMin : M ∈ dvr_next_start_candidates s := by
      rcases hMmem with h | h
      · have h1 := hMub c hcm
        have h2 := hpos c hcm
        rw [h] at h1
        exact absurd h1 (not_le.mpr h2)
      · exact h
    have hRin : R ∈ dvr_next_start_candidates s := by
      rcases hRmem with h | h
      · rw [h]; exact hMin
      · exact h
    have hR0 : R ≠ 0 := ne_of_gt (hpos R hRin)
    refine ⟨R, by rw [← hc]; exact hRin, fun x hx => hRlb x (by rw [← hc] at hx; exact hx), ?_⟩
    by_cases hl : R = last_result
    · rw [if_neg (fun h => h.2 hl), if_neg (fun h => h hl)]
    · rw [if_pos ⟨hR0, hl⟩, if_pos hl]

/-- C32 at the store `db_next` (clock 100, scheduled entries with the effective
starts 470 and 970): with nothing emitted before, the callback emits 470 and
records it; called again with 470 recorded it emits nothing. -/
theorem dbus_next_start_witness :
    0 ≤ db_next.dispatch_clock ∧ dvr_next_start_candidates db_next = [470, 970] ∧
    ((dvr_next_start_candidates db_next = [] ∧
        dvr_dbus_timer_cb db_next 0 = some (db_next, 0)) ∨
      (∃ m, m ∈ dvr_next_start_candidates db_next ∧
        (∀ x ∈ dvr_next_start_candidates db_next, m ≤ x) ∧
        dvr_dbus_timer_cb db_next 0 =
          some (if m ≠ 0 then
                  (emit db_next [dvr_effect.dbus_emit_signal_s64 "/dvr" "next" m], m)
                else (db_next, 0)))) ∧
    (dvr_dbus_timer_cb db_next 0).map (fun r => (r.1.trace, r.2)) =
      some ([dvr_effect.dbus_emit_signal_s64 "/dvr" "next" 470], 470) ∧
    (dvr_dbus_timer_cb db_next 470).map (fun r => (r.1.trace, r.2)) = some ([], 470) :=
  ⟨by decide, by decide,
   dbus_next_start db_next 0 (by decide) (fun i hi => by
     have h2 : i = 2 ∨ i = 1 := by
       have : i ∈ [2, 1] := hi
       simpa using this
     rcases h2 with h | h
     · rw [h]
       exact ⟨_, rfl, fun _ => ⟨470, by decide⟩⟩
     · rw [h]
       exact ⟨_, rfl, fun _ => ⟨970, by decide⟩⟩),
   by decide, by decide⟩

/-- Storing an entry that is not a recording without a channel keeps the
invariant, whatever the stored-over entry was. -/
theorem recording_ok_put (s t : dvr_db_t) (D : dvr_entry_t)
    (he : t.entries = (de_put s D).entries)
    (hD : D.de_sched_state = DVR_RECORDING → D.de_channel ≠ none)
    (h : ∀ x ∈ s.entries, x.de_id ≠ D.de_id →
      x.de_sched_state = DVR_RECORDING → x.de_channel ≠ none) :
    dvr_recording_ok t := by
  intro x hx
  rw [he] at hx
  have hx2 : x ∈ s.entries.map (fun e => if e.de_id = D.de_id then D else e) := hx
  rw [List.mem_map] at hx2
  obtain ⟨e, hes, hex⟩ := hx2
  by_cases hid : e.de_id = D.de_id
  · rw [if_pos hid] at hex
    rw [← hex]
    exact hD
  · rw [if_neg hid] at hex
    rw [← hex]
    exact h e hes hid

/-- The invariant looks at the allocated entries only. -/
theorem recording_ok_congr (s t : dvr_db_t) (he : t.entries = s.entries)
    (h : dvr_recording_ok s) : dvr_recording_ok t := by
  intro x hx
  rw [he] at hx
  exact h x hx

/-- An entry that a pointer resolves to is one of the allocated entries. -/
theorem recording_ok_get (s : dvr_db_t) (id : Nat) (de : dvr_entry_t)
    (hde : de_get s id = some de) (h : dvr_recording_ok s) :
    de.de_sched_state = DVR_RECORDING → de.de_channel ≠ none :=
  h de (de_get_mem s id de hde)

/-- The reconciler keeps the invariant. -/
theorem set_timer_recording_ok (now : Int) (s : dvr_db_t) (id : Nat) (s' : dvr_db_t)
    (h : dvr_entry_set_timer now s id = some s') (hok : dvr_recording_ok s) :
    dvr_recording_ok s' := by
  obtain ⟨de, start, stop, hde, _, _, hc⟩ := set_timer_cases now s id s' h
  have hrest : ∀ (D : dvr_entry_t), ∀ x ∈ s.entries, x.de_id ≠ D.de_id →
      x.de_sched_state = DVR_RECORDING → x.de_channel ≠ none := fun _ x hx _ => hok x hx
  rcases hc with ⟨_, r, _, ⟨_, hs⟩ | ⟨_, hs⟩⟩ | ⟨_, ⟨hrec, hs⟩ | ⟨_, _, hs⟩ | ⟨_, _, hs⟩⟩
  · rw [hs]
    exact recording_ok_put s _ _ rfl (fun h2 => by cases h2) (hrest _)
  · rw [hs]
    exact recording_ok_put s _ _ rfl (fun h2 => by cases h2) (hrest _)
  · rw [hs]
    exact recording_ok_put s _ _ rfl (fun _ => recording_ok_get s id de hde hok hrec) (hrest _)
  · rw [hs]
    exact recording_ok_put s _ _ rfl (fun h2 => by cases h2) (hrest _)
  · rw [hs]
    exact recording_ok_put s _ _ rfl (fun h2 => by cases h2) (hrest _)

/-- A call of `dvr_stop_recording` that returns leaves the invariant behind when
the other entries meet it. -/
theorem stop_recording_recording_ok (s : dvr_db_t) (id : Nat) (code : sm_code)
    (saveconf : Bool) (s' : dvr_db_t) (h : dvr_stop_recording s id code saveconf = some s')
    (hok : ∀ x ∈ s.entries, x.de_id ≠ id →
      x.de_sched_state = DVR_RECORDING → x.de_channel ≠ none) :
    dvr_recording_ok s' := by
  obtain ⟨de, r, hde, _, he, _, _, _⟩ := stop_recording_cases s id code saveconf s' h
  have hid := de_get_id s id de hde
  refine recording_ok_put s s' _ he ?_ ?_
  · intro h2
    exfalso
    have h3 : (if de.de_rec_state = DVR_RS_PENDING ∨
        de.de_rec_state = DVR_RS_WAIT_PROGRAM_START ∨ de.de_filename = none
        then DVR_MISSED_TIME else DVR_COMPLETED) = DVR_RECORDING := h2
    split at h3 <;> cases h3
  · intro x hx hne
    exact hok x hx (fun h2 => hne (h2.trans hid.symm))

/-- A destruction of an entry that is not being recorded leaves the invariant
behind when the other entries meet it, whether the entry is freed or kept for
another reference. -/
theorem destroy_recording_ok (s : dvr_db_t) (id : Nat) (delconf : Bool) (s' : dvr_db_t)
    (de : dvr_entry_t) (h : dvr_entry_destroy s id delconf = some s')
    (hde : de_get s id = some de) (hst : de.de_sched_state ≠ DVR_RECORDING)
    (hok : ∀ x ∈ s.entries, x.de_id ≠ id →
      x.de_sched_state = DVR_RECORDING → x.de_channel ≠ none) :
    dvr_recording_ok s' := by
  have hid := de_get_id s id de hde
  have key : ∀ (S : dvr_db_t) (D : dvr_entry_t) (s' : dvr_db_t),
      dvr_entry_dec_ref (de_put S D) id = some s' → S.entries = s.entries → D.de_id = id →
      D.de_sched_state = de.de_sched_state → dvr_recording_ok s' := by
    intro S D s' h hS hD hDs
    have hdeS : de_get S id = some de := by rw [de_get_congr S s id hS]; exact hde
    have g := de_get_de_put S id de D hdeS hD
    have hbase : dvr_recording_ok (de_put S D) := by
      refine recording_ok_put s _ D ?_ (fun h2 => absurd (hDs ▸ h2) hst) ?_
      · show S.entries.map _ = s.entries.map _
        rw [hS]
      · intro x hx hne
        exact hok x hx (fun h2 => hne (h2.trans hD.symm))
    unfold dvr_entry_dec_ref at h
    rw [g] at h
    simp only at h
    split at h
    · cases h
      refine recording_ok_put (de_put S D) _ _ rfl (fun h2 => absurd (hDs ▸ h2) hst) ?_
      intro x hx _
      exact hbase x hx
    · cases h
      intro x hx
      have hx2 : x ∈ (de_put S D).entries := by
        have hx3 : x ∈ (de_put S D).entries.filter (fun e => e.de_id != id) := by
          revert hx
          cases D.de_autorec <;> cases D.de_timerec <;> cases D.de_config <;>
            cases D.de_bcast <;> exact fun hx => hx
        exact (List.mem_filter.mp hx3).1
      exact hbase x hx2
  unfold dvr_entry_destroy at h
  rw [hde] at h
  simp only at h
  refine key _ _ s' h ?_ hid rfl
  cases de.de_channel <;> cases delconf <;> rfl

/-- A call of `dvr_entry_delete` on an entry that is not being recorded keeps
the invariant. -/
theorem delete_recording_ok (s : dvr_db_t) (id : Nat) (s' : dvr_db_t) (de : dvr_entry_t)
    (h : dvr_entry_delete s id = some s')
    (hde : de_get s id = some de) (hst : de.de_sched_state ≠ DVR_RECORDING)
    (hok : ∀ x ∈ s.entries, x.de_id ≠ id →
      x.de_sched_state = DVR_RECORDING → x.de_channel ≠ none) :
    dvr_recording_ok s' := by
  unfold dvr_entry_delete at h
  rw [hde] at h
  simp only at h
  split at h
  · split at h
    · exact destroy_recording_ok s id true s' de h hde hst hok
    · split at h
      · cases h
      · exact destroy_recording_ok _ id true s' de h hde hst hok
  · cases h

/-- A row of the table after an entry was stored, other than that entry, was
there before. -/
theorem rows_put_ne (s : dvr_db_t) (D x : dvr_entry_t) (hx : x ∈ (de_put s D).entries)
    (hne : x.de_id ≠ D.de_id) : x ∈ s.entries := by
  have hx2 : x ∈ s.entries.map (fun e => if e.de_id = D.de_id then D else e) := hx
  rw [List.mem_map] at hx2
  obtain ⟨e, hes, hex⟩ := hx2
  by_cases hid : e.de_id = D.de_id
  · rw [if_pos hid] at hex
    exact absurd (hex ▸ rfl) hne
  · rw [if_neg hid] at hex
    rw [← hex]
    exact hes

/-- The invariant for the rows other than those of one entry. -/
theorem recording_ok_others (s : dvr_db_t) (id : Nat) (h : dvr_recording_ok s) :
    ∀ x ∈ s.entries, x.de_id ≠ id → x.de_sched_state = DVR_RECORDING → x.de_channel ≠ none :=
  fun x hx _ => h x hx

/-- The function `dvr_entry_cancel` keeps the invariant. -/
theorem cancel_recording_ok (s : dvr_db_t) (id : Nat) (s' : dvr_db_t) (r : Option Nat)
    (h : dvr_entry_cancel s id = some (s', r)) (hok : dvr_recording_ok s) :
    dvr_recording_ok s' := by
  unfold dvr_entry_cancel at h
  cases hde : de_get s id with
  | none => rw [hde] at h; cases h
  | some de =>
    have hid := de_get_id s id de hde
    rw [hde] at h
    simp only at h
    have hd : ∀ s1, dvr_entry_destroy s id true = some s1 →
        de.de_sched_state ≠ DVR_RECORDING → dvr_recording_ok s1 :=
      fun s1 h1 hst => destroy_recording_ok s id true s1 de h1 hde hst
        (recording_ok_others s id hok)
    have hm : ∀ (x : Option dvr_db_t) (q : Option Nat),
        x.map (fun s' => (s', q)) = some (s', r) → x = some s' := by
      intro x q hx
      cases x with
      | none => cases hx
      | some a => cases hx; rfl
    split at h
    · rename_i hs
      exact hd s' (hm _ _ h) (by rw [hs]; decide)
    · refine stop_recording_recording_ok _ id _ _ s' (hm _ _ h) ?_
      intro x hx hne
      exact hok x (rows_put_ne s _ x hx (fun h2 => hne (h2.trans hid)))
    · rename_i hs
      exact hd s' (hm _ _ h) (by rw [hs]; decide)
    · rename_i hs
      exact hd s' (hm _ _ h) (by rw [hs]; decide)
    · rename_i hs
      exact hd s' (hm _ _ h) (by rw [hs]; decide)

/-- The function `dvr_entry_cancel_delete` keeps the invariant. -/
theorem cancel_delete_recording_ok (s : dvr_db_t) (id : Nat) (s' : dvr_db_t)
    (h : dvr_entry_cancel_delete s id = some s') (hok : dvr_recording_ok s) :
    dvr_recording_ok s' := by
  unfold dvr_entry_cancel_delete at h
  cases hde : de_get s id with
  | none => rw [hde] at h; cases h
  | some de =>
    have hid := de_get_id s id de hde
    rw [hde] at h
    simp only at h
    have hd : ∀ s1, dvr_entry_destroy s id true = some s1 →
        de.de_sched_state ≠ DVR_RECORDING → dvr_recording_ok s1 :=
      fun s1 h1 hst => destroy_recording_ok s id true s1 de h1 hde hst
        (recording_ok_others s id hok)
    split at h
    · rename_i hs
      exact hd s' h (by rw [hs]; decide)
    · split at h
      · cases h
      · rename_i s1 h1
        have hok1 : dvr_recording_ok s1 := by
          refine stop_recording_recording_ok _ id _ _ s1 h1 ?_
          intro x hx hne
          exact hok x (rows_put_ne s _ x hx (fun h2 => hne (h2.trans hid)))
        obtain ⟨d0, r0, hd0, _, he, _, _, _⟩ := stop_recording_cases _ id _ _ s1 h1
        have hid0 := de_get_id _ id d0 hd0
        have g := de_get_put_self _ s1 id d0 _ he hd0 hid0
        refine delete_recording_ok s1 id s' _ h g ?_ (recording_ok_others s1 id hok1)
        intro h2
        have h3 : (if d0.de_rec_state = DVR_RS_PENDING ∨
            d0.de_rec_state = DVR_RS_WAIT_PROGRAM_START ∨ d0.de_filename = none
            then DVR_MISSED_TIME else DVR_COMPLETED) = DVR_RECORDING := h2
        split at h3 <;> cases h3
    · rename_i hs
      exact delete_recording_ok s id s' de h hde (by rw [hs]; decide)
        (recording_ok_others s id hok)
    · rename_i hs
      exact hd s' h (by rw [hs]; decide)
    · rename_i hs
      exact hd s' h (by rw [hs]; decide)

/-- The start-recording callback keeps the invariant: it starts a recording
only on an entry that has an enabled channel. -/
theorem start_recording_recording_ok (s : dvr_db_t) (id : Nat) (s' : dvr_db_t)
    (h : dvr_timer_start_recording s id = some s') (hok : dvr_recording_ok s) :
    dvr_recording_ok s' := by
  unfold dvr_timer_start_recording at h
  cases hde : de_get s id with
  | none => rw [hde] at h; cases h
  | some de =>
    have hid := de_get_id s id de hde
    rw [hde] at h
    simp only at h
    cases hen : dvr_entry_channel_enabled s de with
    | none => rw [hen] at h; cases h
    | some b =>
      rw [hen] at h
      cases b with
      | false =>
        simp only at h
        cases h
        exact recording_ok_put s _ _ rfl (fun h2 => by cases h2) (recording_ok_others s _ hok)
      | true =>
        simp only at h
        have hch : de.de_channel ≠ none := by
          intro hc
          unfold dvr_entry_channel_enabled at hen
          rw [hc] at hen
          cases hen
        split at h
        · cases h
        · exact cancel_delete_recording_ok s id s' h hok
        · split at h
          · cases h
          · cases h
            refine recording_ok_put s _ _ (entries_put_put s.entries _ _ rfl) (fun _ => hch)
              (recording_ok_others s _ hok)

/-- The `channel` setter keeps the invariant: it writes to an editable entry
only, and an editable entry is SCHEDULED. -/
theorem channel_set_recording_ok (s : dvr_db_t) (id : Nat) (v : Option String)
    (s' : dvr_db_t) (r : Bool) (h : dvr_entry_class_channel_set s id v = some (s', r))
    (hok : dvr_recording_ok s) : dvr_recording_ok s' := by
  unfold dvr_entry_class_channel_set at h
  cases hde : de_get s id with
  | none => rw [hde] at h; cases h
  | some de =>
    rw [hde] at h
    simp only at h
    split at h
    · cases h; exact hok
    · rename_i hed
      have hst : de.de_sched_state = DVR_SCHEDULED := by
        have : dvr_entry_is_editable de = true := by simpa using hed
        unfold dvr_entry_is_editable at this
        exact of_decide_eq_true this
      split at h
      · split at h
        · cases h
          exact recording_ok_put s _ _ rfl
            (fun h2 => by
              have h3 : de.de_sched_state = DVR_RECORDING := h2
              rw [hst] at h3
              cases h3)
            (recording_ok_others s _ hok)
        · cases h; exact hok
      · rename_i _ ch _
        split at h
        · split at h
          · cases h
          · rename_i _ chn _
            cases h
            refine recording_ok_put s _
              { de with de_channel_name := some chn.ch_name, de_channel := some ch } ?_
              (fun h2 => by
                have h3 : de.de_sched_state = DVR_RECORDING := h2
                rw [hst] at h3
                cases h3)
              (recording_ok_others s _ hok)
            cases de.de_channel <;> rfl
        · cases h; exact hok

/-- The `channelname` setter keeps the invariant. -/
theorem channel_name_set_recording_ok (s : dvr_db_t) (id : Nat) (v : Option String)
    (s' : dvr_db_t) (r : Bool) (h : dvr_entry_class_channel_name_set s id v = some (s', r))
    (hok : dvr_recording_ok s) : dvr_recording_ok s' := by
  unfold dvr_entry_class_channel_name_set at h
  cases hde : de_get s id with
  | none => rw [hde] at h; cases h
  | some de =>
    rw [hde] at h
    simp only at h
    split at h
    · cases h; exact hok
    · rename_i hed
      have hst : de.de_sched_state = DVR_SCHEDULED := by
        have : dvr_entry_is_editable de = true := by simpa using hed
        unfold dvr_entry_is_editable at this
        exact of_decide_eq_true this
      split at h
      · cases h; exact hok
      · split at h
        · exact channel_set_recording_ok s id _ s' r h hok
        · cases h
          exact recording_ok_put s _ _ rfl
            (fun h2 => by
              have h3 : de.de_sched_state = DVR_RECORDING := h2
              rw [hst] at h3
              cases h3)
            (recording_ok_others s _ hok)

/-- A call of `dvr_entry_purge` that returns leaves the invariant behind when
the other entries meet it and the entry, unless it is being recorded, does. -/
theorem purge_recording_ok (s : dvr_db_t) (id : Nat) (delconf : Bool) (s' : dvr_db_t)
    (h : dvr_entry_purge s id delconf = some s')
    (hok : ∀ x ∈ s.entries, x.de_id ≠ id →
      x.de_sched_state = DVR_RECORDING → x.de_channel ≠ none)
    (hrow : ∀ x ∈ s.entries, x.de_id = id → (de_get s id = some x)) :
    dvr_recording_ok s' := by
  unfold dvr_entry_purge at h
  cases hde : de_get s id with
  | none => rw [hde] at h; cases h
  | some de =>
    rw [hde] at h
    simp only at h
    split at h
    · exact stop_recording_recording_ok s id _ delconf s' h hok
    · rename_i hst
      cases h
      intro x hx
      by_cases hx2 : x.de_id = id
      · have := hrow x hx hx2
        rw [hde] at this
        have hxe : de = x := Option.some.inj this
        rw [← hxe]
        exact fun h2 => absurd h2 hst
      · exact hok x hx hx2

/-- Every run of `dvr_destroy_by_channel` that returns keeps the invariant:
each entry that loses its channel is purged, which stops its recording. -/
theorem destroy_by_channel_recording_ok (fuel : Nat) :
    ∀ (s : dvr_db_t) (ch : Nat) (delconf : Bool) (s' : dvr_db_t),
      dvr_destroy_by_channel fuel s ch delconf = dvr_run.returned s' →
      dvr_recording_ok s → dvr_recording_ok s' := by
  induction fuel with
  | zero =>
    intro s ch delconf s' h hok
    unfold dvr_destroy_by_channel at h
    split at h
    · cases h
    · split at h
      · cases h; exact hok
      · cases h
  | succ n ih =>
    intro s ch delconf s' h hok
    unfold dvr_destroy_by_channel at h
    split at h
    · cases h
    · rename_i c hc
      split at h
      · cases h; exact hok
      · rename_i id rest hl
        simp only at h
        cases hde : de_get s id with
        | none => rw [hde] at h; cases h
        | some de =>
          have hid := de_get_id s id de hde
          rw [hde] at h
          simp only at h
          split at h
          · cases h
          · rename_i s1 h1
            refine ih s1 ch delconf s' h ?_
            refine purge_recording_ok _ id delconf s1 h1 ?_ ?_
            · intro x hx hne
              exact hok x (rows_put_ne s _ x hx (fun h2 => hne (h2.trans hid)))
            · intro x hx hxid
              have hD : ({ de with de_channel := none,
                                   de_channel_name := some c.ch_name } : dvr_entry_t).de_id =
                  id := hid
              have g := de_get_put_self s (de_put (channel_link_remove s ch id)
                { de with de_channel := none, de_channel_name := some c.ch_name }) id de _
                rfl hde hD
              rw [g]
              have hx2 : x ∈ s.entries.map (fun e =>
                  if e.de_id = de.de_id then
                    ({ de with de_channel := none,
                               de_channel_name := some c.ch_name } : dvr_entry_t)
                  else e) := hx
              rw [List.mem_map] at hx2
              obtain ⟨e, _, hex⟩ := hx2
              by_cases he : e.de_id = de.de_id
              · rw [if_pos he] at hex
                rw [hex]
              · rw [if_neg he] at hex
                rw [← hex] at hxid
                exact absurd (hxid.trans hid.symm) he

/-- C31. The invariant "every allocated entry whose state is RECORDING has a
non-null channel" is kept by the start-recording callback, by
`dvr_entry_set_timer`, by the `channel` and `channelname` setters, by every run
of `dvr_destroy_by_channel` that returns (the entries that lose their channel
are purged, which ends their recording) and by `dvr_entry_cancel`: from a state
with the invariant each of them, whenever it returns, leads to a state with the
invariant. -/
theorem recording_has_channel (now : Int) (s : dvr_db_t) (hok : dvr_recording_ok s) :
    (∀ id s', dvr_timer_start_recording s id = some s' → dvr_recording_ok s') ∧
    (∀ id s', dvr_entry_set_timer now s id = some s' → dvr_recording_ok s') ∧
    (∀ id v s' r, dvr_entry_class_channel_set s id v = some (s', r) → dvr_recording_ok s') ∧
    (∀ id v s' r, dvr_entry_class_channel_name_set s id v = some (s', r) →
      dvr_recording_ok s') ∧
    (∀ fuel ch delconf s', dvr_destroy_by_channel fuel s ch delconf = dvr_run.returned s' →
      dvr_recording_ok s') ∧
    (∀ id s' r, dvr_entry_cancel s id = some (s', r) → dvr_recording_ok s') :=
  ⟨fun id s' h => start_recording_recording_ok s id s' h hok,
   fun id s' h => set_timer_recording_ok now s id s' h hok,
   fun id v s' r h => channel_set_recording_ok s id v s' r h hok,
   fun id v s' r h => channel_name_set_recording_ok s id v s' r h hok,
   fun fuel ch delconf s' h => destroy_by_channel_recording_ok fuel s ch delconf s' h hok,
   fun id s' r h => cancel_recording_ok s id s' r h hok⟩

/-- C31 at the store `db_rec`, whose entry 1 is being recorded on channel 7:
the store has the invariant; the reconciler at clock 0 keeps the entry
RECORDING on its channel; `dvr_destroy_by_channel` on channel 7 returns with
the channel of the entry null and its state COMPLETED; `dvr_entry_cancel`
returns with the state COMPLETED; the start-recording callback and the channel
setter return; all of them in a state with the invariant. -/
theorem recording_has_channel_witness :
    dvr_recording_ok db_rec ∧
    ((dvr_timer_start_recording db_rec 1).isSome = true ∧
     ∀ s', dvr_timer_start_recording db_rec 1 = some s' → dvr_recording_ok s') ∧
    (((dvr_entry_set_timer 0 db_rec 1).bind (fun t => de_get t 1)).map
        (fun de => (de.de_sched_state, de.de_channel)) = some (DVR_RECORDING, some 7) ∧
     ∀ s', dvr_entry_set_timer 0 db_rec 1 = some s' → dvr_recording_ok s') ∧
    ((dvr_entry_class_channel_set db_rec 1 none).isSome = true ∧
     ∀ s' r, dvr_entry_class_channel_set db_rec 1 none = some (s', r) →
       dvr_recording_ok s') ∧
    (((dvr_run_state (dvr_destroy_by_channel 2 db_rec 7 false)).bind
        (fun t => de_get t 1)).map (fun de => (de.de_sched_state, de.de_channel)) =
        some (DVR_COMPLETED, none) ∧
     ∀ s', dvr_destroy_by_channel 2 db_rec 7 false = dvr_run.returned s' →
       dvr_recording_ok s') ∧
    (((dvr_entry_cancel db_rec 1).bind (fun t => de_get t.1 1)).map
        (fun de => de.de_sched_state) = some DVR_COMPLETED ∧
     ∀ s' r, dvr_entry_cancel db_rec 1 = some (s', r) → dvr_recording_ok s') :=
  have hok : dvr_recording_ok db_rec := by
    intro de hde
    have h1 : de ∈ [de_rec] := hde
    have h2 : de = de_rec := by simpa using h1
    rw [h2]
    intro _
    decide
  ⟨hok,
   ⟨by decide, fun s' h => (recording_has_channel 0 db_rec hok).1 1 s' h⟩,
   ⟨by decide, fun s' h => (recording_has_channel 0 db_rec hok).2.1 1 s' h⟩,
   ⟨by decide, fun s' r h => (recording_has_channel 0 db_rec hok).2.2.1 1 none s' r h⟩,
   ⟨by decide, fun s' h => (recording_has_channel 0 db_rec hok).2.2.2.2.1 2 7 false s' h⟩,
   ⟨by decide, fun s' r h => (recording_has_channel 0 db_rec hok).2.2.2.2.2 1 s' r h⟩⟩

/-- Appending to a text that was cut to the buffer gives the joined text cut to
the buffer. -/
theorem snprintf_cat_take (acc str : String) (n : Nat) :
    snprintf_cat (String.mk (acc.data.take (n - 1))) n str =
      String.mk ((acc ++ str).data.take (n - 1)) := by
  unfold snprintf_cat
  congr 1
  rw [String.data_append, List.take_append_eq_append_take]
  congr 1
  have hl : (String.mk (acc.data.take (n - 1))).length = min (n - 1) acc.data.length := by
    show (acc.data.take (n - 1)).length = _
    exact List.length_take _ _
  rw [hl]
  congr 1
  omega

/-- The episode step of `dvr_make_title` on a text cut to the buffer. -/
theorem make_title_episode_take (s : dvr_db_t) (n : Nat) (de : dvr_entry_t) (acc : String)
    (hb : ∀ b, de.de_bcast = some b → (bcast_get s b).isSome = true) :
    dvr_make_title_episode s n de (String.mk (acc.data.take (n - 1))) =
      some (String.mk ((acc ++ make_title_episode_text s de).data.take (n - 1))) := by
  unfold dvr_make_title_episode make_title_episode_text
  cases hbc : de.de_bcast with
  | none =>
    simp only [Option.none_bind, String.append_empty]
  | some b =>
    have := hb b hbc
    cases hg : bcast_get s b with
    | none => rw [hg] at this; cases this
    | some bc =>
      simp only [Option.some_bind, hg]
      cases bc.episode with
      | none => simp only [String.append_empty]
      | some ep => simp only [snprintf_cat_take]

/-- C34. With a buffer of at least one byte, a configuration that resolves
and the texts it asks for present, `dvr_make_title` returns the parts of the
specification, in their fixed order (channel name and "-", title, episode
before the date, "." and subtitle, "." and date YYYY-MM-DD, "." and time
HH-MM, episode after the date; a part whose condition fails being empty),
joined and cut to the size of the buffer less one; of the two episode parts at
least one is empty, so the episode appears at most once. -/
theorem make_title_concat (s : dvr_db_t) (outlen : Nat) (de : dvr_entry_t)
    (cfg : dvr_config_t) (hn : 0 < outlen) (hcfg : de.de_config.bind (cfg_get s) = some cfg)
    (hch : cfg.dvr_channel_in_title = true → (DVR_CH_NAME s de).isSome = true)
    (htitle : cfg.dvr_omit_title = false → (lang_str_get de.de_title).isSome = true)
    (hsub : cfg.dvr_subtitle_in_title = true → de.de_subtitle ≠ none →
      (lang_str_get de.de_subtitle).isSome = true)
    (hb : cfg.dvr_episode_in_title = true →
      ∀ b, de.de_bcast = some b → (bcast_get s b).isSome = true) :
    dvr_make_title s outlen de = some (make_title_spec s cfg outlen de) ∧
    ((make_title_parts s cfg de).getD 2 "" = "" ∨
      (make_title_parts s cfg de).getD 6 "" = "") := by
  constructor
  · have e0 : ("" : String) = String.mk (("" : String).data.take (outlen - 1)) := by
      show _ = String.mk (List.take _ [])
      rw [List.take_nil]
    have h0 : ∀ str : String, snprintf_cat "" outlen str =
        String.mk (("" ++ str).data.take (outlen - 1)) := fun str => by
      have := snprintf_cat_take "" str outlen
      rw [← e0] at this
      exact this
    have s1 : (if cfg.dvr_channel_in_title then
          (DVR_CH_NAME s de).map (fun n => snprintf_cat "" outlen (n ++ "-"))
        else some "") =
        some (String.mk (("" ++ (make_title_parts s cfg de).getD 0 "").data.take
          (outlen - 1))) := by
      show _ = some (String.mk (("" ++
        (if cfg.dvr_channel_in_title then (DVR_CH_NAME s de).getD "" ++ "-" else "")).data.take
          (outlen - 1)))
      cases hf : cfg.dvr_channel_in_title with
      | false => simp only [Bool.false_eq_true, if_false, String.append_empty]; rw [← e0]
      | true =>
        simp only [if_true]
        have := hch hf
        cases hn2 : DVR_CH_NAME s de with
        | none => rw [hn2] at this; cases this
        | some nm =>
          simp only [Option.map_some', Option.getD_some]
          rw [h0]
    have s2 : ∀ acc : String, (if cfg.dvr_omit_title = false then
          (lang_str_get de.de_title).map
            (fun t => snprintf_cat (String.mk (acc.data.take (outlen - 1))) outlen t)
        else some (String.mk (acc.data.take (outlen - 1)))) =
        some (String.mk ((acc ++ (make_title_parts s cfg de).getD 1 "").data.take
          (outlen - 1))) := by
      intro acc
      show _ = some (String.mk ((acc ++
        (if cfg.dvr_omit_title = false then (lang_str_get de.de_title).getD "" else "")).data.take
          (outlen - 1)))
      cases hf : cfg.dvr_omit_title with
      | true => simp only [Bool.true_eq_false, if_false, String.append_empty]
      | false =>
        simp only [if_true]
        have := htitle hf
        cases hn2 : lang_str_get de.de_title with
        | none => rw [hn2] at this; cases this
        | some t => simp only [Option.map_some', Option.getD_some, snprintf_cat_take]
    have s3 : ∀ acc : String,
        (if cfg.dvr_episode_before_date = true ∧ cfg.dvr_episode_in_title = true then
          dvr_make_title_episode s outlen de (String.mk (acc.data.take (outlen - 1)))
        else some (String.mk (acc.data.take (outlen - 1)))) =
        some (String.mk ((acc ++ (make_title_parts s cfg de).getD 2 "").data.take
          (outlen - 1))) := by
      intro acc
      show _ = some (String.mk ((acc ++
        (if cfg.dvr_episode_in_title = true ∧ cfg.dvr_episode_before_date = true then
          make_title_episode_text s de else "")).data.take (outlen - 1)))
      by_cases hf : cfg.dvr_episode_before_date = true ∧ cfg.dvr_episode_in_title = true
      · rw [if_pos hf, if_pos ⟨hf.2, hf.1⟩]
        exact make_title_episode_take s outlen de acc (hb hf.2)
      · rw [if_neg hf, if_neg (fun h => hf ⟨h.2, h.1⟩), String.append_empty]
    have s4 : ∀ acc : String,
        (if cfg.dvr_subtitle_in_title = true ∧ de.de_subtitle ≠ none then
          (lang_str_get de.de_subtitle).map
            (fun t => snprintf_cat (String.mk (acc.data.take (outlen - 1))) outlen ("." ++ t))
        else some (String.mk (acc.data.take (outlen - 1)))) =
        some (String.mk ((acc ++ (make_title_parts s cfg de).getD 3 "").data.take
          (outlen - 1))) := by
      intro acc
      show _ = some (String.mk ((acc ++
        (if cfg.dvr_subtitle_in_title = true ∧ de.de_subtitle ≠ none then
          "." ++ (lang_str_get de.de_subtitle).getD "" else "")).data.take (outlen - 1)))
      by_cases hf : cfg.dvr_subtitle_in_title = true ∧ de.de_subtitle ≠ none
      · rw [if_pos hf, if_pos hf]
        have := hsub hf.1 hf.2
        cases hn2 : lang_str_get de.de_subtitle with
        | none => rw [hn2] at this; cases this
        | some t => simp only [Option.map_some', Option.getD_some, snprintf_cat_take]
      · rw [if_neg hf, if_neg hf, String.append_empty]
    have s5 : ∀ acc : String,
        (if cfg.dvr_date_in_title = true then
          snprintf_cat (String.mk (acc.data.take (outlen - 1))) outlen
            ("." ++ strftime_F (localtime_r s de.de_start))
        else String.mk (acc.data.take (outlen - 1))) =
        String.mk ((acc ++ (make_title_parts s cfg de).getD 4 "").data.take (outlen - 1)) := by
      intro acc
      show _ = String.mk ((acc ++
        (if cfg.dvr_date_in_title = true then "." ++ strftime_F (localtime_r s de.de_start)
         else "")).data.take (outlen - 1))
      cases cfg.dvr_date_in_title with
      | false => simp only [Bool.false_eq_true, if_false, String.append_empty]
      | true => simp only [if_true, snprintf_cat_take]
    have s6 : ∀ acc : String,
        (if cfg.dvr_time_in_title = true then
          snprintf_cat (String.mk (acc.data.take (outlen - 1))) outlen
            ("." ++ strftime_HM (localtime_r s de.de_start))
        else String.mk (acc.data.take (outlen - 1))) =
        String.mk ((acc ++ (make_title_parts s cfg de).getD 5 "").data.take (outlen - 1)) := by
      intro acc
      show _ = String.mk ((acc ++
        (if cfg.dvr_time_in_title = true then "." ++ strftime_HM (localtime_r s de.de_start)
         else "")).data.take (outlen - 1))
      cases cfg.dvr_time_in_title with
      | false => simp only [Bool.false_eq_true, if_false, String.append_empty]
      | true => simp only [if_true, snprintf_cat_take]
    have s7 : ∀ acc : String,
        (if cfg.dvr_episode_before_date = false ∧ cfg.dvr_episode_in_title = true then
          dvr_make_title_episode s outlen de (String.mk (acc.data.take (outlen - 1)))
        else some (String.mk (acc.data.take (outlen - 1)))) =
        some (String.mk ((acc ++ (make_title_parts s cfg de).getD 6 "").data.take
          (outlen - 1))) := by
      intro acc
      show _ = some (String.mk ((acc ++
        (if cfg.dvr_episode_in_title = true ∧ cfg.dvr_episode_before_date = false then
          make_title_episode_text s de else "")).data.take (outlen - 1)))
      by_cases hf : cfg.dvr_episode_before_date = false ∧ cfg.dvr_episode_in_title = true
      · rw [if_pos hf, if_pos ⟨hf.2, hf.1⟩]
        exact make_title_episode_take s outlen de acc (hb hf.2)
      · rw [if_neg hf, if_neg (fun h => hf ⟨h.2, h.1⟩), String.append_empty]
    unfold dvr_make_title
    rw [if_neg (Nat.pos_iff_ne_zero.mp hn), hcfg]
    simp only
    rw [s1]
    simp only [Option.some_bind]
    rw [s2]
    simp only [Option.some_bind]
    rw [s3]
    simp only [Option.some_bind]
    rw [s4]
    simp only [Option.some_bind]
    rw [s5, s6, s7]
    rfl
  · show (if cfg.dvr_episode_in_title = true ∧ cfg.dvr_episode_before_date = true then
        make_title_episode_text s de else "") = "" ∨
      (if cfg.dvr_episode_in_title = true ∧ cfg.dvr_episode_before_date = false then
        make_title_episode_text s de else "") = ""
    cases cfg.dvr_episode_before_date with
    | false => left; rw [if_neg (fun h => by cases h.2)]
    | true => right; rw [if_neg (fun h => by cases h.2)]

/-- C34 at the store `db_title`, where every part is switched on and the
episode comes before the date: for the entry on channel "one" with title X,
subtitle "old", episode S01E02 and start 60, a buffer of 255 bytes holds
"one-X.S01E02.old.1970-01-01.00-01" and a buffer of 12 bytes its first 11
characters. -/
theorem make_title_concat_witness :
    dvr_make_title db_title 255 de_updated = some (make_title_spec db_title cfg_all_parts 255
      de_updated) ∧
    make_title_spec db_title cfg_all_parts 255 de_updated =
      "one-X.S01E02.old.1970-01-01.00-01" ∧
    dvr_make_title db_title 12 de_updated = some "one-X.S01E0" ∧
    ((make_title_parts db_title cfg_all_parts de_updated).getD 2 "" = "" ∨
      (make_title_parts db_title cfg_all_parts de_updated).getD 6 "" = "") :=
  ⟨(make_title_concat db_title 255 de_updated cfg_all_parts (by decide) (by decide)
      (fun _ => by decide) (fun _ => by decide) (fun _ _ => by decide)
      (fun _ b hb => by
        have h9 : b = 9 := (Option.some.inj hb).symm
        rw [h9]
        decide)).1,
   by decide, by decide,
   (make_title_concat db_title 255 de_updated cfg_all_parts (by decide) (by decide)
      (fun _ => by decide) (fun _ => by decide) (fun _ _ => by decide)
      (fun _ b hb => by
        have h9 : b = 9 := (Option.some.inj hb).symm
        rw [h9]
        decide)).2⟩

/-- Conversion to `int` of a value in the range of `int`. -/
theorem to_int_id (x : Int) (h1 : -2147483648 ≤ x) (h2 : x < 2147483648) : to_int x = x := by
  unfold to_int
  rw [Int.bmod_def]
  omega

/-- Scenario S1, first step: the created entry is SCHEDULED, with its
start-recording callback armed 30 seconds before the start. -/
theorem s1_created_eq (now : Int) (h0 : 0 ≤ now) (h1 : now + 120 < 2147483648) :
    s1_created now =
      some (s1_db (s1_entry now) []
        [dvr_effect.dvr_dbus_timer_arm 5, dvr_effect.htsp_dvr_entry_add 1]) := by
  have e0 : to_int 0 = 0 := by decide
  have e01 : to_int 1 = 1 := by decide
  have e1 : to_int (now + 60 - 30) = now + 30 := by
    rw [to_int_id _ (by omega) (by omega)]
    omega
  have e2 : to_int (now + 120) = now + 120 := by
    rw [to_int_id _ (by omega) (by omega)]
  have f1 : ¬ (now + 60 = 0) := by omega
  have f2 : ¬ (now + 120 = 0) := by omega
  have f3 : ¬ (now + 120 < now + 60) := by omega
  have f4 : ¬ (now + 120 ≤ now) := by omega
  have f5 : toString (7 : Nat) = "7" := by decide
  simp [s1_created, dvr_entry_create, s1_conf, db_empty, htsmsg_get_s64, htsmsg_get_str,
    htsmsg_field_find, idnode_insert, de_get, idnode_load, prop_set, prop_off, prop_int,
    prop_u32, prop_u16, prop_bool, prop_langstr, dvr_config_find_by_name_default,
    dvr_config_find_by_name, config_link_insert, dvr_entry_class_start_set,
    dvr_entry_class_time_set, dvr_entry_class_int_set, dvr_entry_class_stop_set,
    dvr_entry_class_channel_set, dvr_entry_class_retention_set, dvr_entry_is_editable, de_put,
    channel_find_by_uuid, idnode_uuid_as_str, ch_get, channel_link_insert, channel_link_remove,
    dvr_entry_create_titles, dvr_entry_create_finish, dvr_entry_create_clash,
    dvr_entry_set_timer, dvr_entry_get_start_time, dvr_entry_get_stop_time,
    dvr_entry_get_extra_time_pre, dvr_entry_get_extra_time_post, extra_valid,
    dvr_entry_get_retention, cfg_get, dvr_entry_channel_enabled, gtimer_arm_abs, emit,
    _dvr_entry_completed, s1_db, s1_entry, e0, e01, e1, e2, f1, f2, f3, f4, f5]

/-- Scenario S1, second step: at the clock `now + 60` the start-recording
callback has run; the entry is RECORDING, the recorder subscribed, the
stop-recording callback armed at the stop. -/
theorem s1_started_eq (now : Int) (h0 : 0 ≤ now) (h1 : now + 120 < 2147483648) :
    s1_started now =
      some (s1_db { s1_entry now with
                    de_sched_state := DVR_RECORDING, de_rec_state := DVR_RS_PENDING,
                    de_timer := some { gti_callback := dvr_timer_cb.stop_recording,
                                       gti_expire := now + 120 } } []
        [dvr_effect.dvr_dbus_timer_arm 5, dvr_effect.htsp_dvr_entry_add 1,
         dvr_effect.idnode_changed 1, dvr_effect.htsp_dvr_entry_update 1,
         dvr_effect.dvr_rec_subscribe 1]) := by
  have e0 : to_int 0 = 0 := by decide
  have e2 : to_int (now + 120) = now + 120 := by
    rw [to_int_id _ (by omega) (by omega)]
  have g1 : now + 30 ≤ now + 60 := by omega
  unfold s1_started
  rw [s1_created_eq now h0 h1]
  simp [gtimer_fire, gtimer_disarm, gtimer_arm_abs, dvr_timer_start_recording,
    _dvr_duplicate_event, dvr_entry_channel_enabled, dvr_entry_get_stop_time,
    dvr_entry_get_extra_time_post, extra_valid, de_get, de_put, ch_get, cfg_get, emit, s1_db,
    s1_entry, db_empty, e0, e2, g1]

/-- Scenario S1, fourth step, with a recorder that reached RUNNING and wrote a
file name: at the clock `now + 120` the stop-recording callback has run; the
entry is COMPLETED and persisted, the expire callback armed one day after the
stop. -/
theorem s1_stopped_eq (now : Int) (h0 : 0 ≤ now) (h1 : now + 120 < 2147483648)
    (filename : String) :
    s1_stopped now (recorder_runs filename) =
      some (s1_db { s1_entry now with
                    de_sched_state := DVR_COMPLETED, de_rec_state := DVR_RS_RUNNING,
                    de_filename := some filename,
                    de_timer := some { gti_callback := dvr_timer_cb.expire,
                                       gti_expire := now + 120 + 86400 } }
        [(1, { s1_entry now with
               de_sched_state := DVR_COMPLETED, de_rec_state := DVR_RS_RUNNING,
               de_filename := some filename, de_timer := none })]
        [dvr_effect.dvr_dbus_timer_arm 5, dvr_effect.htsp_dvr_entry_add 1,
         dvr_effect.idnode_changed 1, dvr_effect.htsp_dvr_entry_update 1,
         dvr_effect.dvr_rec_subscribe 1, dvr_effect.dvr_inotify_add 1,
         dvr_effect.dvr_rec_unsubscribe 1 sm_code.SM_CODE_OK,
         dvr_effect.idnode_notify_simple 1, dvr_effect.htsp_dvr_entry_update 1]) := by
  unfold s1_stopped
  rw [s1_started_eq now h0 h1]
  simp [recorder_runs, recorder_set_state, recorder_set_filename, gtimer_fire, gtimer_disarm,
    gtimer_arm_abs, dvr_timer_stop_recording, dvr_stop_recording, _dvr_entry_completed,
    hts_settings_save, dvr_entry_get_retention, de_get, de_put, cfg_get, emit, s1_db,
    s1_entry, db_empty]

/-- Scenario S1, last step: at the clock `now + 120 + 86400` the expire callback
has run; the entry is freed and unlinked from every list, and its settings
are removed. -/
theorem s1_expired_eq (now : Int) (h0 : 0 ≤ now) (h1 : now + 120 < 2147483648)
    (filename : String) :
    s1_expired now (recorder_runs filename) =
      some { db_empty with
             trace :=
               [dvr_effect.dvr_dbus_timer_arm 5, dvr_effect.htsp_dvr_entry_add 1,
                dvr_effect.idnode_changed 1, dvr_effect.htsp_dvr_entry_update 1,
                dvr_effect.dvr_rec_subscribe 1, dvr_effect.dvr_inotify_add 1,
                dvr_effect.dvr_rec_unsubscribe 1 sm_code.SM_CODE_OK,
                dvr_effect.idnode_notify_simple 1, dvr_effect.htsp_dvr_entry_update 1,
                dvr_effect.htsp_dvr_entry_delete 1, dvr_effect.dvr_inotify_del 1,
                dvr_effect.dvr_dbus_timer_arm 2, dvr_effect.idnode_unlink 1] } := by
  unfold s1_expired
  rw [s1_stopped_eq now h0 h1]
  simp [gtimer_fire, gtimer_disarm, dvr_timer_expire, dvr_entry_destroy, dvr_entry_dec_ref,
    hts_settings_remove, channel_link_remove, global_link_remove, config_link_remove, de_free,
    de_get, de_put, emit, s1_db, s1_entry, db_empty]

/-- C33 as stated fails: in scenario S1 at the time 1000, when the recorder
writes a file name and nothing else, the recorder state is still PENDING at the
stop, and the stop-recording callback at the clock 1120 leaves the entry
MISSED_TIME, not COMPLETED. -/
theorem s1_file_only_missed :
    ((s1_started 1000).bind (fun s => de_get s 1)).map
        (fun de => (de.de_sched_state, de.de_rec_state)) =
      some (DVR_RECORDING, DVR_RS_PENDING) ∧
    ((s1_stopped 1000 (fun s => recorder_set_filename s 1 "a.mkv")).bind
        (fun s => de_get s 1)).map
        (fun de => (de.de_sched_state, de.de_rec_state, de.de_filename)) =
      some (DVR_MISSED_TIME, DVR_RS_PENDING, some "a.mkv") := by
  refine ⟨by decide, by decide⟩

/-- C33 (amended). Scenario S1 at any time `now` from 0 on for which the
stop fits the type `int`: the entry created with start `now + 60`, stop
`now + 120` and one day of retention on the enabled channel 7 is SCHEDULED;
when the clock reaches `now + 60` it is RECORDING and the recorder has been
subscribed; after the recorder reached the state RUNNING and wrote a file
name, when the clock reaches `now + 120` the entry is COMPLETED and persisted
under its key; one second before `now + 120 + 86400` nothing happens, and when
the clock reaches `now + 120 + 86400` the entry is freed, the global list is
empty and the persisted key is removed. -/
theorem scenario_s1 (now : Int) (h0 : 0 ≤ now) (h1 : now + 120 < 2147483648)
    (filename : String) :
    ((s1_created now).bind (fun s => de_get s 1)).map
        (fun de => (de.de_sched_state, de.de_start, de.de_stop, de.de_retention)) =
      some (DVR_SCHEDULED, now + 60, now + 120, 1) ∧
    ((s1_started now).bind (fun s => de_get s 1)).map (fun de => de.de_sched_state) =
      some DVR_RECORDING ∧
    (s1_started now).map (fun s => decide (dvr_effect.dvr_rec_subscribe 1 ∈ s.trace)) =
      some true ∧
    ((s1_stopped now (recorder_runs filename)).bind (fun s => de_get s 1)).map
        (fun de => de.de_sched_state) = some DVR_COMPLETED ∧
    (s1_stopped now (recorder_runs filename)).map (fun s => s.settings.map (fun kv => kv.1)) =
      some [1] ∧
    (s1_stopped now (recorder_runs filename)).bind
        (fun s => gtimer_fire (now + 120 + 86399) s 1) =
      s1_stopped now (recorder_runs filename) ∧
    (s1_expired now (recorder_runs filename)).map
        (fun s => (de_get s 1, s.entries, s.dvrentries, s.settings.map (fun kv => kv.1))) =
      some (none, [], [], []) ∧
    (s1_expired now (recorder_runs filename)).map
        (fun s => decide (dvr_effect.htsp_dvr_entry_delete 1 ∈ s.trace)) = some true := by
  have g2 : ¬ (now + 120 + 86400 ≤ now + 120 + 86399) := by omega
  rw [s1_created_eq now h0 h1, s1_started_eq now h0 h1, s1_stopped_eq now h0 h1 filename,
    s1_expired_eq now h0 h1 filename]
  refine ⟨?_, ?_, ?_, ?_, ?_, ?_, ?_, ?_⟩
  · simp [de_get, s1_db, s1_entry]
  · simp [de_get, s1_db, s1_entry]
  · simp [s1_db]
  · simp [de_get, s1_db, s1_entry]
  · simp [s1_db]
  · simp [gtimer_fire, de_get, s1_db, s1_entry, g2]
  · simp [de_get, db_empty]
  · simp [db_empty]

/-- C33 (amended) at the time 1000 with the file name a.mkv. -/
theorem scenario_s1_witness :
    ((s1_created 1000).bind (fun s => de_get s 1)).map
        (fun de => (de.de_sched_state, de.de_start, de.de_stop, de.de_retention)) =
      some (DVR_SCHEDULED, 1000 + 60, 1000 + 120, 1) ∧
    ((s1_started 1000).bind (fun s => de_get s 1)).map (fun de => de.de_sched_state) =
      some DVR_RECORDING ∧
    (s1_started 1000).map (fun s => decide (dvr_effect.dvr_rec_subscribe 1 ∈ s.trace)) =
      some true ∧
    ((s1_stopped 1000 (recorder_runs "a.mkv")).bind (fun s => de_get s 1)).map
        (fun de => de.de_sched_state) = some DVR_COMPLETED ∧
    (s1_stopped 1000 (recorder_runs "a.mkv")).map (fun s => s.settings.map (fun kv => kv.1)) =
      some [1] ∧
    (s1_stopped 1000 (recorder_runs "a.mkv")).bind
        (fun s => gtimer_fire (1000 + 120 + 86399) s 1) =
      s1_stopped 1000 (recorder_runs "a.mkv") ∧
    (s1_expired 1000 (recorder_runs "a.mkv")).map
        (fun s => (de_get s 1, s.entries, s.dvrentries, s.settings.map (fun kv => kv.1))) =
      some (none, [], [], []) ∧
    (s1_expired 1000 (recorder_runs "a.mkv")).map
        (fun s => decide (dvr_effect.htsp_dvr_entry_delete 1 ∈ s.trace)) = some true :=
  scenario_s1 1000 (by decide) (by decide) "a.mkv"

/-- Looking a configuration up by its identifier after the lists of the
configurations were rewritten. -/
theorem cfg_get_map (s t : dvr_db_t) (f : dvr_config_t → dvr_config_t) (cfg : Nat)
    (hc : t.configs = s.configs.map f) (hf : ∀ x, (f x).dvr_id = x.dvr_id) :
    cfg_get t cfg = (cfg_get s cfg).map f := by
  unfold cfg_get
  rw [hc]
  exact cfg_find_map s.configs f cfg hf

/-- Looking a configuration up by its name after the lists of the
configurations were rewritten. -/
theorem find_default_map (s t : dvr_db_t) (f : dvr_config_t → dvr_config_t)
    (hc : t.configs = s.configs.map f) (hf : ∀ x, (f x).dvr_id = x.dvr_id)
    (hn : ∀ x, (f x).dvr_config_name = x.dvr_config_name) (name : Option String) :
    dvr_config_find_by_name_default t name = dvr_config_find_by_name_default s name := by
  have key : ∀ nm : Option String, dvr_config_find_by_name t nm = dvr_config_find_by_name s nm := by
    intro nm
    unfold dvr_config_find_by_name
    rw [hc]
    have : ∀ l : List dvr_config_t,
        ((l.map f).find? (fun c => c.dvr_config_name == nm.getD "")).map
          (fun (c : dvr_config_t) => c.dvr_id) =
        (l.find? (fun c => c.dvr_config_name == nm.getD "")).map
          (fun (c : dvr_config_t) => c.dvr_id) := by
      intro l
      induction l with
      | nil => rfl
      | cons x xs ih =>
        rw [List.map_cons, List.find?_cons, List.find?_cons, hn x]
        cases hx : (x.dvr_config_name == nm.getD "")
        · simp only
          exact ih
        · simp only [Option.map_some', hf x]
    exact this s.configs
  unfold dvr_config_find_by_name_default
  rw [key name, key none]

/-- On a configuration other than the one the entries are handed to, the loop
of `dvr_entry_destroy_by_config` ends: with as many iterations allowed as the
list is long the run returns, the list of the configuration is empty, the
global list is as before, every entry of the list has the new configuration
pointer (the default configuration with `delconf`, null without) and no other
entry has changed. -/
theorem destroy_by_config_terminates (n : Nat) :
    ∀ (s : dvr_db_t) (cfg : Nat) (delconf : Bool) (dflt d1 : Option Nat) (k : dvr_config_t),
      cfg_get s cfg = some k → k.dvr_entries.length ≤ n →
      (∀ i ∈ k.dvr_entries, (de_get s i).isSome = true) →
      (if dflt = none ∧ delconf = true then dvr_config_find_by_name_default s none
       else dflt) = d1 →
      d1 ≠ some cfg →
      ∃ s', dvr_entry_destroy_by_config_loop n s cfg delconf dflt = dvr_run.returned s' ∧
        (cfg_get s' cfg).map (fun c => c.dvr_entries) = some [] ∧
        s'.dvrentries = s.dvrentries ∧
        (∀ i ∈ k.dvr_entries, (de_get s' i).map (fun de => de.de_config) = some d1) ∧
        (∀ j, j ∉ k.dvr_entries → de_get s' j = de_get s j) := by
  induction n with
  | zero =>
    intro s cfg delconf dflt d1 k hc hlen _ _ _
    have hl : k.dvr_entries = [] := List.length_eq_zero.mp (Nat.le_zero.mp hlen)
    refine ⟨s, ?_, ?_, rfl, ?_, fun _ _ => rfl⟩
    · unfold dvr_entry_destroy_by_config_loop
      rw [hc]
      simp only
      rw [hl]
    · rw [hc, Option.map_some', hl]
    · intro i hi
      rw [hl] at hi
      cases hi
  | succ n ih =>
    intro s cfg delconf dflt d1 k hc hlen hall hd hne
    cases hl : k.dvr_entries with
    | nil =>
      refine ⟨s, ?_, ?_, rfl, ?_, fun _ _ => rfl⟩
      · unfold dvr_entry_destroy_by_config_loop
        rw [hc]
        simp only
        rw [hl]
      · rw [hc, Option.map_some', hl]
      · intro i hi
        cases hi
    | cons id rest =>
      have hkid : k.dvr_id = cfg := (cfg_get_mem s cfg k hc).2
      have hidm : id ∈ k.dvr_entries := by rw [hl]; exact List.mem_cons_self _ _
      cases hde : de_get s id with
      | none =>
        have := hall id hidm
        rw [hde] at this
        cases this
      | some de =>
        have hid := de_get_id s id de hde
        have hD : ({ de with de_config := d1 } : dvr_entry_t).de_id = id := hid
        have hstable : ∀ S4 : dvr_db_t,
            dvr_config_find_by_name_default S4 none = dvr_config_find_by_name_default s none →
            (if d1 = none ∧ delconf = true then dvr_config_find_by_name_default S4 none
             else d1) = d1 := by
          intro S4 h4
          by_cases hc1 : d1 = none ∧ delconf = true
          · rw [if_pos hc1, h4]
            by_cases hc2 : dflt = none ∧ delconf = true
            · rw [if_pos hc2] at hd
              exact hd
            · rw [if_neg hc2] at hd
              exact absurd ⟨hd.trans hc1.1, hc1.2⟩ hc2
          · rw [if_neg hc1]
        have hflt : (id :: rest).filter (fun i => i != id) = rest.filter (fun i => i != id) := by
          simp
        have fin : ∀ S4 : dvr_db_t,
            S4.entries = (de_put s { de with de_config := d1 }).entries →
            S4.dvrentries = s.dvrentries →
            cfg_get S4 cfg =
              some { k with dvr_entries := rest.filter (fun i => i != id) } →
            dvr_config_find_by_name_default S4 none = dvr_config_find_by_name_default s none →
            ∃ s', dvr_entry_destroy_by_config_loop n S4 cfg delconf d1 = dvr_run.returned s' ∧
              (cfg_get s' cfg).map (fun c => c.dvr_entries) = some [] ∧
              s'.dvrentries = s.dvrentries ∧
              (∀ i ∈ id :: rest, (de_get s' i).map (fun de => de.de_config) = some d1) ∧
              (∀ j, j ∉ id :: rest → de_get s' j = de_get s j) := by
          intro S4 he hdv hc4 hfd
          have hlen4 : (rest.filter (fun i => i != id)).length ≤ n := by
            have h1 := List.length_filter_le (fun i => i != id) rest
            rw [hl] at hlen
            simp only [List.length_cons] at hlen
            omega
          have hall4 : ∀ i ∈ rest.filter (fun i => i != id), (de_get S4 i).isSome = true := by
            intro i hi
            have hi2 : i ∈ rest := (List.mem_filter.mp hi).1
            rw [de_get_put_some s S4 id de _ he hde hD i]
            exact hall i (by rw [hl]; exact List.mem_cons_of_mem _ hi2)
          obtain ⟨s', h1, h2, h3, h4, h5⟩ :=
            ih S4 cfg delconf d1 d1 { k with dvr_entries := rest.filter (fun i => i != id) }
              hc4 hlen4 hall4 (hstable S4 hfd) hne
          have hnid : id ∉ rest.filter (fun i => i != id) := by
            intro hm
            have := (List.mem_filter.mp hm).2
            simp at this
          refine ⟨s', h1, h2, h3.trans hdv, ?_, ?_⟩
          · intro i hi
            by_cases hii : i = id
            · rw [hii, h5 id hnid, de_get_put_self s S4 id de _ he hde hD]
              rfl
            · have hi2 : i ∈ rest := by
                rcases List.mem_cons.mp hi with h | h
                · exact absurd h hii
                · exact h
              exact h4 i (List.mem_filter.mpr ⟨hi2, by simpa using hii⟩)
          · intro j hj
            have hj1 : j ≠ id := fun h => hj (by rw [h]; exact List.mem_cons_self _ _)
            have hj2 : j ∉ rest.filter (fun i => i != id) :=
              fun h => hj (List.mem_cons_of_mem _ (List.mem_filter.mp h).1)
            rw [h5 j hj2]
            exact de_get_put_other s S4 id _ he hD j hj1
        have hrem : ∀ x : dvr_config_t,
            ((fun (x : dvr_config_t) => if x.dvr_id = cfg then
              { x with dvr_entries := x.dvr_entries.filter (fun i => i != id) } else x) x).dvr_id =
              x.dvr_id ∧
            ((fun (x : dvr_config_t) => if x.dvr_id = cfg then
              { x with dvr_entries := x.dvr_entries.filter (fun i => i != id) } else x)
                x).dvr_config_name = x.dvr_config_name := by
          intro x
          dsimp only
          split <;> exact ⟨rfl, rfl⟩
        unfold dvr_entry_destroy_by_config_loop
        rw [hd, hc]
        simp only
        rw [hl]
        simp only
        rw [hde]
        simp only
        cases d1 with
        | none =>
          have hcfgX : cfg_get (de_put (config_link_remove s cfg id)
              { de with de_config := none }) cfg =
              some { k with dvr_entries := rest.filter (fun i => i != id) } := by
            rw [cfg_get_map s _ _ cfg rfl (fun x => (hrem x).1), hc]
            simp only [Option.map_some', hkid, if_true, hl, hflt]
          have hfdX := find_default_map s (de_put (config_link_remove s cfg id)
              { de with de_config := none }) _ rfl (fun x => (hrem x).1)
              (fun x => (hrem x).2) none
          cases delconf with
          | false =>
            simp only [Bool.false_eq_true, if_false]
            exact fin _ rfl rfl hcfgX hfdX
          | true =>
            simp only [if_true]
            have g := de_get_put_self s (de_put (config_link_remove s cfg id)
              { de with de_config := none }) id de _ rfl hde hD
            have hsave : dvr_entry_save (de_put (config_link_remove s cfg id)
                { de with de_config := none }) id =
                some (hts_settings_save (de_put (config_link_remove s cfg id)
                  { de with de_config := none }) de.de_id { de with de_config := none }) := by
              unfold dvr_entry_save
              rw [g]
            rw [hsave]
            simp only
            exact fin _ rfl rfl hcfgX hfdX
        | some d =>
          have hdc : ¬ cfg = d := fun h => hne (by rw [h])
          have hins : ∀ x : dvr_config_t,
              ((fun (x : dvr_config_t) => if x.dvr_id = d then
                { x with dvr_entries := id :: x.dvr_entries } else x) x).dvr_id = x.dvr_id ∧
              ((fun (x : dvr_config_t) => if x.dvr_id = d then
                { x with dvr_entries := id :: x.dvr_entries } else x) x).dvr_config_name =
                x.dvr_config_name := by
            intro x
            dsimp only
            split <;> exact ⟨rfl, rfl⟩
          have hcfgX : cfg_get (config_link_insert (de_put (config_link_remove s cfg id)
              { de with de_config := some d }) d id) cfg =
              some { k with dvr_entries := rest.filter (fun i => i != id) } := by
            rw [cfg_get_map (de_put (config_link_remove s cfg id)
                { de with de_config := some d }) _ _ cfg rfl (fun x => (hins x).1),
              cfg_get_map s _ _ cfg rfl (fun x => (hrem x).1), hc]
            simp only [Option.map_some', hkid, if_true, hl, hflt, hdc, if_false]
          have hfdX : dvr_config_find_by_name_default
              (config_link_insert (de_put (config_link_remove s cfg id)
                { de with de_config := some d }) d id) none =
              dvr_config_find_by_name_default s none :=
            (find_default_map (de_put (config_link_remove s cfg id)
                { de with de_config := some d }) _ _ rfl (fun x => (hins x).1)
                (fun x => (hins x).2) none).trans
              (find_default_map s _ _ rfl (fun x => (hrem x).1) (fun x => (hrem x).2) none)
          cases delconf with
          | false =>
            simp only [Bool.false_eq_true, if_false]
            exact fin _ rfl rfl hcfgX hfdX
          | true =>
            simp only [if_true]
            have g := de_get_put_self s (config_link_insert
              (de_put (config_link_remove s cfg id) { de with de_config := some d }) d id)
              id de _ rfl hde hD
            have hsave : dvr_entry_save (config_link_insert
                (de_put (config_link_remove s cfg id) { de with de_config := some d }) d id) id =
                some (hts_settings_save (config_link_insert
                  (de_put (config_link_remove s cfg id) { de with de_config := some d }) d id)
                  de.de_id { de with de_config := some d }) := by
              unfold dvr_entry_save
              rw [g]
            rw [hsave]
            simp only
            exact fin _ rfl rfl hcfgX hfdX

/-- The function `dvr_entry_destroy_by_config` on a configuration whose entries are
allocated returns, unless `delconf` is set and the configuration is the one
the default lookup returns: its list is empty afterwards, the global list is
as before, and every entry of the list points to the default configuration
(with `delconf`) or to none (without). -/
theorem destroy_by_config_returns (s : dvr_db_t) (cfg : Nat) (delconf : Bool)
    (k : dvr_config_t) (hc : cfg_get s cfg = some k)
    (hall : ∀ i ∈ k.dvr_entries, (de_get s i).isSome = true)
    (hne : delconf = true → dvr_config_find_by_name_default s none ≠ some cfg) :
    ∃ s', dvr_entry_destroy_by_config k.dvr_entries.length s cfg delconf =
        dvr_run.returned s' ∧
      (cfg_get s' cfg).map (fun c => c.dvr_entries) = some [] ∧
      s'.dvrentries = s.dvrentries ∧
      (∀ i ∈ k.dvr_entries, (de_get s' i).map (fun de => de.de_config) =
        some (if delconf = true then dvr_config_find_by_name_default s none else none)) ∧
      (∀ j, j ∉ k.dvr_entries → de_get s' j = de_get s j) := by
  unfold dvr_entry_destroy_by_config
  refine destroy_by_config_terminates k.dvr_entries.length s cfg delconf none _ k hc
    (le_refl _) hall ?_ ?_
  · cases delconf <;> simp
  · cases delconf with
    | false => simp
    | true => simpa using hne rfl

/-- Looking a channel up after the lists of the channels were rewritten. -/
theorem ch_get_map (s t : dvr_db_t) (f : channel_t → channel_t) (ch : Nat)
    (hc : t.channels = s.channels.map f) (hf : ∀ x, (f x).ch_id = x.ch_id) :
    ch_get t ch = (ch_get s ch).map f := by
  unfold ch_get
  rw [hc]
  have : ∀ l : List channel_t, (l.map f).find? (fun c => c.ch_id == ch) =
      (l.find? (fun c => c.ch_id == ch)).map f := by
    intro l
    induction l with
    | nil => rfl
    | cons x xs ih =>
      rw [List.map_cons, List.find?_cons, List.find?_cons, hf x]
      cases hx : (x.ch_id == ch)
      · simp only
        exact ih
      · rfl
  exact this s.channels

/-- A call of `dvr_stop_recording` on an allocated entry whose retention is
defined returns. -/
theorem stop_recording_returns (s : dvr_db_t) (id : Nat) (de : dvr_entry_t) (code : sm_code)
    (saveconf : Bool) (r : Int) (hde : de_get s id = some de)
    (hr : dvr_entry_get_retention s de = some r) :
    ∃ s', dvr_stop_recording s id code saveconf = some s' := by
  unfold dvr_stop_recording
  rw [hde]
  simp only
  by_cases hm : de.de_rec_state = DVR_RS_PENDING ∨
      de.de_rec_state = DVR_RS_WAIT_PROGRAM_START ∨ de.de_filename = none
  · simp only [if_pos hm]
    have hr2 : dvr_entry_get_retention s { de with de_sched_state := DVR_MISSED_TIME } =
        some r := hr
    cases saveconf
    · simp only [Bool.false_eq_true, if_false, get_retention_emit, get_retention_de_put, hr2]
      exact ⟨_, rfl⟩
    · simp only [if_true, get_retention_emit, get_retention_de_put,
        get_retention_settings_save, hr2]
      exact ⟨_, rfl⟩
  · simp only [if_neg hm]
    have hr2 : dvr_entry_get_retention s (_dvr_entry_completed de) = some r := hr
    cases saveconf
    · simp only [Bool.false_eq_true, if_false, get_retention_emit, get_retention_de_put, hr2]
      exact ⟨_, rfl⟩
    · simp only [if_true, get_retention_emit, get_retention_de_put,
        get_retention_settings_save, hr2]
      exact ⟨_, rfl⟩

/-- The retention reads the table of the configurations only. -/
theorem get_retention_congr (s t : dvr_db_t) (de : dvr_entry_t) (hcf : t.configs = s.configs) :
    dvr_entry_get_retention t de = dvr_entry_get_retention s de := by
  unfold dvr_entry_get_retention cfg_get
  rw [hcf]

/-- On a channel whose entries are allocated, and have a retention where they
are being recorded, `dvr_destroy_by_channel` ends: with as many iterations
allowed as the list is long the run returns, the list of the channel is empty,
the global list is as before, every entry of the list has lost its channel,
keeps the name of the channel and is not being recorded, and no other entry
has changed. -/
theorem destroy_by_channel_terminates (n : Nat) :
    ∀ (s : dvr_db_t) (ch : Nat) (delconf : Bool) (c : channel_t),
      ch_get s ch = some c → c.ch_dvrs.length ≤ n →
      (∀ i ∈ c.ch_dvrs, ∃ de, de_get s i = some de ∧
        (de.de_sched_state = DVR_RECORDING →
          (dvr_entry_get_retention s de).isSome = true)) →
      ∃ s', dvr_destroy_by_channel n s ch delconf = dvr_run.returned s' ∧
        (ch_get s' ch).map (fun x => x.ch_dvrs) = some [] ∧
        s'.dvrentries = s.dvrentries ∧
        (∀ i ∈ c.ch_dvrs, ∃ de', de_get s' i = some de' ∧ de'.de_channel = none ∧
          de'.de_channel_name = some c.ch_name ∧ de'.de_sched_state ≠ DVR_RECORDING) ∧
        (∀ j, j ∉ c.ch_dvrs → de_get s' j = de_get s j) := by
  induction n with
  | zero =>
    intro s ch delconf c hc hlen _
    have hl : c.ch_dvrs = [] := List.length_eq_zero.mp (Nat.le_zero.mp hlen)
    refine ⟨s, ?_, ?_, rfl, ?_, fun _ _ => rfl⟩
    · unfold dvr_destroy_by_channel
      rw [hc]
      simp only
      rw [hl]
    · rw [hc, Option.map_some', hl]
    · intro i hi
      rw [hl] at hi
      cases hi
  | succ n ih =>
    intro s ch delconf c hc hlen hall
    cases hl : c.ch_dvrs with
    | nil =>
      refine ⟨s, ?_, ?_, rfl, ?_, fun _ _ => rfl⟩
      · unfold dvr_destroy_by_channel
        rw [hc]
        simp only
        rw [hl]
      · rw [hc, Option.map_some', hl]
      · intro i hi
        cases hi
    | cons id rest =>
      have hcid : c.ch_id = ch := (ch_get_mem s ch c hc).2
      have hidm : id ∈ c.ch_dvrs := by rw [hl]; exact List.mem_cons_self _ _
      obtain ⟨de, hde, hret⟩ := hall id hidm
      have hid := de_get_id s id de hde
      have hflt : (id :: rest).filter (fun i => i != id) = rest.filter (fun i => i != id) := by
        simp
      have hrem : ∀ x : channel_t,
          ((fun (x : channel_t) => if x.ch_id = ch then
            { x with ch_dvrs := x.ch_dvrs.filter (fun i => i != id) } else x) x).ch_id =
            x.ch_id := by
        intro x
        dsimp only
        split <;> rfl
      have fin : ∀ (S1 : dvr_db_t) (D : dvr_entry_t),
          S1.entries = (de_put s D).entries → D.de_id = id → D.de_channel = none →
          D.de_channel_name = some c.ch_name → D.de_sched_state ≠ DVR_RECORDING →
          S1.dvrentries = s.dvrentries → S1.configs = s.configs →
          ch_get S1 ch = some { c with ch_dvrs := rest.filter (fun i => i != id) } →
          ∃ s', dvr_destroy_by_channel n S1 ch delconf = dvr_run.returned s' ∧
            (ch_get s' ch).map (fun x => x.ch_dvrs) = some [] ∧
            s'.dvrentries = s.dvrentries ∧
            (∀ i ∈ id :: rest, ∃ de', de_get s' i = some de' ∧ de'.de_channel = none ∧
              de'.de_channel_name = some c.ch_name ∧ de'.de_sched_state ≠ DVR_RECORDING) ∧
            (∀ j, j ∉ id :: rest → de_get s' j = de_get s j) := by
        intro S1 D he hDid hDc hDn hDs hdv hcf hc1
        have hlen1 : (rest.filter (fun i => i != id)).length ≤ n := by
          have h1 := List.length_filter_le (fun i => i != id) rest
          rw [hl] at hlen
          simp only [List.length_cons] at hlen
          omega
        have hall1 : ∀ i ∈ rest.filter (fun i => i != id), ∃ de, de_get S1 i = some de ∧
            (de.de_sched_state = DVR_RECORDING →
              (dvr_entry_get_retention S1 de).isSome = true) := by
          intro i hi
          have hi2 := List.mem_filter.mp hi
          have hne : i ≠ id := by simpa using hi2.2
          obtain ⟨d, hd, hdr⟩ := hall i (by rw [hl]; exact List.mem_cons_of_mem _ hi2.1)
          refine ⟨d, ?_, ?_⟩
          · rw [de_get_put_other s S1 id D he hDid i hne]
            exact hd
          · intro h2
            rw [get_retention_congr s S1 d hcf]
            exact hdr h2
        obtain ⟨s', h1, h2, h3, h4, h5⟩ :=
          ih S1 ch delconf { c with ch_dvrs := rest.filter (fun i => i != id) } hc1 hlen1 hall1
        have hnid : id ∉ rest.filter (fun i => i != id) := by
          intro hm
          have := (List.mem_filter.mp hm).2
          simp at this
        refine ⟨s', h1, h2, h3.trans hdv, ?_, ?_⟩
        · intro i hi
          by_cases hii : i = id
          · rw [hii, h5 id hnid, de_get_put_self s S1 id de D he hde hDid]
            exact ⟨D, rfl, hDc, hDn, hDs⟩
          · have hi2 : i ∈ rest := by
              rcases List.mem_cons.mp hi with h | h
              · exact absurd h hii
              · exact h
            exact h4 i (List.mem_filter.mpr ⟨hi2, by simpa using hii⟩)
        · intro j hj
          have hj1 : j ≠ id := fun h => hj (by rw [h]; exact List.mem_cons_self _ _)
          have hj2 : j ∉ rest.filter (fun i => i != id) :=
            fun h => hj (List.mem_cons_of_mem _ (List.mem_filter.mp h).1)
          rw [h5 j hj2]
          exact de_get_put_other s S1 id D he hDid j hj1
      have hD : ({ de with de_channel := none,
                           de_channel_name := some c.ch_name } : dvr_entry_t).de_id = id := hid
      have g := de_get_put_self s (de_put (channel_link_remove s ch id)
        { de with de_channel := none, de_channel_name := some c.ch_name }) id de _ rfl hde hD
      have hchX : ch_get (de_put (channel_link_remove s ch id)
          { de with de_channel := none, de_channel_name := some c.ch_name }) ch =
          some { c with ch_dvrs := rest.filter (fun i => i != id) } := by
        rw [ch_get_map s _ _ ch rfl hrem, hc]
        simp only [Option.map_some', hcid, if_true, hl, hflt]
      unfold dvr_destroy_by_channel
      rw [hc]
      simp only
      rw [hl]
      simp only
      rw [hde]
      simp only
      by_cases hrec : de.de_sched_state = DVR_RECORDING
      · obtain ⟨r, hr⟩ := Option.isSome_iff_exists.mp (hret hrec)
        obtain ⟨s1, hs1⟩ := stop_recording_returns (de_put (channel_link_remove s ch id)
          { de with de_channel := none, de_channel_name := some c.ch_name }) id _
          sm_code.SM_CODE_SOURCE_DELETED delconf r g hr
        have hp : dvr_entry_purge (de_put (channel_link_remove s ch id)
            { de with de_channel := none, de_channel_name := some c.ch_name }) id delconf =
            some s1 := by
          unfold dvr_entry_purge
          rw [g]
          simp only
          rw [if_pos hrec]
          exact hs1
        rw [hp]
        simp only
        obtain ⟨d0, r0, hd0, _, he, hch1, hcf1, hdv1⟩ := stop_recording_cases _ id _ _ s1 hs1
        rw [g] at hd0
        have hdd := Option.some.inj hd0
        subst hdd
        refine fin s1 _ (he.trans (entries_put_put s.entries _ _ rfl)) hid rfl rfl ?_ hdv1 hcf1
          ?_
        · intro h2
          have h3 : (if de.de_rec_state = DVR_RS_PENDING ∨
              de.de_rec_state = DVR_RS_WAIT_PROGRAM_START ∨ de.de_filename = none
              then DVR_MISSED_TIME else DVR_COMPLETED) = DVR_RECORDING := h2
          split at h3 <;> cases h3
        · unfold ch_get
          rw [hch1]
          exact hchX
      · have hp : dvr_entry_purge (de_put (channel_link_remove s ch id)
            { de with de_channel := none, de_channel_name := some c.ch_name }) id delconf =
            some (de_put (channel_link_remove s ch id)
              { de with de_channel := none, de_channel_name := some c.ch_name }) := by
          unfold dvr_entry_purge
          rw [g]
          simp only
          rw [if_neg hrec]
        rw [hp]
        simp only
        exact fin _ _ rfl hid rfl rfl hrec rfl rfl hchX

end DvrDb
